import Mathlib

/-! GDI+ regions (`dlls/gdiplus/region.c`): tree model and binary encoding.

A shallow embedding of the region code of `dlls/gdiplus/region.c`.

* A `region_element` is the C tagged union seen as a tree: the code never
  shares a node between two parents (a combine moves the old root into a fresh
  node and deep-copies the operand), so a tree value stands for the node and
  everything it owns.
* Region objects live in a `Heap`: a `GpRegion*` is an address into it, which
  keeps aliasing between two region arguments observable.
* Allocation can fail: the heap carries the outcomes of the forthcoming
  `GdipAlloc` calls.
* A call that dereferences a null or dangling pointer has no result (`none`).
* `DWORD`, `INT` and `UINT` quantities are natural numbers. Sizes are not
  reduced modulo `2^32`: a region whose serialized form reaches 4 GiB is outside
  the model. A `REAL` is the 32-bit pattern of an IEEE single.
* The output buffer is byte-addressed caller memory; words are stored
  little-endian.
* For the copy of a tree the nodes written are also laid out in memory, with
  child pointers that can be null (section "Region objects in memory").
-/

namespace Gdiplus

/-! ## Basic types -/

abbrev DWORD := Nat
abbrev BYTE := Nat
abbrev REAL := Nat

/-- Status codes of gdiplustypes.h that region.c returns. -/
inductive GpStatus where
  | Ok
  | InvalidParameter
  | OutOfMemory
  | NotImplemented
deriving DecidableEq, Repr

/-- The six combine modes (enum CombineMode of gdiplusenums.h). -/
inductive CombineMode where
  | CombineModeReplace
  | CombineModeIntersect
  | CombineModeUnion
  | CombineModeXor
  | CombineModeExclude
  | CombineModeComplement
deriving DecidableEq, Repr

/-- Numeric value of a combine mode. The enum is declared in gdiplusenums.h,
which is not part of the sources at hand; the values are those of the GDI+
enumeration, in declaration order. -/
def CombineMode.toDWORD : CombineMode → DWORD
  | .CombineModeReplace => 0
  | .CombineModeIntersect => 1
  | .CombineModeUnion => 2
  | .CombineModeXor => 3
  | .CombineModeExclude => 4
  | .CombineModeComplement => 5

/-- The leaf kinds (enum RegionType of gdiplus_private.h). -/
inductive RegionType where
  | RegionDataRect
  | RegionDataPath
  | RegionDataEmptyRect
  | RegionDataInfiniteRect
deriving DecidableEq, Repr

/-- Numeric value of a leaf kind, as given by the format comment of region.c
(0x10000000 rect, 0x10000001 path, 0x10000002 empty, 0x10000003 infinite). -/
def RegionType.toDWORD : RegionType → DWORD
  | .RegionDataRect => 0x10000000
  | .RegionDataPath => 0x10000001
  | .RegionDataEmptyRect => 0x10000002
  | .RegionDataInfiniteRect => 0x10000003

/-- The format-version constant. It is defined in gdiplus_private.h; the value
is the one the format comment of region.c reports. -/
def VERSION_MAGIC : DWORD := 0xdbc01001

def FLAGS_NOFLAGS : DWORD := 0x0
def FLAGS_INTPATH : DWORD := 0x4000

def sizeof_DWORD : Nat := 4
def sizeof_GpRect : Nat := 16

/-- Header size as far as header.size is concerned: it does not include
header.size or header.checksum. -/
def sizeheader_size : Nat := sizeof_DWORD * 2

structure GpPointF where
  X : REAL
  Y : REAL
deriving DecidableEq, Repr

structure GpPoint where
  X : Int
  Y : Int
deriving DecidableEq, Repr

structure GpRectF where
  X : REAL
  Y : REAL
  Width : REAL
  Height : REAL
deriving DecidableEq, Repr

structure GpRect where
  X : Int
  Y : Int
  Width : Int
  Height : Int
deriving DecidableEq, Repr

/-- The part of a GpPath that region.c reads: pathdata, as the list of its
points with the type byte of each, so that pathdata.Count is the length of both
pathdata.Points and pathdata.Types. -/
structure GpPath where
  pathdata : List (GpPointF × BYTE)
deriving DecidableEq, Repr

def GpPath.Count (path : GpPath) : Nat := path.pathdata.length

def GpPath.Points (path : GpPath) : List GpPointF := path.pathdata.map Prod.fst

def GpPath.Types (path : GpPath) : List BYTE := path.pathdata.map Prod.snd

structure region_header where
  size : DWORD
  checksum : DWORD
  magic : DWORD
  num_children : DWORD
deriving DecidableEq, Repr

structure path_header where
  size : DWORD
  magic : DWORD
  count : DWORD
  flags : DWORD
deriving DecidableEq, Repr

/-- A region node with everything it owns. The five cases are the cases of
the switch on element->type: the four leaf kinds, and any other type, which is
a combine mode with two children. -/
inductive region_element where
  | rect (rect : GpRectF)
  | path (pathheader : path_header) (path : GpPath)
  | empty
  | infinite
  | combine (mode : CombineMode) (left right : region_element)
deriving DecidableEq, Repr

/-- The type field of a node. -/
def region_element.type : region_element → DWORD
  | .rect _ => RegionType.RegionDataRect.toDWORD
  | .path _ _ => RegionType.RegionDataPath.toDWORD
  | .empty => RegionType.RegionDataEmptyRect.toDWORD
  | .infinite => RegionType.RegionDataInfiniteRect.toDWORD
  | .combine mode _ _ => mode.toDWORD

structure GpRegion where
  header : region_header
  node : region_element
deriving DecidableEq, Repr

/-- Region objects by address (`none`: no valid region object is stored there,
because it was freed or never completed), and the outcomes of the forthcoming
allocations (`true`: succeeds); once the list is used up every allocation
succeeds. -/
structure Heap where
  regions : List (Option GpRegion)
  allocs : List Bool
deriving DecidableEq, Repr

/-- The region object a pointer refers to, if any. -/
def Heap.deref (h : Heap) (p : Nat) : Option GpRegion := (h.regions.get? p).join

/-- Assignment through a region pointer. -/
def Heap.store (h : Heap) (p : Nat) (r : GpRegion) : Heap :=
  { h with regions := h.regions.set p (some r) }

/-- Outcome of one GdipAlloc call and the outcomes left. -/
def GdipAlloc (allocs : List Bool) : Bool × List Bool :=
  match allocs with
  | [] => (true, [])
  | ok :: rest => (ok, rest)

/-- GdipAlloc(sizeof(GpRegion)): on success a new address, whose cell does not
hold a valid region yet. -/
def Heap.alloc_region (h : Heap) : Option Nat × Heap :=
  match GdipAlloc h.allocs with
  | (true, rest) => (some h.regions.length, { regions := h.regions ++ [none], allocs := rest })
  | (false, rest) => (none, { h with allocs := rest })

/-- GdipFree of a region object. -/
def Heap.free (h : Heap) (p : Nat) : Heap :=
  { h with regions := h.regions.set p none }

/-! ## Services defined outside region.c -/

/-- The floating-point conversions of C that region.c applies to REAL
values. They are parameters of the model. -/
structure RealOps where
  /-- The conversion `(REAL)n` of an INT. -/
  of_int : Int → REAL
  /-- The REAL to INT conversion applied by GdipGetPathPointsI. -/
  to_int : REAL → Int
  /-- The conversion of a REAL assigned to a `short`, before it is cut to 16 bits. -/
  to_short : REAL → Int
  /-- The comparison `x == y` of two REALs. -/
  eq : REAL → REAL → Bool

/-- Modelled from the spec: GdipClonePath is defined in graphicspath.c, which is
not among the sources. It makes an owned copy of the path geometry and fails
with OutOfMemory when its allocation fails. -/
def GdipClonePath (allocs : List Bool) (path : GpPath) : GpStatus × Option GpPath × List Bool :=
  match GdipAlloc allocs with
  | (true, rest) => (GpStatus.Ok, some path, rest)
  | (false, rest) => (GpStatus.OutOfMemory, none, rest)

/-- Modelled from the spec: GdipGetPathPointsI is defined in graphicspath.c,
which is not among the sources. It is part of the query surface of the path
geometry: it gives the points of the path with both coordinates converted to
INT, and needs scratch memory to do so. -/
def GdipGetPathPointsI (ops : RealOps) (allocs : List Bool) (path : GpPath) :
    GpStatus × List GpPoint × List Bool :=
  match GdipAlloc allocs with
  | (true, rest) => (GpStatus.Ok, path.Points.map (fun pt => ⟨ops.to_int pt.X, ops.to_int pt.Y⟩), rest)
  | (false, rest) => (GpStatus.OutOfMemory, [], rest)

/-- Modelled from the spec: GdipGetPathPoints is defined in graphicspath.c,
which is not among the sources. It is part of the query surface of the path
geometry: it gives the points of the path. -/
def GdipGetPathPoints (path : GpPath) : GpStatus × List GpPointF :=
  (GpStatus.Ok, path.Points)

/-! ## Sizes -/

/-- Everything is measured in DWORDS; round up if there is a remainder. -/
def get_pathtypes_size (path : GpPath) : Nat :=
  let needed := path.Count / sizeof_DWORD
  let needed := if path.Count % sizeof_DWORD > 0 then needed + 1 else needed
  needed * sizeof_DWORD

def get_element_size : region_element → Nat
  | .rect _ => sizeof_DWORD + sizeof_GpRect
  | .path pathheader _ => sizeof_DWORD + pathheader.size + sizeof_DWORD
  | .empty => sizeof_DWORD
  | .infinite => sizeof_DWORD
  | .combine _ left right => sizeof_DWORD + get_element_size left + get_element_size right

/-! ## Construction, clone and combine -/

/-- The node of a region object right after init_region has set its type: the
payload of a rect or path node is that of the freshly allocated object, until
the caller assigns it. -/
def region_element.of_type : RegionType → region_element
  | .RegionDataRect => .rect ⟨0, 0, 0, 0⟩
  | .RegionDataPath => .path ⟨0, 0, 0, 0⟩ ⟨[]⟩
  | .RegionDataEmptyRect => .empty
  | .RegionDataInfiniteRect => .infinite

/-- Does not check parameters, caller must do that. Every header field and the
node type are assigned, so the result does not depend on what the region object
held before. -/
def init_region (type : RegionType) : GpStatus × GpRegion :=
  let node := region_element.of_type type
  (GpStatus.Ok,
    { node := node,
      header :=
        { checksum := 0xdeadbeef,
          magic := VERSION_MAGIC,
          num_children := 0,
          size := sizeheader_size + get_element_size node } })

/-- Deep copy of a node. `element2` tells whether `*element2` is already
allocated (the root node is allocated with its GpRegion). The second component
is the node `*element2` points to on return: on the failure path (label
`clone_out`) what was built is handed to delete_element and `*element2` is set
to NULL. -/
def clone_element (allocs : List Bool) (element : region_element) (element2 : Bool) :
    GpStatus × Option region_element × List Bool :=
  match (if element2 then (true, allocs) else GdipAlloc allocs) with
  | (false, allocs1) => (GpStatus.OutOfMemory, none, allocs1)
  | (true, allocs1) =>
    match element with
    | .rect rect => (GpStatus.Ok, some (.rect rect), allocs1)
    | .empty => (GpStatus.Ok, some .empty, allocs1)
    | .infinite => (GpStatus.Ok, some .infinite, allocs1)
    | .path pathheader path =>
      match GdipClonePath allocs1 path with
      | (stat, path2, allocs2) =>
        if stat ≠ GpStatus.Ok then (stat, none, allocs2)
        else (GpStatus.Ok, path2.map (region_element.path pathheader), allocs2)
    | .combine mode left right =>
      match clone_element allocs1 left false with
      | (stat, left2, allocs2) =>
        if stat ≠ GpStatus.Ok then (stat, none, allocs2)
        else
          match clone_element allocs2 right false with
          | (stat, right2, allocs3) =>
            if stat ≠ GpStatus.Ok then (stat, none, allocs3)
            else
              (GpStatus.Ok,
                left2.bind (fun l => right2.map (fun r => region_element.combine mode l r)),
                allocs3)

/-- Common code for CombineRegion*: installs the combine node and recomputes
the header. -/
def fuse_region (region : GpRegion) (left right : region_element) (mode : CombineMode) :
    GpRegion :=
  let node := region_element.combine mode left right
  { node := node,
    header :=
      { region.header with
        size := sizeheader_size + get_element_size node,
        num_children := region.header.num_children + 2 } }

/-- Modelled from the spec: delete_element is defined in gdiplus.c, which is not
among the sources. It releases the nodes that the given node owns (the spec:
"release the current tree", "release any nodes already allocated in this call");
for a null pointer there is nothing to release. The memory of nodes is not part
of the heap of the model, so no region object changes. -/
def delete_element (h : Heap) (_element : Option region_element) : Heap := h

/-- GdipDeleteRegion: releases the tree and the region object. -/
def GdipDeleteRegion (h : Heap) (region : Option Nat) : Option (GpStatus × Heap) :=
  match region with
  | none => some (GpStatus.InvalidParameter, h)
  | some p =>
    match h.deref p with
    | none => none
    | some r => some (GpStatus.Ok, (delete_element h (some r.node)).free p)

/-- GdipCloneRegion: creates a deep copy of the region. `clone` tells whether
the output pointer is non-null; the second component of the result is the
address written to `*clone`. -/
def GdipCloneRegion (h : Heap) (region : Option Nat) (clone : Bool) :
    Option (GpStatus × Option Nat × Heap) :=
  match region, clone with
  | some p, true =>
    match h.alloc_region with
    | (none, h1) => some (GpStatus.OutOfMemory, none, h1)
    | (some q, h1) =>
      match h1.deref p with
      | none => none
      | some r =>
        match clone_element h1.allocs r.node true with
        | (stat, some node, rest) =>
          some (stat, some q,
            Heap.store { h1 with allocs := rest } q { header := r.header, node := node })
        | (stat, none, rest) => some (stat, some q, { h1 with allocs := rest })
  | _, _ => some (GpStatus.InvalidParameter, none, h)

/-- GdipCreateRegion: a new infinite region. -/
def GdipCreateRegion (h : Heap) (region : Bool) : Option (GpStatus × Option Nat × Heap) :=
  match region with
  | false => some (GpStatus.InvalidParameter, none, h)
  | true =>
    match h.alloc_region with
    | (none, h1) => some (GpStatus.OutOfMemory, none, h1)
    | (some p, h1) =>
      match init_region RegionType.RegionDataInfiniteRect with
      | (stat, r) => some (stat, some p, h1.store p r)

/-- The loop of GdipCreateRegionPath over the points: false as soon as a point
differs from its integer version. -/
def int_points_match (ops : RealOps) : List GpPoint → List GpPointF → Bool
  | pointi :: pointsi, pointf :: pointsf =>
    if !(ops.eq (ops.of_int pointi.X) pointf.X && ops.eq (ops.of_int pointi.Y) pointf.Y) then false
    else int_points_match ops pointsi pointsf
  | _, _ => true

/-- The test of GdipCreateRegionPath to see if the path is an integer path:
status, flags and the allocation outcomes left. -/
def integer_path_test (ops : RealOps) (allocs : List Bool) (path : GpPath) (count : Nat) :
    GpStatus × DWORD × List Bool :=
  if count = 0 then (GpStatus.Ok, FLAGS_INTPATH, allocs)
  else
    match GdipAlloc allocs with
    | (pointsi_ok, rest1) =>
      match GdipAlloc rest1 with
      | (pointsf_ok, rest2) =>
        if !(pointsi_ok && pointsf_ok) then (GpStatus.OutOfMemory, FLAGS_INTPATH, rest2)
        else
          match GdipGetPathPointsI ops rest2 path with
          | (stat, pointsi, rest3) =>
            if stat ≠ GpStatus.Ok then (stat, FLAGS_INTPATH, rest3)
            else
              match GdipGetPathPoints path with
              | (stat, pointsf) =>
                if stat ≠ GpStatus.Ok then (stat, FLAGS_INTPATH, rest3)
                else
                  (GpStatus.Ok,
                    if int_points_match ops pointsi pointsf then FLAGS_INTPATH else FLAGS_NOFLAGS,
                    rest3)

/-- GdipCreateRegionPath: creates a GpRegion from a GpPath. -/
def GdipCreateRegionPath (ops : RealOps) (h : Heap) (path : Option GpPath) (region : Bool) :
    Option (GpStatus × Option Nat × Heap) :=
  match path, region with
  | some path, true =>
    match h.alloc_region with
    | (none, h1) => some (GpStatus.OutOfMemory, none, h1)
    | (some p, h1) =>
      match init_region RegionType.RegionDataPath with
      | (stat0, r0) =>
        -- on every failure below: GdipDeleteRegion(*region), which frees the object
        if stat0 ≠ GpStatus.Ok then some (stat0, some p, (h1.store p r0).free p)
        else
          let h2 := h1.store p r0
          let count := path.Count
          match integer_path_test ops h2.allocs path count with
          | (stat1, flags, rest1) =>
            if stat1 ≠ GpStatus.Ok then some (stat1, some p, Heap.free { h2 with allocs := rest1 } p)
            else
              match GdipClonePath rest1 path with
              | (stat2, path2, rest2) =>
                if stat2 ≠ GpStatus.Ok then
                  some (stat2, some p, Heap.free { h2 with allocs := rest2 } p)
                else
                  match path2 with
                  | none => none
                  | some path2 =>
                    -- 3 for headers, once again size doesn't count itself
                    let size := sizeof_DWORD * 3
                    let size :=
                      if flags = FLAGS_NOFLAGS then size + sizeof_DWORD * count * 2
                      else if flags = FLAGS_INTPATH then size + sizeof_DWORD * count
                      else size
                    let size := size + get_pathtypes_size path
                    let element := region_element.path
                      { size := size, magic := VERSION_MAGIC, count := count, flags := flags } path2
                    some (GpStatus.Ok, some p,
                      Heap.store { h2 with allocs := rest2 } p
                        { header := { r0.header with
                            size := sizeheader_size + get_element_size element },
                          node := element })
  | _, _ => some (GpStatus.InvalidParameter, none, h)

/-- GdipCreateRegionRect. The result of GdipAlloc is not checked: when the
allocation fails init_region writes through a null pointer. -/
def GdipCreateRegionRect (h : Heap) (rect : Option GpRectF) (region : Bool) :
    Option (GpStatus × Option Nat × Heap) :=
  match rect, region with
  | some rect, true =>
    match h.alloc_region with
    | (none, _) => none
    | (some p, h1) =>
      match init_region RegionType.RegionDataRect with
      | (stat, r) =>
        -- GdipDeleteRegion(*region) frees the object
        if stat ≠ GpStatus.Ok then some (stat, some p, (h1.store p r).free p)
        else
          some (GpStatus.Ok, some p,
            h1.store p { r with node := .rect ⟨rect.X, rect.Y, rect.Width, rect.Height⟩ })
  | _, _ => some (GpStatus.InvalidParameter, none, h)

/-- The exit shared by the failure paths of GdipCombineRegionPath and
GdipCombineRegionRect (label `out`): `left` is freed, `right` and the temporary
region are deleted and the current status is returned. -/
def combine_out (h : Heap) (right : Option region_element) (temp_region : Option Nat)
    (stat : GpStatus) : Option (GpStatus × Heap) :=
  match GdipDeleteRegion (delete_element h right) temp_region with
  | none => none
  | some (_, h1) => some (stat, h1)

/-- The part of GdipCombineRegionPath and GdipCombineRegionRect that follows
the creation of the temporary region, which is the same in both. -/
def combine_with_temp (h : Heap) (p : Nat) (temp_region : Option Nat) (stat : GpStatus)
    (mode : CombineMode) : Option (GpStatus × Heap) :=
  match GdipAlloc h.allocs with
  | (false, rest) => combine_out { h with allocs := rest } none temp_region stat
  | (true, rest) =>
    match h.deref p, temp_region.bind h.deref with
    | some r, some temp =>
      let left := r.node
      match clone_element rest temp.node false with
      | (stat2, right, rest2) =>
        if stat2 ≠ GpStatus.Ok then
          combine_out { h with allocs := rest2 } right temp_region stat2
        else
          match right with
          | none => none
          | some right =>
            match GdipDeleteRegion (Heap.store { h with allocs := rest2 } p
                (fuse_region r left right mode)) temp_region with
            | none => none
            | some (_, h1) => some (GpStatus.Ok, h1)
    | _, _ => none

def GdipCombineRegionPath (ops : RealOps) (h : Heap) (region : Option Nat)
    (path : Option GpPath) (mode : CombineMode) : Option (GpStatus × Heap) :=
  match region, path with
  | some p, some path =>
    match GdipCreateRegionPath ops h (some path) true with
    | none => none
    | some (stat, path_region, h1) =>
      if stat ≠ GpStatus.Ok then some (stat, h1)
      else combine_with_temp h1 p path_region stat mode
  | _, _ => some (GpStatus.InvalidParameter, h)

def GdipCombineRegionRect (h : Heap) (region : Option Nat) (rect : Option GpRectF)
    (mode : CombineMode) : Option (GpStatus × Heap) :=
  match region, rect with
  | some p, some rect =>
    match GdipCreateRegionRect h (some rect) true with
    | none => none
    | some (stat, rect_region, h1) =>
      if stat ≠ GpStatus.Ok then some (stat, h1)
      else combine_with_temp h1 p rect_region stat mode
  | _, _ => some (GpStatus.InvalidParameter, h)

def GdipCombineRegionRegion (h : Heap) (region1 region2 : Option Nat) (mode : CombineMode) :
    Option (GpStatus × Heap) :=
  match region1, region2 with
  | some p1, some p2 =>
    match GdipAlloc h.allocs with
    | (false, rest) => some (GpStatus.OutOfMemory, { h with allocs := rest })
    | (true, rest) =>
      match h.deref p1, h.deref p2 with
      | some r1, some r2 =>
        let left := r1.node
        match clone_element rest r2.node false with
        | (stat, right, rest2) =>
          if stat ≠ GpStatus.Ok then
            some (GpStatus.OutOfMemory, delete_element { h with allocs := rest2 } right)
          else
            match right with
            | none => none
            | some right =>
              let h1 := Heap.store { h with allocs := rest2 } p1 (fuse_region r1 left right mode)
              -- region1->header.num_children += region2->header.num_children, read
              -- through the two pointers after fuse_region has written region1
              match h1.deref p1, h1.deref p2 with
              | some r1a, some r2a =>
                some (GpStatus.Ok,
                  h1.store p1 { r1a with header := { r1a.header with
                    num_children := r1a.header.num_children + r2a.header.num_children } })
              | _, _ => none
      | _, _ => none
  | _, _ => some (GpStatus.InvalidParameter, h)

/-- GdipGetRegionDataSize: the second component is the value written to
`*needed`. -/
def GdipGetRegionDataSize (h : Heap) (region : Option Nat) (needed : Bool) :
    Option (GpStatus × Option Nat) :=
  match region, needed with
  | some p, true =>
    match h.deref p with
    | none => none
    | some r =>
      -- header.size doesn't count header.size and header.checksum
      some (GpStatus.Ok, some (r.header.size + sizeof_DWORD * 2))
  | _, _ => some (GpStatus.InvalidParameter, none)

/-- GdipIsInfiniteRegion: the second component is the value written to `*res`. -/
def GdipIsInfiniteRegion (h : Heap) (region : Option Nat) (graphics : Bool) (res : Bool) :
    Option (GpStatus × Option Bool) :=
  match region, graphics, res with
  | some p, true, true =>
    match h.deref p with
    | none => none
    | some r =>
      some (GpStatus.Ok, some (decide (r.node.type = RegionType.RegionDataInfiniteRect.toDWORD)))
  | _, _, _ => some (GpStatus.InvalidParameter, none)

def GdipSetEmpty (h : Heap) (region : Option Nat) : Option (GpStatus × Heap) :=
  match region with
  | none => some (GpStatus.InvalidParameter, h)
  | some p =>
    match h.deref p with
    | none => none
    | some r0 =>
      match init_region RegionType.RegionDataEmptyRect with
      | (stat, r) => some (stat, (delete_element h (some r0.node)).store p r)

def GdipSetInfinite (h : Heap) (region : Option Nat) : Option (GpStatus × Heap) :=
  match region with
  | none => some (GpStatus.InvalidParameter, h)
  | some p =>
    match h.deref p with
    | none => none
    | some r0 =>
      match init_region RegionType.RegionDataInfiniteRect with
      | (stat, r) => some (stat, (delete_element h (some r0.node)).store p r)

/-! ## Serialization -/

/-- Caller memory, byte by byte. -/
abbrev Buffer := Nat → BYTE

/-- The bytes `src` copied to address `dest`. -/
def memcpy (location : Buffer) (dest : Nat) (src : List BYTE) : Buffer :=
  fun addr => if dest ≤ addr ∧ addr < dest + src.length then src.getD (addr - dest) 0
    else location addr

/-- ZeroMemory: `length` zero bytes from address `dest` on. -/
def ZeroMemory (location : Buffer) (dest : Nat) (length : Nat) : Buffer :=
  fun addr => if dest ≤ addr ∧ addr < dest + length then 0 else location addr

/-- The `length` bytes found from address `start` on. -/
def Buffer.read (location : Buffer) (start length : Nat) : List BYTE :=
  (List.range length).map (fun i => location (start + i))

/-- The four bytes of a 32-bit word in memory, least significant first. -/
def dword_bytes (w : DWORD) : List BYTE :=
  [w % 256, w / 256 % 256, w / 65536 % 256, w / 16777216 % 256]

/-- The two bytes of a `short` in memory: the value is cut to 16 bits. -/
def short_bytes (v : Int) : List BYTE :=
  [(v % 65536).toNat % 256, (v % 65536).toNat / 256 % 256]

def write_dword (location : Buffer) (offset : Nat) (write : DWORD) : Buffer × Nat :=
  (memcpy location (offset * sizeof_DWORD) (dword_bytes write), offset + 1)

def write_float (location : Buffer) (offset : Nat) (write : REAL) : Buffer × Nat :=
  (memcpy location (offset * sizeof_DWORD) (dword_bytes write), offset + 1)

def write_packed_point (ops : RealOps) (location : Buffer) (offset : Nat) (write : GpPointF) :
    Buffer × Nat :=
  let point_X := ops.to_short write.X
  let point_Y := ops.to_short write.Y
  (memcpy location (offset * sizeof_DWORD) (short_bytes point_X ++ short_bytes point_Y),
    offset + 1)

def write_path_types (location : Buffer) (offset : Nat) (path : GpPath) : Buffer × Nat :=
  let location := memcpy location (offset * sizeof_DWORD) path.Types
  -- The unwritten parts of the DWORD (if any) must be cleared
  let location :=
    if path.Count % sizeof_DWORD ≠ 0 then
      ZeroMemory location (offset * sizeof_DWORD + path.Count)
        (sizeof_DWORD - path.Count % sizeof_DWORD)
    else location
  (location, offset + get_pathtypes_size path / sizeof_DWORD)

/-- The loop of write_element over the points of a path of floats. -/
def write_float_points : List GpPointF → Buffer → Nat → Buffer × Nat
  | [], buffer, filled => (buffer, filled)
  | point :: points, buffer, filled =>
    match write_float buffer filled point.X with
    | (buffer1, filled1) =>
      match write_float buffer1 filled1 point.Y with
      | (buffer2, filled2) => write_float_points points buffer2 filled2

/-- The loop of write_element over the points of a path of shorts. -/
def write_packed_points (ops : RealOps) : List GpPointF → Buffer → Nat → Buffer × Nat
  | [], buffer, filled => (buffer, filled)
  | point :: points, buffer, filled =>
    match write_packed_point ops buffer filled point with
    | (buffer1, filled1) => write_packed_points ops points buffer1 filled1

/-- The bytes of a path header in memory. -/
def path_header.bytes (pathheader : path_header) : List BYTE :=
  dword_bytes pathheader.size ++ dword_bytes pathheader.magic ++
    dword_bytes pathheader.count ++ dword_bytes pathheader.flags

/-- The bytes of a region header in memory. -/
def region_header.bytes (header : region_header) : List BYTE :=
  dword_bytes header.size ++ dword_bytes header.checksum ++
    dword_bytes header.magic ++ dword_bytes header.num_children

def sizeof_path_header : Nat := 16
def sizeof_region_header : Nat := 16

def write_element (ops : RealOps) : region_element → Buffer → Nat → Buffer × Nat
  | .combine mode left right, buffer, filled =>
    match write_dword buffer filled mode.toDWORD with
    | (buffer1, filled1) =>
      match write_element ops left buffer1 filled1 with
      | (buffer2, filled2) => write_element ops right buffer2 filled2
  | .rect rect, buffer, filled =>
    match write_dword buffer filled RegionType.RegionDataRect.toDWORD with
    | (buffer1, filled1) =>
      match write_float buffer1 filled1 rect.X with
      | (buffer2, filled2) =>
        match write_float buffer2 filled2 rect.Y with
        | (buffer3, filled3) =>
          match write_float buffer3 filled3 rect.Width with
          | (buffer4, filled4) => write_float buffer4 filled4 rect.Height
  | .path pathheader path, buffer, filled =>
    match write_dword buffer filled RegionType.RegionDataPath.toDWORD with
    | (buffer1, filled1) =>
      let buffer2 := memcpy buffer1 (filled1 * sizeof_DWORD) pathheader.bytes
      let filled2 := filled1 + sizeof_path_header / sizeof_DWORD
      match (if pathheader.flags = FLAGS_NOFLAGS then write_float_points path.Points buffer2 filled2
          else if pathheader.flags = FLAGS_INTPATH then
            write_packed_points ops path.Points buffer2 filled2
          else (buffer2, filled2)) with
      | (buffer3, filled3) => write_path_types buffer3 filled3 path
  | .empty, buffer, filled => write_dword buffer filled RegionType.RegionDataEmptyRect.toDWORD
  | .infinite, buffer, filled =>
    write_dword buffer filled RegionType.RegionDataInfiniteRect.toDWORD

/-- GdipGetRegionData: the header, followed by combining ops and region
elements. `size` is the declared size of the buffer; `needed` tells whether the
optional output pointer is non-null. The result gives the status, the memory of
the buffer after the call and the value written to `*needed`. -/
def GdipGetRegionData (ops : RealOps) (h : Heap) (region : Option Nat) (buffer : Option Buffer)
    (size : Nat) (needed : Bool) : Option (GpStatus × Option Buffer × Option Nat) :=
  match region, buffer with
  | some p, some buffer0 =>
    if size = 0 then some (GpStatus.InvalidParameter, buffer, none)
    else
      match h.deref p with
      | none => none
      | some r =>
        let filled := 0
        let buffer1 := memcpy buffer0 0 r.header.bytes
        let filled := filled + sizeof_region_header / sizeof_DWORD
        -- With few exceptions, everything written is DWORD aligned, so use that as our base
        match write_element ops r.node buffer1 filled with
        | (buffer2, filled2) =>
          some (GpStatus.Ok, some buffer2, if needed then some (filled2 * sizeof_DWORD) else none)
  | _, _ => some (GpStatus.InvalidParameter, buffer, none)

/-! ## Auxiliary notions used to state and prove the properties -/

/-- The point payload of a path node as write_element stores it. -/
def point_payload (ops : RealOps) (flags : DWORD) (points : List GpPointF) : List BYTE :=
  if flags = FLAGS_NOFLAGS then
    points.flatMap (fun pt => dword_bytes pt.X ++ dword_bytes pt.Y)
  else if flags = FLAGS_INTPATH then
    points.flatMap (fun pt => short_bytes (ops.to_short pt.X) ++ short_bytes (ops.to_short pt.Y))
  else []

/-- The type bytes of a path with the padding of write_path_types. -/
def types_payload (path : GpPath) : List BYTE :=
  path.Types ++ List.replicate (get_pathtypes_size path - path.Count) 0

/-- The node stream: the bytes write_element stores for a node, in order
(shown to be so by `write_element_eq`). -/
def node_stream (ops : RealOps) : region_element → List BYTE
  | .rect rect =>
    dword_bytes RegionType.RegionDataRect.toDWORD ++ (dword_bytes rect.X ++ (dword_bytes rect.Y
      ++ (dword_bytes rect.Width ++ dword_bytes rect.Height)))
  | .path pathheader path =>
    dword_bytes RegionType.RegionDataPath.toDWORD ++ (pathheader.bytes ++
      (point_payload ops pathheader.flags path.Points ++ types_payload path))
  | .empty => dword_bytes RegionType.RegionDataEmptyRect.toDWORD
  | .infinite => dword_bytes RegionType.RegionDataInfiniteRect.toDWORD
  | .combine mode left right =>
    dword_bytes mode.toDWORD ++ (node_stream ops left ++ node_stream ops right)

/-- A writer stores exactly the bytes `bytes`, a whole number of words, at the
current offset and advances the offset by their number of words. -/
def Writes (writer : Buffer → Nat → Buffer × Nat) (bytes : List BYTE) : Prop :=
  bytes.length % 4 = 0 ∧
    ∀ buffer filled, writer buffer filled =
      (memcpy buffer (filled * sizeof_DWORD) bytes, filled + bytes.length / 4)

/-- Every region object of `h` is a region object of `h2`, and conversely. -/
def Heap.Same (h h2 : Heap) : Prop := ∀ q, h2.deref q = h.deref q

/-- The heap `h2` holds `x` at address `p` and what `h` holds elsewhere. -/
def Heap.Updated (h h2 : Heap) (p : Nat) (x : GpRegion) : Prop :=
  ∀ q, h2.deref q = if q = p then some x else h.deref q

/-- A property holds of every region object of the heap. -/
def Heap.All (P : GpRegion → Prop) (h : Heap) : Prop := ∀ p r, h.deref p = some r → P r

/-- The region a successful GdipCreateRegionRect builds. -/
def rect_region (rect : GpRectF) : GpRegion :=
  { (init_region RegionType.RegionDataRect).2 with
    node := .rect ⟨rect.X, rect.Y, rect.Width, rect.Height⟩ }

/-- The region a successful GdipCreateRegionPath builds for a path whose
integer test gave `flags`. -/
def path_region (path : GpPath) (flags : DWORD) : GpRegion :=
  let size := sizeof_DWORD * 3
  let size :=
    if flags = FLAGS_NOFLAGS then size + sizeof_DWORD * path.Count * 2
    else if flags = FLAGS_INTPATH then size + sizeof_DWORD * path.Count
    else size
  let size := size + get_pathtypes_size path
  let element := region_element.path
    { size := size, magic := VERSION_MAGIC, count := path.Count, flags := flags } path
  { header := { (init_region RegionType.RegionDataPath).2.header with
      size := sizeheader_size + get_element_size element },
    node := element }

/-- The path-header invariant: the count is the point count of the geometry,
the flags are one of the two packings and the size is that of the payload. -/
def path_header_ok (pathheader : path_header) (path : GpPath) : Prop :=
  pathheader.count = path.Count ∧
  (pathheader.flags = FLAGS_NOFLAGS ∨ pathheader.flags = FLAGS_INTPATH) ∧
  pathheader.size =
    12 + (if pathheader.flags = FLAGS_NOFLAGS then 8 else 4) * path.Count +
      get_pathtypes_size path

/-- Every path node of the tree satisfies the path-header invariant. -/
def paths_ok : region_element → Prop
  | .path pathheader path => path_header_ok pathheader path
  | .combine _ left right => paths_ok left ∧ paths_ok right
  | _ => True

/-- Number of combine (internal) nodes of a tree. -/
def count_combines : region_element → Nat
  | .combine _ left right => 1 + count_combines left + count_combines right
  | _ => 0

/-- The region object GdipCombineRegionRegion leaves in region1 when it
returns Ok, from the two region objects before the call; `same` tells whether
the two pointers are the same. -/
def combined_region (r1 r2 : GpRegion) (same : Bool) (mode : CombineMode) : GpRegion :=
  let fused := fuse_region r1 r1.node r2.node mode
  { fused with header := { fused.header with
      num_children := fused.header.num_children +
        (if same then fused.header.num_children else r2.header.num_children) } }

/-- The header.size invariant. -/
def size_ok (r : GpRegion) : Prop :=
  r.header.size = sizeheader_size + get_element_size r.node

/-- The heaps that sequences of calls of the public operations that create or
edit regions lead to, from a heap without region objects and for any outcomes
of the allocations; the arguments of the calls are arbitrary. With
`distinct = true` the two region arguments of GdipCombineRegionRegion are
never the same region object. -/
inductive Reachable (ops : RealOps) (distinct : Bool) : Heap → Prop where
  | start (allocs : List Bool) : Reachable ops distinct { regions := [], allocs := allocs }
  | create_region {h h2 : Heap} {st : GpStatus} {out : Option Nat} (region : Bool) :
    Reachable ops distinct h → GdipCreateRegion h region = some (st, out, h2) →
    Reachable ops distinct h2
  | create_rect {h h2 : Heap} {st : GpStatus} {out : Option Nat} (rect : Option GpRectF)
    (region : Bool) :
    Reachable ops distinct h → GdipCreateRegionRect h rect region = some (st, out, h2) →
    Reachable ops distinct h2
  | create_path {h h2 : Heap} {st : GpStatus} {out : Option Nat} (path : Option GpPath)
    (region : Bool) :
    Reachable ops distinct h → GdipCreateRegionPath ops h path region = some (st, out, h2) →
    Reachable ops distinct h2
  | clone {h h2 : Heap} {st : GpStatus} {out : Option Nat} (region : Option Nat)
    (clone : Bool) :
    Reachable ops distinct h → GdipCloneRegion h region clone = some (st, out, h2) →
    Reachable ops distinct h2
  | set_empty {h h2 : Heap} {st : GpStatus} (region : Option Nat) :
    Reachable ops distinct h → GdipSetEmpty h region = some (st, h2) →
    Reachable ops distinct h2
  | set_infinite {h h2 : Heap} {st : GpStatus} (region : Option Nat) :
    Reachable ops distinct h → GdipSetInfinite h region = some (st, h2) →
    Reachable ops distinct h2
  | combine_rect {h h2 : Heap} {st : GpStatus} (region : Option Nat) (rect : Option GpRectF)
    (mode : CombineMode) :
    Reachable ops distinct h → GdipCombineRegionRect h region rect mode = some (st, h2) →
    Reachable ops distinct h2
  | combine_path {h h2 : Heap} {st : GpStatus} (region : Option Nat) (path : Option GpPath)
    (mode : CombineMode) :
    Reachable ops distinct h → GdipCombineRegionPath ops h region path mode = some (st, h2) →
    Reachable ops distinct h2
  | combine_region {h h2 : Heap} {st : GpStatus} (region1 region2 : Option Nat)
    (mode : CombineMode) :
    Reachable ops distinct h → (distinct = true → ∀ p, region1 = some p → region2 ≠ some p) →
    GdipCombineRegionRegion h region1 region2 mode = some (st, h2) →
    Reachable ops distinct h2

/-! ## An instance of the conversions, for the examples

IEEE 754 single precision on finite values: a REAL `x` has sign bit `x / 2^31`,
biased exponent `x / 2^23 % 256` and fraction `x % 2^23`. -/

/-- The significand of a finite single, as an integer: the value of `x` is
`± real_significand x * 2 ^ (real_exponent x - 150)`. -/
def real_significand (x : REAL) : Nat :=
  if x / 2 ^ 23 % 256 = 0 then x % 2 ^ 23 else 2 ^ 23 + x % 2 ^ 23

def real_exponent (x : REAL) : Nat :=
  if x / 2 ^ 23 % 256 = 0 then 1 else x / 2 ^ 23 % 256

def real_signed (x : REAL) (n : Nat) : Int :=
  if x / 2 ^ 31 % 2 = 1 then -(n : Int) else (n : Int)

/-- Conversion of a finite single to an integer type: the fraction is
discarded. -/
def real_trunc (x : REAL) : Int :=
  if 150 ≤ real_exponent x then
    real_signed x (real_significand x * 2 ^ (real_exponent x - 150))
  else real_signed x (real_significand x / 2 ^ (150 - real_exponent x))

/-- The integer `floor (x + 1/2)` for a finite single `x`. -/
def real_round (x : REAL) : Int :=
  if 150 ≤ real_exponent x then real_trunc x
  else
    Int.fdiv (2 * real_signed x (real_significand x) + 2 ^ (150 - real_exponent x))
      (2 ^ (150 - real_exponent x + 1))

/-- Number of binary digits of `n`, for `n < 2 ^ fuel`. -/
def bit_length : Nat → Nat → Nat
  | 0, _ => 0
  | fuel + 1, n => if n = 0 then 0 else bit_length fuel (n / 2) + 1

/-- The single nearest to a 32-bit integer (ties to even). -/
def real_of_int (n : Int) : REAL :=
  if n = 0 then 0
  else
    let m := n.natAbs
    let e := bit_length 32 m - 1
    let sign := if n < 0 then 2 ^ 31 else 0
    if e ≤ 23 then sign + (127 + e) * 2 ^ 23 + (m * 2 ^ (23 - e) - 2 ^ 23)
    else
      let q := m / 2 ^ (e - 23)
      let rem := m % 2 ^ (e - 23)
      let half := 2 ^ (e - 24)
      let q := if rem > half ∨ (rem = half ∧ q % 2 = 1) then q + 1 else q
      -- a carry out of the significand lands in the exponent field
      sign + (127 + e) * 2 ^ 23 + (q - 2 ^ 23)

def real_is_nan (x : REAL) : Bool := x / 2 ^ 23 % 256 = 255 ∧ x % 2 ^ 23 ≠ 0

/-- Comparison of two singles: a NaN equals nothing, the two zeroes are equal. -/
def real_eq (x y : REAL) : Bool :=
  !real_is_nan x && !real_is_nan y && (x = y || (x % 2 ^ 31 = 0 && y % 2 ^ 31 = 0))

/-- The conversions on finite singles: an INT converts to the nearest single,
a single converts to INT by `floor (x + 1/2)` and to `short` by discarding the
fraction. -/
def ieee_ops : RealOps :=
  { of_int := real_of_int, to_int := real_round, to_short := real_trunc, eq := real_eq }

/-! ## Example data -/

/-- The rectangle (10, 10, 5, 5). -/
def example_rect : GpRectF :=
  { X := 0x41200000, Y := 0x41200000, Width := 0x40a00000, Height := 0x40a00000 }

/-- A path with the points (1, 2), (3, 4), (5, 6). -/
def example_path : GpPath :=
  { pathdata := [(⟨0x3f800000, 0x40000000⟩, 0), (⟨0x40400000, 0x40800000⟩, 1),
      (⟨0x40a00000, 0x40c00000⟩, 1)] }

/-- The heap after GdipCreateRegionRect for `example_rect`. -/
def example_heap1 : Heap :=
  { regions := [some (rect_region example_rect)], allocs := [] }

/-- The heap after a further GdipCreateRegion. -/
def example_heap2 : Heap :=
  { regions := [some (rect_region example_rect),
      some (init_region RegionType.RegionDataInfiniteRect).2], allocs := [] }

/-- The heap after the rect region has been combined with the infinite region
(union). -/
def example_heap3 : Heap :=
  { regions := [some (combined_region (rect_region example_rect)
        (init_region RegionType.RegionDataInfiniteRect).2 false CombineMode.CombineModeUnion),
      some (init_region RegionType.RegionDataInfiniteRect).2], allocs := [] }

/-- The heap after the infinite region has been combined with `example_path`
(xor). -/
def example_heap4 : Heap :=
  { regions := [some (combined_region (rect_region example_rect)
        (init_region RegionType.RegionDataInfiniteRect).2 false CombineMode.CombineModeUnion),
      some (fuse_region (init_region RegionType.RegionDataInfiniteRect).2 region_element.infinite
        (path_region example_path FLAGS_INTPATH).node CombineMode.CombineModeXor),
      none], allocs := [] }

/-- A heap holding one infinite region, in which the first allocation to come
succeeds and the second fails. -/
def example_heap_low : Heap :=
  { regions := [some (init_region RegionType.RegionDataInfiniteRect).2], allocs := [true, false] }

/-- A heap holding one infinite region, in which the first five allocations to
come succeed and the sixth fails. -/
def example_heap_low_path : Heap :=
  { regions := [some (init_region RegionType.RegionDataInfiniteRect).2],
    allocs := [true, true, true, true, true, false] }

/-- The heap after the second region of `example_heap4` has been cloned. -/
def example_heap5 : Heap :=
  { regions := [some (combined_region (rect_region example_rect)
        (init_region RegionType.RegionDataInfiniteRect).2 false CombineMode.CombineModeUnion),
      some (fuse_region (init_region RegionType.RegionDataInfiniteRect).2 region_element.infinite
        (path_region example_path FLAGS_INTPATH).node CombineMode.CombineModeXor),
      none,
      some (fuse_region (init_region RegionType.RegionDataInfiniteRect).2 region_element.infinite
        (path_region example_path FLAGS_INTPATH).node CombineMode.CombineModeXor)],
    allocs := [] }

/-! ## Paths, node parts and successive combines: definitions for the statements -/

/-- The flags GdipCreateRegionPath gives a path when none of its calls fails:
the outcome of its integer test. -/
def path_flags (ops : RealOps) (path : GpPath) : DWORD :=
  if path.Count = 0 then FLAGS_INTPATH
  else if int_points_match ops
      (path.Points.map (fun pt => ⟨ops.to_int pt.X, ops.to_int pt.Y⟩)) path.Points then
    FLAGS_INTPATH
  else FLAGS_NOFLAGS

/-- The parts of the node stream in the order in which write_element emits
them: for each node its tag, then the rect payload, or the path header, the
point payload and the padded type array. -/
def node_parts (ops : RealOps) : region_element → List (List BYTE)
  | .rect rect =>
    [dword_bytes RegionType.RegionDataRect.toDWORD,
      dword_bytes rect.X ++ (dword_bytes rect.Y ++ (dword_bytes rect.Width ++
        dword_bytes rect.Height))]
  | .path pathheader path =>
    [dword_bytes RegionType.RegionDataPath.toDWORD, pathheader.bytes,
      point_payload ops pathheader.flags path.Points, types_payload path]
  | .empty => [dword_bytes RegionType.RegionDataEmptyRect.toDWORD]
  | .infinite => [dword_bytes RegionType.RegionDataInfiniteRect.toDWORD]
  | .combine mode left right =>
    dword_bytes mode.toDWORD :: (node_parts ops left ++ node_parts ops right)

/-- The heap after GdipCreateRegionPath for `example_path`. -/
def example_heap_path : Heap :=
  { regions := [some (path_region example_path FLAGS_INTPATH)], allocs := [] }

/-- A path with the points (1.5, 2), (3, 4). -/
def example_path_frac : GpPath :=
  { pathdata := [(⟨0x3fc00000, 0x40000000⟩, 0), (⟨0x40400000, 0x40800000⟩, 1)] }

/-- The heap after GdipCreateRegionPath for `example_path_frac`. -/
def example_heap_path_frac : Heap :=
  { regions := [some (path_region example_path_frac FLAGS_NOFLAGS)], allocs := [] }

/-- A leaf operand of a combine: a rectangle or a path. -/
inductive LeafOperand where
  | rect (rc : GpRectF)
  | path (pa : GpPath)

/-- The leaf that GdipCreateRegionRect or GdipCreateRegionPath builds for the
operand. -/
def LeafOperand.element (ops : RealOps) : LeafOperand → region_element
  | .rect rc => (rect_region rc).node
  | .path pa => (path_region pa (path_flags ops pa)).node

/-- The call that combines the region at `p` with a leaf operand. -/
def combine_leaf (ops : RealOps) (h : Heap) (p : Nat) :
    LeafOperand → CombineMode → Option (GpStatus × Heap)
  | .rect rc, mode => GdipCombineRegionRect h (some p) (some rc) mode
  | .path pa, mode => GdipCombineRegionPath ops h (some p) (some pa) mode

/-- The heaps that successive combines of the region at `p` with the leaf
operands and modes of `steps`, in that order, lead to from `h`, when each of
the calls has edited the region. -/
inductive Built (ops : RealOps) (p : Nat) (h : Heap) :
    List (LeafOperand × CombineMode) → Heap → Prop where
  | init : Built ops p h [] h
  | step {h1 h2 : Heap} {steps : List (LeafOperand × CombineMode)} {e : LeafOperand}
      {mode : CombineMode} {st : GpStatus} :
      Built ops p h steps h1 → combine_leaf ops h1 p e mode = some (st, h2) →
      h2.deref p ≠ h1.deref p → Built ops p h (steps ++ [(e, mode)]) h2

/-- The heap after `example_rect` has been combined (intersect) with the rect
region of `example_heap1`. -/
def example_heap_built1 : Heap :=
  { regions := [some (fuse_region (rect_region example_rect) (rect_region example_rect).node
      (rect_region example_rect).node CombineMode.CombineModeIntersect), none], allocs := [] }

/-- The heap after `example_path` has then been combined (xor) with it. -/
def example_heap_built2 : Heap :=
  { regions := [some (fuse_region
      (fuse_region (rect_region example_rect) (rect_region example_rect).node
        (rect_region example_rect).node CombineMode.CombineModeIntersect)
      (region_element.combine CombineMode.CombineModeIntersect
        (rect_region example_rect).node (rect_region example_rect).node)
      (path_region example_path FLAGS_INTPATH).node CombineMode.CombineModeXor), none, none],
    allocs := [] }

/-- The call that creates the simple region of a leaf operand. -/
def create_leaf (ops : RealOps) (h : Heap) : LeafOperand → Option (GpStatus × Option Nat × Heap)
  | .rect rc => GdipCreateRegionRect h (some rc) true
  | .path pa => GdipCreateRegionPath ops h (some pa) true

/-- The heap after a GdipCreateRegionRect for `example_rect` in `example_heap1`. -/
def example_heap_two_rects : Heap :=
  ⟨[some (rect_region example_rect), some (rect_region example_rect)], []⟩

/-- The heap after the first region of `example_heap_two_rects` has been
combined (intersect) with the second. -/
def example_heap_two_rects_combined : Heap :=
  ⟨[some (fuse_region (rect_region example_rect) (rect_region example_rect).node
      (rect_region example_rect).node CombineMode.CombineModeIntersect),
    some (rect_region example_rect)], []⟩

/-- The heap after a GdipCreateRegionPath for `example_path` in `example_heap1`. -/
def example_heap_rect_path : Heap :=
  ⟨[some (rect_region example_rect), some (path_region example_path FLAGS_INTPATH)], []⟩

/-- The heap after the first region of `example_heap_rect_path` has been
combined (xor) with the second. -/
def example_heap_rect_path_combined : Heap :=
  ⟨[some (fuse_region (rect_region example_rect) (rect_region example_rect).node
      (path_region example_path FLAGS_INTPATH).node CombineMode.CombineModeXor),
    some (path_region example_path FLAGS_INTPATH)], []⟩

/-- The heap after the region of `example_heap1` has been combined (xor) with
`example_path`. -/
def example_heap_built_path : Heap :=
  ⟨[some (fuse_region (rect_region example_rect) (rect_region example_rect).node
      (path_region example_path FLAGS_INTPATH).node CombineMode.CombineModeXor), none], []⟩

/-- A finite single that is not an integer: its binary digits below the unit
are not all zero. -/
def real_is_fractional (x : REAL) : Bool :=
  real_exponent x < 150 ∧ real_significand x % 2 ^ (150 - real_exponent x) ≠ 0

/-- The coordinate `x` is the single of an integer within the range of a
`short`, which is the INT that GdipGetPathPointsI gives for it. -/
def is_short_coordinate (ops : RealOps) (x : REAL) : Bool :=
  -32768 ≤ ops.to_int x ∧ ops.to_int x ≤ 32767 ∧ x = real_of_int (ops.to_int x)

/-- The value fits the type INT. -/
def is_INT (n : Int) : Bool := -2147483648 ≤ n ∧ n ≤ 2147483647

/-- The coordinate `x` is the single of an INT, which is the INT that
GdipGetPathPointsI gives for it. -/
def is_INT_coordinate (ops : RealOps) (x : REAL) : Bool :=
  is_INT (ops.to_int x) ∧ x = real_of_int (ops.to_int x)

/-- A path with the single point (40000, 1). -/
def example_path_wide : GpPath :=
  { pathdata := [(⟨0x471c4000, 0x3f800000⟩, 0)] }

/-! ## Further entry points of region.c -/

/-- GdipCombineRegionRectI: the INT rectangle is converted to REALs and handed
to GdipCombineRegionRect. -/
def GdipCombineRegionRectI (ops : RealOps) (h : Heap) (region : Option Nat)
    (rect : Option GpRect) (mode : CombineMode) : Option (GpStatus × Heap) :=
  match rect with
  | none => some (GpStatus.InvalidParameter, h)
  | some rect =>
    let rectf : GpRectF :=
      ⟨ops.of_int rect.X, ops.of_int rect.Y, ops.of_int rect.Width, ops.of_int rect.Height⟩
    GdipCombineRegionRect h region (some rectf) mode

/-- GdipCreateRegionRgnData: stub. `region` is the output slot: `none` when the
pointer is null, otherwise the address the slot holds. The second component of
the result is the address the slot holds on return (`none`: NULL). The slot is
written without a test of the pointer. -/
def GdipCreateRegionRgnData (h : Heap) (_data : Option (List BYTE)) (_size : Int)
    (region : Option (Option Nat)) : Option (GpStatus × Option Nat × Heap) :=
  match region with
  | none => none
  | some _ => some (GpStatus.NotImplemented, none, h)

/-- GdipCreateRegionHrgn: stub, with the output slot as in
GdipCreateRegionRgnData; `hrgn` is a handle. -/
def GdipCreateRegionHrgn (h : Heap) (_hrgn : Option Nat) (region : Option (Option Nat)) :
    Option (GpStatus × Option Nat × Heap) :=
  match region with
  | none => none
  | some _ => some (GpStatus.NotImplemented, none, h)

/-- GdipGetRegionBounds: stub. `rect` is the output slot: `none` when the
pointer is null, otherwise its content, which the second component of the
result gives on return. -/
def GdipGetRegionBounds (h : Heap) (_region : Option Nat) (_graphics : Bool)
    (rect : Option GpRectF) : GpStatus × Option GpRectF × Heap :=
  (GpStatus.NotImplemented, rect, h)

def GdipGetRegionBoundsI (h : Heap) (_region : Option Nat) (_graphics : Bool)
    (rect : Option GpRect) : GpStatus × Option GpRect × Heap :=
  (GpStatus.NotImplemented, rect, h)

/-- GdipGetRegionHRgn: stub. `hrgn` is the output slot: `none` when the pointer
is null, otherwise the handle it holds; the second component of the result is
the handle it holds on return (`none`: NULL). The slot is written without a
test of the pointer. -/
def GdipGetRegionHRgn (h : Heap) (_region : Option Nat) (_graphics : Bool)
    (hrgn : Option (Option Nat)) : Option (GpStatus × Option Nat × Heap) :=
  match hrgn with
  | none => none
  | some _ => some (GpStatus.NotImplemented, none, h)

/-- GdipIsEmptyRegion: stub. `res` is the output slot (`none`: null pointer),
given back as the second component of the result. -/
def GdipIsEmptyRegion (h : Heap) (_region : Option Nat) (_graphics : Bool)
    (res : Option Bool) : GpStatus × Option Bool × Heap :=
  (GpStatus.NotImplemented, res, h)

def GdipIsEqualRegion (h : Heap) (_region _region2 : Option Nat) (_graphics : Bool)
    (res : Option Bool) : GpStatus × Option Bool × Heap :=
  (GpStatus.NotImplemented, res, h)

/-- GdipTransformRegion: stub; `matrix` tells whether the matrix pointer is
non-null. -/
def GdipTransformRegion (h : Heap) (_region : Option Nat) (_matrix : Bool) : GpStatus × Heap :=
  (GpStatus.NotImplemented, h)

def GdipTranslateRegion (h : Heap) (_region : Option Nat) (_dx _dy : REAL) : GpStatus × Heap :=
  (GpStatus.NotImplemented, h)

def GdipTranslateRegionI (h : Heap) (_region : Option Nat) (_dx _dy : Int) : GpStatus × Heap :=
  (GpStatus.NotImplemented, h)

/-! ## Shape of the trees -/

/-- The type is one of the six combine modes. -/
def is_combine_type (type : DWORD) : Bool :=
  type = CombineMode.CombineModeReplace.toDWORD ∨
  type = CombineMode.CombineModeIntersect.toDWORD ∨
  type = CombineMode.CombineModeUnion.toDWORD ∨
  type = CombineMode.CombineModeXor.toDWORD ∨
  type = CombineMode.CombineModeExclude.toDWORD ∨
  type = CombineMode.CombineModeComplement.toDWORD

/-- The type is one of the four leaf kinds. -/
def is_leaf_type (type : DWORD) : Bool :=
  type = RegionType.RegionDataRect.toDWORD ∨
  type = RegionType.RegionDataPath.toDWORD ∨
  type = RegionType.RegionDataEmptyRect.toDWORD ∨
  type = RegionType.RegionDataInfiniteRect.toDWORD

/-- The children of a node: elementdata.combine.left and right for a combine
node; the other nodes have none. -/
def region_element.children : region_element → List region_element
  | .combine _ left right => [left, right]
  | _ => []

/-- The nodes of a tree: the root, then the nodes of the left and of the right
subtree. -/
def region_element.nodes : region_element → List region_element
  | .combine mode left right =>
    region_element.combine mode left right :: (left.nodes ++ right.nodes)
  | e => [e]

/-- The path nodes of a tree: header and geometry of each. -/
def path_nodes : region_element → List (path_header × GpPath)
  | .path pathheader path => [(pathheader, path)]
  | .combine _ left right => path_nodes left ++ path_nodes right
  | _ => []

/-- The combine root of a call with mode `mode` on a region that was `r` is
installed in `x`, the region object after the call: the root is a combine node
with that mode whose left child is the tree of `r`. -/
def root_installed (r : GpRegion) (mode : CombineMode) (x : Option GpRegion) : Bool :=
  match x with
  | some r2 =>
    match r2.node with
    | .combine mode2 left _ => mode2 = mode ∧ left = r.node
    | _ => false
  | none => false

/-- A heap holding the region of `example_path`, in which the first allocation
to come succeeds and the second fails. -/
def example_heap_path_low : Heap :=
  ⟨[some (path_region example_path FLAGS_INTPATH)], [true, false]⟩

/-! ## GdipCreateRegionRectI and path-free trees -/

/-- GdipCreateRegionRectI: the INT rectangle is converted to REALs and handed
to GdipCreateRegionRect. The fields of `rect` are read without a test of the
pointer. -/
def GdipCreateRegionRectI (ops : RealOps) (h : Heap) (rect : Option GpRect) (region : Bool) :
    Option (GpStatus × Option Nat × Heap) :=
  match rect with
  | none => none
  | some rect =>
    let rectf : GpRectF :=
      ⟨ops.of_int rect.X, ops.of_int rect.Y, ops.of_int rect.Width, ops.of_int rect.Height⟩
    GdipCreateRegionRect h (some rectf) region

/-- The four fields of a region header are 32-bit values. -/
def region_header.is_32bit (header : region_header) : Bool :=
  header.size < 2 ^ 32 ∧ header.checksum < 2 ^ 32 ∧ header.magic < 2 ^ 32 ∧
    header.num_children < 2 ^ 32

/-- A tree without path nodes: its leaves are Rect, EmptyRect or InfiniteRect;
the coordinates of its rects are 32-bit patterns. -/
def path_free : region_element → Bool
  | .rect rect =>
    rect.X < 2 ^ 32 ∧ rect.Y < 2 ^ 32 ∧ rect.Width < 2 ^ 32 ∧ rect.Height < 2 ^ 32
  | .path _ _ => false
  | .empty => true
  | .infinite => true
  | .combine _ left right => path_free left && path_free right

/-! ## Region objects in memory

The tree model above cannot hold a node with a null child. To follow
clone_element word by word, the objects it writes are laid out here as they
lie in memory: a node is a type word and the union `elementdata`, the children
of a node are pointers, and a region object is a header and its root node. The
source of a copy is still given as the tree it is the root of. -/

/-- A pointer to a region_element: the node inside a region object
(`&region->node`), or an object of its own obtained from GdipAlloc. -/
inductive element_ptr where
  | node (region : Nat)
  | element (address : Nat)
deriving DecidableEq, Repr

/-- The union `elementdata` of a region_element in memory, seen through the
member that was written last; `unset` when no member has been written since
the allocation. A null pointer is `none`. -/
inductive raw_elementdata where
  | unset
  | rect (rect : GpRectF)
  | pathdata (pathheader : path_header) (path : Option GpPath)
  | combine (left right : Option element_ptr)
deriving DecidableEq, Repr

/-- A region_element in memory. -/
structure raw_element where
  type : DWORD
  elementdata : raw_elementdata
deriving DecidableEq, Repr

/-- A GpRegion in memory. -/
structure raw_region where
  header : region_header
  node : raw_element
deriving DecidableEq, Repr

/-- The region objects and the region_element objects obtained from GdipAlloc,
by address (`none`: freed), and the outcomes of the forthcoming allocations. -/
structure Memory where
  regions : List (Option raw_region)
  elements : List (Option raw_element)
  allocs : List Bool
deriving DecidableEq, Repr

/-- The node a pointer refers to, if it refers to a live object. -/
def Memory.element (m : Memory) : element_ptr → Option raw_element
  | .node q => ((m.regions.get? q).join).map raw_region.node
  | .element a => (m.elements.get? a).join

/-- The header of the region object at an address, if the object is live. -/
def Memory.header (m : Memory) (q : Nat) : Option region_header :=
  ((m.regions.get? q).join).map raw_region.header

/-- An assignment to fields of the node `ptr` points to; no result when the
pointer does not refer to a live object. -/
def Memory.update (m : Memory) (ptr : element_ptr) (f : raw_element → raw_element) :
    Option Memory :=
  match ptr with
  | .node q =>
    match (m.regions.get? q).join with
    | none => none
    | some r => some { m with regions := m.regions.set q (some { r with node := f r.node }) }
  | .element a =>
    match (m.elements.get? a).join with
    | none => none
    | some e => some { m with elements := m.elements.set a (some (f e)) }

/-- GdipAlloc(sizeof(region_element)): on success a new object, no field of
which has been written. -/
def Memory.alloc_element (m : Memory) : Option element_ptr × Memory :=
  match GdipAlloc m.allocs with
  | (true, rest) =>
    (some (.element m.elements.length),
      { m with elements := m.elements ++ [some ⟨0, .unset⟩], allocs := rest })
  | (false, rest) => (none, { m with allocs := rest })

/-- GdipAlloc(sizeof(GpRegion)): on success a new object, no field of which
has been written. -/
def Memory.alloc_region (m : Memory) : Option Nat × Memory :=
  match GdipAlloc m.allocs with
  | (true, rest) =>
    (some m.regions.length,
      { m with regions := m.regions ++ [some ⟨⟨0, 0, 0, 0⟩, ⟨0, .unset⟩⟩], allocs := rest })
  | (false, rest) => (none, { m with allocs := rest })

/-- GdipFree of a pointer to a region_element obtained from GdipAlloc; nothing
is done for a null pointer. -/
def Memory.free (m : Memory) : Option element_ptr → Memory
  | some (.element a) => { m with elements := m.elements.set a none }
  | _ => m

/-- The combine mode with the given numeric value. -/
def CombineMode.ofDWORD (type : DWORD) : Option CombineMode :=
  if type = CombineMode.CombineModeReplace.toDWORD then some .CombineModeReplace
  else if type = CombineMode.CombineModeIntersect.toDWORD then some .CombineModeIntersect
  else if type = CombineMode.CombineModeUnion.toDWORD then some .CombineModeUnion
  else if type = CombineMode.CombineModeXor.toDWORD then some .CombineModeXor
  else if type = CombineMode.CombineModeExclude.toDWORD then some .CombineModeExclude
  else if type = CombineMode.CombineModeComplement.toDWORD then some .CombineModeComplement
  else none

/-- Modelled from the spec: delete_element is defined in gdiplus.c, which is not
among the sources. It releases the nodes that the given node owns (the spec:
"release the current tree", "release any nodes already allocated in this
call"): for a node whose type is a combine mode, what the two children own and
the children themselves; for a null pointer there is nothing to release. No
field of the node itself is written. `fuel` bounds the depth to which the
pointers are followed. -/
def Raw.delete_element : Nat → Memory → Option element_ptr → Memory
  | 0, m, _ => m
  | _ + 1, m, none => m
  | fuel + 1, m, some ptr =>
    match m.element ptr with
    | some ⟨type, .combine left right⟩ =>
      if (CombineMode.ofDWORD type).isSome then
        ((Raw.delete_element fuel (Raw.delete_element fuel m left) right).free left).free right
      else m
    | _ => m

/-- The failure exit of clone_element (label `clone_out`): what was built is
handed to delete_element, `*element2` is set to NULL and the status is
returned. -/
def Raw.clone_out (m : Memory) (element2 : element_ptr) (stat : GpStatus) :
    GpStatus × Option element_ptr × Memory :=
  (stat, none, Raw.delete_element (m.elements.length + 1) m (some element2))

/-- The statements of clone_element before the switch: `*element2` is
allocated when it is null (the root node is allocated with its GpRegion), and
the type is assigned. The result is the value of `*element2`, null after a
failed allocation, and the memory; there is no result when a dead object is
written. -/
def Raw.clone_begin (m : Memory) (type : DWORD) (element2 : Option element_ptr) :
    Option (Option element_ptr × Memory) :=
  match (match element2 with
    | none => m.alloc_element
    | some ptr => (some ptr, m)) with
  | (none, m1) => some (none, m1)
  | (some ptr, m1) =>
    match m1.update ptr (fun e => { e with type := type }) with
    | none => none
    | some m2 => some (some ptr, m2)

/-- The function clone_element on memory. The source node `element` is given
as the tree it is the root of, and the cases are those of the switch on its
type; `element2` is the value of `*element2` on entry. The second component of
the result is the value of `*element2` on return, which the caller finds in the
pointer variable or field whose address it passed. There is no result when a
dead object is written. -/
def Raw.clone_element (m : Memory) :
    region_element → Option element_ptr → Option (GpStatus × Option element_ptr × Memory)
  | .rect rect, element2 =>
    match Raw.clone_begin m (region_element.rect rect).type element2 with
    | none => none
    | some (none, m1) => some (GpStatus.OutOfMemory, none, m1)
    | some (some ptr, m2) =>
      match m2.update ptr (fun e => { e with elementdata := .rect rect }) with
      | none => none
      | some m3 => some (GpStatus.Ok, some ptr, m3)
  | .empty, element2 =>
    match Raw.clone_begin m region_element.empty.type element2 with
    | none => none
    | some (none, m1) => some (GpStatus.OutOfMemory, none, m1)
    | some (some ptr, m2) => some (GpStatus.Ok, some ptr, m2)
  | .infinite, element2 =>
    match Raw.clone_begin m region_element.infinite.type element2 with
    | none => none
    | some (none, m1) => some (GpStatus.OutOfMemory, none, m1)
    | some (some ptr, m2) => some (GpStatus.Ok, some ptr, m2)
  | .path pathheader path, element2 =>
    match Raw.clone_begin m (region_element.path pathheader path).type element2 with
    | none => none
    | some (none, m1) => some (GpStatus.OutOfMemory, none, m1)
    | some (some ptr, m2) =>
      -- the pathheader is assigned, then GdipClonePath assigns the path pointer (null when
      -- it fails); the node holds both from the next statement on
      match GdipClonePath m2.allocs path with
      | (stat, path2, rest) =>
        match Memory.update { m2 with allocs := rest } ptr
            (fun e => { e with elementdata := .pathdata pathheader path2 }) with
        | none => none
        | some m3 =>
          if stat ≠ GpStatus.Ok then some (Raw.clone_out m3 ptr stat)
          else some (GpStatus.Ok, some ptr, m3)
  | .combine mode left right, element2 =>
    match Raw.clone_begin m (region_element.combine mode left right).type element2 with
    | none => none
    | some (none, m1) => some (GpStatus.OutOfMemory, none, m1)
    | some (some ptr, m2) =>
      match m2.update ptr (fun e => { e with elementdata := .combine none none }) with
      | none => none
      | some m3 =>
        match Raw.clone_element m3 left none with
        | none => none
        | some (stat, left2, m4) =>
          match m4.update ptr (fun e => { e with elementdata := .combine left2 none }) with
          | none => none
          | some m5 =>
            if stat ≠ GpStatus.Ok then some (Raw.clone_out m5 ptr stat)
            else
              match Raw.clone_element m5 right none with
              | none => none
              | some (stat, right2, m6) =>
                match m6.update ptr
                    (fun e => { e with elementdata := .combine left2 right2 }) with
                | none => none
                | some m7 =>
                  if stat ≠ GpStatus.Ok then some (Raw.clone_out m7 ptr stat)
                  else some (GpStatus.Ok, some ptr, m7)

/-- GdipCloneRegion on memory. `region` is the object the source pointer refers
to, given as the tree model has it (`none`: null pointer); `clone` tells
whether the output pointer is non-null; the second component of the result is
the address written to `*clone`. -/
def Raw.GdipCloneRegion (m : Memory) (region : Option GpRegion) (clone : Bool) :
    Option (GpStatus × Option Nat × Memory) :=
  match region, clone with
  | some region, true =>
    match m.alloc_region with
    | (none, m1) => some (GpStatus.OutOfMemory, none, m1)
    | (some q, m1) =>
      match (m1.regions.get? q).join with
      | none => none
      | some r =>
        let m2 := { m1 with regions := m1.regions.set q (some { r with header := region.header }) }
        match Raw.clone_element m2 region.node (some (.node q)) with
        | none => none
        | some (stat, _, m3) => some (stat, some q, m3)
  | _, _ => some (GpStatus.InvalidParameter, none, m)

/-- The tree read from memory at a pointer, following the child pointers to a
depth of at most `fuel`: there is none when a pointer met on the way is null,
refers to no live object of its own at an address from `lo` on, or when the
type of a node is not one of the four leaf kinds or six combine modes, or the
member of the union is not the one of the type. -/
def Memory.tree (m : Memory) (lo : Nat) : Nat → Option element_ptr → Option region_element
  | 0, _ => none
  | _ + 1, none => none
  | _ + 1, some (.node _) => none
  | fuel + 1, some (.element a) =>
    if a < lo then none
    else
      match (m.elements.get? a).join with
      | none => none
      | some e =>
        if e.type = RegionType.RegionDataRect.toDWORD then
          match e.elementdata with
          | .rect rect => some (.rect rect)
          | _ => none
        else if e.type = RegionType.RegionDataPath.toDWORD then
          match e.elementdata with
          | .pathdata pathheader (some path) => some (.path pathheader path)
          | _ => none
        else if e.type = RegionType.RegionDataEmptyRect.toDWORD then some .empty
        else if e.type = RegionType.RegionDataInfiniteRect.toDWORD then some .infinite
        else
          match CombineMode.ofDWORD e.type, e.elementdata with
          | some mode, .combine left right =>
            match Memory.tree m lo fuel left, Memory.tree m lo fuel right with
            | some l, some r => some (.combine mode l r)
            | _, _ => none
          | _, _ => none

/-- The tree read from a node in memory, its children being read with
`Memory.tree`. -/
def Memory.read_node (m : Memory) (lo fuel : Nat) (e : raw_element) : Option region_element :=
  if e.type = RegionType.RegionDataRect.toDWORD then
    match e.elementdata with
    | .rect rect => some (.rect rect)
    | _ => none
  else if e.type = RegionType.RegionDataPath.toDWORD then
    match e.elementdata with
    | .pathdata pathheader (some path) => some (.path pathheader path)
    | _ => none
  else if e.type = RegionType.RegionDataEmptyRect.toDWORD then some .empty
  else if e.type = RegionType.RegionDataInfiniteRect.toDWORD then some .infinite
  else
    match CombineMode.ofDWORD e.type, e.elementdata with
    | some mode, .combine left right =>
      match m.tree lo fuel left, m.tree lo fuel right with
      | some l, some r => some (.combine mode l r)
      | _, _ => none
    | _, _ => none

/-- The well-formed tree of the region object at address `q`, if its root and
the nodes below it make one: every node whose type is a combine mode has two
non-null children that are well-formed trees again. -/
def Memory.region_tree (m : Memory) (fuel : Nat) (q : Nat) : Option region_element :=
  (m.element (.node q)).bind (m.read_node 0 fuel)

/-- Every live object of `m` other than the node at `ptr` has the same node in
`m2`, the headers of the region objects are the same, and no object of its own
has been removed from the address space. -/
def Memory.Frame (m m2 : Memory) (ptr : element_ptr) : Prop :=
  (∀ ptr2 x, ptr2 ≠ ptr → m.element ptr2 = some x → m2.element ptr2 = some x) ∧
  (∀ q, m2.header q = m.header q) ∧ m.elements.length ≤ m2.elements.length

/-- The number of nodes on the longest branch of a tree. -/
def region_element.height : region_element → Nat
  | .combine _ left right => max left.height right.height + 1
  | _ => 1

/-- A memory without objects in which the first allocation to come succeeds
and the second fails. -/
def example_memory_low : Memory := ⟨[], [], [true, false]⟩

/-- The region of a rect combined (union) with an infinite region: the first
region of `example_heap4`. -/
def example_region_union : GpRegion :=
  combined_region (rect_region example_rect) (init_region RegionType.RegionDataInfiniteRect).2
    false CombineMode.CombineModeUnion

/-- The regions of `example_heap4`, the first allocation to come succeeding
and the second failing. -/
def example_heap4_low : Heap := ⟨example_heap4.regions, [true, false]⟩

/-- A memory without objects in which no allocation fails. -/
def example_memory : Memory := ⟨[], [], []⟩

end Gdiplus

namespace WaylandKeyboard

/-! ## winewayland.drv: wayland_keyboard.c -/

abbrev LANGID := Nat

/-- Modelled from the spec: the values winnt.h gives to the language and
sublanguage names used in wayland_keyboard.c. The header is not among the
sources, so the values are a parameter of the model. -/
structure winnt where
  LANG_DARI : Nat
  LANG_ALBANIAN : Nat
  LANG_ARMENIAN : Nat
  LANG_GERMAN : Nat
  LANG_AZERBAIJANI : Nat
  LANG_ENGLISH : Nat
  LANG_BOSNIAN : Nat
  LANG_BANGLA : Nat
  LANG_FRENCH : Nat
  LANG_BULGARIAN : Nat
  LANG_PORTUGUESE : Nat
  LANG_TIBETAN : Nat
  LANG_TSWANA : Nat
  LANG_BELARUSIAN : Nat
  LANG_CHINESE : Nat
  LANG_CZECH : Nat
  LANG_DANISH : Nat
  LANG_TAMAZIGHT : Nat
  LANG_ESTONIAN : Nat
  LANG_SPANISH : Nat
  LANG_AMHARIC : Nat
  LANG_FINNISH : Nat
  LANG_FAEROESE : Nat
  LANG_GEORGIAN : Nat
  LANG_NEUTRAL : Nat
  LANG_GREEK : Nat
  LANG_CROATIAN : Nat
  LANG_HUNGARIAN : Nat
  LANG_INDONESIAN : Nat
  LANG_HEBREW : Nat
  LANG_HINDI : Nat
  LANG_ARABIC : Nat
  LANG_PERSIAN : Nat
  LANG_ICELANDIC : Nat
  LANG_ITALIAN : Nat
  LANG_JAPANESE : Nat
  LANG_KYRGYZ : Nat
  LANG_KHMER : Nat
  LANG_KOREAN : Nat
  LANG_KAZAK : Nat
  LANG_LAO : Nat
  LANG_SINHALESE : Nat
  LANG_LITHUANIAN : Nat
  LANG_LATVIAN : Nat
  LANG_ROMANIAN : Nat
  LANG_SERBIAN : Nat
  LANG_MACEDONIAN : Nat
  LANG_MONGOLIAN : Nat
  LANG_MALTESE : Nat
  LANG_DIVEHI : Nat
  LANG_MALAY : Nat
  LANG_DUTCH : Nat
  LANG_NORWEGIAN : Nat
  LANG_NEPALI : Nat
  LANG_FILIPINO : Nat
  LANG_URDU : Nat
  LANG_POLISH : Nat
  LANG_RUSSIAN : Nat
  LANG_SWEDISH : Nat
  LANG_SLOVENIAN : Nat
  LANG_SLOVAK : Nat
  LANG_WOLOF : Nat
  LANG_SYRIAC : Nat
  LANG_THAI : Nat
  LANG_TAJIK : Nat
  LANG_TURKMEN : Nat
  LANG_TURKISH : Nat
  LANG_SWAHILI : Nat
  LANG_UKRAINIAN : Nat
  LANG_UZBEK : Nat
  LANG_VIETNAMESE : Nat
  LANG_MAORI : Nat
  SUBLANG_DEFAULT : Nat
  SUBLANG_GERMAN_AUSTRIAN : Nat
  SUBLANG_ENGLISH_AUS : Nat
  SUBLANG_BOSNIAN_BOSNIA_HERZEGOVINA_CYRILLIC : Nat
  SUBLANG_FRENCH_BELGIAN : Nat
  SUBLANG_TSWANA_BOTSWANA : Nat
  SUBLANG_ENGLISH_CAN : Nat
  SUBLANG_CUSTOM_UNSPECIFIED : Nat
  SUBLANG_GERMAN_SWISS : Nat
  SUBLANG_TAMAZIGHT_ALGERIA_LATIN : Nat
  SUBLANG_ENGLISH_UK : Nat
  SUBLANG_CUSTOM_DEFAULT : Nat
  SUBLANG_ENGLISH_EIRE : Nat
  SUBLANG_ARABIC_IRAQ : Nat
  SUBLANG_ARABIC_MOROCCO : Nat
  SUBLANG_SERBIAN_MONTENEGRO_LATIN : Nat
  SUBLANG_SERBIAN_LATIN : Nat
  SUBLANG_ENGLISH_SOUTH_AFRICA : Nat

/-- Modelled from the spec: MAKEWORD of windef.h, the 16-bit word with low byte
`low` and high byte `high`. -/
def MAKEWORD (low high : Nat) : Nat := low % 256 + high % 256 * 256

/-- Modelled from the spec: MAKELANGID of winnt.h, the sublanguage in the bits
from 10 on and the primary language below, as stored in a 16-bit LANGID. -/
def MAKELANGID (p s : Nat) : LANGID := ((s % 65536) <<< 10 ||| p % 65536) % 65536

/-- The macro MAKEINDEX of langid_from_xkb_layout, an int. -/
def MAKEINDEX (c0 c1 : Char) : Int :=
  (MAKEWORD c0.toNat c1.toNat : Int) - (MAKEWORD 'a'.toNat 'a'.toNat : Int)

/-- The designated initialisers `[index] = value` of the array langids, in the
order of the source. -/
def langids_init (env : winnt) : List (Int × LANGID) :=
  [(MAKEINDEX 'a' 'f', MAKELANGID env.LANG_DARI env.SUBLANG_DEFAULT),
   (MAKEINDEX 'a' 'l', MAKELANGID env.LANG_ALBANIAN env.SUBLANG_DEFAULT),
   (MAKEINDEX 'a' 'm', MAKELANGID env.LANG_ARMENIAN env.SUBLANG_DEFAULT),
   (MAKEINDEX 'a' 't', MAKELANGID env.LANG_GERMAN env.SUBLANG_GERMAN_AUSTRIAN),
   (MAKEINDEX 'a' 'z', MAKELANGID env.LANG_AZERBAIJANI env.SUBLANG_DEFAULT),
   (MAKEINDEX 'a' 'u', MAKELANGID env.LANG_ENGLISH env.SUBLANG_ENGLISH_AUS),
   (MAKEINDEX 'b' 'a', MAKELANGID env.LANG_BOSNIAN env.SUBLANG_BOSNIAN_BOSNIA_HERZEGOVINA_CYRILLIC),
   (MAKEINDEX 'b' 'd', MAKELANGID env.LANG_BANGLA env.SUBLANG_DEFAULT),
   (MAKEINDEX 'b' 'e', MAKELANGID env.LANG_FRENCH env.SUBLANG_FRENCH_BELGIAN),
   (MAKEINDEX 'b' 'g', MAKELANGID env.LANG_BULGARIAN env.SUBLANG_DEFAULT),
   (MAKEINDEX 'b' 'r', MAKELANGID env.LANG_PORTUGUESE 2),
   (MAKEINDEX 'b' 't', MAKELANGID env.LANG_TIBETAN 3),
   (MAKEINDEX 'b' 'w', MAKELANGID env.LANG_TSWANA env.SUBLANG_TSWANA_BOTSWANA),
   (MAKEINDEX 'b' 'y', MAKELANGID env.LANG_BELARUSIAN env.SUBLANG_DEFAULT),
   (MAKEINDEX 'c' 'a', MAKELANGID env.LANG_ENGLISH env.SUBLANG_ENGLISH_CAN),
   (MAKEINDEX 'c' 'd', MAKELANGID env.LANG_FRENCH env.SUBLANG_CUSTOM_UNSPECIFIED),
   (MAKEINDEX 'c' 'h', MAKELANGID env.LANG_GERMAN env.SUBLANG_GERMAN_SWISS),
   (MAKEINDEX 'c' 'm', MAKELANGID env.LANG_FRENCH 11),
   (MAKEINDEX 'c' 'n', MAKELANGID env.LANG_CHINESE env.SUBLANG_DEFAULT),
   (MAKEINDEX 'c' 'z', MAKELANGID env.LANG_CZECH env.SUBLANG_DEFAULT),
   (MAKEINDEX 'd' 'e', MAKELANGID env.LANG_GERMAN env.SUBLANG_DEFAULT),
   (MAKEINDEX 'd' 'k', MAKELANGID env.LANG_DANISH env.SUBLANG_DEFAULT),
   (MAKEINDEX 'd' 'z', MAKELANGID env.LANG_TAMAZIGHT env.SUBLANG_TAMAZIGHT_ALGERIA_LATIN),
   (MAKEINDEX 'e' 'e', MAKELANGID env.LANG_ESTONIAN env.SUBLANG_DEFAULT),
   (MAKEINDEX 'e' 's', MAKELANGID env.LANG_SPANISH env.SUBLANG_DEFAULT),
   (MAKEINDEX 'e' 't', MAKELANGID env.LANG_AMHARIC env.SUBLANG_DEFAULT),
   (MAKEINDEX 'f' 'i', MAKELANGID env.LANG_FINNISH env.SUBLANG_DEFAULT),
   (MAKEINDEX 'f' 'o', MAKELANGID env.LANG_FAEROESE env.SUBLANG_DEFAULT),
   (MAKEINDEX 'f' 'r', MAKELANGID env.LANG_FRENCH env.SUBLANG_DEFAULT),
   (MAKEINDEX 'g' 'b', MAKELANGID env.LANG_ENGLISH env.SUBLANG_ENGLISH_UK),
   (MAKEINDEX 'g' 'e', MAKELANGID env.LANG_GEORGIAN env.SUBLANG_DEFAULT),
   (MAKEINDEX 'g' 'h', MAKELANGID env.LANG_ENGLISH env.SUBLANG_CUSTOM_UNSPECIFIED),
   (MAKEINDEX 'g' 'n', MAKELANGID env.LANG_NEUTRAL env.SUBLANG_CUSTOM_DEFAULT),
   (MAKEINDEX 'g' 'r', MAKELANGID env.LANG_GREEK env.SUBLANG_DEFAULT),
   (MAKEINDEX 'h' 'r', MAKELANGID env.LANG_CROATIAN env.SUBLANG_DEFAULT),
   (MAKEINDEX 'h' 'u', MAKELANGID env.LANG_HUNGARIAN env.SUBLANG_DEFAULT),
   (MAKEINDEX 'i' 'd', MAKELANGID env.LANG_INDONESIAN env.SUBLANG_DEFAULT),
   (MAKEINDEX 'i' 'e', MAKELANGID env.LANG_ENGLISH env.SUBLANG_ENGLISH_EIRE),
   (MAKEINDEX 'i' 'l', MAKELANGID env.LANG_HEBREW env.SUBLANG_DEFAULT),
   (MAKEINDEX 'i' 'n', MAKELANGID env.LANG_HINDI env.SUBLANG_DEFAULT),
   (MAKEINDEX 'i' 'q', MAKELANGID env.LANG_ARABIC env.SUBLANG_ARABIC_IRAQ),
   (MAKEINDEX 'i' 'r', MAKELANGID env.LANG_PERSIAN env.SUBLANG_DEFAULT),
   (MAKEINDEX 'i' 's', MAKELANGID env.LANG_ICELANDIC env.SUBLANG_DEFAULT),
   (MAKEINDEX 'i' 't', MAKELANGID env.LANG_ITALIAN env.SUBLANG_DEFAULT),
   (MAKEINDEX 'j' 'p', MAKELANGID env.LANG_JAPANESE env.SUBLANG_DEFAULT),
   (MAKEINDEX 'k' 'e', MAKELANGID env.LANG_NEUTRAL env.SUBLANG_CUSTOM_DEFAULT),
   (MAKEINDEX 'k' 'g', MAKELANGID env.LANG_KYRGYZ env.SUBLANG_DEFAULT),
   (MAKEINDEX 'k' 'h', MAKELANGID env.LANG_KHMER env.SUBLANG_DEFAULT),
   (MAKEINDEX 'k' 'r', MAKELANGID env.LANG_KOREAN env.SUBLANG_DEFAULT),
   (MAKEINDEX 'k' 'z', MAKELANGID env.LANG_KAZAK env.SUBLANG_DEFAULT),
   (MAKEINDEX 'l' 'a', MAKELANGID env.LANG_LAO env.SUBLANG_DEFAULT),
   (MAKEINDEX 'l' 'k', MAKELANGID env.LANG_SINHALESE env.SUBLANG_DEFAULT),
   (MAKEINDEX 'l' 't', MAKELANGID env.LANG_LITHUANIAN env.SUBLANG_DEFAULT),
   (MAKEINDEX 'l' 'v', MAKELANGID env.LANG_LATVIAN env.SUBLANG_DEFAULT),
   (MAKEINDEX 'm' 'a', MAKELANGID env.LANG_ARABIC env.SUBLANG_ARABIC_MOROCCO),
   (MAKEINDEX 'm' 'd', MAKELANGID env.LANG_ROMANIAN env.SUBLANG_CUSTOM_UNSPECIFIED),
   (MAKEINDEX 'm' 'e', MAKELANGID env.LANG_SERBIAN env.SUBLANG_SERBIAN_MONTENEGRO_LATIN),
   (MAKEINDEX 'm' 'k', MAKELANGID env.LANG_MACEDONIAN env.SUBLANG_DEFAULT),
   (MAKEINDEX 'm' 'l', MAKELANGID env.LANG_NEUTRAL env.SUBLANG_CUSTOM_DEFAULT),
   (MAKEINDEX 'm' 'm', MAKELANGID 0x55 env.SUBLANG_DEFAULT),
   (MAKEINDEX 'm' 'n', MAKELANGID env.LANG_MONGOLIAN env.SUBLANG_DEFAULT),
   (MAKEINDEX 'm' 't', MAKELANGID env.LANG_MALTESE env.SUBLANG_DEFAULT),
   (MAKEINDEX 'm' 'v', MAKELANGID env.LANG_DIVEHI env.SUBLANG_DEFAULT),
   (MAKEINDEX 'm' 'y', MAKELANGID env.LANG_MALAY env.SUBLANG_DEFAULT),
   (MAKEINDEX 'n' 'g', MAKELANGID env.LANG_ENGLISH env.SUBLANG_CUSTOM_UNSPECIFIED),
   (MAKEINDEX 'n' 'l', MAKELANGID env.LANG_DUTCH env.SUBLANG_DEFAULT),
   (MAKEINDEX 'n' 'o', MAKELANGID env.LANG_NORWEGIAN env.SUBLANG_DEFAULT),
   (MAKEINDEX 'n' 'p', MAKELANGID env.LANG_NEPALI env.SUBLANG_DEFAULT),
   (MAKEINDEX 'p' 'h', MAKELANGID env.LANG_FILIPINO env.SUBLANG_DEFAULT),
   (MAKEINDEX 'p' 'k', MAKELANGID env.LANG_URDU env.SUBLANG_DEFAULT),
   (MAKEINDEX 'p' 'l', MAKELANGID env.LANG_POLISH env.SUBLANG_DEFAULT),
   (MAKEINDEX 'p' 't', MAKELANGID env.LANG_PORTUGUESE env.SUBLANG_DEFAULT),
   (MAKEINDEX 'r' 'o', MAKELANGID env.LANG_ROMANIAN env.SUBLANG_DEFAULT),
   (MAKEINDEX 'r' 's', MAKELANGID env.LANG_SERBIAN env.SUBLANG_SERBIAN_LATIN),
   (MAKEINDEX 'r' 'u', MAKELANGID env.LANG_RUSSIAN env.SUBLANG_DEFAULT),
   (MAKEINDEX 's' 'e', MAKELANGID env.LANG_SWEDISH env.SUBLANG_DEFAULT),
   (MAKEINDEX 's' 'i', MAKELANGID env.LANG_SLOVENIAN env.SUBLANG_DEFAULT),
   (MAKEINDEX 's' 'k', MAKELANGID env.LANG_SLOVAK env.SUBLANG_DEFAULT),
   (MAKEINDEX 's' 'n', MAKELANGID env.LANG_WOLOF env.SUBLANG_DEFAULT),
   (MAKEINDEX 's' 'y', MAKELANGID env.LANG_SYRIAC env.SUBLANG_DEFAULT),
   (MAKEINDEX 't' 'g', MAKELANGID env.LANG_FRENCH env.SUBLANG_CUSTOM_UNSPECIFIED),
   (MAKEINDEX 't' 'h', MAKELANGID env.LANG_THAI env.SUBLANG_DEFAULT),
   (MAKEINDEX 't' 'j', MAKELANGID env.LANG_TAJIK env.SUBLANG_DEFAULT),
   (MAKEINDEX 't' 'm', MAKELANGID env.LANG_TURKMEN env.SUBLANG_DEFAULT),
   (MAKEINDEX 't' 'r', MAKELANGID env.LANG_TURKISH env.SUBLANG_DEFAULT),
   (MAKEINDEX 't' 'w', MAKELANGID env.LANG_CHINESE env.SUBLANG_CUSTOM_UNSPECIFIED),
   (MAKEINDEX 't' 'z', MAKELANGID env.LANG_SWAHILI env.SUBLANG_CUSTOM_UNSPECIFIED),
   (MAKEINDEX 'u' 'a', MAKELANGID env.LANG_UKRAINIAN env.SUBLANG_DEFAULT),
   (MAKEINDEX 'u' 's', MAKELANGID env.LANG_ENGLISH env.SUBLANG_DEFAULT),
   (MAKEINDEX 'u' 'z', MAKELANGID env.LANG_UZBEK 2),
   (MAKEINDEX 'v' 'n', MAKELANGID env.LANG_VIETNAMESE env.SUBLANG_DEFAULT),
   (MAKEINDEX 'z' 'a', MAKELANGID env.LANG_ENGLISH env.SUBLANG_ENGLISH_SOUTH_AFRICA)]

/-- A C array defined without a length by designated initialisers: it extends
to the largest designated index, a later initialiser for an index overrides an
earlier one and the elements without initialiser are zero. -/
def designated_array (inits : List (Int × LANGID)) : List LANGID :=
  (List.range ((inits.map (fun e => e.1.toNat + 1)).foldl max 0)).map
    (fun (i : Nat) => match inits.reverse.find? (fun e => e.1 = (i : Int)) with
      | some e => e.2
      | none => 0)

/-- The static array langids. -/
def langids (env : winnt) : List LANGID := designated_array (langids_init env)

/-- The element `xs[index]` of a C array; `none` when the index lies outside
the array (the read is undefined). -/
def array_read (xs : List LANGID) (index : Int) : Option LANGID :=
  if 0 ≤ index then xs.get? index.toNat else none

/-- langid_from_xkb_layout: `layout` holds the `layout_len` characters of the
layout name. The result is `none` when the table is read outside its bounds. -/
def langid_from_xkb_layout (env : winnt) (layout : List Char) : Option LANGID :=
  let special : LANGID :=
    if layout = ['a', 'r', 'a'] then MAKELANGID env.LANG_ARABIC env.SUBLANG_DEFAULT
    else if layout = ['e', 'p', 'o'] then MAKELANGID env.LANG_NEUTRAL env.SUBLANG_CUSTOM_DEFAULT
    else if layout = ['m', 'a', 'o'] then MAKELANGID env.LANG_MAORI env.SUBLANG_DEFAULT
    else if layout = ['b', 'r', 'a', 'i'] then
      MAKELANGID env.LANG_NEUTRAL env.SUBLANG_CUSTOM_DEFAULT
    else if layout = ['l', 'a', 't', 'a', 'm'] then
      MAKELANGID env.LANG_SPANISH env.SUBLANG_CUSTOM_UNSPECIFIED
    else MAKELANGID env.LANG_NEUTRAL env.SUBLANG_CUSTOM_UNSPECIFIED
  match layout with
  | [c0, c1] =>
    match array_read (langids env) (MAKEINDEX c0 c1) with
    | none => none
    | some langid => if langid ≠ 0 then some langid else some special
  | _ => some special

/-- The arguments of the three calls keyboard_handle_repeat_info makes:
NtUserSystemParametersInfo with SPI_SETKEYBOARDSPEED and with
SPI_SETKEYBOARDDELAY, and NtUserCallOneParam with
NtUserCallOneParam_SetKeyboardAutoRepeat. -/
structure keyboard_settings where
  SPI_SETKEYBOARDSPEED : Int
  SPI_SETKEYBOARDDELAY : Int
  SetKeyboardAutoRepeat : Bool
deriving DecidableEq, Repr

/-- The value `round(delay / 250.0)` of an int `delay`: the quotient rounded
to the nearest integer, halves away from zero. The quotients at which the
rounding changes are halves, which a double holds exactly, so the double
computation gives this integer. -/
def round_delay_250 (delay : Int) : Int :=
  if 0 ≤ delay then (delay + 125).tdiv 250 else -((-delay + 125).tdiv 250)

/-- keyboard_handle_repeat_info. The product `rate * 400` is only formed for
`5 ≤ rate < 80`, where it does not overflow an int, and C division truncates. -/
def keyboard_handle_repeat_info (rate delay : Int) : keyboard_settings :=
  let speed : Int :=
    if rate ≥ 80 then 31
    else if rate ≥ 5 then (rate * 400).tdiv 1000 - 1
    else 0
  let delay : Int := max 0 (min 3 (round_delay_250 delay - 1))
  ⟨speed, delay, decide (rate > 0)⟩

end WaylandKeyboard

namespace Gdiplus

theorem deref_lt {h : Heap} {p : Nat} {r : GpRegion} (hp : h.deref p = some r) :
    p < h.regions.length := by
  unfold Heap.deref at hp
  by_contra hlt
  have : h.regions.get? p = none := by
    simp only [List.get?_eq_getElem?]
    exact List.getElem?_eq_none (Nat.le_of_not_lt hlt)
  rw [this] at hp
  simp at hp

theorem deref_allocs (h : Heap) (a : List Bool) (p : Nat) :
    Heap.deref { h with allocs := a } p = h.deref p := rfl

theorem deref_store (h : Heap) {p : Nat} (hp : p < h.regions.length) (x : GpRegion) (q : Nat) :
    (h.store p x).deref q = if q = p then some x else h.deref q := by
  unfold Heap.deref Heap.store
  simp only [List.get?_eq_getElem?, List.getElem?_set]
  by_cases hq : p = q
  · subst hq; simp [hp]
  · have : ¬ q = p := fun e => hq e.symm
    simp [hq, this]

theorem deref_free (h : Heap) (p q : Nat) :
    (h.free p).deref q = if q = p then none else h.deref q := by
  unfold Heap.deref Heap.free
  simp only [List.get?_eq_getElem?, List.getElem?_set]
  by_cases hq : p = q
  · subst hq
    by_cases hp : p < h.regions.length <;> simp [hp]
  · have : ¬ q = p := fun e => hq e.symm
    simp [hq, this]

theorem alloc_region_some {h h1 : Heap} {q : Nat} (ha : h.alloc_region = (some q, h1)) :
    q = h.regions.length ∧ h1.regions = h.regions ++ [none] ∧
      h1.allocs = (GdipAlloc h.allocs).2 := by
  unfold Heap.alloc_region at ha
  split at ha
  · simp only [Prod.mk.injEq, Option.some.injEq] at ha
    obtain ⟨h1q, h2⟩ := ha
    subst h2
    rename_i rest heq
    simp [h1q.symm, heq]
  · simp at ha

theorem alloc_region_none {h h1 : Heap} (ha : h.alloc_region = (none, h1)) :
    h1.regions = h.regions := by
  unfold Heap.alloc_region at ha
  split at ha
  · simp at ha
  · simp only [Prod.mk.injEq, true_and] at ha
    subst ha
    rfl

theorem deref_append_none (h : Heap) (a : List Bool) (p : Nat) :
    Heap.deref { regions := h.regions ++ [none], allocs := a } p = h.deref p := by
  unfold Heap.deref
  simp only [List.get?_eq_getElem?]
  by_cases hp : p < h.regions.length
  · rw [List.getElem?_append_left hp]
  · have h1 : h.regions[p]? = none := List.getElem?_eq_none (Nat.le_of_not_lt hp)
    rw [h1]
    by_cases hp2 : p = h.regions.length
    · subst hp2
      simp
    · have : (h.regions ++ [none])[p]? = none := by
        apply List.getElem?_eq_none
        simp
        omega
      rw [this]

/-! ## Memory -/

theorem memcpy_nil (b : Buffer) (d : Nat) : memcpy b d [] = b := by
  funext a
  unfold memcpy
  simp only [List.length_nil, Nat.add_zero]
  split
  · omega
  · rfl

theorem memcpy_append (b : Buffer) (d : Nat) (xs ys : List BYTE) :
    memcpy (memcpy b d xs) (d + xs.length) ys = memcpy b d (xs ++ ys) := by
  funext a
  unfold memcpy
  simp only [List.length_append]
  by_cases h1 : d ≤ a ∧ a < d + xs.length
  · have h2 : ¬ (d + xs.length ≤ a ∧ a < d + xs.length + ys.length) := by omega
    have h3 : d ≤ a ∧ a < d + (xs.length + ys.length) := by omega
    rw [if_neg h2, if_pos h1, if_pos h3, List.getD_append _ _ _ _ (by omega)]
  · by_cases h2 : d + xs.length ≤ a ∧ a < d + xs.length + ys.length
    · have h3 : d ≤ a ∧ a < d + (xs.length + ys.length) := by omega
      rw [if_pos h2, if_pos h3, List.getD_append_right _ _ _ _ (by omega)]
      congr 1
      omega
    · have h3 : ¬ (d ≤ a ∧ a < d + (xs.length + ys.length)) := by omega
      rw [if_neg h2, if_neg h1, if_neg h3]

theorem memcpy_append_at (b : Buffer) (d d2 : Nat) (xs ys : List BYTE)
    (hd : d2 = d + xs.length) : memcpy (memcpy b d xs) d2 ys = memcpy b d (xs ++ ys) := by
  subst hd
  exact memcpy_append b d xs ys

theorem ZeroMemory_eq (b : Buffer) (d n : Nat) :
    ZeroMemory b d n = memcpy b d (List.replicate n 0) := by
  funext a
  unfold ZeroMemory memcpy
  simp only [List.length_replicate]
  split
  · rename_i h
    rw [List.getD_eq_getElem _ _ (by simp; omega)]
    simp
  · rfl

theorem memcpy_outside (b : Buffer) (d : Nat) (xs : List BYTE) (a : Nat)
    (ha : a < d ∨ d + xs.length ≤ a) : memcpy b d xs a = b a := by
  unfold memcpy
  rw [if_neg (by omega)]

theorem read_length (b : Buffer) (s n : Nat) : (b.read s n).length = n := by
  simp [Buffer.read]

theorem read_memcpy (b : Buffer) (d : Nat) (xs : List BYTE) :
    (memcpy b d xs).read d xs.length = xs := by
  apply List.ext_getElem
  · simp [Buffer.read]
  · intro n h1 h2
    simp only [Buffer.read, List.getElem_map, List.getElem_range]
    unfold memcpy
    rw [if_pos (by omega), List.getD_eq_getElem _ _ (by omega)]
    congr 1
    omega

theorem read_append (b : Buffer) (s n m : Nat) :
    b.read s (n + m) = b.read s n ++ b.read (s + n) m := by
  apply List.ext_getElem
  · simp [Buffer.read]
  · intro i h1 h2
    simp only [Buffer.read, List.getElem_map, List.getElem_range]
    by_cases hi : i < n
    · rw [List.getElem_append_left (by simpa using hi)]
      simp
    · rw [List.getElem_append_right (by simpa using hi)]
      simp only [List.length_map, List.length_range, List.getElem_map, List.getElem_range]
      congr 1
      omega

theorem read_memcpy_head (b : Buffer) (d : Nat) (xs ys : List BYTE) :
    (memcpy b d (xs ++ ys)).read d xs.length = xs := by
  have h := read_memcpy b d (xs ++ ys)
  rw [List.length_append, read_append] at h
  have h2 := List.append_inj_left h (by simp [Buffer.read])
  exact h2

theorem read_memcpy_tail (b : Buffer) (d : Nat) (xs ys : List BYTE) :
    (memcpy b d (xs ++ ys)).read (d + xs.length) ys.length = ys := by
  have h := read_memcpy b d (xs ++ ys)
  rw [List.length_append, read_append] at h
  have h2 := List.append_inj_right h (by simp [Buffer.read])
  exact h2

/-! ## The writers store the node stream -/

theorem dword_bytes_length (w : DWORD) : (dword_bytes w).length = 4 := rfl

theorem short_bytes_length (v : Int) : (short_bytes v).length = 2 := rfl

theorem writes_dword (w : DWORD) : Writes (fun b f => write_dword b f w) (dword_bytes w) :=
  ⟨by rw [dword_bytes_length], fun _ _ => by rw [dword_bytes_length]; rfl⟩

theorem writes_float (w : REAL) : Writes (fun b f => write_float b f w) (dword_bytes w) :=
  ⟨by rw [dword_bytes_length], fun _ _ => by rw [dword_bytes_length]; rfl⟩

theorem writes_packed_point (ops : RealOps) (pt : GpPointF) :
    Writes (fun b f => write_packed_point ops b f pt)
      (short_bytes (ops.to_short pt.X) ++ short_bytes (ops.to_short pt.Y)) := by
  have hl : (short_bytes (ops.to_short pt.X) ++ short_bytes (ops.to_short pt.Y)).length = 4 := rfl
  exact ⟨by rw [hl], fun _ _ => by rw [hl]; rfl⟩

theorem writes_nil : Writes (fun b f => (b, f)) [] := by
  refine ⟨rfl, fun b f => ?_⟩
  rw [memcpy_nil]
  rfl

theorem writes_seq {w1 w2 : Buffer → Nat → Buffer × Nat} {bs1 bs2 : List BYTE}
    (h1 : Writes w1 bs1) (h2 : Writes w2 bs2) :
    Writes (fun b f => match w1 b f with | (b1, f1) => w2 b1 f1) (bs1 ++ bs2) := by
  obtain ⟨l1, e1⟩ := h1
  obtain ⟨l2, e2⟩ := h2
  refine ⟨by rw [List.length_append]; omega, fun b f => ?_⟩
  simp only [e1, e2]
  rw [memcpy_append_at b _ _ bs1 bs2 (by unfold sizeof_DWORD; omega), List.length_append]
  congr 1
  omega

theorem writes_congr {w1 w2 : Buffer → Nat → Buffer × Nat} {bs : List BYTE}
    (h : ∀ b f, w1 b f = w2 b f) (h2 : Writes w2 bs) : Writes w1 bs :=
  ⟨h2.1, fun b f => by rw [h, h2.2]⟩

theorem writes_float_points (points : List GpPointF) :
    Writes (write_float_points points)
      (points.flatMap (fun pt => dword_bytes pt.X ++ dword_bytes pt.Y)) := by
  induction points with
  | nil => exact writes_nil
  | cons pt rest ih =>
    have h := writes_seq (writes_seq (writes_float pt.X) (writes_float pt.Y)) ih
    rw [List.flatMap_cons]
    exact writes_congr (fun b f => by simp only [write_float_points]) h

theorem writes_packed_points (ops : RealOps) (points : List GpPointF) :
    Writes (write_packed_points ops points)
      (points.flatMap
        (fun pt => short_bytes (ops.to_short pt.X) ++ short_bytes (ops.to_short pt.Y))) := by
  induction points with
  | nil => exact writes_nil
  | cons pt rest ih =>
    have h := writes_seq (writes_packed_point ops pt) ih
    rw [List.flatMap_cons]
    exact writes_congr (fun b f => by simp only [write_packed_points]) h

theorem get_pathtypes_size_eq (path : GpPath) :
    get_pathtypes_size path = 4 * ((path.Count + 3) / 4) := by
  unfold get_pathtypes_size sizeof_DWORD
  simp only
  split <;> omega

theorem Types_length (path : GpPath) : path.Types.length = path.Count := by
  simp [GpPath.Types, GpPath.Count]

theorem Points_length (path : GpPath) : path.Points.length = path.Count := by
  simp [GpPath.Points, GpPath.Count]

theorem types_payload_length (path : GpPath) :
    (types_payload path).length = get_pathtypes_size path := by
  unfold types_payload
  rw [List.length_append, List.length_replicate, Types_length, get_pathtypes_size_eq]
  omega

theorem writes_path_types (path : GpPath) :
    Writes (fun b f => write_path_types b f path) (types_payload path) := by
  refine ⟨by rw [types_payload_length, get_pathtypes_size_eq]; omega, fun b f => ?_⟩
  unfold write_path_types
  simp only
  rw [types_payload_length]
  have hsz := get_pathtypes_size_eq path
  congr 1
  · unfold types_payload
    split
    · rename_i hc
      rw [ZeroMemory_eq, memcpy_append_at _ _ _ _ _ (by rw [Types_length])]
      have : sizeof_DWORD - path.Count % sizeof_DWORD = get_pathtypes_size path - path.Count := by
        unfold sizeof_DWORD at *
        omega
      rw [this]
    · rename_i hc
      have : get_pathtypes_size path - path.Count = 0 := by
        unfold sizeof_DWORD at *
        omega
      rw [this]
      simp

theorem point_payload_length_mod (ops : RealOps) (flags : DWORD) (points : List GpPointF) :
    (point_payload ops flags points).length % 4 = 0 := by
  unfold point_payload
  split
  · exact (writes_float_points points).1
  · split
    · exact (writes_packed_points ops points).1
    · rfl

theorem path_header_bytes_length (ph : path_header) : ph.bytes.length = 16 := rfl

theorem region_header_bytes_length (hd : region_header) : hd.bytes.length = 16 := rfl

theorem writes_path_header (ph : path_header) :
    Writes (fun b f => (memcpy b (f * sizeof_DWORD) ph.bytes,
      f + sizeof_path_header / sizeof_DWORD)) ph.bytes :=
  ⟨by rw [path_header_bytes_length], fun _ _ => by rw [path_header_bytes_length]; rfl⟩

theorem writes_point_payload (ops : RealOps) (flags : DWORD) (points : List GpPointF) :
    Writes (fun b f => if flags = FLAGS_NOFLAGS then write_float_points points b f
        else if flags = FLAGS_INTPATH then write_packed_points ops points b f
        else (b, f)) (point_payload ops flags points) := by
  unfold point_payload
  split
  · exact writes_float_points points
  · split
    · exact writes_packed_points ops points
    · exact writes_nil

/-- write_element stores the node stream of the element at the current
offset, whatever the buffer held, and advances the offset by its number of
words. -/
theorem write_element_eq (ops : RealOps) (e : region_element) :
    Writes (write_element ops e) (node_stream ops e) := by
  induction e with
  | rect rc =>
    exact writes_congr (fun b f => by simp only [write_element])
      (writes_seq (writes_dword _) (writes_seq (writes_float rc.X) (writes_seq (writes_float rc.Y)
        (writes_seq (writes_float rc.Width) (writes_float rc.Height)))))
  | path ph path =>
    exact writes_congr (fun b f => by simp only [write_element])
      (writes_seq (writes_dword _) (writes_seq (writes_path_header ph)
        (writes_seq (writes_point_payload ops ph.flags path.Points) (writes_path_types path))))
  | empty => exact writes_congr (fun b f => by simp only [write_element]) (writes_dword _)
  | infinite => exact writes_congr (fun b f => by simp only [write_element]) (writes_dword _)
  | combine mode l r ihl ihr =>
    exact writes_congr (fun b f => by simp only [write_element])
      (writes_seq (writes_dword _) (writes_seq ihl ihr))

/-! ## Heap steps -/

theorem same_refl (h : Heap) : Heap.Same h h := fun _ => rfl

theorem same_allocs (h : Heap) (a : List Bool) : Heap.Same h { h with allocs := a } :=
  fun _ => rfl

theorem same_trans {h1 h2 h3 : Heap} (a : Heap.Same h1 h2) (b : Heap.Same h2 h3) :
    Heap.Same h1 h3 := fun q => (b q).trans (a q)

theorem all_same {P : GpRegion → Prop} {h h2 : Heap} (hs : Heap.Same h h2)
    (ha : Heap.All P h) : Heap.All P h2 :=
  fun p r hp => ha p r ((hs p).symm.trans hp)

theorem all_updated {P : GpRegion → Prop} {h h2 : Heap} {p : Nat} {x : GpRegion}
    (hu : Heap.Updated h h2 p x) (hx : P x) (ha : Heap.All P h) : Heap.All P h2 := by
  intro q r hq
  rw [hu q] at hq
  split at hq
  · simp only [Option.some.injEq] at hq
    exact hq ▸ hx
  · exact ha q r hq

theorem alloc_region_fresh {h h1 : Heap} {q : Nat} (ha : h.alloc_region = (some q, h1)) :
    h.deref q = none ∧ Heap.Same h h1 ∧ q < h1.regions.length := by
  obtain ⟨hq, hr, _⟩ := alloc_region_some ha
  refine ⟨?_, ?_, ?_⟩
  · cases hd : h.deref q with
    | none => rfl
    | some r =>
      have := deref_lt hd
      omega
  · intro x
    have := deref_append_none h h1.allocs x
    rw [← hr] at this
    exact this
  · rw [hr, List.length_append]
    simp
    omega

theorem alloc_region_fail {h h1 : Heap} (ha : h.alloc_region = (none, h1)) :
    Heap.Same h h1 := by
  intro q
  unfold Heap.deref
  rw [alloc_region_none ha]

theorem updated_store {h : Heap} {p : Nat} (hp : p < h.regions.length) (x : GpRegion) :
    Heap.Updated h (h.store p x) p x := fun q => deref_store h hp x q

theorem updated_of_fresh {h h1 : Heap} {q : Nat} (ha : h.alloc_region = (some q, h1))
    (a : List Bool) (x : GpRegion) :
    Heap.Updated h (Heap.store { h1 with allocs := a } q x) q x := by
  obtain ⟨_, hs, hl⟩ := alloc_region_fresh ha
  intro p
  have h1p : (Heap.store { h1 with allocs := a } q x).deref p
      = if p = q then some x else Heap.deref { h1 with allocs := a } p :=
    deref_store { h1 with allocs := a } hl x p
  rw [h1p]
  split
  · rfl
  · exact hs p

theorem same_of_fresh_free {h h1 : Heap} {q : Nat} (ha : h.alloc_region = (some q, h1))
    (a : List Bool) (x : GpRegion) :
    Heap.Same h (Heap.free (Heap.store { h1 with allocs := a } q x) q) := by
  obtain ⟨hn, _, _⟩ := alloc_region_fresh ha
  intro p
  rw [deref_free, updated_of_fresh ha a x p]
  split
  · rename_i hp
    rw [hp, hn]
  · rfl

/-! ## clone_element -/

theorem clone_element_spec (e : region_element) :
    ∀ (a : List Bool) (b : Bool), ∃ a2,
      clone_element a e b = (GpStatus.Ok, some e, a2) ∨
      clone_element a e b = (GpStatus.OutOfMemory, none, a2) := by
  induction e with
  | rect rc =>
    intro a b
    unfold clone_element
    split
    · exact ⟨_, Or.inr rfl⟩
    · exact ⟨_, Or.inl rfl⟩
  | empty =>
    intro a b
    unfold clone_element
    split
    · exact ⟨_, Or.inr rfl⟩
    · exact ⟨_, Or.inl rfl⟩
  | infinite =>
    intro a b
    unfold clone_element
    split
    · exact ⟨_, Or.inr rfl⟩
    · exact ⟨_, Or.inl rfl⟩
  | path ph p =>
    intro a b
    unfold clone_element
    split
    · exact ⟨_, Or.inr rfl⟩
    · rename_i a1 _
      unfold GdipClonePath
      rcases hg : GdipAlloc a1 with ⟨ok, rest⟩
      cases ok
      · exact ⟨rest, Or.inr (by simp)⟩
      · exact ⟨rest, Or.inl (by simp)⟩
  | combine m l r ihl ihr =>
    intro a b
    unfold clone_element
    split
    · exact ⟨_, Or.inr rfl⟩
    · rename_i a1 _
      obtain ⟨a2, hl | hl⟩ := ihl a1 false
      · obtain ⟨a3, hr | hr⟩ := ihr a2 false
        · exact ⟨a3, Or.inl (by simp [hl, hr])⟩
        · exact ⟨a3, Or.inr (by simp [hl, hr])⟩
      · exact ⟨a2, Or.inr (by simp [hl])⟩

theorem clone_element_ok {a a2 : List Bool} {e : region_element} {b : Bool}
    {x : Option region_element} (h : clone_element a e b = (GpStatus.Ok, x, a2)) :
    x = some e := by
  obtain ⟨a3, h2 | h2⟩ := clone_element_spec e a b
  · rw [h] at h2
    simp only [Prod.mk.injEq] at h2
    exact h2.2.1
  · rw [h] at h2
    simp at h2

theorem clone_element_fail {a a2 : List Bool} {e : region_element} {b : Bool}
    {st : GpStatus} {x : Option region_element} (h : clone_element a e b = (st, x, a2))
    (hst : st ≠ GpStatus.Ok) : st = GpStatus.OutOfMemory ∧ x = none := by
  obtain ⟨a3, h2 | h2⟩ := clone_element_spec e a b
  · rw [h] at h2
    simp only [Prod.mk.injEq] at h2
    exact absurd h2.1 hst
  · rw [h] at h2
    simp only [Prod.mk.injEq] at h2
    exact ⟨h2.1, h2.2.1⟩

theorem clone_element_no_allocs (e : region_element) (b : Bool) :
    (clone_element [] e b) = (GpStatus.Ok, some e, []) := by
  induction e generalizing b with
  | rect rc => cases b <;> rfl
  | empty => cases b <;> rfl
  | infinite => cases b <;> rfl
  | path ph p => cases b <;> rfl
  | combine m l r ihl ihr =>
    unfold clone_element
    have : (if b = true then (true, ([] : List Bool)) else GdipAlloc []) = (true, []) := by
      cases b <;> rfl
    rw [this]
    simp [ihl, ihr]

/-! ## What each operation does to the heap -/

theorem init_region_status (t : RegionType) : (init_region t).1 = GpStatus.Ok := rfl

theorem GdipCreateRegion_spec {h h2 : Heap} {st : GpStatus} {out : Option Nat} {region : Bool}
    (hc : GdipCreateRegion h region = some (st, out, h2)) :
    (st ≠ GpStatus.Ok ∧ Heap.Same h h2) ∨
    (st = GpStatus.Ok ∧ ∃ p, out = some p ∧ h.deref p = none ∧
      Heap.Updated h h2 p (init_region RegionType.RegionDataInfiniteRect).2) := by
  unfold GdipCreateRegion at hc
  cases region with
  | false =>
    simp only [Option.some.injEq, Prod.mk.injEq] at hc
    obtain ⟨rfl, _, rfl⟩ := hc
    exact Or.inl ⟨by decide, same_refl _⟩
  | true =>
    simp only at hc
    rcases ha : h.alloc_region with ⟨_ | p, h1⟩
    · rw [ha] at hc
      simp only [Option.some.injEq, Prod.mk.injEq] at hc
      obtain ⟨rfl, _, rfl⟩ := hc
      exact Or.inl ⟨by decide, alloc_region_fail ha⟩
    · rw [ha] at hc
      simp only [Option.some.injEq, Prod.mk.injEq] at hc
      obtain ⟨rfl, rfl, rfl⟩ := hc
      refine Or.inr ⟨rfl, p, rfl, (alloc_region_fresh ha).1, ?_⟩
      exact updated_of_fresh ha h1.allocs _

theorem GdipCreateRegionRect_spec {h h2 : Heap} {st : GpStatus} {out : Option Nat}
    {rect : Option GpRectF} {region : Bool}
    (hc : GdipCreateRegionRect h rect region = some (st, out, h2)) :
    (st ≠ GpStatus.Ok ∧ Heap.Same h h2) ∨
    (st = GpStatus.Ok ∧ ∃ p rc, rect = some rc ∧ out = some p ∧ h.deref p = none ∧
      Heap.Updated h h2 p (rect_region rc)) := by
  unfold GdipCreateRegionRect at hc
  split at hc
  · rename_i rc
    rcases ha : h.alloc_region with ⟨_ | p, h1⟩
    · rw [ha] at hc
      simp at hc
    · rw [ha] at hc
      simp only [init_region, ne_eq, not_true_eq_false, ↓reduceIte, Option.some.injEq,
        Prod.mk.injEq] at hc
      obtain ⟨rfl, rfl, rfl⟩ := hc
      refine Or.inr ⟨rfl, p, rc, rfl, rfl, (alloc_region_fresh ha).1, ?_⟩
      exact updated_of_fresh ha h1.allocs _
  · simp only [Option.some.injEq, Prod.mk.injEq] at hc
    obtain ⟨rfl, _, rfl⟩ := hc
    exact Or.inl ⟨by decide, same_refl _⟩

theorem integer_path_test_flags (ops : RealOps) (a : List Bool) (path : GpPath) (count : Nat) :
    (integer_path_test ops a path count).2.1 = FLAGS_NOFLAGS ∨
    (integer_path_test ops a path count).2.1 = FLAGS_INTPATH := by
  unfold integer_path_test
  split
  · exact Or.inr rfl
  · simp only
    split
    · exact Or.inr rfl
    · split
      · exact Or.inr rfl
      · split
        · exact Or.inr rfl
        · simp only
          split
          · exact Or.inr rfl
          · exact Or.inl rfl

theorem GdipClonePath_spec (a : List Bool) (path : GpPath) :
    ∃ a2, GdipClonePath a path = (GpStatus.Ok, some path, a2) ∨
      GdipClonePath a path = (GpStatus.OutOfMemory, none, a2) := by
  unfold GdipClonePath
  rcases GdipAlloc a with ⟨ok, rest⟩
  cases ok
  · exact ⟨rest, Or.inr rfl⟩
  · exact ⟨rest, Or.inl rfl⟩

theorem GdipCreateRegionPath_spec {ops : RealOps} {h h2 : Heap} {st : GpStatus}
    {out : Option Nat} {path : Option GpPath} {region : Bool}
    (hc : GdipCreateRegionPath ops h path region = some (st, out, h2)) :
    (st ≠ GpStatus.Ok ∧ Heap.Same h h2) ∨
    (st = GpStatus.Ok ∧ ∃ p pa flags, path = some pa ∧ out = some p ∧ h.deref p = none ∧
      (flags = FLAGS_NOFLAGS ∨ flags = FLAGS_INTPATH) ∧
      Heap.Updated h h2 p (path_region pa flags)) := by
  unfold GdipCreateRegionPath at hc
  split at hc
  · rename_i pa
    rcases ha : h.alloc_region with ⟨_ | p, h1⟩
    · rw [ha] at hc
      simp only [Option.some.injEq, Prod.mk.injEq] at hc
      obtain ⟨rfl, _, rfl⟩ := hc
      exact Or.inl ⟨by decide, alloc_region_fail ha⟩
    · rw [ha] at hc
      simp only [init_region_status, ne_eq, not_true_eq_false, ↓reduceIte] at hc
      have hfl := integer_path_test_flags ops (h1.store p (init_region .RegionDataPath).2).allocs
        pa pa.Count
      rcases ht : integer_path_test ops (h1.store p (init_region .RegionDataPath).2).allocs
        pa pa.Count with ⟨stat1, flags, rest1⟩
      rw [ht] at hc hfl
      simp only at hc hfl
      by_cases hs1 : stat1 = GpStatus.Ok
      · rw [if_neg (by simpa using hs1)] at hc
        obtain ⟨a2, hp | hp⟩ := GdipClonePath_spec rest1 pa
        · rw [hp] at hc
          simp only [ne_eq, not_true_eq_false, ↓reduceIte, Option.some.injEq,
            Prod.mk.injEq] at hc
          obtain ⟨rfl, rfl, rfl⟩ := hc
          refine Or.inr ⟨rfl, p, pa, flags, rfl, rfl, (alloc_region_fresh ha).1, hfl, ?_⟩
          intro q
          have hl : p < (h1.store p (init_region .RegionDataPath).2).regions.length := by
            simp only [Heap.store, List.length_set]
            exact (alloc_region_fresh ha).2.2
          have e1 := deref_store { (h1.store p (init_region .RegionDataPath).2) with
            allocs := a2 } hl (path_region pa flags) q
          have e2 := updated_of_fresh ha h1.allocs (init_region .RegionDataPath).2 q
          simp only [deref_allocs] at e1 e2
          unfold path_region
          unfold path_region at e1
          rw [e1]
          split
          · rfl
          · rw [e2]
            rename_i hq
            rw [if_neg hq]
        · rw [hp] at hc
          simp only [ne_eq, reduceCtorEq, not_false_eq_true, ↓reduceIte, Option.some.injEq,
            Prod.mk.injEq] at hc
          obtain ⟨rfl, _, rfl⟩ := hc
          exact Or.inl ⟨by decide, same_of_fresh_free ha _ _⟩
      · rw [if_pos (by simpa using hs1)] at hc
        simp only [Option.some.injEq, Prod.mk.injEq] at hc
        obtain ⟨rfl, _, rfl⟩ := hc
        exact Or.inl ⟨hs1, same_of_fresh_free ha _ _⟩
  · simp only [Option.some.injEq, Prod.mk.injEq] at hc
    obtain ⟨rfl, _, rfl⟩ := hc
    exact Or.inl ⟨by decide, same_refl _⟩

theorem store_length (h : Heap) (p : Nat) (x : GpRegion) :
    (h.store p x).regions.length = h.regions.length := by
  simp [Heap.store]

theorem GdipCloneRegion_spec {h h2 : Heap} {st : GpStatus} {out : Option Nat}
    {region : Option Nat} {clone : Bool}
    (hc : GdipCloneRegion h region clone = some (st, out, h2)) :
    (st ≠ GpStatus.Ok ∧ Heap.Same h h2) ∨
    (st = GpStatus.Ok ∧ ∃ p q r, region = some p ∧ out = some q ∧ h.deref p = some r ∧
      h.deref q = none ∧ Heap.Updated h h2 q r) := by
  unfold GdipCloneRegion at hc
  split at hc
  · rename_i p
    rcases ha : h.alloc_region with ⟨_ | q, h1⟩
    · rw [ha] at hc
      simp only [Option.some.injEq, Prod.mk.injEq] at hc
      obtain ⟨rfl, _, rfl⟩ := hc
      exact Or.inl ⟨by decide, alloc_region_fail ha⟩
    · rw [ha] at hc
      simp only at hc
      obtain ⟨hfresh, hsame, hlen⟩ := alloc_region_fresh ha
      cases hd : h1.deref p with
      | none =>
        rw [hd] at hc
        simp at hc
      | some r =>
        rw [hd] at hc
        simp only at hc
        rcases hcl : clone_element h1.allocs r.node true with ⟨stat, node, rest⟩
        rw [hcl] at hc
        by_cases hst : stat = GpStatus.Ok
        · subst hst
          have := clone_element_ok hcl
          subst this
          simp only [Option.some.injEq, Prod.mk.injEq] at hc
          obtain ⟨rfl, rfl, rfl⟩ := hc
          refine Or.inr ⟨rfl, p, q, r, rfl, rfl, ?_, hfresh, ?_⟩
          · rw [← hsame p]
            exact hd
          · exact updated_of_fresh ha rest r
        · obtain ⟨_, hx⟩ := clone_element_fail hcl hst
          subst hx
          simp only [Option.some.injEq, Prod.mk.injEq] at hc
          obtain ⟨rfl, _, rfl⟩ := hc
          exact Or.inl ⟨hst, same_trans hsame (same_allocs _ _)⟩
  · simp only [Option.some.injEq, Prod.mk.injEq] at hc
    obtain ⟨rfl, _, rfl⟩ := hc
    exact Or.inl ⟨by decide, same_refl _⟩

theorem GdipSetEmpty_spec {h h2 : Heap} {st : GpStatus} {region : Option Nat}
    (hc : GdipSetEmpty h region = some (st, h2)) :
    (st ≠ GpStatus.Ok ∧ Heap.Same h h2) ∨
    (st = GpStatus.Ok ∧ ∃ p r, region = some p ∧ h.deref p = some r ∧
      Heap.Updated h h2 p (init_region RegionType.RegionDataEmptyRect).2) := by
  unfold GdipSetEmpty at hc
  split at hc
  · simp only [Option.some.injEq, Prod.mk.injEq] at hc
    obtain ⟨rfl, rfl⟩ := hc
    exact Or.inl ⟨by decide, same_refl _⟩
  · rename_i p
    cases hd : h.deref p with
    | none =>
      rw [hd] at hc
      simp at hc
    | some r =>
      rw [hd] at hc
      simp only [Option.some.injEq, Prod.mk.injEq] at hc
      obtain ⟨rfl, rfl⟩ := hc
      exact Or.inr ⟨rfl, p, r, rfl, hd, updated_store (deref_lt hd) _⟩

theorem GdipSetInfinite_spec {h h2 : Heap} {st : GpStatus} {region : Option Nat}
    (hc : GdipSetInfinite h region = some (st, h2)) :
    (st ≠ GpStatus.Ok ∧ Heap.Same h h2) ∨
    (st = GpStatus.Ok ∧ ∃ p r, region = some p ∧ h.deref p = some r ∧
      Heap.Updated h h2 p (init_region RegionType.RegionDataInfiniteRect).2) := by
  unfold GdipSetInfinite at hc
  split at hc
  · simp only [Option.some.injEq, Prod.mk.injEq] at hc
    obtain ⟨rfl, rfl⟩ := hc
    exact Or.inl ⟨by decide, same_refl _⟩
  · rename_i p
    cases hd : h.deref p with
    | none =>
      rw [hd] at hc
      simp at hc
    | some r =>
      rw [hd] at hc
      simp only [Option.some.injEq, Prod.mk.injEq] at hc
      obtain ⟨rfl, rfl⟩ := hc
      exact Or.inr ⟨rfl, p, r, rfl, hd, updated_store (deref_lt hd) _⟩

theorem combine_out_spec {h h2 : Heap} {q : Nat} {stat st : GpStatus}
    {right : Option region_element}
    (hc : combine_out h right (some q) stat = some (st, h2)) :
    st = stat ∧ ∀ x, h2.deref x = if x = q then none else h.deref x := by
  unfold combine_out GdipDeleteRegion delete_element at hc
  cases hd : h.deref q with
  | none =>
    simp [hd] at hc
  | some r =>
    simp only [hd, Option.some.injEq, Prod.mk.injEq] at hc
    obtain ⟨rfl, rfl⟩ := hc
    exact ⟨rfl, fun x => deref_free h q x⟩

/-- The common part of the rect and path combine: either only the temporary
region is gone, or moreover the destination holds the fused tree. -/
theorem combine_with_temp_spec {h h2 : Heap} {p q : Nat} {temp : GpRegion}
    {stat st : GpStatus} {mode : CombineMode} (hq : h.deref q = some temp)
    (hc : combine_with_temp h p (some q) stat mode = some (st, h2)) :
    ((st = stat ∨ st = GpStatus.OutOfMemory) ∧
      ∀ x, h2.deref x = if x = q then none else h.deref x) ∨
    (st = GpStatus.Ok ∧ ∃ r, h.deref p = some r ∧
      ∀ x, h2.deref x = if x = q then none
        else if x = p then some (fuse_region r r.node temp.node mode) else h.deref x) := by
  unfold combine_with_temp at hc
  rcases hg : GdipAlloc h.allocs with ⟨ok, rest⟩
  rw [hg] at hc
  cases ok with
  | false =>
    obtain ⟨e, hx⟩ := combine_out_spec hc
    exact Or.inl ⟨Or.inl e, hx⟩
  | true =>
    cases hd : h.deref p with
    | none =>
      rw [hd] at hc
      simp at hc
    | some r =>
      rw [hd] at hc
      simp only [Option.some_bind, hq] at hc
      rcases hcl : clone_element rest temp.node false with ⟨stat2, right, rest2⟩
      simp only [hcl] at hc
      by_cases hst : stat2 = GpStatus.Ok
      · subst hst
        have := clone_element_ok hcl
        subst this
        simp only [ne_eq, not_true_eq_false, ↓reduceIte] at hc
        unfold GdipDeleteRegion delete_element at hc
        simp only at hc
        have hlt := deref_lt hd
        have hst := deref_store { h with allocs := rest2 } hlt
          (fuse_region r r.node temp.node mode)
        simp only [deref_allocs] at hst
        cases hd2 : (Heap.store { h with allocs := rest2 } p
            (fuse_region r r.node temp.node mode)).deref q with
        | none =>
          rw [hd2] at hc
          simp at hc
        | some t =>
          rw [hd2] at hc
          simp only [Option.some.injEq, Prod.mk.injEq] at hc
          obtain ⟨rfl, rfl⟩ := hc
          refine Or.inr ⟨rfl, r, rfl, fun x => ?_⟩
          rw [deref_free, hst x]
      · rw [if_pos hst] at hc
        obtain ⟨e, hx⟩ := combine_out_spec hc
        obtain ⟨e2, _⟩ := clone_element_fail hcl hst
        exact Or.inl ⟨Or.inr (e.trans e2), hx⟩

theorem combine_temp_frame {h h1 h2 : Heap} {p q : Nat} {temp : GpRegion} {st : GpStatus}
    {mode : CombineMode} (hfresh : h.deref q = none) (hup : Heap.Updated h h1 q temp)
    (hc : combine_with_temp h1 p (some q) GpStatus.Ok mode = some (st, h2)) :
    Heap.Same h h2 ∨
    (st = GpStatus.Ok ∧ ∃ r, h.deref p = some r ∧
      Heap.Updated h h2 p (fuse_region r r.node temp.node mode)) := by
  have hq : h1.deref q = some temp := by
    rw [hup q]
    simp
  rcases combine_with_temp_spec hq hc with ⟨_, hx⟩ | ⟨hst, r, hr, hx⟩
  · left
    intro x
    rw [hx x, hup x]
    split
    · rename_i e
      rw [e, hfresh]
    · rfl
  · by_cases hpq : p = q
    · left
      intro x
      rw [hx x, hup x]
      split
      · rename_i e
        rw [e, hfresh]
      · rename_i e
        rw [if_neg (by rw [hpq]; exact e)]
    · right
      have hr2 : h.deref p = some r := by
        rw [hup p, if_neg hpq] at hr
        exact hr
      refine ⟨hst, r, hr2, fun x => ?_⟩
      rw [hx x, hup x]
      by_cases e1 : x = q
      · rw [if_pos e1, if_neg (by rw [e1]; exact fun e => hpq e.symm), e1, hfresh]
      · rw [if_neg e1, if_neg e1]

theorem GdipCombineRegionRect_spec {h h2 : Heap} {st : GpStatus} {region : Option Nat}
    {rect : Option GpRectF} {mode : CombineMode}
    (hc : GdipCombineRegionRect h region rect mode = some (st, h2)) :
    Heap.Same h h2 ∨
    (st = GpStatus.Ok ∧ ∃ p r rc, region = some p ∧ rect = some rc ∧ h.deref p = some r ∧
      Heap.Updated h h2 p (fuse_region r r.node (rect_region rc).node mode)) := by
  unfold GdipCombineRegionRect at hc
  split at hc
  · rename_i p rc
    cases hcr : GdipCreateRegionRect h (some rc) true with
    | none =>
      rw [hcr] at hc
      simp at hc
    | some res =>
      obtain ⟨stat, rect_reg, h1⟩ := res
      rw [hcr] at hc
      simp only at hc
      rcases GdipCreateRegionRect_spec hcr with ⟨hne, hs⟩ | ⟨hok, q, rc2, hrc, hout, hfresh, hup⟩
      · rw [if_pos hne] at hc
        simp only [Option.some.injEq, Prod.mk.injEq] at hc
        obtain ⟨rfl, rfl⟩ := hc
        exact Or.inl hs
      · subst hok hout
        simp only [Option.some.injEq] at hrc
        subst hrc
        simp only [ne_eq, not_true_eq_false, ↓reduceIte] at hc
        rcases combine_temp_frame hfresh hup hc with hs | ⟨hst, r, hr, hu⟩
        · exact Or.inl hs
        · exact Or.inr ⟨hst, p, r, rc, rfl, rfl, hr, hu⟩
  · simp only [Option.some.injEq, Prod.mk.injEq] at hc
    obtain ⟨rfl, rfl⟩ := hc
    exact Or.inl (same_refl _)

theorem GdipCombineRegionPath_spec {ops : RealOps} {h h2 : Heap} {st : GpStatus}
    {region : Option Nat} {path : Option GpPath} {mode : CombineMode}
    (hc : GdipCombineRegionPath ops h region path mode = some (st, h2)) :
    Heap.Same h h2 ∨
    (st = GpStatus.Ok ∧ ∃ p r pa flags, region = some p ∧ path = some pa ∧
      h.deref p = some r ∧ (flags = FLAGS_NOFLAGS ∨ flags = FLAGS_INTPATH) ∧
      Heap.Updated h h2 p (fuse_region r r.node (path_region pa flags).node mode)) := by
  unfold GdipCombineRegionPath at hc
  split at hc
  · rename_i p pa
    cases hcr : GdipCreateRegionPath ops h (some pa) true with
    | none =>
      rw [hcr] at hc
      simp at hc
    | some res =>
      obtain ⟨stat, path_reg, h1⟩ := res
      rw [hcr] at hc
      simp only at hc
      rcases GdipCreateRegionPath_spec hcr with
        ⟨hne, hs⟩ | ⟨hok, q, pa2, flags, hpa, hout, hfresh, hfl, hup⟩
      · rw [if_pos hne] at hc
        simp only [Option.some.injEq, Prod.mk.injEq] at hc
        obtain ⟨rfl, rfl⟩ := hc
        exact Or.inl hs
      · subst hok hout
        simp only [Option.some.injEq] at hpa
        subst hpa
        simp only [ne_eq, not_true_eq_false, ↓reduceIte] at hc
        rcases combine_temp_frame hfresh hup hc with hs | ⟨hst, r, hr, hu⟩
        · exact Or.inl hs
        · exact Or.inr ⟨hst, p, r, pa, flags, rfl, rfl, hr, hfl, hu⟩
  · simp only [Option.some.injEq, Prod.mk.injEq] at hc
    obtain ⟨rfl, rfl⟩ := hc
    exact Or.inl (same_refl _)

theorem GdipCombineRegionRegion_spec {h h2 : Heap} {st : GpStatus}
    {region1 region2 : Option Nat} {mode : CombineMode}
    (hc : GdipCombineRegionRegion h region1 region2 mode = some (st, h2)) :
    (st ≠ GpStatus.Ok ∧ Heap.Same h h2) ∨
    (st = GpStatus.Ok ∧ ∃ p1 p2 r1 r2, region1 = some p1 ∧ region2 = some p2 ∧
      h.deref p1 = some r1 ∧ h.deref p2 = some r2 ∧
      Heap.Updated h h2 p1 (combined_region r1 r2 (decide (p1 = p2)) mode)) := by
  unfold GdipCombineRegionRegion at hc
  split at hc
  · rename_i p1 p2
    rcases hg : GdipAlloc h.allocs with ⟨ok, rest⟩
    rw [hg] at hc
    cases ok with
    | false =>
      simp only [Option.some.injEq, Prod.mk.injEq] at hc
      obtain ⟨rfl, rfl⟩ := hc
      exact Or.inl ⟨by decide, same_allocs _ _⟩
    | true =>
      simp only at hc
      cases hd1 : h.deref p1 with
      | none =>
        rw [hd1] at hc
        simp at hc
      | some r1 =>
        cases hd2 : h.deref p2 with
        | none =>
          rw [hd1, hd2] at hc
          simp at hc
        | some r2 =>
          rw [hd1, hd2] at hc
          simp only at hc
          rcases hcl : clone_element rest r2.node false with ⟨stat, right, rest2⟩
          rw [hcl] at hc
          simp only at hc
          by_cases hst : stat = GpStatus.Ok
          · subst hst
            have := clone_element_ok hcl
            subst this
            simp only [ne_eq, not_true_eq_false, ↓reduceIte] at hc
            have hlt := deref_lt hd1
            have hs1 := deref_store { h with allocs := rest2 } hlt
              (fuse_region r1 r1.node r2.node mode)
            simp only [deref_allocs] at hs1
            rw [hs1 p1, hs1 p2] at hc
            simp only [↓reduceIte] at hc
            by_cases hpp : p2 = p1
            · subst hpp
              simp only [↓reduceIte, Option.some.injEq, Prod.mk.injEq] at hc
              obtain ⟨rfl, rfl⟩ := hc
              rw [hd1] at hd2
              simp only [Option.some.injEq] at hd2
              subst hd2
              refine Or.inr ⟨rfl, p2, p2, r1, r1, rfl, rfl, hd1, hd1, fun x => ?_⟩
              rw [deref_store _ (by rw [store_length]; exact hlt), hs1 x]
              split
              · simp [combined_region]
              · rfl
            · rw [if_neg hpp, hd2] at hc
              simp only [Option.some.injEq, Prod.mk.injEq] at hc
              obtain ⟨rfl, rfl⟩ := hc
              refine Or.inr ⟨rfl, p1, p2, r1, r2, rfl, rfl, hd1, hd2, fun x => ?_⟩
              rw [deref_store _ (by rw [store_length]; exact hlt), hs1 x]
              have : ¬ p1 = p2 := fun e => hpp e.symm
              split
              · simp [combined_region, this]
              · rfl
          · rw [if_pos hst] at hc
            simp only [Option.some.injEq, Prod.mk.injEq] at hc
            obtain ⟨rfl, rfl⟩ := hc
            exact Or.inl ⟨by decide, same_allocs _ _⟩
  · simp only [Option.some.injEq, Prod.mk.injEq] at hc
    obtain ⟨rfl, rfl⟩ := hc
    exact Or.inl ⟨by decide, same_refl _⟩

/-! ## Invariants of the reachable heaps -/

theorem reachable_invariant {ops : RealOps} {distinct : Bool} (P : GpRegion → Prop)
    (h_init : ∀ t, t = RegionType.RegionDataEmptyRect ∨ t = RegionType.RegionDataInfiniteRect →
      P (init_region t).2)
    (h_rect : ∀ rc, P (rect_region rc))
    (h_path : ∀ pa flags, flags = FLAGS_NOFLAGS ∨ flags = FLAGS_INTPATH →
      P (path_region pa flags))
    (h_fuse_rect : ∀ r rc mode, P r → P (fuse_region r r.node (rect_region rc).node mode))
    (h_fuse_path : ∀ r pa flags mode, P r → flags = FLAGS_NOFLAGS ∨ flags = FLAGS_INTPATH →
      P (fuse_region r r.node (path_region pa flags).node mode))
    (h_comb : ∀ r1 r2 mode, P r1 → P r2 → P (combined_region r1 r2 false mode))
    (h_self : distinct = false → ∀ r mode, P r → P (combined_region r r true mode))
    {h : Heap} (hr : Reachable ops distinct h) : Heap.All P h := by
  induction hr with
  | start allocs =>
    intro p r hp
    simp [Heap.deref] at hp
  | create_region region _ hc ih =>
    rcases GdipCreateRegion_spec hc with ⟨_, hs⟩ | ⟨_, p, _, _, hu⟩
    · exact all_same hs ih
    · exact all_updated hu (h_init _ (Or.inr rfl)) ih
  | create_rect rect region _ hc ih =>
    rcases GdipCreateRegionRect_spec hc with ⟨_, hs⟩ | ⟨_, p, rc, _, _, _, hu⟩
    · exact all_same hs ih
    · exact all_updated hu (h_rect rc) ih
  | create_path path region _ hc ih =>
    rcases GdipCreateRegionPath_spec hc with ⟨_, hs⟩ | ⟨_, p, pa, flags, _, _, _, hfl, hu⟩
    · exact all_same hs ih
    · exact all_updated hu (h_path pa flags hfl) ih
  | clone region clone _ hc ih =>
    rcases GdipCloneRegion_spec hc with ⟨_, hs⟩ | ⟨_, p, q, r, _, _, hp, _, hu⟩
    · exact all_same hs ih
    · exact all_updated hu (ih p r hp) ih
  | set_empty region _ hc ih =>
    rcases GdipSetEmpty_spec hc with ⟨_, hs⟩ | ⟨_, p, r, _, _, hu⟩
    · exact all_same hs ih
    · exact all_updated hu (h_init _ (Or.inl rfl)) ih
  | set_infinite region _ hc ih =>
    rcases GdipSetInfinite_spec hc with ⟨_, hs⟩ | ⟨_, p, r, _, _, hu⟩
    · exact all_same hs ih
    · exact all_updated hu (h_init _ (Or.inr rfl)) ih
  | combine_rect region rect mode _ hc ih =>
    rcases GdipCombineRegionRect_spec hc with hs | ⟨_, p, r, rc, _, _, hp, hu⟩
    · exact all_same hs ih
    · exact all_updated hu (h_fuse_rect r rc mode (ih p r hp)) ih
  | combine_path region path mode _ hc ih =>
    rcases GdipCombineRegionPath_spec hc with hs | ⟨_, p, r, pa, flags, _, _, hp, hfl, hu⟩
    · exact all_same hs ih
    · exact all_updated hu (h_fuse_path r pa flags mode (ih p r hp) hfl) ih
  | combine_region region1 region2 mode _ hne hc ih =>
    rcases GdipCombineRegionRegion_spec hc with
      ⟨_, hs⟩ | ⟨_, p1, p2, r1, r2, e1, e2, hp1, hp2, hu⟩
    · exact all_same hs ih
    · by_cases hpp : p1 = p2
      · subst hpp
        rw [hp1] at hp2
        simp only [Option.some.injEq] at hp2
        subst hp2
        have hd : distinct = false := by
          cases distinct with
          | false => rfl
          | true => exact absurd e2 (hne rfl p1 e1)
        simp only [decide_True] at hu
        exact all_updated hu (h_self hd r1 mode (ih p1 r1 hp1)) ih
      · simp only [hpp, decide_False] at hu
        exact all_updated hu (h_comb r1 r2 mode (ih p1 r1 hp1) (ih p2 r2 hp2)) ih

theorem path_region_header_ok (pa : GpPath) (flags : DWORD)
    (hfl : flags = FLAGS_NOFLAGS ∨ flags = FLAGS_INTPATH) :
    paths_ok (path_region pa flags).node := by
  unfold path_region paths_ok path_header_ok
  simp only
  refine ⟨trivial, hfl, ?_⟩
  rcases hfl with e | e
  · subst e
    simp only [↓reduceIte, sizeof_DWORD]
    ring
  · subst e
    have : ¬ FLAGS_INTPATH = FLAGS_NOFLAGS := by decide
    simp only [this, ↓reduceIte, sizeof_DWORD]

/-- Every region object of a reachable heap satisfies the header.size
invariant, and its path nodes the path-header invariant. -/
theorem reachable_size_ok {ops : RealOps} {distinct : Bool} {h : Heap}
    (hr : Reachable ops distinct h) :
    Heap.All (fun r => size_ok r ∧ paths_ok r.node) h := by
  cases distinct with
  | false =>
    refine reachable_invariant (fun r => size_ok r ∧ paths_ok r.node) ?_ ?_ ?_ ?_ ?_ ?_ ?_ hr
    · intro t ht
      rcases ht with rfl | rfl <;> exact ⟨rfl, trivial⟩
    · intro rc
      exact ⟨rfl, trivial⟩
    · intro pa flags hfl
      exact ⟨rfl, path_region_header_ok pa flags hfl⟩
    · intro r rc mode hP
      exact ⟨rfl, hP.2, trivial⟩
    · intro r pa flags mode hP hfl
      exact ⟨rfl, hP.2, path_region_header_ok pa flags hfl⟩
    · intro r1 r2 mode h1 h2
      exact ⟨rfl, h1.2, h2.2⟩
    · intro _ r mode h1
      exact ⟨rfl, h1.2, h1.2⟩
  | true =>
    refine reachable_invariant (fun r => size_ok r ∧ paths_ok r.node) ?_ ?_ ?_ ?_ ?_ ?_ ?_ hr
    · intro t ht
      rcases ht with rfl | rfl <;> exact ⟨rfl, trivial⟩
    · intro rc
      exact ⟨rfl, trivial⟩
    · intro pa flags hfl
      exact ⟨rfl, path_region_header_ok pa flags hfl⟩
    · intro r rc mode hP
      exact ⟨rfl, hP.2, trivial⟩
    · intro r pa flags mode hP hfl
      exact ⟨rfl, hP.2, path_region_header_ok pa flags hfl⟩
    · intro r1 r2 mode h1 h2
      exact ⟨rfl, h1.2, h2.2⟩
    · intro hd
      exact absurd hd (by decide)

/-! ## Examples -/

theorem example_heap2_reachable (distinct : Bool) :
    Reachable ieee_ops distinct example_heap2 :=
  @Reachable.create_region ieee_ops distinct example_heap1 example_heap2 GpStatus.Ok (some 1) true
    (@Reachable.create_rect ieee_ops distinct { regions := [], allocs := [] } example_heap1
      GpStatus.Ok (some 0) (some example_rect) true (Reachable.start []) (by rfl))
    (by rfl)

theorem example_heap4_reachable (distinct : Bool) :
    Reachable ieee_ops distinct example_heap4 :=
  @Reachable.combine_path ieee_ops distinct example_heap3 example_heap4 GpStatus.Ok (some 1)
    (some example_path) CombineMode.CombineModeXor
    (@Reachable.combine_region ieee_ops distinct example_heap2 example_heap3 GpStatus.Ok
      (some 0) (some 1) CombineMode.CombineModeUnion (example_heap2_reachable distinct)
      (fun _ p hp => by
        simp only [Option.some.injEq] at hp
        subst hp
        decide) (by rfl))
    (by rfl)

/-! ## The size of the node stream -/

theorem flatMap_length_const {α : Type} (f : α → List BYTE) (k : Nat)
    (hf : ∀ a, (f a).length = k) (l : List α) : (l.flatMap f).length = k * l.length := by
  induction l with
  | nil => rfl
  | cons a rest ih =>
    rw [List.flatMap_cons, List.length_append, hf, ih, List.length_cons]
    ring

theorem point_payload_length (ops : RealOps) (flags : DWORD) (points : List GpPointF)
    (hfl : flags = FLAGS_NOFLAGS ∨ flags = FLAGS_INTPATH) :
    (point_payload ops flags points).length =
      (if flags = FLAGS_NOFLAGS then 8 else 4) * points.length := by
  unfold point_payload
  rcases hfl with e | e
  · subst e
    simp only [↓reduceIte]
    exact flatMap_length_const (fun pt : GpPointF => dword_bytes pt.X ++ dword_bytes pt.Y) 8
      (fun _ => rfl) points
  · subst e
    have : ¬ FLAGS_INTPATH = FLAGS_NOFLAGS := by decide
    simp only [this, ↓reduceIte]
    exact flatMap_length_const
      (fun pt : GpPointF => short_bytes (ops.to_short pt.X) ++ short_bytes (ops.to_short pt.Y)) 4
      (fun _ => rfl) points

/-- The node stream of a tree whose path nodes satisfy the path-header
invariant has get_element_size bytes. -/
theorem node_stream_length (ops : RealOps) (e : region_element) (hp : paths_ok e) :
    (node_stream ops e).length = get_element_size e := by
  induction e with
  | rect rc => rfl
  | empty => rfl
  | infinite => rfl
  | path ph pa =>
    obtain ⟨_, hfl, hsz⟩ := hp
    unfold node_stream get_element_size
    rw [List.length_append, List.length_append, List.length_append, dword_bytes_length,
      path_header_bytes_length, point_payload_length ops _ _ hfl, types_payload_length,
      Points_length, hsz]
    unfold sizeof_DWORD
    have : ∀ a b : Nat, 4 + (16 + (a + b)) = 4 + (12 + a + b) + 4 := by
      intro a b
      omega
    exact this _ _
  | combine m l r ihl ihr =>
    unfold node_stream get_element_size
    rw [List.length_append, List.length_append, dword_bytes_length, ihl hp.1, ihr hp.2]
    unfold sizeof_DWORD
    have : ∀ a b : Nat, 4 + (a + b) = 4 + a + b := by
      intro a b
      omega
    exact this _ _

/-- What GdipGetRegionData does for a valid region, a buffer and a non-zero
size: the header and the node stream are copied to the start of the buffer. -/
theorem GdipGetRegionData_eq (ops : RealOps) {h : Heap} {p : Nat} {r : GpRegion}
    (hp : h.deref p = some r) (buffer : Buffer) {size : Nat} (hsize : size ≠ 0)
    (needed : Bool) :
    GdipGetRegionData ops h (some p) (some buffer) size needed =
      some (GpStatus.Ok, some (memcpy buffer 0 (r.header.bytes ++ node_stream ops r.node)),
        if needed then some (16 + (node_stream ops r.node).length) else none) := by
  unfold GdipGetRegionData
  simp only [hsize, ↓reduceIte, hp]
  obtain ⟨hmod, hw⟩ := write_element_eq ops r.node
  rw [hw]
  simp only [Option.some.injEq, Prod.mk.injEq, true_and]
  constructor
  · rw [memcpy_append_at _ _ _ _ _ (by rw [region_header_bytes_length]; rfl)]
  · cases needed with
    | false => rfl
    | true =>
      simp only [↓reduceIte, Option.some.injEq]
      unfold sizeof_region_header sizeof_DWORD
      omega

theorem write_element_filled (ops : RealOps) (e : region_element) (buffer : Buffer)
    (filled : Nat) :
    4 * (write_element ops e buffer filled).2 = 4 * filled + (node_stream ops e).length := by
  obtain ⟨hmod, hw⟩ := write_element_eq ops e
  rw [hw]
  simp only
  omega

/-! ## The serialized size (C1, C2, C3) -/

/-- C1: for every region object of a heap reached by the public operations
(create infinite/rect/path, clone, set-empty, set-infinite and the three
combines, in any sequence, self-combination included), the byte count reported
by GdipGetRegionDataSize, header.size + 8, is the byte count GdipGetRegionData
reports in `*needed`; it is 4 times the number of words emitted by the header
copy and write_element; these bytes of the buffer hold the header and the node
stream, and no byte beyond them is written. -/
theorem C1_data_size_is_data_length (ops : RealOps) (h : Heap)
    (hr : Reachable ops false h) (p : Nat) (r : GpRegion) (hp : h.deref p = some r)
    (buffer : Buffer) (size : Nat) (hsize : size ≠ 0) :
    ∃ buffer2,
      GdipGetRegionDataSize h (some p) true = some (GpStatus.Ok, some (r.header.size + 8)) ∧
      GdipGetRegionData ops h (some p) (some buffer) size true =
        some (GpStatus.Ok, some buffer2, some (r.header.size + 8)) ∧
      r.header.size + 8 =
        4 * (write_element ops r.node (memcpy buffer 0 r.header.bytes)
          (sizeof_region_header / sizeof_DWORD)).2 ∧
      buffer2.read 0 (r.header.size + 8) = r.header.bytes ++ node_stream ops r.node ∧
      ∀ a, r.header.size + 8 ≤ a → buffer2 a = buffer a := by
  obtain ⟨hsz, hpaths⟩ := reachable_size_ok hr p r hp
  have hlen := node_stream_length ops r.node hpaths
  have htotal : r.header.size + 8 = 16 + (node_stream ops r.node).length := by
    rw [hlen, hsz]
    unfold sizeheader_size sizeof_DWORD
    unfold DWORD at *
    omega
  have hall : (r.header.bytes ++ node_stream ops r.node).length = r.header.size + 8 := by
    rw [List.length_append, region_header_bytes_length, htotal]
  refine ⟨memcpy buffer 0 (r.header.bytes ++ node_stream ops r.node), ?_, ?_, ?_, ?_, ?_⟩
  · unfold GdipGetRegionDataSize
    simp only [hp]
    rfl
  · rw [GdipGetRegionData_eq ops hp buffer hsize true, htotal]
    rfl
  · rw [write_element_filled, htotal]
    rfl
  · rw [← hall]
    exact read_memcpy buffer 0 _
  · intro a ha
    exact memcpy_outside buffer 0 _ a (Or.inr (by rw [hall]; unfold DWORD at *; omega))

theorem C1_data_size_is_data_length_witness :
    ∃ buffer2,
      GdipGetRegionDataSize example_heap4 (some 1) true = some (GpStatus.Ok, some (52 + 8)) ∧
      GdipGetRegionData ieee_ops example_heap4 (some 1) (some (fun _ => 0)) 1 true =
        some (GpStatus.Ok, some buffer2, some (52 + 8)) ∧
      52 + 8 = 4 * (write_element ieee_ops
        (region_element.combine CombineMode.CombineModeXor region_element.infinite
          (path_region example_path FLAGS_INTPATH).node)
        (memcpy (fun _ => 0) 0 (region_header.bytes ⟨52, 0xdeadbeef, VERSION_MAGIC, 2⟩))
        (sizeof_region_header / sizeof_DWORD)).2 ∧
      Buffer.read buffer2 0 (52 + 8) = region_header.bytes ⟨52, 0xdeadbeef, VERSION_MAGIC, 2⟩ ++
        node_stream ieee_ops
          (region_element.combine CombineMode.CombineModeXor region_element.infinite
            (path_region example_path FLAGS_INTPATH).node) ∧
      ∀ a, 52 + 8 ≤ a → buffer2 a = (fun _ => 0) a :=
  C1_data_size_is_data_length ieee_ops example_heap4 (example_heap4_reachable false) 1
    (fuse_region (init_region RegionType.RegionDataInfiniteRect).2 region_element.infinite
      (path_region example_path FLAGS_INTPATH).node CombineMode.CombineModeXor)
    (by rfl) (fun _ => 0) 1 (by decide)

/-- C2: in every heap reached by the public operations that create or edit a
region (create infinite/rect/path, clone, set-empty, set-infinite, combine with
rect/path/region), every region object has header.size equal to 8 +
get_element_size of its root node; that is 8 bytes fewer than the serialized
size, the 16 bytes of the header plus the bytes write_element emits for the
tree. -/
theorem C2_header_size_invariant (ops : RealOps) (h : Heap) (hr : Reachable ops false h)
    (p : Nat) (r : GpRegion) (hp : h.deref p = some r) (buffer : Buffer) :
    r.header.size = 8 + get_element_size r.node ∧
    r.header.size + 8 =
      sizeof_region_header + sizeof_DWORD * (write_element ops r.node buffer 0).2 := by
  obtain ⟨hsz, hpaths⟩ := reachable_size_ok hr p r hp
  have hlen := node_stream_length ops r.node hpaths
  have hw := write_element_filled ops r.node buffer 0
  unfold size_ok sizeheader_size sizeof_DWORD at hsz
  unfold sizeof_region_header sizeof_DWORD
  unfold DWORD at *
  constructor
  · omega
  · omega

theorem C2_header_size_invariant_witness :
    (52 : Nat) = 8 + get_element_size
      (region_element.combine CombineMode.CombineModeXor region_element.infinite
        (path_region example_path FLAGS_INTPATH).node) ∧
    52 + 8 = sizeof_region_header + sizeof_DWORD * (write_element ieee_ops
      (region_element.combine CombineMode.CombineModeXor region_element.infinite
        (path_region example_path FLAGS_INTPATH).node) (fun _ => 0) 0).2 :=
  C2_header_size_invariant ieee_ops example_heap4 (example_heap4_reachable false) 1
    (fuse_region (init_region RegionType.RegionDataInfiniteRect).2 region_element.infinite
      (path_region example_path FLAGS_INTPATH).node CombineMode.CombineModeXor)
    (by rfl) (fun _ => 0)

/-- C3: in every heap reached from the constructors by clone, set-empty,
set-infinite and combine operations in which the region operand of
GdipCombineRegionRegion is never the destination itself, every region object
has header.num_children equal to twice the number of combine nodes of its
tree. -/
theorem C3_num_children_counts_combines (ops : RealOps) (h : Heap)
    (hr : Reachable ops true h) (p : Nat) (r : GpRegion) (hp : h.deref p = some r) :
    r.header.num_children = 2 * count_combines r.node := by
  refine reachable_invariant (fun r => r.header.num_children = 2 * count_combines r.node)
    ?_ ?_ ?_ ?_ ?_ ?_ ?_ hr p r hp
  · intro t ht
    rcases ht with rfl | rfl <;> rfl
  · intro rc
    rfl
  · intro pa flags _
    rfl
  · intro r rc mode hP
    simp only [fuse_region, count_combines, rect_region]
    unfold DWORD at *
    omega
  · intro r pa flags mode hP _
    simp only [fuse_region, count_combines, path_region]
    unfold DWORD at *
    omega
  · intro r1 r2 mode h1 h2
    simp only [combined_region, fuse_region, count_combines, Bool.false_eq_true, ↓reduceIte]
    unfold DWORD at *
    omega
  · intro hd
    exact absurd hd (by decide)

theorem C3_num_children_counts_combines_witness :
    (2 : Nat) = 2 * count_combines
      (region_element.combine CombineMode.CombineModeUnion
        (region_element.rect example_rect) region_element.infinite) :=
  C3_num_children_counts_combines ieee_ops example_heap4 (example_heap4_reachable true) 0
    (combined_region (rect_region example_rect)
      (init_region RegionType.RegionDataInfiniteRect).2 false CombineMode.CombineModeUnion)
    (by rfl)

/-! ## Combine (C4, C5) -/

/-- A rect combine that changes the destination has installed the combine
node: the old tree on the left, the rect leaf on the right. -/
theorem GdipCombineRegionRect_edit {h h2 : Heap} {st : GpStatus} {p : Nat} {r : GpRegion}
    {rect : Option GpRectF} {mode : CombineMode} (hp : h.deref p = some r)
    (hc : GdipCombineRegionRect h (some p) rect mode = some (st, h2))
    (hed : h2.deref p ≠ h.deref p) :
    st = GpStatus.Ok ∧ ∃ rc, rect = some rc ∧
      Heap.Updated h h2 p (fuse_region r r.node (region_element.rect rc) mode) := by
  rcases GdipCombineRegionRect_spec hc with hs | ⟨hst, p2, r2, rc, e1, e2, hp2, hu⟩
  · exact absurd (hs p) hed
  · simp only [Option.some.injEq] at e1
    subst e1
    rw [hp] at hp2
    simp only [Option.some.injEq] at hp2
    subst hp2
    exact ⟨hst, rc, e2, hu⟩

/-- A path combine that changes the destination has installed the combine
node: the old tree on the left, the path leaf on the right. -/
theorem GdipCombineRegionPath_edit {ops : RealOps} {h h2 : Heap} {st : GpStatus} {p : Nat}
    {r : GpRegion} {path : Option GpPath} {mode : CombineMode} (hp : h.deref p = some r)
    (hc : GdipCombineRegionPath ops h (some p) path mode = some (st, h2))
    (hed : h2.deref p ≠ h.deref p) :
    st = GpStatus.Ok ∧ ∃ pa flags, path = some pa ∧
      (flags = FLAGS_NOFLAGS ∨ flags = FLAGS_INTPATH) ∧
      Heap.Updated h h2 p (fuse_region r r.node (path_region pa flags).node mode) := by
  rcases GdipCombineRegionPath_spec hc with hs | ⟨hst, p2, r2, pa, flags, e1, e2, hp2, hfl, hu⟩
  · exact absurd (hs p) hed
  · simp only [Option.some.injEq] at e1
    subst e1
    rw [hp] at hp2
    simp only [Option.some.injEq] at hp2
    subst hp2
    exact ⟨hst, pa, flags, e2, hfl, hu⟩

/-- GdipCombineRegionRegion that returns Ok has installed the combine node:
the old tree on the left, a copy of the tree of the operand on the right. -/
theorem GdipCombineRegionRegion_ok {h h2 : Heap} {p1 p2 : Nat} {r1 r2 : GpRegion}
    {mode : CombineMode} (hp1 : h.deref p1 = some r1) (hp2 : h.deref p2 = some r2)
    (hc : GdipCombineRegionRegion h (some p1) (some p2) mode = some (GpStatus.Ok, h2)) :
    Heap.Updated h h2 p1 (combined_region r1 r2 (decide (p1 = p2)) mode) := by
  rcases GdipCombineRegionRegion_spec hc with ⟨hne, _⟩ | ⟨_, q1, q2, s1, s2, e1, e2, hq1, hq2, hu⟩
  · exact absurd rfl hne
  · simp only [Option.some.injEq] at e1 e2
    subst e1 e2
    rw [hp1] at hq1
    rw [hp2] at hq2
    simp only [Option.some.injEq] at hq1 hq2
    subst hq1 hq2
    exact hu

/-- GdipCombineRegionRegion returns for any two valid region pointers. -/
theorem GdipCombineRegionRegion_total {h : Heap} {p1 p2 : Nat} {r1 r2 : GpRegion}
    (mode : CombineMode) (hp1 : h.deref p1 = some r1) (hp2 : h.deref p2 = some r2) :
    ∃ st h2, GdipCombineRegionRegion h (some p1) (some p2) mode = some (st, h2) := by
  unfold GdipCombineRegionRegion
  simp only
  rcases hg : GdipAlloc h.allocs with ⟨ok, rest⟩
  cases ok with
  | false => exact ⟨_, _, rfl⟩
  | true =>
    simp only [hp1, hp2]
    obtain ⟨a2, hcl | hcl⟩ := clone_element_spec r2.node rest false
    · rw [hcl]
      simp only [ne_eq, not_true_eq_false, ↓reduceIte]
      have hlt := deref_lt hp1
      have hs1 := deref_store { h with allocs := a2 } hlt (fuse_region r1 r1.node r2.node mode)
      simp only [deref_allocs] at hs1
      rw [hs1 p1, hs1 p2]
      simp only [↓reduceIte]
      by_cases hpp : p2 = p1
      · rw [if_pos hpp]
        exact ⟨_, _, rfl⟩
      · rw [if_neg hpp, hp2]
        exact ⟨_, _, rfl⟩
    · rw [hcl]
      exact ⟨_, _, rfl⟩

/-- C4, at the input where the code departs from it: when the allocation of
the new left node fails, GdipCombineRegionRect and GdipCombineRegionPath return
Ok although the root of the region is still the infinite leaf, not a combine
node tagged with the mode; GdipCombineRegionRegion returns OutOfMemory when the
same allocation fails. -/
theorem C4_combine_ok_without_combine_node :
    GdipCombineRegionRect example_heap_low (some 0) (some example_rect)
        CombineMode.CombineModeUnion =
      some (GpStatus.Ok,
        { regions := [some (init_region RegionType.RegionDataInfiniteRect).2, none],
          allocs := [] }) ∧
    GdipCombineRegionPath ieee_ops example_heap_low_path (some 0) (some example_path)
        CombineMode.CombineModeUnion =
      some (GpStatus.Ok,
        { regions := [some (init_region RegionType.RegionDataInfiniteRect).2, none],
          allocs := [] }) ∧
    (init_region RegionType.RegionDataInfiniteRect).2.node = region_element.infinite ∧
    GdipCombineRegionRegion
        { regions := [some (init_region RegionType.RegionDataInfiniteRect).2,
            some (rect_region example_rect)], allocs := [false] }
        (some 0) (some 1) CombineMode.CombineModeUnion =
      some (GpStatus.OutOfMemory,
        { regions := [some (init_region RegionType.RegionDataInfiniteRect).2,
            some (rect_region example_rect)], allocs := [] }) := by
  refine ⟨by rfl, by rfl, by rfl, by rfl⟩

/-- C5: for two regions r1, r2 that satisfy the header.size invariant (distinct
region objects, and the same holds when they are not) and every combine mode,
after a GdipCombineRegionRegion(r1, r2, op) that returns Ok the header.size of
r1 is 8 + 4 + element_size(old r1 tree) + element_size(r2 tree), which is old
size(r1) + size(r2) - 4. -/
theorem C5_combine_region_size (h h2 : Heap) (p1 p2 : Nat) (r1 r2 : GpRegion)
    (mode : CombineMode) (hp1 : h.deref p1 = some r1)
    (hp2 : h.deref p2 = some r2) (hs1 : size_ok r1) (hs2 : size_ok r2)
    (hc : GdipCombineRegionRegion h (some p1) (some p2) mode = some (GpStatus.Ok, h2)) :
    ∃ r, h2.deref p1 = some r ∧
      r.header.size = 8 + 4 + get_element_size r1.node + get_element_size r2.node ∧
      r.header.size = r1.header.size + r2.header.size - 4 := by
  have hu := GdipCombineRegionRegion_ok hp1 hp2 hc
  have hd : h2.deref p1 = some (combined_region r1 r2 (decide (p1 = p2)) mode) := by
    rw [hu p1, if_pos rfl]
  refine ⟨_, hd, ?_, ?_⟩
  · simp only [combined_region, fuse_region, get_element_size, sizeheader_size, sizeof_DWORD]
    unfold DWORD at *
    omega
  · unfold size_ok sizeheader_size sizeof_DWORD at hs1 hs2
    simp only [combined_region, fuse_region, get_element_size, sizeheader_size, sizeof_DWORD]
    unfold DWORD at *
    omega

/-- The scenario of C5: the rect region (10, 10, 5, 5), of size 28, combined
with an infinite region, of size 12, using Union has header.size 36, and its
node stream is the Union tag, the rect tag 0x10000000 with the four floats, then
the infinite tag 0x10000003. -/
theorem C5_combine_region_size_witness :
    (∃ r, example_heap3.deref 0 = some r ∧
      r.header.size = 8 + 4 + get_element_size (region_element.rect example_rect) +
        get_element_size region_element.infinite ∧
      r.header.size = 28 + 12 - 4) ∧
    (example_heap3.deref 0).map (fun r => r.header.size) = some 36 ∧
    ∃ buffer2,
      GdipGetRegionData ieee_ops example_heap3 (some 0) (some (fun _ => 0)) 44 true =
        some (GpStatus.Ok, some buffer2, some 44) ∧
      Buffer.read buffer2 16 28 =
        dword_bytes 2 ++ dword_bytes 0x10000000 ++ dword_bytes 0x41200000 ++
          dword_bytes 0x41200000 ++ dword_bytes 0x40a00000 ++ dword_bytes 0x40a00000 ++
          dword_bytes 0x10000003 :=
  ⟨C5_combine_region_size example_heap2 example_heap3 0 1 (rect_region example_rect)
      (init_region RegionType.RegionDataInfiniteRect).2 CombineMode.CombineModeUnion
      (by rfl) (by rfl) (by rfl) (by rfl) (by rfl),
    by rfl,
    ⟨_, GdipGetRegionData_eq ieee_ops (by rfl) (fun _ => 0) (by decide) true, by rfl⟩⟩

/-! ## Clone, operand of a combine, reset (C6 to C9) -/

/-- GdipGetRegionData reads nothing of the heap but the region object. -/
theorem GdipGetRegionData_congr (ops : RealOps) {h h2 : Heap} {p q : Nat}
    (hpq : h2.deref q = h.deref p) (buffer : Option Buffer) (size : Nat) (needed : Bool) :
    GdipGetRegionData ops h2 (some q) buffer size needed =
      GdipGetRegionData ops h (some p) buffer size needed := by
  unfold GdipGetRegionData
  cases buffer with
  | none => rfl
  | some buffer0 => simp only [hpq]

/-- C6: for every region r, a GdipCloneRegion(r) that returns Ok yields a new
region object whose header and tree are equal to those of r, which is itself
unchanged, so that GdipGetRegionData gives the same result, byte for byte, for
r and for its clone. -/
theorem C6_clone_same_encoding (ops : RealOps) (h h2 : Heap) (p : Nat) (r : GpRegion)
    (out : Option Nat) (hp : h.deref p = some r)
    (hc : GdipCloneRegion h (some p) true = some (GpStatus.Ok, out, h2)) :
    ∃ q, out = some q ∧ q ≠ p ∧ h2.deref q = some r ∧ h2.deref p = some r ∧
      ∀ (buffer : Option Buffer) (size : Nat) (needed : Bool),
        GdipGetRegionData ops h2 (some q) buffer size needed =
          GdipGetRegionData ops h2 (some p) buffer size needed := by
  rcases GdipCloneRegion_spec hc with ⟨hne, _⟩ | ⟨_, p2, q, r2, e1, e2, hp2, hfresh, hu⟩
  · exact absurd rfl hne
  · simp only [Option.some.injEq] at e1
    subst e1
    rw [hp] at hp2
    simp only [Option.some.injEq] at hp2
    subst hp2
    have hqp : q ≠ p := by
      intro e
      rw [e, hp] at hfresh
      simp at hfresh
    have hq : h2.deref q = some r := by rw [hu q, if_pos rfl]
    have hp3 : h2.deref p = some r := by
      rw [hu p, if_neg (fun e => hqp e.symm)]
      exact hp
    exact ⟨q, e2, hqp, hq, hp3, fun buffer size needed =>
      GdipGetRegionData_congr ops (hq.trans hp3.symm) buffer size needed⟩

theorem C6_clone_same_encoding_witness :
    ∃ q, some 3 = some q ∧ q ≠ 1 ∧
      example_heap5.deref q = some (fuse_region (init_region RegionType.RegionDataInfiniteRect).2
        region_element.infinite (path_region example_path FLAGS_INTPATH).node
        CombineMode.CombineModeXor) ∧
      example_heap5.deref 1 = some (fuse_region (init_region RegionType.RegionDataInfiniteRect).2
        region_element.infinite (path_region example_path FLAGS_INTPATH).node
        CombineMode.CombineModeXor) ∧
      ∀ (buffer : Option Buffer) (size : Nat) (needed : Bool),
        GdipGetRegionData ieee_ops example_heap5 (some q) buffer size needed =
          GdipGetRegionData ieee_ops example_heap5 (some 1) buffer size needed :=
  C6_clone_same_encoding ieee_ops example_heap4 example_heap5 1
    (fuse_region (init_region RegionType.RegionDataInfiniteRect).2 region_element.infinite
      (path_region example_path FLAGS_INTPATH).node CombineMode.CombineModeXor)
    (some 3) (by rfl) (by rfl)

/-- C7: for every pair of distinct regions r1, r2 and every combine mode,
GdipCombineRegionRegion(r1, r2, mode) returns, and whatever status it returns
the header and the tree of r2 are what they were before the call; hence
GdipGetRegionData gives the same result for r2 before and after. -/
theorem C7_combine_region_leaves_operand (h : Heap) (p1 p2 : Nat) (r1 r2 : GpRegion)
    (mode : CombineMode) (hne : p1 ≠ p2) (hp1 : h.deref p1 = some r1)
    (hp2 : h.deref p2 = some r2) :
    ∃ st h2, GdipCombineRegionRegion h (some p1) (some p2) mode = some (st, h2) ∧
      h2.deref p2 = some r2 ∧
      ∀ (ops : RealOps) (buffer : Option Buffer) (size : Nat) (needed : Bool),
        GdipGetRegionData ops h2 (some p2) buffer size needed =
          GdipGetRegionData ops h (some p2) buffer size needed := by
  obtain ⟨st, h2, hc⟩ := GdipCombineRegionRegion_total mode hp1 hp2
  have hd : h2.deref p2 = h.deref p2 := by
    rcases GdipCombineRegionRegion_spec hc with
      ⟨_, hs⟩ | ⟨_, q1, q2, s1, s2, e1, e2, _, _, hu⟩
    · exact hs p2
    · simp only [Option.some.injEq] at e1 e2
      subst e1 e2
      rw [hu p2, if_neg (fun e => hne e.symm)]
  exact ⟨st, h2, hc, hd.trans hp2, fun ops buffer size needed =>
    GdipGetRegionData_congr ops hd buffer size needed⟩

theorem C7_combine_region_leaves_operand_witness :
    ∃ st h2, GdipCombineRegionRegion example_heap2 (some 0) (some 1)
        CombineMode.CombineModeExclude = some (st, h2) ∧
      h2.deref 1 = some (init_region RegionType.RegionDataInfiniteRect).2 ∧
      ∀ (ops : RealOps) (buffer : Option Buffer) (size : Nat) (needed : Bool),
        GdipGetRegionData ops h2 (some 1) buffer size needed =
          GdipGetRegionData ops example_heap2 (some 1) buffer size needed :=
  C7_combine_region_leaves_operand example_heap2 0 1 (rect_region example_rect)
    (init_region RegionType.RegionDataInfiniteRect).2 CombineMode.CombineModeExclude
    (by decide) (by rfl) (by rfl)

/-- C8: for every region r, whatever produced it, GdipSetEmpty(r) returns Ok
and leaves r as a single EmptyRect leaf with header.size = 12, checksum =
0xdeadbeef, magic = VERSION_MAGIC and num_children = 0; GdipGetRegionData then
writes exactly the 20 bytes of the five words 12, 0xdeadbeef, VERSION_MAGIC, 0,
0x10000002. -/
theorem C8_set_empty_resets (h : Heap) (p : Nat) (r : GpRegion) (hp : h.deref p = some r) :
    ∃ h2, GdipSetEmpty h (some p) = some (GpStatus.Ok, h2) ∧
      h2.deref p = some ⟨⟨12, 0xdeadbeef, VERSION_MAGIC, 0⟩, region_element.empty⟩ ∧
      ∀ (ops : RealOps) (buffer : Buffer) (size : Nat), size ≠ 0 →
        ∃ buffer2, GdipGetRegionData ops h2 (some p) (some buffer) size true =
            some (GpStatus.Ok, some buffer2, some 20) ∧
          buffer2.read 0 20 = dword_bytes 12 ++ dword_bytes 0xdeadbeef ++
            dword_bytes VERSION_MAGIC ++ dword_bytes 0 ++ dword_bytes 0x10000002 ∧
          ∀ a, 20 ≤ a → buffer2 a = buffer a := by
  have hd : (h.store p (init_region RegionType.RegionDataEmptyRect).2).deref p =
      some (init_region RegionType.RegionDataEmptyRect).2 := by
    rw [deref_store h (deref_lt hp), if_pos rfl]
  refine ⟨h.store p (init_region RegionType.RegionDataEmptyRect).2, ?_, hd, ?_⟩
  · unfold GdipSetEmpty
    simp only [hp]
    rfl
  · intro ops buffer size hsize
    refine ⟨_, GdipGetRegionData_eq ops hd buffer hsize true, ?_, ?_⟩
    · exact read_memcpy buffer 0 _
    · intro a ha
      exact memcpy_outside buffer 0 _ a (Or.inr ha)

theorem C8_set_empty_resets_witness :
    ∃ h2, GdipSetEmpty example_heap4 (some 0) = some (GpStatus.Ok, h2) ∧
      h2.deref 0 = some ⟨⟨12, 0xdeadbeef, VERSION_MAGIC, 0⟩, region_element.empty⟩ ∧
      ∀ (ops : RealOps) (buffer : Buffer) (size : Nat), size ≠ 0 →
        ∃ buffer2, GdipGetRegionData ops h2 (some 0) (some buffer) size true =
            some (GpStatus.Ok, some buffer2, some 20) ∧
          buffer2.read 0 20 = dword_bytes 12 ++ dword_bytes 0xdeadbeef ++
            dword_bytes VERSION_MAGIC ++ dword_bytes 0 ++ dword_bytes 0x10000002 ∧
          ∀ a, 20 ≤ a → buffer2 a = buffer a :=
  C8_set_empty_resets example_heap4 0
    (combined_region (rect_region example_rect)
      (init_region RegionType.RegionDataInfiniteRect).2 false CombineMode.CombineModeUnion)
    (by rfl)

/-- C9: for every region r, GdipSetInfinite(r) returns Ok and leaves r with
the header and the tree of a region freshly produced by GdipCreateRegion, hence
with the same encoding: a single InfiniteRect leaf, header.size = 12 and
num_children = 0, whatever num_children was before. -/
theorem C9_set_infinite_as_fresh (h : Heap) (p : Nat) (r : GpRegion)
    (hp : h.deref p = some r) :
    ∃ h2, GdipSetInfinite h (some p) = some (GpStatus.Ok, h2) ∧
      h2.deref p = some ⟨⟨12, 0xdeadbeef, VERSION_MAGIC, 0⟩, region_element.infinite⟩ ∧
      ∀ (h0 h3 : Heap) (q : Nat),
        GdipCreateRegion h0 true = some (GpStatus.Ok, some q, h3) →
        h3.deref q = h2.deref p ∧
        ∀ (ops : RealOps) (buffer : Option Buffer) (size : Nat) (needed : Bool),
          GdipGetRegionData ops h3 (some q) buffer size needed =
            GdipGetRegionData ops h2 (some p) buffer size needed := by
  have hd : (h.store p (init_region RegionType.RegionDataInfiniteRect).2).deref p =
      some (init_region RegionType.RegionDataInfiniteRect).2 := by
    rw [deref_store h (deref_lt hp), if_pos rfl]
  refine ⟨h.store p (init_region RegionType.RegionDataInfiniteRect).2, ?_, hd, ?_⟩
  · unfold GdipSetInfinite
    simp only [hp]
    rfl
  · intro h0 h3 q hc
    have hq : h3.deref q = some (init_region RegionType.RegionDataInfiniteRect).2 := by
      rcases GdipCreateRegion_spec hc with ⟨hne, _⟩ | ⟨_, q2, e, _, hu⟩
      · exact absurd rfl hne
      · simp only [Option.some.injEq] at e
        subst e
        rw [hu q, if_pos rfl]
    exact ⟨hq.trans hd.symm, fun ops buffer size needed =>
      GdipGetRegionData_congr ops (hq.trans hd.symm) buffer size needed⟩

theorem C9_set_infinite_as_fresh_witness :
    ∃ h2, GdipSetInfinite example_heap4 (some 0) = some (GpStatus.Ok, h2) ∧
      h2.deref 0 = some ⟨⟨12, 0xdeadbeef, VERSION_MAGIC, 0⟩, region_element.infinite⟩ ∧
      ∀ (h0 h3 : Heap) (q : Nat),
        GdipCreateRegion h0 true = some (GpStatus.Ok, some q, h3) →
        h3.deref q = h2.deref 0 ∧
        ∀ (ops : RealOps) (buffer : Option Buffer) (size : Nat) (needed : Bool),
          GdipGetRegionData ops h3 (some q) buffer size needed =
            GdipGetRegionData ops h2 (some 0) buffer size needed :=
  C9_set_infinite_as_fresh example_heap4 0
    (combined_region (rect_region example_rect)
      (init_region RegionType.RegionDataInfiniteRect).2 false CombineMode.CombineModeUnion)
    (by rfl)

/-! ## GdipIsInfiniteRegion (C10) -/

theorem type_infinite_iff (e : region_element) :
    e.type = RegionType.RegionDataInfiniteRect.toDWORD ↔ e = region_element.infinite := by
  cases e with
  | rect rc => simp [region_element.type, RegionType.toDWORD]
  | path ph pa => simp [region_element.type, RegionType.toDWORD]
  | empty => simp [region_element.type, RegionType.toDWORD]
  | infinite => simp [region_element.type]
  | combine m l r => cases m <;> simp [region_element.type, RegionType.toDWORD, CombineMode.toDWORD]

theorem not_infinite_res {e : region_element} (he : e ≠ region_element.infinite) :
    decide (e.type = RegionType.RegionDataInfiniteRect.toDWORD) = false := by
  rw [decide_eq_false_iff_not, type_infinite_iff]
  exact he

theorem infinite_res :
    decide (region_element.infinite.type = RegionType.RegionDataInfiniteRect.toDWORD) = true := by
  rw [decide_eq_true_iff, type_infinite_iff]

theorem deref_of_updated {h h2 : Heap} {p : Nat} {x r : GpRegion}
    (hu : Heap.Updated h h2 p x) (hp : h2.deref p = some r) : r = x := by
  rw [hu p, if_pos rfl] at hp
  simp only [Option.some.injEq] at hp
  exact hp.symm

/-- C10: given a region and non-null graphics and result arguments,
GdipIsInfiniteRegion returns Ok and sets the result to true if and only if the
type of the root node is RegionDataInfiniteRect. The result is true for the
region a GdipCreateRegion or a GdipSetInfinite has just returned Ok for; it is
false for the region a GdipCreateRegionRect, a GdipCreateRegionPath or a
GdipSetEmpty has just returned Ok for, and for a region that the last call, a
combine with a rect, a path or a region and any of the six modes, has
edited, whatever the operands were. -/
theorem C10_is_infinite_iff_root_infinite (ops : RealOps) (h : Heap) (p : Nat) (r : GpRegion)
    (hp : h.deref p = some r) :
    ∃ res, GdipIsInfiniteRegion h (some p) true true = some (GpStatus.Ok, some res) ∧
      (res = true ↔ r.node.type = RegionType.RegionDataInfiniteRect.toDWORD) ∧
      (res = true ↔ r.node = region_element.infinite) ∧
      (∀ h0, GdipCreateRegion h0 true = some (GpStatus.Ok, some p, h) → res = true) ∧
      (∀ h0, GdipSetInfinite h0 (some p) = some (GpStatus.Ok, h) → res = true) ∧
      (∀ h0 rect, GdipCreateRegionRect h0 rect true = some (GpStatus.Ok, some p, h) →
        res = false) ∧
      (∀ h0 path, GdipCreateRegionPath ops h0 path true = some (GpStatus.Ok, some p, h) →
        res = false) ∧
      (∀ h0, GdipSetEmpty h0 (some p) = some (GpStatus.Ok, h) → res = false) ∧
      (∀ h0 r0 rect mode st, h0.deref p = some r0 →
        GdipCombineRegionRect h0 (some p) rect mode = some (st, h) →
        h.deref p ≠ h0.deref p → res = false) ∧
      (∀ h0 r0 path mode st, h0.deref p = some r0 →
        GdipCombineRegionPath ops h0 (some p) path mode = some (st, h) →
        h.deref p ≠ h0.deref p → res = false) ∧
      (∀ h0 region2 mode,
        GdipCombineRegionRegion h0 (some p) region2 mode = some (GpStatus.Ok, h) →
        res = false) := by
  have hiff := type_infinite_iff r.node
  refine ⟨decide (r.node.type = RegionType.RegionDataInfiniteRect.toDWORD), ?_, ?_, ?_,
    ?_, ?_, ?_, ?_, ?_, ?_, ?_, ?_⟩
  · unfold GdipIsInfiniteRegion
    simp only [hp]
  · simp only [decide_eq_true_eq]
  · simp only [decide_eq_true_eq]
    exact hiff
  · intro h0 hc
    rcases GdipCreateRegion_spec hc with ⟨hne, _⟩ | ⟨_, q, e, _, hu⟩
    · exact absurd rfl hne
    · simp only [Option.some.injEq] at e
      subst e
      rw [deref_of_updated hu hp]
      exact infinite_res
  · intro h0 hc
    rcases GdipSetInfinite_spec hc with ⟨hne, _⟩ | ⟨_, q, r0, e, _, hu⟩
    · exact absurd rfl hne
    · simp only [Option.some.injEq] at e
      subst e
      rw [deref_of_updated hu hp]
      exact infinite_res
  · intro h0 rect hc
    rcases GdipCreateRegionRect_spec hc with ⟨hne, _⟩ | ⟨_, q, rc, _, e, _, hu⟩
    · exact absurd rfl hne
    · simp only [Option.some.injEq] at e
      subst e
      rw [deref_of_updated hu hp]
      exact not_infinite_res (fun e => by cases e)
  · intro h0 path hc
    rcases GdipCreateRegionPath_spec hc with ⟨hne, _⟩ | ⟨_, q, pa, flags, _, e, _, _, hu⟩
    · exact absurd rfl hne
    · simp only [Option.some.injEq] at e
      subst e
      rw [deref_of_updated hu hp]
      exact not_infinite_res (fun e => by cases e)
  · intro h0 hc
    rcases GdipSetEmpty_spec hc with ⟨hne, _⟩ | ⟨_, q, r0, e, _, hu⟩
    · exact absurd rfl hne
    · simp only [Option.some.injEq] at e
      subst e
      rw [deref_of_updated hu hp]
      exact not_infinite_res (fun e => by cases e)
  · intro h0 r0 rect mode st hp0 hc hed
    obtain ⟨_, rc, _, hu⟩ := GdipCombineRegionRect_edit hp0 hc hed
    rw [deref_of_updated hu hp]
    exact not_infinite_res (fun e => by cases e)
  · intro h0 r0 path mode st hp0 hc hed
    obtain ⟨_, pa, flags, _, _, hu⟩ := GdipCombineRegionPath_edit hp0 hc hed
    rw [deref_of_updated hu hp]
    exact not_infinite_res (fun e => by cases e)
  · intro h0 region2 mode hc
    rcases GdipCombineRegionRegion_spec hc with
      ⟨hne, _⟩ | ⟨_, q1, q2, s1, s2, e1, _, _, _, hu⟩
    · exact absurd rfl hne
    · simp only [Option.some.injEq] at e1
      subst e1
      rw [deref_of_updated hu hp]
      exact not_infinite_res (fun e => by cases e)

theorem C10_is_infinite_iff_root_infinite_witness :
    (∃ res, GdipIsInfiniteRegion example_heap2 (some 1) true true =
        some (GpStatus.Ok, some res) ∧ res = true) ∧
    (∃ res, GdipIsInfiniteRegion example_heap4 (some 1) true true =
        some (GpStatus.Ok, some res) ∧ res = false) :=
  ⟨(C10_is_infinite_iff_root_infinite ieee_ops example_heap2 1
      (init_region RegionType.RegionDataInfiniteRect).2 (by rfl)).elim
      (fun res hres => ⟨res, hres.1, hres.2.2.2.1 example_heap1 (by rfl)⟩),
    (C10_is_infinite_iff_root_infinite ieee_ops example_heap4 1
      (fuse_region (init_region RegionType.RegionDataInfiniteRect).2 region_element.infinite
        (path_region example_path FLAGS_INTPATH).node CombineMode.CombineModeXor) (by rfl)).elim
      (fun res hres => ⟨res, hres.1,
        hres.2.2.2.2.2.2.2.2.2.1 example_heap3
          (init_region RegionType.RegionDataInfiniteRect).2 (some example_path)
          CombineMode.CombineModeXor GpStatus.Ok (by rfl) (by rfl) (by decide)⟩)⟩

/-! ## GdipCreateRegionPath and GdipCreateRegionRect in detail -/

theorem integer_path_test_ok {ops : RealOps} {a a2 : List Bool} {pa : GpPath} {flags : DWORD}
    (ht : integer_path_test ops a pa pa.Count = (GpStatus.Ok, flags, a2)) :
    flags = path_flags ops pa := by
  unfold integer_path_test at ht
  unfold path_flags
  by_cases hc : pa.Count = 0
  · simp only [hc, ↓reduceIte, Prod.mk.injEq, true_and] at ht
    rw [if_pos hc]
    exact ht.1.symm
  · rw [if_neg hc] at ht
    rw [if_neg hc]
    rcases hg1 : GdipAlloc a with ⟨ok1, rest1⟩
    rcases hg2 : GdipAlloc rest1 with ⟨ok2, rest2⟩
    simp only [hg1, hg2] at ht
    by_cases hok : (!(ok1 && ok2)) = true
    · rw [if_pos hok] at ht
      simp at ht
    · rw [if_neg hok] at ht
      unfold GdipGetPathPointsI at ht
      rcases hg3 : GdipAlloc rest2 with ⟨ok3, rest3⟩
      rw [hg3] at ht
      cases ok3 with
      | false => simp at ht
      | true =>
        simp only [GdipGetPathPoints, ne_eq, not_true_eq_false, ↓reduceIte, Prod.mk.injEq,
          true_and] at ht
        exact ht.1.symm

theorem integer_path_test_no_allocs (ops : RealOps) (pa : GpPath) :
    integer_path_test ops [] pa pa.Count = (GpStatus.Ok, path_flags ops pa, []) := by
  unfold integer_path_test path_flags
  by_cases hc : pa.Count = 0
  · simp only [hc, ↓reduceIte]
  · simp only [hc, ↓reduceIte, GdipAlloc, GdipGetPathPointsI, GdipGetPathPoints, Bool.and_self,
      Bool.not_true, Bool.false_eq_true, ne_eq, not_true_eq_false]

/-- A GdipCreateRegionPath that returns Ok has stored, at a fresh address, the
path region whose flags are the outcome of the integer test. -/
theorem GdipCreateRegionPath_ok {ops : RealOps} {h h2 : Heap} {out : Option Nat}
    {pa : GpPath} {region : Bool}
    (hc : GdipCreateRegionPath ops h (some pa) region = some (GpStatus.Ok, out, h2)) :
    ∃ p, out = some p ∧ h.deref p = none ∧
      Heap.Updated h h2 p (path_region pa (path_flags ops pa)) := by
  unfold GdipCreateRegionPath at hc
  cases region with
  | false => simp at hc
  | true =>
    simp only at hc
    rcases ha : h.alloc_region with ⟨_ | p, h1⟩
    · rw [ha] at hc
      simp at hc
    · rw [ha] at hc
      simp only [init_region_status, ne_eq, not_true_eq_false, ↓reduceIte] at hc
      rcases ht : integer_path_test ops (h1.store p (init_region .RegionDataPath).2).allocs
        pa pa.Count with ⟨stat1, flags, rest1⟩
      rw [ht] at hc
      simp only at hc
      by_cases hs1 : stat1 = GpStatus.Ok
      · subst hs1
        have hfl := integer_path_test_ok ht
        subst hfl
        rw [if_neg (by simp)] at hc
        obtain ⟨a2, hp | hp⟩ := GdipClonePath_spec rest1 pa
        · rw [hp] at hc
          simp only [ne_eq, not_true_eq_false, ↓reduceIte, Option.some.injEq,
            Prod.mk.injEq, true_and] at hc
          obtain ⟨rfl, rfl⟩ := hc
          refine ⟨p, rfl, (alloc_region_fresh ha).1, ?_⟩
          intro q
          have hl : p < (h1.store p (init_region .RegionDataPath).2).regions.length := by
            simp only [Heap.store, List.length_set]
            exact (alloc_region_fresh ha).2.2
          have e1 := deref_store { (h1.store p (init_region .RegionDataPath).2) with
            allocs := a2 } hl (path_region pa (path_flags ops pa)) q
          have e2 := updated_of_fresh ha h1.allocs (init_region .RegionDataPath).2 q
          simp only [deref_allocs] at e1 e2
          unfold path_region
          unfold path_region at e1
          rw [e1]
          split
          · rfl
          · rw [e2]
            rename_i hq
            rw [if_neg hq]
        · rw [hp] at hc
          simp at hc
      · rw [if_pos (by simpa using hs1)] at hc
        simp only [Option.some.injEq, Prod.mk.injEq] at hc
        exact absurd hc.1 hs1

/-- When no allocation fails, GdipCreateRegionPath returns Ok. -/
theorem GdipCreateRegionPath_no_allocs (ops : RealOps) (regions : List (Option GpRegion))
    (pa : GpPath) :
    ∃ h2, GdipCreateRegionPath ops { regions := regions, allocs := [] } (some pa) true =
      some (GpStatus.Ok, some regions.length, h2) := by
  unfold GdipCreateRegionPath
  simp only [Heap.alloc_region, GdipAlloc, init_region_status, ne_eq, not_true_eq_false,
    ↓reduceIte, Heap.store, integer_path_test_no_allocs, GdipClonePath]
  exact ⟨_, rfl⟩

/-- A GdipCreateRegionRect that returns has returned Ok and stored, at a fresh
address, the rect region. -/
theorem GdipCreateRegionRect_ok {h h2 : Heap} {st : GpStatus} {out : Option Nat}
    {rc : GpRectF} (hc : GdipCreateRegionRect h (some rc) true = some (st, out, h2)) :
    st = GpStatus.Ok ∧ ∃ p, out = some p ∧ h.deref p = none ∧
      Heap.Updated h h2 p (rect_region rc) := by
  rcases GdipCreateRegionRect_spec hc with ⟨hne, _⟩ | ⟨hok, p, rc2, e, hout, hfresh, hu⟩
  · exfalso
    unfold GdipCreateRegionRect at hc
    simp only at hc
    rcases ha : h.alloc_region with ⟨_ | p, h1⟩
    · rw [ha] at hc
      simp at hc
    · rw [ha] at hc
      simp only [init_region_status, ne_eq, not_true_eq_false, ↓reduceIte, Option.some.injEq,
        Prod.mk.injEq] at hc
      exact hne hc.1.symm
  · simp only [Option.some.injEq] at e
    subst e
    exact ⟨hok, p, hout, hfresh, hu⟩

theorem GdipCreateRegionRect_no_allocs (regions : List (Option GpRegion)) (rc : GpRectF) :
    ∃ h2, GdipCreateRegionRect { regions := regions, allocs := [] } (some rc) true =
      some (GpStatus.Ok, some regions.length, h2) := by
  unfold GdipCreateRegionRect
  simp only [Heap.alloc_region, GdipAlloc, init_region_status, ne_eq, not_true_eq_false,
    ↓reduceIte]
  exact ⟨_, rfl⟩

theorem deref_updated_same {h h2 : Heap} {p : Nat} {x : GpRegion}
    (hu : Heap.Updated h h2 p x) : h2.deref p = some x := by
  rw [hu p, if_pos rfl]

theorem get_pathtypes_size_least (path : GpPath) :
    path.Count ≤ get_pathtypes_size path ∧ get_pathtypes_size path % 4 = 0 ∧
      ∀ m, m % 4 = 0 → path.Count ≤ m → get_pathtypes_size path ≤ m := by
  rw [get_pathtypes_size_eq]
  refine ⟨by omega, by omega, fun m h1 h2 => by omega⟩

/-! ## Path and rect regions (C13, C14, C15) -/

/-- C13: for every path with n points, a GdipCreateRegionPath that returns Ok
has set pathheader.size to 12 + 8n + 4 * ceil(n/4) when the path is
float-packed and to 12 + 4n + 4 * ceil(n/4) when it is integer-packed, where
4 * ceil(n/4) is get_pathtypes_size, the least multiple of 4 that is at least n;
and the header.size of the region is 16 + pathheader.size. -/
theorem C13_path_header_size (ops : RealOps) (h h2 : Heap) (out : Option Nat) (pa : GpPath)
    (hc : GdipCreateRegionPath ops h (some pa) true = some (GpStatus.Ok, out, h2)) :
    ∃ p hdr ph path2, out = some p ∧
      h2.deref p = some { header := hdr, node := region_element.path ph path2 } ∧
      (ph.flags = FLAGS_NOFLAGS ∨ ph.flags = FLAGS_INTPATH) ∧
      (ph.flags = FLAGS_NOFLAGS →
        ph.size = 12 + 8 * pa.Count + 4 * ((pa.Count + 3) / 4)) ∧
      (ph.flags = FLAGS_INTPATH →
        ph.size = 12 + 4 * pa.Count + 4 * ((pa.Count + 3) / 4)) ∧
      get_pathtypes_size pa = 4 * ((pa.Count + 3) / 4) ∧
      (pa.Count ≤ get_pathtypes_size pa ∧ get_pathtypes_size pa % 4 = 0 ∧
        ∀ m, m % 4 = 0 → pa.Count ≤ m → get_pathtypes_size pa ≤ m) ∧
      hdr.size = 16 + ph.size := by
  obtain ⟨p, hout, _, hu⟩ := GdipCreateRegionPath_ok hc
  have hfl : path_flags ops pa = FLAGS_NOFLAGS ∨ path_flags ops pa = FLAGS_INTPATH := by
    unfold path_flags
    split
    · exact Or.inr rfl
    · split
      · exact Or.inr rfl
      · exact Or.inl rfl
  have hok := path_region_header_ok pa (path_flags ops pa) hfl
  obtain ⟨_, _, hsz⟩ := hok
  have hg := get_pathtypes_size_eq pa
  refine ⟨p, (path_region pa (path_flags ops pa)).header, _, pa, hout,
    deref_updated_same hu, hfl, ?_, ?_, hg, get_pathtypes_size_least pa, ?_⟩
  · intro hf
    rw [hsz, hg, if_pos hf]
  · intro hf
    rw [hsz, hg]
    have : ¬ FLAGS_INTPATH = FLAGS_NOFLAGS := by decide
    rw [if_neg (by rw [hf]; exact this)]
  · simp only [path_region, sizeheader_size, get_element_size, sizeof_DWORD]
    unfold DWORD at *
    omega

theorem C13_path_header_size_witness :
    ∃ p hdr ph path2, some 0 = some p ∧
      example_heap_path.deref p = some { header := hdr, node := region_element.path ph path2 } ∧
      (ph.flags = FLAGS_NOFLAGS ∨ ph.flags = FLAGS_INTPATH) ∧
      (ph.flags = FLAGS_NOFLAGS →
        ph.size = 12 + 8 * example_path.Count + 4 * ((example_path.Count + 3) / 4)) ∧
      (ph.flags = FLAGS_INTPATH →
        ph.size = 12 + 4 * example_path.Count + 4 * ((example_path.Count + 3) / 4)) ∧
      get_pathtypes_size example_path = 4 * ((example_path.Count + 3) / 4) ∧
      (example_path.Count ≤ get_pathtypes_size example_path ∧
        get_pathtypes_size example_path % 4 = 0 ∧
        ∀ m, m % 4 = 0 → example_path.Count ≤ m → get_pathtypes_size example_path ≤ m) ∧
      hdr.size = 16 + ph.size :=
  C13_path_header_size ieee_ops { regions := [], allocs := [] } example_heap_path (some 0)
    example_path (by rfl)

/-- GdipCreateRegionPath returns for every path and every heap. -/
theorem GdipCreateRegionPath_total (ops : RealOps) (h : Heap) (pa : GpPath) :
    ∃ st out h2, GdipCreateRegionPath ops h (some pa) true = some (st, out, h2) := by
  unfold GdipCreateRegionPath
  simp only
  rcases h.alloc_region with ⟨_ | p, h1⟩
  · exact ⟨_, _, _, rfl⟩
  · simp only [init_region_status, ne_eq, not_true_eq_false, ↓reduceIte]
    rcases integer_path_test ops (h1.store p (init_region .RegionDataPath).2).allocs
      pa pa.Count with ⟨stat1, flags, rest1⟩
    simp only
    by_cases hs1 : stat1 = GpStatus.Ok
    · rw [if_neg (by simpa using hs1)]
      obtain ⟨a2, hp | hp⟩ := GdipClonePath_spec rest1 pa
      · rw [hp]
        exact ⟨_, _, _, rfl⟩
      · rw [hp]
        exact ⟨_, _, _, rfl⟩
    · rw [if_pos (by simpa using hs1)]
      exact ⟨_, _, _, rfl⟩

theorem path_flags_empty (ops : RealOps) : path_flags ops { pathdata := [] } = FLAGS_INTPATH :=
  rfl

/-- C14: GdipCreateRegionPath applied to the empty path returns, with Ok when
no allocation fails; when it returns Ok it has created an integer-packed path
node: flags = FLAGS_INTPATH, count = 0, pathheader.size = 12 and header.size =
28, and the encoding is 36 bytes, the header, the path tag 0x10000001 and the
four words of the path header, with no point or type payload. -/
theorem C14_empty_path_region (ops : RealOps) (h : Heap) :
    ∃ st out h2,
      GdipCreateRegionPath ops h (some { pathdata := [] }) true = some (st, out, h2) ∧
      (h.allocs = [] → st = GpStatus.Ok) ∧
      (st = GpStatus.Ok → ∃ p, out = some p ∧
        h2.deref p = some ⟨⟨28, 0xdeadbeef, VERSION_MAGIC, 0⟩,
          region_element.path ⟨12, VERSION_MAGIC, 0, FLAGS_INTPATH⟩ ⟨[]⟩⟩ ∧
        ∀ (buffer : Buffer) (size : Nat), size ≠ 0 →
          ∃ buffer2, GdipGetRegionData ops h2 (some p) (some buffer) size true =
              some (GpStatus.Ok, some buffer2, some 36) ∧
            buffer2.read 0 36 = dword_bytes 28 ++ dword_bytes 0xdeadbeef ++
              dword_bytes VERSION_MAGIC ++ dword_bytes 0 ++ dword_bytes 0x10000001 ++
              dword_bytes 12 ++ dword_bytes VERSION_MAGIC ++ dword_bytes 0 ++
              dword_bytes 0x4000 ∧
            ∀ a, 36 ≤ a → buffer2 a = buffer a) := by
  obtain ⟨st, out, h2, hc⟩ := GdipCreateRegionPath_total ops h { pathdata := [] }
  refine ⟨st, out, h2, hc, ?_, ?_⟩
  · intro ha
    obtain ⟨h3, hc3⟩ := GdipCreateRegionPath_no_allocs ops h.regions { pathdata := [] }
    have hh : h = { regions := h.regions, allocs := [] } := by
      cases h
      simp only at ha
      subst ha
      rfl
    rw [hh, hc3] at hc
    simp only [Option.some.injEq, Prod.mk.injEq] at hc
    exact hc.1.symm
  · intro hst
    subst hst
    obtain ⟨p, hout, _, hu⟩ := GdipCreateRegionPath_ok hc
    have hd := deref_updated_same hu
    rw [path_flags_empty] at hd
    refine ⟨p, hout, hd, ?_⟩
    intro buffer size hsize
    refine ⟨_, GdipGetRegionData_eq ops hd buffer hsize true, ?_, ?_⟩
    · exact read_memcpy buffer 0 _
    · intro a ha
      exact memcpy_outside buffer 0 _ a (Or.inr ha)

theorem C14_empty_path_region_witness :
    ∃ out h2,
      GdipCreateRegionPath ieee_ops ⟨[], []⟩ (some { pathdata := [] }) true =
        some (GpStatus.Ok, out, h2) ∧
      ∃ p, out = some p ∧
        h2.deref p = some ⟨⟨28, 0xdeadbeef, VERSION_MAGIC, 0⟩,
          region_element.path ⟨12, VERSION_MAGIC, 0, FLAGS_INTPATH⟩ ⟨[]⟩⟩ := by
  obtain ⟨st, out, h2, hc, hok, hres⟩ := C14_empty_path_region ieee_ops ⟨[], []⟩
  have hst := hok rfl
  subst hst
  obtain ⟨p, hout, hd, _⟩ := hres rfl
  exact ⟨out, h2, hc, p, hout, hd⟩

/-- C15: for every rectangle (x, y, w, h), a GdipCreateRegionRect that returns
has returned Ok and created a region with a single Rect leaf holding these four
values, header.size = 28 and num_children = 0; its encoding is 36 bytes: the
four words of the header, the tag 0x10000000, then the four coordinates as
32-bit floats in the order X, Y, Width, Height. When no allocation fails the
call returns. -/
theorem C15_rect_region (h h2 : Heap) (st : GpStatus) (out : Option Nat) (rc : GpRectF)
    (hc : GdipCreateRegionRect h (some rc) true = some (st, out, h2)) :
    st = GpStatus.Ok ∧ ∃ p, out = some p ∧
      h2.deref p = some ⟨⟨28, 0xdeadbeef, VERSION_MAGIC, 0⟩, region_element.rect rc⟩ ∧
      (∀ (ops : RealOps) (buffer : Buffer) (size : Nat), size ≠ 0 →
        ∃ buffer2, GdipGetRegionData ops h2 (some p) (some buffer) size true =
            some (GpStatus.Ok, some buffer2, some 36) ∧
          buffer2.read 0 36 = dword_bytes 28 ++ dword_bytes 0xdeadbeef ++
            dword_bytes VERSION_MAGIC ++ dword_bytes 0 ++ dword_bytes 0x10000000 ++
            dword_bytes rc.X ++ dword_bytes rc.Y ++ dword_bytes rc.Width ++
            dword_bytes rc.Height ∧
          ∀ a, 36 ≤ a → buffer2 a = buffer a) ∧
      ∀ regions : List (Option GpRegion), ∃ h3,
        GdipCreateRegionRect { regions := regions, allocs := [] } (some rc) true =
          some (GpStatus.Ok, some regions.length, h3) := by
  obtain ⟨hst, p, hout, _, hu⟩ := GdipCreateRegionRect_ok hc
  have hd : h2.deref p = some ⟨⟨28, 0xdeadbeef, VERSION_MAGIC, 0⟩, region_element.rect rc⟩ :=
    deref_updated_same hu
  refine ⟨hst, p, hout, hd, ?_, fun regions => GdipCreateRegionRect_no_allocs regions rc⟩
  intro ops buffer size hsize
  have hl : ((⟨28, 0xdeadbeef, VERSION_MAGIC, 0⟩ : region_header).bytes ++
      node_stream ops (region_element.rect rc)).length = 36 := by
    rw [List.length_append, region_header_bytes_length]
    rfl
  refine ⟨_, GdipGetRegionData_eq ops hd buffer hsize true, ?_, ?_⟩
  · have hr := read_memcpy buffer 0 ((⟨28, 0xdeadbeef, VERSION_MAGIC, 0⟩ : region_header).bytes ++
      node_stream ops (region_element.rect rc))
    rw [hl] at hr
    rw [hr]
    simp only [region_header.bytes, node_stream, List.append_assoc]
    rfl
  · intro a ha
    exact memcpy_outside buffer 0 _ a (Or.inr (by rw [hl]; exact ha))

theorem C15_rect_region_witness :
    GpStatus.Ok = GpStatus.Ok ∧ ∃ p, some 0 = some p ∧
      example_heap1.deref p =
        some ⟨⟨28, 0xdeadbeef, VERSION_MAGIC, 0⟩, region_element.rect example_rect⟩ ∧
      (∀ (ops : RealOps) (buffer : Buffer) (size : Nat), size ≠ 0 →
        ∃ buffer2, GdipGetRegionData ops example_heap1 (some p) (some buffer) size true =
            some (GpStatus.Ok, some buffer2, some 36) ∧
          buffer2.read 0 36 = dword_bytes 28 ++ dword_bytes 0xdeadbeef ++
            dword_bytes VERSION_MAGIC ++ dword_bytes 0 ++ dword_bytes 0x10000000 ++
            dword_bytes example_rect.X ++ dword_bytes example_rect.Y ++
            dword_bytes example_rect.Width ++ dword_bytes example_rect.Height ∧
          ∀ a, 36 ≤ a → buffer2 a = buffer a) ∧
      ∀ regions : List (Option GpRegion), ∃ h3,
        GdipCreateRegionRect { regions := regions, allocs := [] } (some example_rect) true =
          some (GpStatus.Ok, some regions.length, h3) :=
  C15_rect_region { regions := [], allocs := [] } example_heap1 GpStatus.Ok (some 0)
    example_rect (by rfl)

/-! ## Layout of the encoding (C16, C17, C18) -/

/-- C16: for every path node with n points whose header count is n,
write_element emits, in order, the tag 0x10000001, the four path-header words
size, magic, count, flags, then, if flags = 0, 2n words holding X then Y of each
point as 32-bit floats in point order, or, if flags = 0x4000, n words each with
X converted to a 16-bit value in the first two bytes and Y in the last two, then
ceil(n/4) words of type bytes (the types, then zeroes up to the word boundary);
the offset advances by 5 + 2n + ceil(n/4) words (floats) or 5 + n + ceil(n/4)
words (shorts). -/
theorem C16_path_node_layout (ops : RealOps) (ph : path_header) (path : GpPath)
    (hcount : ph.count = path.Count) (buffer : Buffer) (filled : Nat) :
    ∃ payload : List BYTE, ∃ words : Nat,
      write_element ops (region_element.path ph path) buffer filled =
        (memcpy buffer (filled * 4)
          (dword_bytes 0x10000001 ++ (dword_bytes ph.size ++ dword_bytes ph.magic ++
            dword_bytes path.Count ++ dword_bytes ph.flags) ++ payload ++
            (path.Types ++ List.replicate (4 * ((path.Count + 3) / 4) - path.Count) 0)),
          filled + words) ∧
      (path.Types ++ List.replicate (4 * ((path.Count + 3) / 4) - path.Count) 0).length =
        4 * ((path.Count + 3) / 4) ∧
      (ph.flags = 0 →
        payload = path.Points.flatMap (fun pt => dword_bytes pt.X ++ dword_bytes pt.Y) ∧
        payload.length = 4 * (2 * path.Count) ∧
        words = 5 + 2 * path.Count + (path.Count + 3) / 4) ∧
      (ph.flags = 0x4000 →
        payload = path.Points.flatMap (fun pt =>
          short_bytes (ops.to_short pt.X) ++ short_bytes (ops.to_short pt.Y)) ∧
        payload.length = 4 * path.Count ∧
        words = 5 + path.Count + (path.Count + 3) / 4) := by
  obtain ⟨hmod, hw⟩ := write_element_eq ops (region_element.path ph path)
  have hg := get_pathtypes_size_eq path
  have htl := types_payload_length path
  have hstream : node_stream ops (region_element.path ph path) =
      dword_bytes 0x10000001 ++ (dword_bytes ph.size ++ dword_bytes ph.magic ++
        dword_bytes path.Count ++ dword_bytes ph.flags) ++
        point_payload ops ph.flags path.Points ++
        (path.Types ++ List.replicate (4 * ((path.Count + 3) / 4) - path.Count) 0) := by
    simp only [node_stream, path_header.bytes, types_payload, hcount, hg, List.append_assoc]
    rfl
  have hlen : (node_stream ops (region_element.path ph path)).length =
      20 + (point_payload ops ph.flags path.Points).length + 4 * ((path.Count + 3) / 4) := by
    simp only [node_stream, List.length_append, dword_bytes_length, path_header_bytes_length,
      htl, hg]
    omega
  have hpm := point_payload_length_mod ops ph.flags path.Points
  refine ⟨point_payload ops ph.flags path.Points,
    (node_stream ops (region_element.path ph path)).length / 4, ?_, ?_, ?_, ?_⟩
  · rw [hw, hstream]
    rfl
  · rw [List.length_append, List.length_replicate, Types_length]
    omega
  · intro hf0
    have hf : ph.flags = FLAGS_NOFLAGS := hf0
    have hpl := point_payload_length ops ph.flags path.Points (Or.inl hf)
    rw [if_pos hf, Points_length] at hpl
    refine ⟨?_, by rw [hpl]; omega, by rw [hlen, hpl]; omega⟩
    unfold point_payload
    rw [if_pos hf]
  · intro hf0
    have hf : ph.flags = FLAGS_INTPATH := hf0
    have hne : ¬ ph.flags = FLAGS_NOFLAGS := by
      rw [hf]
      decide
    have hpl := point_payload_length ops ph.flags path.Points (Or.inr hf)
    rw [if_neg hne, Points_length] at hpl
    refine ⟨?_, hpl, by rw [hlen, hpl]; omega⟩
    unfold point_payload
    rw [if_neg hne, if_pos hf]

theorem C16_path_node_layout_witness :
    ∃ payload : List BYTE, ∃ words : Nat,
      write_element ieee_ops (region_element.path ⟨28, VERSION_MAGIC, 3, 0x4000⟩ example_path)
          (fun _ => 0) 4 =
        (memcpy (fun _ => 0) (4 * 4)
          (dword_bytes 0x10000001 ++ (dword_bytes 28 ++ dword_bytes VERSION_MAGIC ++
            dword_bytes example_path.Count ++ dword_bytes 0x4000) ++ payload ++
            (example_path.Types ++
              List.replicate (4 * ((example_path.Count + 3) / 4) - example_path.Count) 0)),
          4 + words) ∧
      (example_path.Types ++
        List.replicate (4 * ((example_path.Count + 3) / 4) - example_path.Count) 0).length =
        4 * ((example_path.Count + 3) / 4) ∧
      ((0x4000 : DWORD) = 0 →
        payload = example_path.Points.flatMap (fun pt => dword_bytes pt.X ++ dword_bytes pt.Y) ∧
        payload.length = 4 * (2 * example_path.Count) ∧
        words = 5 + 2 * example_path.Count + (example_path.Count + 3) / 4) ∧
      ((0x4000 : DWORD) = 0x4000 →
        payload = example_path.Points.flatMap (fun pt =>
          short_bytes (ieee_ops.to_short pt.X) ++ short_bytes (ieee_ops.to_short pt.Y)) ∧
        payload.length = 4 * example_path.Count ∧
        words = 5 + example_path.Count + (example_path.Count + 3) / 4) :=
  C16_path_node_layout ieee_ops ⟨28, VERSION_MAGIC, 3, 0x4000⟩ example_path (by rfl)
    (fun _ => 0) 4

/-- Every region object of a reachable heap has the checksum and magic that
init_region assigns. -/
theorem reachable_magic {ops : RealOps} {h : Heap} (hr : Reachable ops false h) :
    Heap.All (fun r => r.header.checksum = 0xdeadbeef ∧ r.header.magic = VERSION_MAGIC) h := by
  refine reachable_invariant
    (fun r => r.header.checksum = 0xdeadbeef ∧ r.header.magic = VERSION_MAGIC)
    ?_ ?_ ?_ ?_ ?_ ?_ ?_ hr
  · intro t _
    exact ⟨rfl, rfl⟩
  · intro rc
    exact ⟨rfl, rfl⟩
  · intro pa flags _
    exact ⟨rfl, rfl⟩
  · intro r rc mode hP
    exact hP
  · intro r pa flags mode hP _
    exact hP
  · intro r1 r2 mode h1 _
    exact h1
  · intro _ r mode h1
    exact h1

theorem read_memcpy_at (b : Buffer) (xs ys zs : List BYTE) :
    (memcpy b 0 (xs ++ ys ++ zs)).read xs.length ys.length = ys := by
  have h1 := read_memcpy_head b 0 (xs ++ ys) zs
  rw [List.length_append, read_append] at h1
  have h2 := List.append_inj_right h1 (by simp [Buffer.read])
  rw [Nat.zero_add] at h2
  exact h2

/-- C17: every region object of a heap reached by the public operations has
header.checksum = 0xdeadbeef and header.magic = VERSION_MAGIC, the constant
0xdbc01001; GdipGetRegionData writes the header as the first four words of the
output, size at offset 0, checksum at offset 4, magic at offset 8 and
num_children at offset 12, and the node stream, the bytes write_element emits
from word offset 4 on, starts at offset 16. -/
theorem C17_header_layout (ops : RealOps) (h : Heap) (hr : Reachable ops false h)
    (p : Nat) (r : GpRegion) (hp : h.deref p = some r) (buffer : Buffer) (size : Nat)
    (hsize : size ≠ 0) :
    r.header.checksum = 0xdeadbeef ∧ r.header.magic = VERSION_MAGIC ∧
    VERSION_MAGIC = 0xdbc01001 ∧
    ∃ buffer2 needed,
      GdipGetRegionData ops h (some p) (some buffer) size true =
        some (GpStatus.Ok, some buffer2, some needed) ∧
      buffer2.read 0 4 = dword_bytes r.header.size ∧
      buffer2.read 4 4 = dword_bytes 0xdeadbeef ∧
      buffer2.read 8 4 = dword_bytes VERSION_MAGIC ∧
      buffer2.read 12 4 = dword_bytes r.header.num_children ∧
      buffer2 = (write_element ops r.node (memcpy buffer 0 r.header.bytes) 4).1 ∧
      needed = 4 * (write_element ops r.node (memcpy buffer 0 r.header.bytes) 4).2 ∧
      buffer2.read 16 (needed - 16) = node_stream ops r.node := by
  obtain ⟨hck, hmg⟩ := reachable_magic hr p r hp
  obtain ⟨hmod, hw⟩ := write_element_eq ops r.node
  refine ⟨hck, hmg, rfl, _, _, GdipGetRegionData_eq ops hp buffer hsize true, ?_, ?_, ?_, ?_,
    ?_, ?_, ?_⟩
  · have := read_memcpy_at buffer [] (dword_bytes r.header.size)
      (dword_bytes r.header.checksum ++ dword_bytes r.header.magic ++
        dword_bytes r.header.num_children ++ node_stream ops r.node)
    simp only [List.nil_append, List.length_nil, dword_bytes_length] at this
    simp only [region_header.bytes, List.append_assoc] at this ⊢
    exact this
  · have := read_memcpy_at buffer (dword_bytes r.header.size) (dword_bytes r.header.checksum)
      (dword_bytes r.header.magic ++ dword_bytes r.header.num_children ++
        node_stream ops r.node)
    simp only [dword_bytes_length] at this
    rw [hck] at this
    simp only [region_header.bytes, List.append_assoc, hck] at this ⊢
    exact this
  · have := read_memcpy_at buffer (dword_bytes r.header.size ++ dword_bytes r.header.checksum)
      (dword_bytes r.header.magic) (dword_bytes r.header.num_children ++ node_stream ops r.node)
    simp only [List.length_append, dword_bytes_length] at this
    rw [hmg] at this
    simp only [region_header.bytes, List.append_assoc, hmg] at this ⊢
    exact this
  · have := read_memcpy_at buffer (dword_bytes r.header.size ++ dword_bytes r.header.checksum ++
      dword_bytes r.header.magic) (dword_bytes r.header.num_children) (node_stream ops r.node)
    simp only [List.length_append, dword_bytes_length] at this
    simp only [region_header.bytes, List.append_assoc] at this ⊢
    exact this
  · rw [hw, memcpy_append_at _ _ _ _ _ (by rw [region_header_bytes_length]; rfl)]
  · rw [hw]
    simp only
    omega
  · have := read_memcpy_tail buffer 0 r.header.bytes (node_stream ops r.node)
    rw [region_header_bytes_length] at this
    simp only [Nat.zero_add] at this
    rw [Nat.add_sub_cancel_left]
    exact this

theorem C17_header_layout_witness :
    (0xdeadbeef : DWORD) = 0xdeadbeef ∧ VERSION_MAGIC = VERSION_MAGIC ∧
    VERSION_MAGIC = 0xdbc01001 ∧
    ∃ buffer2 needed,
      GdipGetRegionData ieee_ops example_heap4 (some 0) (some (fun _ => 0)) 1 true =
        some (GpStatus.Ok, some buffer2, some needed) ∧
      Buffer.read buffer2 0 4 = dword_bytes 36 ∧
      Buffer.read buffer2 4 4 = dword_bytes 0xdeadbeef ∧
      Buffer.read buffer2 8 4 = dword_bytes VERSION_MAGIC ∧
      Buffer.read buffer2 12 4 = dword_bytes 2 ∧
      buffer2 = (write_element ieee_ops
        (region_element.combine CombineMode.CombineModeUnion
          (region_element.rect example_rect) region_element.infinite)
        (memcpy (fun _ => 0) 0 (region_header.bytes ⟨36, 0xdeadbeef, VERSION_MAGIC, 2⟩)) 4).1 ∧
      needed = 4 * (write_element ieee_ops
        (region_element.combine CombineMode.CombineModeUnion
          (region_element.rect example_rect) region_element.infinite)
        (memcpy (fun _ => 0) 0 (region_header.bytes ⟨36, 0xdeadbeef, VERSION_MAGIC, 2⟩)) 4).2 ∧
      Buffer.read buffer2 16 (needed - 16) = node_stream ieee_ops
        (region_element.combine CombineMode.CombineModeUnion
          (region_element.rect example_rect) region_element.infinite) :=
  C17_header_layout ieee_ops example_heap4 (example_heap4_reachable false) 0
    (combined_region (rect_region example_rect)
      (init_region RegionType.RegionDataInfiniteRect).2 false CombineMode.CombineModeUnion)
    (by rfl) (fun _ => 0) 1 (by decide)

theorem node_parts_flatten (ops : RealOps) (e : region_element) :
    (node_parts ops e).flatten = node_stream ops e := by
  induction e with
  | rect rc => simp [node_parts, node_stream]
  | path ph pa => simp [node_parts, node_stream]
  | empty => simp [node_parts, node_stream]
  | infinite => simp [node_parts, node_stream]
  | combine m l r ihl ihr => simp [node_parts, node_stream, ihl, ihr]

theorem node_parts_aligned (ops : RealOps) (e : region_element) :
    ∀ part ∈ node_parts ops e, part.length % 4 = 0 := by
  induction e with
  | rect rc =>
    intro part hpart
    simp only [node_parts, List.mem_cons, List.mem_singleton, List.not_mem_nil, or_false] at hpart
    rcases hpart with rfl | rfl
    · rfl
    · simp only [List.length_append, dword_bytes_length]
  | path ph pa =>
    intro part hpart
    simp only [node_parts, List.mem_cons, List.mem_singleton, List.not_mem_nil, or_false] at hpart
    rcases hpart with rfl | rfl | rfl | rfl
    · rfl
    · rw [path_header_bytes_length]
    · exact point_payload_length_mod ops ph.flags pa.Points
    · rw [types_payload_length, get_pathtypes_size_eq]
      omega
  | empty =>
    intro part hpart
    simp only [node_parts, List.mem_singleton] at hpart
    subst hpart
    rfl
  | infinite =>
    intro part hpart
    simp only [node_parts, List.mem_singleton] at hpart
    subst hpart
    rfl
  | combine m l r ihl ihr =>
    intro part hpart
    simp only [node_parts, List.mem_cons, List.mem_append] at hpart
    rcases hpart with rfl | hl | hr
    · rw [dword_bytes_length]
    · exact ihl part hl
    · exact ihr part hr

theorem flatten_length_aligned (parts : List (List BYTE))
    (hparts : ∀ part ∈ parts, part.length % 4 = 0) : parts.flatten.length % 4 = 0 := by
  induction parts with
  | nil => rfl
  | cons a rest ih =>
    rw [List.flatten_cons, List.length_append]
    have h1 := hparts a (List.mem_cons_self a rest)
    have h2 := ih (fun part hp => hparts part (List.mem_cons_of_mem a hp))
    omega

theorem get_element_size_pos (e : region_element) : 4 ≤ get_element_size e := by
  cases e <;> simp only [get_element_size, sizeof_DWORD, sizeof_GpRect] <;> omega

/-- C18: for every region object of a heap reached by the public operations,
whatever the number of points of its paths, the serialized size header.size + 8
is a multiple of 4 and at least 20; the output of GdipGetRegionData is the 16
bytes of the header followed by the parts of the nodes (tag, rect payload, path
header, point payload, padded type array), each part has a length that is a
multiple of 4, and so each part starts at an offset that is a multiple of 4. -/
theorem C18_word_alignment (ops : RealOps) (h : Heap) (hr : Reachable ops false h)
    (p : Nat) (r : GpRegion) (hp : h.deref p = some r) (buffer : Buffer) (size : Nat)
    (hsize : size ≠ 0) :
    (r.header.size + 8) % 4 = 0 ∧ 20 ≤ r.header.size + 8 ∧
    (∃ buffer2,
      GdipGetRegionData ops h (some p) (some buffer) size true =
        some (GpStatus.Ok, some buffer2, some (r.header.size + 8)) ∧
      buffer2.read 0 (r.header.size + 8) =
        r.header.bytes ++ (node_parts ops r.node).flatten) ∧
    r.header.bytes.length = 16 ∧
    (∀ part ∈ node_parts ops r.node, part.length % 4 = 0) ∧
    ∀ k, (r.header.bytes ++ ((node_parts ops r.node).take k).flatten).length % 4 = 0 := by
  obtain ⟨hsz, hpaths⟩ := reachable_size_ok hr p r hp
  have hlen := node_stream_length ops r.node hpaths
  have htotal : r.header.size + 8 = 16 + (node_stream ops r.node).length := by
    rw [hlen, hsz]
    unfold sizeheader_size sizeof_DWORD
    unfold DWORD at *
    omega
  have hmod : (node_stream ops r.node).length % 4 = 0 := by
    rw [← node_parts_flatten]
    exact flatten_length_aligned _ (node_parts_aligned ops r.node)
  have hpos := get_element_size_pos r.node
  refine ⟨?_, ?_, ?_, region_header_bytes_length _, node_parts_aligned ops r.node, ?_⟩
  · rw [htotal]
    unfold DWORD at *
    omega
  · rw [htotal, hlen]
    unfold DWORD at *
    omega
  · refine ⟨memcpy buffer 0 (r.header.bytes ++ node_stream ops r.node), ?_, ?_⟩
    · rw [GdipGetRegionData_eq ops hp buffer hsize true, htotal]
      rfl
    · rw [node_parts_flatten]
      have := read_memcpy buffer 0 (r.header.bytes ++ node_stream ops r.node)
      rw [List.length_append, region_header_bytes_length, ← htotal] at this
      exact this
  · intro k
    rw [List.length_append, region_header_bytes_length]
    have := flatten_length_aligned ((node_parts ops r.node).take k)
      (fun part hpart => node_parts_aligned ops r.node part (List.mem_of_mem_take hpart))
    omega

theorem C18_word_alignment_witness :
    (36 + 8) % 4 = 0 ∧ 20 ≤ 36 + 8 ∧
    (∃ buffer2,
      GdipGetRegionData ieee_ops example_heap4 (some 0) (some (fun _ => 0)) 1 true =
        some (GpStatus.Ok, some buffer2, some (36 + 8)) ∧
      Buffer.read buffer2 0 (36 + 8) =
        region_header.bytes ⟨36, 0xdeadbeef, VERSION_MAGIC, 2⟩ ++
          (node_parts ieee_ops (region_element.combine CombineMode.CombineModeUnion
            (region_element.rect example_rect) region_element.infinite)).flatten) ∧
    (region_header.bytes ⟨36, 0xdeadbeef, VERSION_MAGIC, 2⟩).length = 16 ∧
    (∀ part ∈ node_parts ieee_ops (region_element.combine CombineMode.CombineModeUnion
        (region_element.rect example_rect) region_element.infinite), part.length % 4 = 0) ∧
    ∀ k, (region_header.bytes ⟨36, 0xdeadbeef, VERSION_MAGIC, 2⟩ ++
      ((node_parts ieee_ops (region_element.combine CombineMode.CombineModeUnion
        (region_element.rect example_rect) region_element.infinite)).take k).flatten).length
        % 4 = 0 :=
  C18_word_alignment ieee_ops example_heap4 (example_heap4_reachable false) 0
    (combined_region (rect_region example_rect)
      (init_region RegionType.RegionDataInfiniteRect).2 false CombineMode.CombineModeUnion)
    (by rfl) (fun _ => 0) 1 (by decide)

/-! ## Successive combines (C19, C20) -/

/-- A path combine that changes the destination has installed the combine node
with the path leaf whose flags are the outcome of the integer test. -/
theorem GdipCombineRegionPath_edit_flags {ops : RealOps} {h h2 : Heap} {st : GpStatus}
    {p : Nat} {r : GpRegion} {pa : GpPath} {mode : CombineMode} (hp : h.deref p = some r)
    (hc : GdipCombineRegionPath ops h (some p) (some pa) mode = some (st, h2))
    (hed : h2.deref p ≠ h.deref p) :
    st = GpStatus.Ok ∧
      Heap.Updated h h2 p
        (fuse_region r r.node (path_region pa (path_flags ops pa)).node mode) := by
  unfold GdipCombineRegionPath at hc
  simp only at hc
  cases hcr : GdipCreateRegionPath ops h (some pa) true with
  | none =>
    rw [hcr] at hc
    simp at hc
  | some res =>
    obtain ⟨stat, path_reg, h1⟩ := res
    rw [hcr] at hc
    simp only at hc
    by_cases hs : stat = GpStatus.Ok
    · subst hs
      obtain ⟨q, hout, hfresh, hup⟩ := GdipCreateRegionPath_ok hcr
      subst hout
      simp only [ne_eq, not_true_eq_false, ↓reduceIte] at hc
      rcases combine_temp_frame hfresh hup hc with hs | ⟨hst, r2, hr, hu⟩
      · exact absurd (hs p) hed
      · rw [hp] at hr
        simp only [Option.some.injEq] at hr
        subst hr
        exact ⟨hst, hu⟩
    · rw [if_pos hs] at hc
      simp only [Option.some.injEq, Prod.mk.injEq] at hc
      obtain ⟨rfl, rfl⟩ := hc
      rcases GdipCreateRegionPath_spec hcr with ⟨_, hsame⟩ | ⟨hok, _⟩
      · exact absurd (hsame p) hed
      · exact absurd hok hs

/-- A combine with a leaf operand that changes the destination has installed
the combine node: the old tree on the left, the leaf of the operand on the
right. -/
theorem combine_leaf_edit {ops : RealOps} {h h2 : Heap} {st : GpStatus} {p : Nat}
    {r : GpRegion} {e : LeafOperand} {mode : CombineMode} (hp : h.deref p = some r)
    (hc : combine_leaf ops h p e mode = some (st, h2)) (hed : h2.deref p ≠ h.deref p) :
    st = GpStatus.Ok ∧ Heap.Updated h h2 p (fuse_region r r.node (e.element ops) mode) := by
  cases e with
  | rect rc =>
    have hc2 : GdipCombineRegionRect h (some p) (some rc) mode = some (st, h2) := hc
    obtain ⟨hst, rc2, e2, hu⟩ := GdipCombineRegionRect_edit hp hc2 hed
    simp only [Option.some.injEq] at e2
    subst e2
    exact ⟨hst, hu⟩
  | path pa =>
    have hc2 : GdipCombineRegionPath ops h (some p) (some pa) mode = some (st, h2) := hc
    exact GdipCombineRegionPath_edit_flags hp hc2 hed

theorem built_stream {ops : RealOps} {p : Nat} {h h2 : Heap}
    {steps : List (LeafOperand × CombineMode)} (hb : Built ops p h steps h2) {r0 : GpRegion}
    (hp : h.deref p = some r0) :
    ∃ r, h2.deref p = some r ∧
      node_stream ops r.node =
        steps.reverse.flatMap (fun s => dword_bytes s.2.toDWORD) ++
          (node_stream ops r0.node ++
            steps.flatMap (fun s => node_stream ops (s.1.element ops))) := by
  induction hb with
  | init => exact ⟨r0, hp, by simp⟩
  | step hb1 hc hed ih =>
    obtain ⟨r1, hr1, hs1⟩ := ih
    obtain ⟨_, hu⟩ := combine_leaf_edit hr1 hc hed
    refine ⟨_, by rw [hu p, if_pos rfl], ?_⟩
    simp only [fuse_region, node_stream, hs1, List.reverse_append, List.reverse_cons,
      List.reverse_nil, List.nil_append, List.singleton_append, List.flatMap_cons,
      List.flatMap_append, List.flatMap_nil, List.append_nil, List.append_assoc]

theorem combined_region_simple (r1 r2 : GpRegion) (mode : CombineMode)
    (hc : r2.header.num_children = 0) :
    combined_region r1 r2 false mode = fuse_region r1 r1.node r2.node mode := by
  unfold combined_region
  simp only [Bool.false_eq_true, ↓reduceIte, hc]
  rfl

/-- A create_leaf that returns Ok has stored, at a fresh address, a region
without children whose tree is the leaf of the operand. -/
theorem create_leaf_ok {ops : RealOps} {h h2 : Heap} {e : LeafOperand} {out : Option Nat}
    (hc : create_leaf ops h e = some (GpStatus.Ok, out, h2)) :
    ∃ q r, out = some q ∧ h.deref q = none ∧ Heap.Updated h h2 q r ∧
      r.node = e.element ops ∧ r.header.num_children = 0 := by
  cases e with
  | rect rc =>
    have hc2 : GdipCreateRegionRect h (some rc) true = some (GpStatus.Ok, out, h2) := hc
    obtain ⟨_, q, ho, hf, hu⟩ := GdipCreateRegionRect_ok hc2
    exact ⟨q, _, ho, hf, hu, rfl, rfl⟩
  | path pa =>
    have hc2 : GdipCreateRegionPath ops h (some pa) true = some (GpStatus.Ok, out, h2) := hc
    obtain ⟨q, ho, hf, hu⟩ := GdipCreateRegionPath_ok hc2
    exact ⟨q, _, ho, hf, hu, rfl, rfl⟩

theorem create_leaf_no_allocs (ops : RealOps) (h : Heap) (ha : h.allocs = [])
    (e : LeafOperand) :
    ∃ h2, create_leaf ops h e = some (GpStatus.Ok, some h.regions.length, h2) ∧
      h2.allocs = [] := by
  obtain ⟨regions, allocs⟩ := h
  simp only at ha
  subst ha
  cases e with
  | rect rc =>
    unfold create_leaf GdipCreateRegionRect
    simp only [Heap.alloc_region, GdipAlloc, init_region_status, ne_eq, not_true_eq_false,
      ↓reduceIte]
    exact ⟨_, rfl, rfl⟩
  | path pa =>
    unfold create_leaf GdipCreateRegionPath
    simp only [Heap.alloc_region, GdipAlloc, init_region_status, ne_eq, not_true_eq_false,
      ↓reduceIte, Heap.store, integer_path_test_no_allocs, GdipClonePath]
    exact ⟨_, rfl, rfl⟩

theorem combine_leaf_eq (ops : RealOps) (h : Heap) (p : Nat) (e : LeafOperand)
    (mode : CombineMode) :
    combine_leaf ops h p e mode =
      match create_leaf ops h e with
      | none => none
      | some (stat, temp_region, h1) =>
        if stat ≠ GpStatus.Ok then some (stat, h1)
        else combine_with_temp h1 p temp_region stat mode := by
  cases e <;> rfl

theorem combine_with_temp_no_allocs {h : Heap} {p q : Nat} {r temp : GpRegion}
    (mode : CombineMode) (ha : h.allocs = []) (hp : h.deref p = some r)
    (hq : h.deref q = some temp) (hpq : p ≠ q) :
    ∃ h2, combine_with_temp h p (some q) GpStatus.Ok mode = some (GpStatus.Ok, h2) ∧
      h2.allocs = [] ∧ h2.deref p = some (fuse_region r r.node temp.node mode) := by
  unfold combine_with_temp
  simp only [ha, GdipAlloc, hp, Option.some_bind, hq, clone_element_no_allocs, ne_eq,
    not_true_eq_false, ↓reduceIte]
  have hlt := deref_lt hp
  have hst := deref_store { h with allocs := [] } hlt (fuse_region r r.node temp.node mode)
  simp only [deref_allocs] at hst
  have hqp : ¬ q = p := fun e => hpq e.symm
  unfold GdipDeleteRegion delete_element
  simp only [hst q, if_neg hqp, hq]
  refine ⟨_, rfl, rfl, ?_⟩
  rw [deref_free, if_neg hpq, hst p, if_pos rfl]

theorem fuse_region_ne (r : GpRegion) (left right : region_element) (mode : CombineMode) :
    fuse_region r left right mode ≠ r := by
  intro e
  have e2 := congrArg (fun x => x.header.num_children) e
  simp only [fuse_region] at e2
  unfold DWORD at *
  omega

/-- When no allocation fails, the combine with a leaf operand returns Ok and
has edited the region. -/
theorem combine_leaf_no_allocs (ops : RealOps) {h : Heap} {p : Nat} {r : GpRegion}
    (e : LeafOperand) (mode : CombineMode) (ha : h.allocs = []) (hp : h.deref p = some r) :
    ∃ h2, combine_leaf ops h p e mode = some (GpStatus.Ok, h2) ∧ h2.allocs = [] ∧
      h2.deref p = some (fuse_region r r.node (e.element ops) mode) ∧
      h2.deref p ≠ h.deref p := by
  obtain ⟨h1, hc, ha1⟩ := create_leaf_no_allocs ops h ha e
  obtain ⟨q, t, ho, hfresh, hu, hnode, _⟩ := create_leaf_ok hc
  simp only [Option.some.injEq] at ho
  have hpq : p ≠ q := by
    intro e1
    rw [e1, hfresh] at hp
    cases hp
  have hp1 : h1.deref p = some r := by rw [hu p, if_neg hpq, hp]
  have hq1 : h1.deref q = some t := by rw [hu q, if_pos rfl]
  obtain ⟨h2, hc2, ha2, hd2⟩ := combine_with_temp_no_allocs mode ha1 hp1 hq1 hpq
  rw [hnode] at hd2
  refine ⟨h2, ?_, ha2, hd2, ?_⟩
  · rw [combine_leaf_eq, hc, ho]
    simp only [ne_eq, not_true_eq_false, ↓reduceIte]
    exact hc2
  · rw [hd2, hp]
    intro e1
    simp only [Option.some.injEq] at e1
    exact fuse_region_ne _ _ _ _ e1

/-- When no allocation fails, every sequence of leaf operands and modes can be
combined with the region, each call editing it. -/
theorem built_no_allocs (ops : RealOps) {h : Heap} {p : Nat} {r0 : GpRegion}
    (ha : h.allocs = []) (hp : h.deref p = some r0)
    (steps : List (LeafOperand × CombineMode)) :
    ∃ h2, Built ops p h steps h2 ∧ h2.allocs = [] := by
  induction steps using List.reverseRecOn with
  | nil => exact ⟨h, Built.init, ha⟩
  | append_singleton steps s ih =>
    obtain ⟨h1, hb, ha1⟩ := ih
    obtain ⟨r1, hr1, _⟩ := built_stream hb hp
    obtain ⟨h2, hc, ha2, _, hed⟩ := combine_leaf_no_allocs ops s.1 s.2 ha1 hr1
    exact ⟨h2, Built.step hb hc hed, ha2⟩

/-- When no allocation fails, GdipCombineRegionRegion returns Ok. -/
theorem GdipCombineRegionRegion_no_allocs {h : Heap} {p1 p2 : Nat} {r1 r2 : GpRegion}
    (mode : CombineMode) (ha : h.allocs = []) (hp1 : h.deref p1 = some r1)
    (hp2 : h.deref p2 = some r2) :
    ∃ h2, GdipCombineRegionRegion h (some p1) (some p2) mode = some (GpStatus.Ok, h2) := by
  unfold GdipCombineRegionRegion
  simp only [ha, GdipAlloc, hp1, hp2, clone_element_no_allocs, ne_eq, not_true_eq_false,
    ↓reduceIte]
  have hlt := deref_lt hp1
  have hs1 := deref_store { h with allocs := [] } hlt (fuse_region r1 r1.node r2.node mode)
  simp only [deref_allocs] at hs1
  rw [hs1 p1, hs1 p2]
  simp only [↓reduceIte]
  by_cases hpp : p2 = p1
  · rw [if_pos hpp]
    exact ⟨_, rfl⟩
  · rw [if_neg hpp, hp2]
    exact ⟨_, rfl⟩

/-- C19: when the region at p, with the tree e0 (a single leaf in particular),
has been combined successively with the leaf operands e1, ..., en (rects or
paths) and the modes o1, ..., on, in that order, each call having edited the
region, the node stream that GdipGetRegionData writes after the header is the
op codes in the reverse order on, ..., o1, followed by the encoding of e0 and
the encodings of the leaves of e1, ..., en in that order. When no allocation
fails, the combines of every sequence of operands and modes edit the region. -/
theorem C19_leaf_combines_stream (ops : RealOps) (h h2 : Heap) (p : Nat) (r0 : GpRegion)
    (steps : List (LeafOperand × CombineMode)) (hp : h.deref p = some r0)
    (hb : Built ops p h steps h2) (buffer : Buffer) (size : Nat) (hsize : size ≠ 0) :
    ∃ r stream, h2.deref p = some r ∧
      stream = steps.reverse.flatMap (fun s => dword_bytes s.2.toDWORD) ++
        (node_stream ops r0.node ++
          steps.flatMap (fun s => node_stream ops (s.1.element ops))) ∧
      GdipGetRegionData ops h2 (some p) (some buffer) size true =
        some (GpStatus.Ok, some (memcpy buffer 0 (r.header.bytes ++ stream)),
          some (16 + stream.length)) ∧
      (memcpy buffer 0 (r.header.bytes ++ stream)).read 16 stream.length = stream ∧
      (h.allocs = [] → ∀ steps2, ∃ h3, Built ops p h steps2 h3) := by
  obtain ⟨r, hr, hs⟩ := built_stream hb hp
  refine ⟨r, _, hr, rfl, ?_, ?_, ?_⟩
  · rw [GdipGetRegionData_eq ops hr buffer hsize true, hs]
    rfl
  · have := read_memcpy_tail buffer 0 r.header.bytes
      (steps.reverse.flatMap (fun s => dword_bytes s.2.toDWORD) ++
        (node_stream ops r0.node ++
          steps.flatMap (fun s => node_stream ops (s.1.element ops))))
    rw [region_header_bytes_length] at this
    simp only [Nat.zero_add] at this
    exact this
  · intro ha steps2
    obtain ⟨h3, hb3, _⟩ := built_no_allocs ops ha hp steps2
    exact ⟨h3, hb3⟩

theorem C19_leaf_combines_stream_witness :
    ∃ r stream, example_heap_built2.deref 0 = some r ∧
      stream =
        [(LeafOperand.rect example_rect, CombineMode.CombineModeIntersect),
          (LeafOperand.path example_path, CombineMode.CombineModeXor)].reverse.flatMap
          (fun s => dword_bytes s.2.toDWORD) ++
        (node_stream ieee_ops (rect_region example_rect).node ++
          [(LeafOperand.rect example_rect, CombineMode.CombineModeIntersect),
            (LeafOperand.path example_path, CombineMode.CombineModeXor)].flatMap
            (fun s => node_stream ieee_ops (s.1.element ieee_ops))) ∧
      GdipGetRegionData ieee_ops example_heap_built2 (some 0) (some (fun _ => 0)) 1 true =
        some (GpStatus.Ok, some (memcpy (fun _ => 0) 0 (r.header.bytes ++ stream)),
          some (16 + stream.length)) ∧
      (memcpy (fun _ => 0) 0 (r.header.bytes ++ stream)).read 16 stream.length = stream ∧
      (example_heap1.allocs = [] → ∀ steps2, ∃ h3, Built ieee_ops 0 example_heap1 steps2 h3) :=
  C19_leaf_combines_stream ieee_ops example_heap1 example_heap_built2 0
    (rect_region example_rect)
    [(LeafOperand.rect example_rect, CombineMode.CombineModeIntersect),
      (LeafOperand.path example_path, CombineMode.CombineModeXor)]
    (by rfl)
    (@Built.step ieee_ops 0 example_heap1 example_heap_built1 example_heap_built2
      [(LeafOperand.rect example_rect, CombineMode.CombineModeIntersect)]
      (LeafOperand.path example_path) CombineMode.CombineModeXor GpStatus.Ok
      (@Built.step ieee_ops 0 example_heap1 example_heap1 example_heap_built1 []
        (LeafOperand.rect example_rect) CombineMode.CombineModeIntersect GpStatus.Ok
        Built.init (by rfl) (by decide))
      (by rfl) (by decide))
    (fun _ => 0) 1 (by decide)

/-- C20: let r1 be a region object, e a rectangle or a path and op a combine
mode. When the simple region R of e has been created (GdipCreateRegionRect or
GdipCreateRegionPath returning Ok) and GdipCombineRegionRegion(r1, R, op) has
returned Ok, r1 is the same region object, with the same header (size and
num_children) and the same tree, as after a GdipCombineRegionRect or
GdipCombineRegionPath (r1, e, op) that has edited r1, so that GdipGetRegionData
gives the same result for both. When no allocation fails, the calls of both
scenarios return Ok and the combine with e edits r1. -/
theorem C20_combine_simple_region (ops : RealOps) (hA hA1 hA2 hB hB2 : Heap) (p1 q : Nat)
    (r1 : GpRegion) (e : LeafOperand) (mode : CombineMode) (st : GpStatus)
    (hpA : hA.deref p1 = some r1) (hpB : hB.deref p1 = some r1)
    (hcreate : create_leaf ops hA e = some (GpStatus.Ok, some q, hA1))
    (hregion : GdipCombineRegionRegion hA1 (some p1) (some q) mode = some (GpStatus.Ok, hA2))
    (hleaf : combine_leaf ops hB p1 e mode = some (st, hB2))
    (hed : hB2.deref p1 ≠ hB.deref p1) :
    ∃ r, hA2.deref p1 = some r ∧ hB2.deref p1 = some r ∧
      r.node = region_element.combine mode r1.node (e.element ops) ∧
      r.header.num_children = r1.header.num_children + 2 ∧
      r.header.size = sizeheader_size + get_element_size r.node ∧
      r.header.checksum = r1.header.checksum ∧ r.header.magic = r1.header.magic ∧
      (∀ buffer size needed,
        GdipGetRegionData ops hA2 (some p1) buffer size needed =
          GdipGetRegionData ops hB2 (some p1) buffer size needed) ∧
      (hA.allocs = [] → ∃ q2 hA3 hA4,
        create_leaf ops hA e = some (GpStatus.Ok, some q2, hA3) ∧
        GdipCombineRegionRegion hA3 (some p1) (some q2) mode = some (GpStatus.Ok, hA4)) ∧
      (hB.allocs = [] → ∃ hB3,
        combine_leaf ops hB p1 e mode = some (GpStatus.Ok, hB3) ∧
        hB3.deref p1 ≠ hB.deref p1) := by
  obtain ⟨q2, r2, ho, hfresh, hu, hnode, hch⟩ := create_leaf_ok hcreate
  simp only [Option.some.injEq] at ho
  subst ho
  have hne : p1 ≠ q := by
    intro e1
    rw [e1, hfresh] at hpA
    cases hpA
  have h1 : hA1.deref p1 = some r1 := by rw [hu p1, if_neg hne, hpA]
  have h2 : hA1.deref q = some r2 := by rw [hu q, if_pos rfl]
  have hA := GdipCombineRegionRegion_ok h1 h2 hregion
  rw [decide_eq_false hne, combined_region_simple r1 r2 mode hch, hnode] at hA
  obtain ⟨_, hB⟩ := combine_leaf_edit hpB hleaf hed
  have eA : hA2.deref p1 = some (fuse_region r1 r1.node (e.element ops) mode) := by
    rw [hA p1, if_pos rfl]
  have eB : hB2.deref p1 = some (fuse_region r1 r1.node (e.element ops) mode) := by
    rw [hB p1, if_pos rfl]
  refine ⟨_, eA, eB, rfl, rfl, rfl, rfl, rfl, fun buffer size needed => ?_, ?_, ?_⟩
  · exact GdipGetRegionData_congr ops (eA.trans eB.symm) buffer size needed
  · intro ha
    obtain ⟨hA3, hc3, ha3⟩ := create_leaf_no_allocs ops _ ha e
    obtain ⟨q3, r3, ho3, hfresh3, hu3, _, _⟩ := create_leaf_ok hc3
    have hne3 : p1 ≠ q3 := by
      intro e1
      rw [e1, hfresh3] at hpA
      cases hpA
    have h13 : hA3.deref p1 = some r1 := by rw [hu3 p1, if_neg hne3, hpA]
    have h23 : hA3.deref q3 = some r3 := by rw [hu3 q3, if_pos rfl]
    obtain ⟨hA4, hc4⟩ := GdipCombineRegionRegion_no_allocs mode ha3 h13 h23
    rw [ho3] at hc3
    exact ⟨q3, hA3, hA4, hc3, hc4⟩
  · intro ha
    obtain ⟨hB3, hc3, _, _, hed3⟩ := combine_leaf_no_allocs ops e mode ha hpB
    exact ⟨hB3, hc3, hed3⟩

theorem C20_combine_simple_region_witness :
    (∃ r, example_heap_two_rects_combined.deref 0 = some r ∧
      example_heap_built1.deref 0 = some r ∧
      r.node = region_element.combine CombineMode.CombineModeIntersect
        (rect_region example_rect).node ((LeafOperand.rect example_rect).element ieee_ops) ∧
      r.header.num_children = (rect_region example_rect).header.num_children + 2 ∧
      r.header.size = sizeheader_size + get_element_size r.node ∧
      r.header.checksum = (rect_region example_rect).header.checksum ∧
      r.header.magic = (rect_region example_rect).header.magic ∧
      (∀ buffer size needed,
        GdipGetRegionData ieee_ops example_heap_two_rects_combined (some 0) buffer size needed =
          GdipGetRegionData ieee_ops example_heap_built1 (some 0) buffer size needed) ∧
      (example_heap1.allocs = [] → ∃ q2 hA3 hA4,
        create_leaf ieee_ops example_heap1 (LeafOperand.rect example_rect) =
          some (GpStatus.Ok, some q2, hA3) ∧
        GdipCombineRegionRegion hA3 (some 0) (some q2) CombineMode.CombineModeIntersect =
          some (GpStatus.Ok, hA4)) ∧
      (example_heap1.allocs = [] → ∃ hB3,
        combine_leaf ieee_ops example_heap1 0 (LeafOperand.rect example_rect)
          CombineMode.CombineModeIntersect = some (GpStatus.Ok, hB3) ∧
        hB3.deref 0 ≠ example_heap1.deref 0)) ∧
    (∃ r, example_heap_rect_path_combined.deref 0 = some r ∧
      example_heap_built_path.deref 0 = some r ∧
      r.node = region_element.combine CombineMode.CombineModeXor
        (rect_region example_rect).node ((LeafOperand.path example_path).element ieee_ops) ∧
      r.header.num_children = (rect_region example_rect).header.num_children + 2 ∧
      r.header.size = sizeheader_size + get_element_size r.node ∧
      r.header.checksum = (rect_region example_rect).header.checksum ∧
      r.header.magic = (rect_region example_rect).header.magic ∧
      (∀ buffer size needed,
        GdipGetRegionData ieee_ops example_heap_rect_path_combined (some 0) buffer size needed =
          GdipGetRegionData ieee_ops example_heap_built_path (some 0) buffer size needed) ∧
      (example_heap1.allocs = [] → ∃ q2 hA3 hA4,
        create_leaf ieee_ops example_heap1 (LeafOperand.path example_path) =
          some (GpStatus.Ok, some q2, hA3) ∧
        GdipCombineRegionRegion hA3 (some 0) (some q2) CombineMode.CombineModeXor =
          some (GpStatus.Ok, hA4)) ∧
      (example_heap1.allocs = [] → ∃ hB3,
        combine_leaf ieee_ops example_heap1 0 (LeafOperand.path example_path)
          CombineMode.CombineModeXor = some (GpStatus.Ok, hB3) ∧
        hB3.deref 0 ≠ example_heap1.deref 0)) :=
  ⟨C20_combine_simple_region ieee_ops example_heap1 example_heap_two_rects
      example_heap_two_rects_combined example_heap1 example_heap_built1 0 1
      (rect_region example_rect) (LeafOperand.rect example_rect)
      CombineMode.CombineModeIntersect GpStatus.Ok
      (by rfl) (by rfl) (by rfl) (by rfl) (by rfl) (by decide),
    C20_combine_simple_region ieee_ops example_heap1 example_heap_rect_path
      example_heap_rect_path_combined example_heap1 example_heap_built_path 0 1
      (rect_region example_rect) (LeafOperand.path example_path)
      CombineMode.CombineModeXor GpStatus.Ok
      (by rfl) (by rfl) (by rfl) (by rfl) (by rfl) (by decide)⟩

/-! ## The integer test of GdipCreateRegionPath (C11, C12) -/

theorem bit_length_zero (fuel : Nat) : bit_length fuel 0 = 0 := by
  cases fuel <;> rfl

theorem bit_length_le (fuel n : Nat) : bit_length fuel n ≤ fuel := by
  induction fuel generalizing n with
  | zero => exact Nat.le_of_eq rfl
  | succ k ih =>
    unfold bit_length
    split
    · omega
    · have := ih (n / 2)
      omega

theorem bit_length_spec (fuel n : Nat) (hn : n ≠ 0) (hlt : n < 2 ^ fuel) :
    1 ≤ bit_length fuel n ∧ 2 ^ (bit_length fuel n - 1) ≤ n ∧ n < 2 ^ bit_length fuel n := by
  induction fuel generalizing n with
  | zero =>
    simp at hlt
    exact absurd hlt hn
  | succ k ih =>
    unfold bit_length
    rw [if_neg hn]
    by_cases h2 : n / 2 = 0
    · rw [h2, bit_length_zero]
      have : n = 1 := by omega
      subst this
      simp
    · have hlt2 : n / 2 < 2 ^ k := by
        rw [pow_succ] at hlt
        omega
      obtain ⟨h1, hlo, hhi⟩ := ih (n / 2) h2 hlt2
      refine ⟨by omega, ?_, ?_⟩
      · have e : bit_length k (n / 2) + 1 - 1 = (bit_length k (n / 2) - 1) + 1 := by omega
        rw [e, pow_succ]
        omega
      · rw [pow_succ]
        omega

/-- The fields of the single of a nonzero INT: a biased exponent between 127
and 159 and a significand without digits below the unit. -/
theorem real_of_int_fields (m : Int) (h0 : m ≠ 0) (hm : m.natAbs < 2 ^ 32) :
    ∃ s E f : Nat, real_of_int m = s + E * 2 ^ 23 + f ∧ (s = 0 ∨ s = 2 ^ 31) ∧ f < 2 ^ 23 ∧
      127 ≤ E ∧ E ≤ 159 ∧ (E < 150 → (2 ^ 23 + f) % 2 ^ (150 - E) = 0) := by
  have hn : m.natAbs ≠ 0 := by
    intro e
    exact h0 (Int.natAbs_eq_zero.mp e)
  obtain ⟨hb1, hlo, hhi⟩ := bit_length_spec 32 m.natAbs hn hm
  have hb32 := bit_length_le 32 m.natAbs
  unfold real_of_int
  rw [if_neg h0]
  simp only
  generalize bit_length 32 m.natAbs = b at *
  generalize m.natAbs = a at *
  have hs : (if m < 0 then 2 ^ 31 else 0 : Nat) = 0 ∨ (if m < 0 then 2 ^ 31 else 0 : Nat) = 2 ^ 31 := by
    split
    · exact Or.inr rfl
    · exact Or.inl rfl
  generalize (if m < 0 then 2 ^ 31 else 0 : Nat) = s at *
  obtain ⟨e, rfl⟩ : ∃ e, b = e + 1 := ⟨b - 1, by omega⟩
  simp only [Nat.add_sub_cancel] at *
  by_cases he : e ≤ 23
  · rw [if_pos he]
    have hp : 2 ^ e * 2 ^ (23 - e) = 2 ^ 23 := by
      rw [← pow_add]
      congr 1
      omega
    have hp2 : 2 ^ (e + 1) * 2 ^ (23 - e) = 2 ^ 24 := by
      rw [← pow_add]
      congr 1
      omega
    have hpos : 0 < 2 ^ (23 - e) := Nat.two_pow_pos _
    have h1 : 2 ^ 23 ≤ a * 2 ^ (23 - e) := by
      rw [← hp]
      exact Nat.mul_le_mul_right _ hlo
    have h2 : a * 2 ^ (23 - e) < 2 ^ 24 := by
      rw [← hp2]
      exact Nat.mul_lt_mul_of_pos_right hhi hpos
    refine ⟨s, 127 + e, a * 2 ^ (23 - e) - 2 ^ 23, rfl, hs, by omega, by omega, by omega, ?_⟩
    intro _
    have e1 : 2 ^ 23 + (a * 2 ^ (23 - e) - 2 ^ 23) = a * 2 ^ (23 - e) := by omega
    have e2 : 150 - (127 + e) = 23 - e := by omega
    rw [e1, e2]
    exact Nat.mul_mod_left _ _
  · rw [if_neg he]
    have hp : 2 ^ 23 * 2 ^ (e - 23) = 2 ^ e := by
      rw [← pow_add]
      congr 1
      omega
    have hp2 : 2 ^ 24 * 2 ^ (e - 23) = 2 ^ (e + 1) := by
      rw [← pow_add]
      congr 1
      omega
    have hpos : 0 < 2 ^ (e - 23) := Nat.two_pow_pos _
    have h1 : 2 ^ 23 ≤ a / 2 ^ (e - 23) := by
      rw [Nat.le_div_iff_mul_le hpos, hp]
      exact hlo
    have h2 : a / 2 ^ (e - 23) < 2 ^ 24 := by
      rw [Nat.div_lt_iff_lt_mul hpos, hp2]
      exact hhi
    generalize a / 2 ^ (e - 23) = q0 at *
    have hq : (if a % 2 ^ (e - 23) > 2 ^ (e - 24) ∨
        a % 2 ^ (e - 23) = 2 ^ (e - 24) ∧ q0 % 2 = 1 then q0 + 1 else q0) = q0 ∨
      (if a % 2 ^ (e - 23) > 2 ^ (e - 24) ∨
        a % 2 ^ (e - 23) = 2 ^ (e - 24) ∧ q0 % 2 = 1 then q0 + 1 else q0) = q0 + 1 := by
      split
      · exact Or.inr rfl
      · exact Or.inl rfl
    generalize (if a % 2 ^ (e - 23) > 2 ^ (e - 24) ∨
      a % 2 ^ (e - 23) = 2 ^ (e - 24) ∧ q0 % 2 = 1 then q0 + 1 else q0) = q at *
    by_cases hq2 : q < 2 ^ 24
    · exact ⟨s, 127 + e, q - 2 ^ 23, rfl, hs, by omega, by omega, by omega, by omega⟩
    · have hq3 : q = 2 ^ 24 := by omega
      subst hq3
      have e1 : s + (127 + e) * 2 ^ 23 + (2 ^ 24 - 2 ^ 23) = s + (128 + e) * 2 ^ 23 + 0 := by
        omega
      exact ⟨s, 128 + e, 0, e1, hs, by omega, by omega, by omega, by omega⟩

theorem real_fields_of_sum (s E f : Nat) (hs : s = 0 ∨ s = 2 ^ 31) (hf : f < 2 ^ 23)
    (hE : E ≤ 159) :
    (s + E * 2 ^ 23 + f) / 2 ^ 23 % 256 = E ∧ (s + E * 2 ^ 23 + f) % 2 ^ 23 = f := by
  rcases hs with rfl | rfl <;> omega

/-- The single of an INT is a number without a fraction. -/
theorem real_of_int_integral (m : Int) (hm : is_INT m = true) :
    real_is_nan (real_of_int m) = false ∧ real_is_fractional (real_of_int m) = false := by
  by_cases h0 : m = 0
  · subst h0
    exact ⟨by decide, by decide⟩
  · have hm2 : m.natAbs < 2 ^ 32 := by
      simp only [is_INT, decide_eq_true_eq] at hm
      omega
    obtain ⟨s, E, f, hx, hs, hf, hE1, hE2, hint⟩ := real_of_int_fields m h0 hm2
    obtain ⟨e1, e2⟩ := real_fields_of_sum s E f hs hf hE2
    rw [hx]
    constructor
    · unfold real_is_nan
      rw [decide_eq_false_iff_not, e1]
      intro e3
      have e4 : E ≠ 255 := by omega
      exact e4 e3.1
    · have e3 : ¬ E = 0 := by omega
      simp only [real_is_fractional, real_exponent, real_significand, e1, e2, if_neg e3,
        decide_eq_false_iff_not, not_and, not_not]
      exact hint

theorem real_eq_of_int_self (m : Int) (hm : is_INT m = true) :
    real_eq (real_of_int m) (real_of_int m) = true := by
  have h1 := (real_of_int_integral m hm).1
  simp [real_eq, h1]

theorem real_eq_fractional (m : Int) (hm : is_INT m = true) (x : REAL)
    (hx : real_is_fractional x = true) : real_eq (real_of_int m) x = false := by
  cases h : real_eq (real_of_int m) x with
  | false => rfl
  | true =>
    exfalso
    simp only [real_eq, Bool.and_eq_true, Bool.or_eq_true, decide_eq_true_eq] at h
    rcases h.2 with e | ⟨_, e⟩
    · rw [← e, (real_of_int_integral m hm).2] at hx
      cases hx
    · have e1 : x / 2 ^ 23 % 256 = 0 := by
        unfold REAL at *
        omega
      have e2 : x % 2 ^ 23 = 0 := by
        unfold REAL at *
        omega
      simp only [real_is_fractional, real_significand, e1, e2, ↓reduceIte, Nat.zero_mod, ne_eq,
        not_true_eq_false, and_false, decide_False] at hx
      cases hx

theorem int_points_match_true (ops : RealOps) (pts : List GpPointF)
    (hall : ∀ pt ∈ pts, ops.eq (ops.of_int (ops.to_int pt.X)) pt.X = true ∧
      ops.eq (ops.of_int (ops.to_int pt.Y)) pt.Y = true) :
    int_points_match ops (pts.map (fun pt => ⟨ops.to_int pt.X, ops.to_int pt.Y⟩)) pts = true := by
  induction pts with
  | nil => rfl
  | cons pt rest ih =>
    obtain ⟨hx, hy⟩ := hall pt (List.mem_cons_self pt rest)
    simp only [List.map_cons, int_points_match, hx, hy, Bool.and_self, Bool.not_true,
      Bool.false_eq_true, ↓reduceIte]
    exact ih (fun q hq => hall q (List.mem_cons_of_mem pt hq))

theorem int_points_match_false (ops : RealOps) (pts : List GpPointF)
    (hex : ∃ pt ∈ pts, ops.eq (ops.of_int (ops.to_int pt.X)) pt.X = false ∨
      ops.eq (ops.of_int (ops.to_int pt.Y)) pt.Y = false) :
    int_points_match ops (pts.map (fun pt => ⟨ops.to_int pt.X, ops.to_int pt.Y⟩)) pts = false := by
  induction pts with
  | nil =>
    obtain ⟨pt, hpt, _⟩ := hex
    cases hpt
  | cons pt rest ih =>
    simp only [List.map_cons, int_points_match]
    by_cases hm : (!(ops.eq (ops.of_int (ops.to_int pt.X)) pt.X &&
        ops.eq (ops.of_int (ops.to_int pt.Y)) pt.Y)) = true
    · rw [if_pos hm]
    · rw [if_neg hm]
      obtain ⟨q, hq, hne⟩ := hex
      rcases List.mem_cons.mp hq with rfl | hq2
      · exfalso
        apply hm
        rcases hne with e | e <;> simp [e]
      · exact ih ⟨q, hq2, hne⟩

/-- Coordinates that are the singles of INTs, of any size, pass the integer
test. -/
theorem path_flags_INT (ops : RealOps) (hof : ops.of_int = real_of_int)
    (heq : ops.eq = real_eq) (pa : GpPath)
    (hall : ∀ pt ∈ pa.Points,
      is_INT_coordinate ops pt.X = true ∧ is_INT_coordinate ops pt.Y = true) :
    path_flags ops pa = FLAGS_INTPATH := by
  have key : ∀ x, is_INT_coordinate ops x = true →
      ops.eq (ops.of_int (ops.to_int x)) x = true := by
    intro x hx
    simp only [is_INT_coordinate, Bool.decide_and, Bool.decide_eq_true, Bool.and_eq_true,
      decide_eq_true_eq] at hx
    obtain ⟨h1, h3⟩ := hx
    rw [hof, heq]
    generalize ops.to_int x = n at *
    subst h3
    exact real_eq_of_int_self n h1
  unfold path_flags
  split
  · rfl
  · rw [int_points_match_true ops pa.Points
      (fun pt hpt => ⟨key pt.X (hall pt hpt).1, key pt.Y (hall pt hpt).2⟩)]
    rfl

theorem is_short_INT_coordinate {ops : RealOps} {x : REAL}
    (hx : is_short_coordinate ops x = true) : is_INT_coordinate ops x = true := by
  simp only [is_short_coordinate, decide_eq_true_eq] at hx
  simp only [is_INT_coordinate, is_INT, Bool.decide_and, Bool.decide_eq_true, Bool.and_eq_true,
    decide_eq_true_eq]
  obtain ⟨h1, h2, h3⟩ := hx
  exact ⟨⟨by omega, by omega⟩, h3⟩

theorem path_flags_short (ops : RealOps) (hof : ops.of_int = real_of_int)
    (heq : ops.eq = real_eq) (pa : GpPath)
    (hall : ∀ pt ∈ pa.Points,
      is_short_coordinate ops pt.X = true ∧ is_short_coordinate ops pt.Y = true) :
    path_flags ops pa = FLAGS_INTPATH :=
  path_flags_INT ops hof heq pa (fun pt hpt =>
    ⟨is_short_INT_coordinate (hall pt hpt).1, is_short_INT_coordinate (hall pt hpt).2⟩)

theorem path_flags_fractional (ops : RealOps) (hof : ops.of_int = real_of_int)
    (heq : ops.eq = real_eq) (pa : GpPath)
    (hint : ∀ pt ∈ pa.Points, is_INT (ops.to_int pt.X) = true ∧ is_INT (ops.to_int pt.Y) = true)
    (hex : ∃ pt ∈ pa.Points, real_is_fractional pt.X = true ∨ real_is_fractional pt.Y = true) :
    path_flags ops pa = FLAGS_NOFLAGS := by
  obtain ⟨pt, hpt, hfr⟩ := hex
  have hcount : pa.Count ≠ 0 := by
    rw [← Points_length]
    intro e
    rw [List.length_eq_zero] at e
    rw [e] at hpt
    cases hpt
  unfold path_flags
  rw [if_neg hcount, int_points_match_false ops pa.Points ⟨pt, hpt, ?_⟩]
  · rfl
  · rw [hof, heq]
    rcases hfr with hx | hy
    · exact Or.inl (real_eq_fractional _ (hint pt hpt).1 _ hx)
    · exact Or.inr (real_eq_fractional _ (hint pt hpt).2 _ hy)

theorem real_of_int_small (n : Int) (h0 : n ≠ 0) (hn : n.natAbs < 2 ^ 23) :
    ∃ e : Nat, e ≤ 22 ∧ 2 ^ 23 ≤ n.natAbs * 2 ^ (23 - e) ∧ n.natAbs * 2 ^ (23 - e) < 2 ^ 24 ∧
      real_of_int n = (if n < 0 then 2 ^ 31 else 0) + (127 + e) * 2 ^ 23 +
        (n.natAbs * 2 ^ (23 - e) - 2 ^ 23) := by
  have hne : n.natAbs ≠ 0 := by
    intro e
    exact h0 (Int.natAbs_eq_zero.mp e)
  have hm : n.natAbs < 2 ^ 32 := by omega
  obtain ⟨hb1, hlo, hhi⟩ := bit_length_spec 32 n.natAbs hne hm
  unfold real_of_int
  rw [if_neg h0]
  simp only
  generalize bit_length 32 n.natAbs = b at *
  generalize n.natAbs = a at *
  obtain ⟨e, rfl⟩ : ∃ e, b = e + 1 := ⟨b - 1, by omega⟩
  simp only [Nat.add_sub_cancel] at *
  have he : e ≤ 22 := by
    by_contra hc
    have h23 : 2 ^ 23 ≤ 2 ^ e := Nat.pow_le_pow_right (by decide) (by omega)
    omega
  have hp : 2 ^ e * 2 ^ (23 - e) = 2 ^ 23 := by
    rw [← pow_add]
    congr 1
    omega
  have hp2 : 2 ^ (e + 1) * 2 ^ (23 - e) = 2 ^ 24 := by
    rw [← pow_add]
    congr 1
    omega
  have hpos : 0 < 2 ^ (23 - e) := Nat.two_pow_pos _
  refine ⟨e, he, ?_, ?_, ?_⟩
  · rw [← hp]
    exact Nat.mul_le_mul_right _ hlo
  · rw [← hp2]
    exact Nat.mul_lt_mul_of_pos_right hhi hpos
  · rw [if_pos (by omega)]

/-- The rounding conversion gives back the integer of which a single is the
conversion, for integers below 2 ^ 23 in absolute value. -/
theorem real_round_of_int (n : Int) (hn : n.natAbs < 2 ^ 23) :
    real_round (real_of_int n) = n := by
  by_cases h0 : n = 0
  · subst h0
    have e0 : real_of_int 0 = 0 := rfl
    rw [e0]
    unfold real_round real_exponent real_signed real_significand
    simp only [Nat.zero_div, Nat.zero_mod, ↓reduceIte]
    rw [if_neg (by decide), if_neg (by decide)]
    rw [Int.fdiv_eq_ediv _ (by positivity)]
    apply Int.ediv_eq_zero_of_lt
    · positivity
    · norm_num
  · obtain ⟨e, he, h1, h2, hx⟩ := real_of_int_small n h0 hn
    have hs : (if n < 0 then 2 ^ 31 else 0 : Nat) = 0 ∨
        (if n < 0 then 2 ^ 31 else 0 : Nat) = 2 ^ 31 := by
      split
      · exact Or.inr rfl
      · exact Or.inl rfl
    have hsign : ((if n < 0 then 2 ^ 31 else 0 : Nat) + (127 + e) * 2 ^ 23 +
        (n.natAbs * 2 ^ (23 - e) - 2 ^ 23)) / 2 ^ 31 % 2 = if n < 0 then 1 else 0 := by
      split <;> omega
    obtain ⟨e1, e2⟩ := real_fields_of_sum _ (127 + e) (n.natAbs * 2 ^ (23 - e) - 2 ^ 23) hs
      (by omega) (by omega)
    rw [hx]
    have e3 : ¬ 127 + e = 0 := by omega
    have e4 : ¬ 150 ≤ 127 + e := by omega
    have e5 : 2 ^ 23 + (n.natAbs * 2 ^ (23 - e) - 2 ^ 23) = n.natAbs * 2 ^ (23 - e) := by omega
    have e6 : 150 - (127 + e) = 23 - e := by omega
    unfold real_round real_exponent real_signed real_significand
    simp only [e1, e2, hsign, if_neg e3, if_neg e4, e5, e6]
    have hP : (0 : Int) < 2 ^ (23 - e) := by positivity
    rw [Int.fdiv_eq_ediv _ (by positivity)]
    have hsg : (if (if n < 0 then 1 else 0) = 1 then -((n.natAbs * 2 ^ (23 - e) : Nat) : Int)
        else ((n.natAbs * 2 ^ (23 - e) : Nat) : Int)) = n * 2 ^ (23 - e) := by
      push_cast
      by_cases hneg : n < 0
      · simp only [hneg, ↓reduceIte]
        rw [abs_of_neg hneg]
        ring
      · simp only [hneg, ↓reduceIte]
        rw [if_neg (by decide), abs_of_nonneg (by omega)]
    rw [hsg]
    have e7 : 2 * (n * 2 ^ (23 - e)) + 2 ^ (23 - e) =
        2 ^ (23 - e) + n * (2 ^ (23 - e + 1) : Int) := by
      rw [pow_succ]
      ring
    rw [e7, Int.add_mul_ediv_right _ _ (by positivity)]
    rw [Int.ediv_eq_zero_of_lt (le_of_lt hP) (by rw [pow_succ]; omega)]
    simp

/-- Under the IEEE instance every single of an integer in the range of a
`short` is a short coordinate. -/
theorem ieee_short_coordinate (n : Int) (h1 : -32768 ≤ n) (h2 : n ≤ 32767) :
    is_short_coordinate ieee_ops (real_of_int n) = true := by
  have hr : ieee_ops.to_int (real_of_int n) = n := real_round_of_int n (by omega)
  simp only [is_short_coordinate, hr, decide_eq_true_eq]
  exact ⟨h1, h2, trivial⟩

/-- C11: let the conversion of an INT to REAL and the comparison of REALs be
those of IEEE 754 single precision, and let GdipGetPathPointsI give INTs. For
a GdipCreateRegionPath that returns Ok, the path node created has flags =
FLAGS_INTPATH = 0x4000 when every coordinate of every point of the path is the
single of an integer in the range -32768 .. 32767, which GdipGetPathPointsI
converts to that integer; and it has flags = FLAGS_NOFLAGS = 0 when at least
one coordinate of at least one point has a fraction, whatever the other points
are. With the conversion floor (x + 1/2) of the IEEE instance, the single of
every integer in the range -32768 .. 32767 is such a coordinate. -/
theorem C11_path_classification (ops : RealOps) (hof : ops.of_int = real_of_int)
    (heq : ops.eq = real_eq) (h h2 : Heap) (out : Option Nat) (pa : GpPath)
    (hint : ∀ pt ∈ pa.Points, is_INT (ops.to_int pt.X) = true ∧ is_INT (ops.to_int pt.Y) = true)
    (hc : GdipCreateRegionPath ops h (some pa) true = some (GpStatus.Ok, out, h2)) :
    ∃ p hdr ph, out = some p ∧
      h2.deref p = some { header := hdr, node := region_element.path ph pa } ∧
      ((∀ pt ∈ pa.Points,
          is_short_coordinate ops pt.X = true ∧ is_short_coordinate ops pt.Y = true) →
        ph.flags = FLAGS_INTPATH) ∧
      ((∃ pt ∈ pa.Points, real_is_fractional pt.X = true ∨ real_is_fractional pt.Y = true) →
        ph.flags = FLAGS_NOFLAGS) ∧
      FLAGS_INTPATH = 0x4000 ∧ FLAGS_NOFLAGS = 0 ∧
      ∀ n : Int, -32768 ≤ n → n ≤ 32767 →
        is_short_coordinate ieee_ops (real_of_int n) = true := by
  obtain ⟨p, hout, _, hu⟩ := GdipCreateRegionPath_ok hc
  refine ⟨p, (path_region pa (path_flags ops pa)).header, _, hout, deref_updated_same hu,
    ?_, ?_, rfl, rfl, ieee_short_coordinate⟩
  · intro hall
    exact path_flags_short ops hof heq pa hall
  · intro hex
    exact path_flags_fractional ops hof heq pa hint hex

theorem C11_path_classification_witness :
    (∃ hdr ph, example_heap_path.deref 0 =
        some { header := hdr, node := region_element.path ph example_path } ∧
      ph.flags = FLAGS_INTPATH) ∧
    (∃ hdr ph, example_heap_path_frac.deref 0 =
        some { header := hdr, node := region_element.path ph example_path_frac } ∧
      ph.flags = FLAGS_NOFLAGS) := by
  constructor
  · obtain ⟨p, hdr, ph, h1, h2, h3, _⟩ := C11_path_classification ieee_ops rfl rfl
      ⟨[], []⟩ example_heap_path (some 0) example_path (by decide) (by rfl)
    cases h1
    exact ⟨hdr, ph, h2, h3 (by decide)⟩
  · obtain ⟨p, hdr, ph, h1, h2, _, h4, _⟩ := C11_path_classification ieee_ops rfl rfl
      ⟨[], []⟩ example_heap_path_frac (some 0) example_path_frac (by decide) (by rfl)
    cases h1
    exact ⟨hdr, ph, h2, h4 (by decide)⟩

/-- C12: the path with the single point (40000, 1), whose first coordinate is
integral and outside -32768 .. 32767, is classified as integer-packed, not
float-packed: the integer test compares each coordinate with its conversion to
INT, which is 40000, not with its conversion to a 16-bit integer. The `short`
that write_packed_point then stores has the bytes 0x40 0x9c, those of -25536,
and no `short` equals the coordinate. -/
theorem C12_wide_coordinate_int_packed :
    real_of_int 40000 = 0x471c4000 ∧ real_trunc 0x471c4000 = 40000 ∧
    real_round 0x471c4000 = 40000 ∧
    (∃ h2 hdr ph buffer2,
      GdipCreateRegionPath ieee_ops ⟨[], []⟩ (some example_path_wide) true =
        some (GpStatus.Ok, some 0, h2) ∧
      h2.deref 0 = some { header := hdr, node := region_element.path ph example_path_wide } ∧
      ph.flags = FLAGS_INTPATH ∧ ph.flags ≠ FLAGS_NOFLAGS ∧
      GdipGetRegionData ieee_ops h2 (some 0) (some (fun _ => 0)) 44 true =
        some (GpStatus.Ok, some buffer2, some 44) ∧
      buffer2.read 36 4 = [0x40, 0x9c, 1, 0] ∧
      buffer2.read 36 4 = short_bytes (-25536) ++ short_bytes 1) ∧
    ∀ v : Int, -32768 ≤ v → v ≤ 32767 → v ≠ real_trunc 0x471c4000 := by
  have e2 : real_trunc 0x471c4000 = 40000 := by decide
  refine ⟨by decide, e2, by decide, ?_, ?_⟩
  · obtain ⟨h2, hc⟩ := GdipCreateRegionPath_no_allocs ieee_ops [] example_path_wide
    obtain ⟨p, hout, _, hu⟩ := GdipCreateRegionPath_ok hc
    simp only [List.length_nil, Option.some.injEq] at hout
    subst hout
    have hf : path_flags ieee_ops example_path_wide = FLAGS_INTPATH := by
      apply path_flags_INT ieee_ops rfl rfl
      intro pt hpt
      simp only [example_path_wide, GpPath.Points, List.map_cons, List.map_nil,
        List.mem_singleton] at hpt
      subst hpt
      exact ⟨by decide, by decide⟩
    rw [hf] at hu
    have hd := deref_updated_same hu
    refine ⟨h2, _, _, _, hc, hd, by decide, by decide,
      GdipGetRegionData_eq ieee_ops hd (fun _ => 0) (by decide) true, by rfl, by rfl⟩
  · intro v h1 h2 e
    rw [e2] at e
    omega

/-! ## Missing arguments and the declared buffer size (C21, C22) -/

/-- C21: each of the thirteen entry points returns InvalidParameter when one
of its required arguments is missing (a null region, operand, output slot or
buffer pointer; for GdipIsInfiniteRegion also a null graphics pointer), whatever
the other arguments are, and the heap, hence every region object, is then what
it was before the call; no allocation is made and no output is written. -/
theorem C21_missing_argument (ops : RealOps) (h : Heap) :
    GdipCreateRegion h false = some (GpStatus.InvalidParameter, none, h) ∧
    (∀ rect region, rect = none ∨ region = false →
      GdipCreateRegionRect h rect region = some (GpStatus.InvalidParameter, none, h)) ∧
    (∀ path region, path = none ∨ region = false →
      GdipCreateRegionPath ops h path region = some (GpStatus.InvalidParameter, none, h)) ∧
    (∀ region clone, region = none ∨ clone = false →
      GdipCloneRegion h region clone = some (GpStatus.InvalidParameter, none, h)) ∧
    (∀ region rect mode, region = none ∨ rect = none →
      GdipCombineRegionRect h region rect mode = some (GpStatus.InvalidParameter, h)) ∧
    (∀ region rect mode, region = none ∨ rect = none →
      GdipCombineRegionRectI ops h region rect mode = some (GpStatus.InvalidParameter, h)) ∧
    (∀ region path mode, region = none ∨ path = none →
      GdipCombineRegionPath ops h region path mode = some (GpStatus.InvalidParameter, h)) ∧
    (∀ region1 region2 mode, region1 = none ∨ region2 = none →
      GdipCombineRegionRegion h region1 region2 mode = some (GpStatus.InvalidParameter, h)) ∧
    GdipSetEmpty h none = some (GpStatus.InvalidParameter, h) ∧
    GdipSetInfinite h none = some (GpStatus.InvalidParameter, h) ∧
    (∀ region needed, region = none ∨ needed = false →
      GdipGetRegionDataSize h region needed = some (GpStatus.InvalidParameter, none)) ∧
    (∀ region buffer size needed, region = none ∨ buffer = none →
      GdipGetRegionData ops h region buffer size needed =
        some (GpStatus.InvalidParameter, buffer, none)) ∧
    (∀ region graphics res, region = none ∨ graphics = false ∨ res = false →
      GdipIsInfiniteRegion h region graphics res = some (GpStatus.InvalidParameter, none)) := by
  refine ⟨rfl, ?_, ?_, ?_, ?_, ?_, ?_, ?_, rfl, rfl, ?_, ?_, ?_⟩
  · intro rect region hm
    rcases hm with rfl | rfl
    · cases region <;> rfl
    · cases rect <;> rfl
  · intro path region hm
    rcases hm with rfl | rfl
    · cases region <;> rfl
    · cases path <;> rfl
  · intro region clone hm
    rcases hm with rfl | rfl
    · cases clone <;> rfl
    · cases region <;> rfl
  · intro region rect mode hm
    rcases hm with rfl | rfl
    · cases rect <;> rfl
    · cases region <;> rfl
  · intro region rect mode hm
    rcases hm with rfl | rfl
    · cases rect <;> rfl
    · rfl
  · intro region path mode hm
    rcases hm with rfl | rfl
    · cases path <;> rfl
    · cases region <;> rfl
  · intro region1 region2 mode hm
    rcases hm with rfl | rfl
    · cases region2 <;> rfl
    · cases region1 <;> rfl
  · intro region needed hm
    rcases hm with rfl | rfl
    · cases needed <;> rfl
    · cases region <;> rfl
  · intro region buffer size needed hm
    rcases hm with rfl | rfl
    · cases buffer <;> rfl
    · cases region <;> rfl
  · intro region graphics res hm
    rcases hm with rfl | rfl | rfl
    · cases graphics <;> cases res <;> rfl
    · cases region <;> cases res <;> rfl
    · cases region <;> cases graphics <;> rfl

theorem C21_missing_argument_witness :
    GdipCombineRegionRectI ieee_ops example_heap1 none (some ⟨1, 2, 3, 4⟩)
        CombineMode.CombineModeUnion = some (GpStatus.InvalidParameter, example_heap1) ∧
    GdipCombineRegionRegion example_heap1 (some 0) none CombineMode.CombineModeXor =
      some (GpStatus.InvalidParameter, example_heap1) ∧
    GdipGetRegionData ieee_ops example_heap1 (some 0) none 36 true =
      some (GpStatus.InvalidParameter, none, none) ∧
    GdipIsInfiniteRegion example_heap1 (some 0) false true =
      some (GpStatus.InvalidParameter, none) :=
  ⟨(C21_missing_argument ieee_ops example_heap1).2.2.2.2.2.1 none (some ⟨1, 2, 3, 4⟩)
      CombineMode.CombineModeUnion (Or.inl rfl),
    (C21_missing_argument ieee_ops example_heap1).2.2.2.2.2.2.2.1 (some 0) none
      CombineMode.CombineModeXor (Or.inr rfl),
    (C21_missing_argument ieee_ops example_heap1).2.2.2.2.2.2.2.2.2.2.2.1 (some 0) none 36 true
      (Or.inr rfl),
    (C21_missing_argument ieee_ops example_heap1).2.2.2.2.2.2.2.2.2.2.2.2 (some 0) false true
      (Or.inr (Or.inl rfl))⟩

/-- C22: for every region and every buffer, GdipGetRegionData gives, for any
two non-zero values of its size argument, the same result: status Ok, the same
memory written and the same byte count in *needed, which is header.size + 8
for a region of a reachable heap. In particular with size = 1 the whole
encoding, header.size + 8 bytes, is still written. -/
theorem C22_size_not_validated (ops : RealOps) (h : Heap) (p : Nat) (r : GpRegion)
    (hp : h.deref p = some r) (buffer : Buffer) (size1 size2 : Nat) (h1 : size1 ≠ 0)
    (h2 : size2 ≠ 0) (needed : Bool) :
    GdipGetRegionData ops h (some p) (some buffer) size1 needed =
      GdipGetRegionData ops h (some p) (some buffer) size2 needed ∧
    (∃ buffer2, GdipGetRegionData ops h (some p) (some buffer) size1 true =
        some (GpStatus.Ok, some buffer2, some (16 + (node_stream ops r.node).length)) ∧
      buffer2.read 0 (16 + (node_stream ops r.node).length) =
        r.header.bytes ++ node_stream ops r.node) ∧
    (Reachable ops false h → 16 + (node_stream ops r.node).length = r.header.size + 8) := by
  refine ⟨?_, ⟨_, GdipGetRegionData_eq ops hp buffer h1 true, ?_⟩, ?_⟩
  · rw [GdipGetRegionData_eq ops hp buffer h1 needed,
      GdipGetRegionData_eq ops hp buffer h2 needed]
  · have hr := read_memcpy buffer 0 (r.header.bytes ++ node_stream ops r.node)
    rw [List.length_append, region_header_bytes_length] at hr
    exact hr
  · intro hr
    obtain ⟨hsz, hpaths⟩ := reachable_size_ok hr p r hp
    rw [node_stream_length ops r.node hpaths, hsz]
    unfold sizeheader_size sizeof_DWORD
    unfold DWORD at *
    omega

theorem C22_size_not_validated_witness :
    GdipGetRegionData ieee_ops example_heap1 (some 0) (some (fun _ => 0)) 1 true =
      GdipGetRegionData ieee_ops example_heap1 (some 0) (some (fun _ => 0)) 36 true ∧
    (∃ buffer2, GdipGetRegionData ieee_ops example_heap1 (some 0) (some (fun _ => 0)) 1 true =
        some (GpStatus.Ok, some buffer2,
          some (16 + (node_stream ieee_ops (rect_region example_rect).node).length)) ∧
      buffer2.read 0 (16 + (node_stream ieee_ops (rect_region example_rect).node).length) =
        (rect_region example_rect).header.bytes ++
          node_stream ieee_ops (rect_region example_rect).node) ∧
    (Reachable ieee_ops false example_heap1 →
      16 + (node_stream ieee_ops (rect_region example_rect).node).length =
        (rect_region example_rect).header.size + 8) :=
  C22_size_not_validated ieee_ops example_heap1 0 (rect_region example_rect) (by rfl)
    (fun _ => 0) 1 36 (by decide) (by decide) true

/-! ## The type bytes of a path (C30) -/

/-- C30: for every path with n points, every buffer content and every offset,
write_path_types advances the offset by ceil(n/4) words; the n bytes from the
old offset on are the type bytes of the path in point order, the next
4 * ceil(n/4) - n bytes, at most 3, are zero, and no other byte of the buffer
changes. -/
theorem C30_write_path_types (location : Buffer) (offset : Nat) (path : GpPath) :
    ∃ pad, pad = 4 * ((path.Count + 3) / 4) - path.Count ∧ pad ≤ 3 ∧
      (write_path_types location offset path).2 = offset + (path.Count + 3) / 4 ∧
      (write_path_types location offset path).1.read (offset * 4) path.Count = path.Types ∧
      (write_path_types location offset path).1.read (offset * 4 + path.Count) pad =
        List.replicate pad 0 ∧
      ∀ a, a < offset * 4 ∨ offset * 4 + 4 * ((path.Count + 3) / 4) ≤ a →
        (write_path_types location offset path).1 a = location a := by
  obtain ⟨_, hw⟩ := writes_path_types path
  have hw2 := hw location offset
  simp only at hw2
  have hg := get_pathtypes_size_eq path
  have hl := types_payload_length path
  have ht := Types_length path
  rw [hw2]
  refine ⟨_, rfl, by omega, ?_, ?_, ?_, ?_⟩
  · simp only
    rw [hl, hg]
    omega
  · have := read_memcpy_head location (offset * sizeof_DWORD) path.Types
      (List.replicate (get_pathtypes_size path - path.Count) 0)
    rw [ht] at this
    exact this
  · have := read_memcpy_tail location (offset * sizeof_DWORD) path.Types
      (List.replicate (get_pathtypes_size path - path.Count) 0)
    rw [ht, List.length_replicate] at this
    rw [← hg]
    exact this
  · intro a ha
    apply memcpy_outside
    rw [hl, hg]
    exact ha

/-! ## Invariants of the trees (C27) -/

theorem nodes_self (e : region_element) : e ∈ e.nodes := by
  cases e <;> simp [region_element.nodes]

theorem mode_is_combine_type (mode : CombineMode) :
    is_combine_type mode.toDWORD = true ∧ is_leaf_type mode.toDWORD = false := by
  cases mode <;> exact ⟨by decide, by decide⟩

theorem path_region_node (pa : GpPath) (flags : DWORD) :
    ∃ ph, (path_region pa flags).node = region_element.path ph pa :=
  ⟨_, rfl⟩

theorem kind_is_leaf_type (kind : RegionType) :
    is_leaf_type kind.toDWORD = true ∧ is_combine_type kind.toDWORD = false := by
  cases kind <;> exact ⟨by decide, by decide⟩

theorem leaf_shape (kind : RegionType) (n : region_element) (hk : n.type = kind.toDWORD)
    (hc : n.children = []) :
    (is_combine_type n.type = true ∨ is_leaf_type n.type = true) ∧
      (is_combine_type n.type = true →
        is_leaf_type n.type = false ∧
        ∃ mode left right, n = region_element.combine mode left right ∧
          n.children = [left, right] ∧ left ∈ n.nodes ∧ right ∈ n.nodes) ∧
      (is_leaf_type n.type = true → is_combine_type n.type = false ∧ n.children = []) := by
  obtain ⟨h1, h2⟩ := kind_is_leaf_type kind
  rw [hk]
  refine ⟨Or.inr h1, fun h3 => ?_, fun _ => ⟨h2, hc⟩⟩
  rw [h2] at h3
  cases h3

/-- Type and shape of a node agree: a combine mode as type goes with two
children, which are nodes of the tree the node belongs to; a leaf kind as type
goes with no child; and the type is one or the other. -/
theorem nodes_shape (e : region_element) :
    ∀ n ∈ e.nodes,
      (is_combine_type n.type = true ∨ is_leaf_type n.type = true) ∧
      (is_combine_type n.type = true →
        is_leaf_type n.type = false ∧
        ∃ mode left right, n = region_element.combine mode left right ∧
          n.children = [left, right] ∧ left ∈ e.nodes ∧ right ∈ e.nodes) ∧
      (is_leaf_type n.type = true → is_combine_type n.type = false ∧ n.children = []) := by
  induction e with
  | rect rc =>
    intro n hn
    simp only [region_element.nodes, List.mem_singleton] at hn
    subst hn
    exact leaf_shape RegionType.RegionDataRect _ rfl rfl
  | path ph pa =>
    intro n hn
    simp only [region_element.nodes, List.mem_singleton] at hn
    subst hn
    exact leaf_shape RegionType.RegionDataPath _ rfl rfl
  | empty =>
    intro n hn
    simp only [region_element.nodes, List.mem_singleton] at hn
    subst hn
    exact leaf_shape RegionType.RegionDataEmptyRect _ rfl rfl
  | infinite =>
    intro n hn
    simp only [region_element.nodes, List.mem_singleton] at hn
    subst hn
    exact leaf_shape RegionType.RegionDataInfiniteRect _ rfl rfl
  | combine mode l r ihl ihr =>
    intro n hn
    simp only [region_element.nodes, List.mem_cons, List.mem_append] at hn
    obtain ⟨hm1, hm2⟩ := mode_is_combine_type mode
    rcases hn with rfl | hn | hn
    · refine ⟨Or.inl hm1, fun _ => ⟨hm2, mode, l, r, rfl, rfl, ?_, ?_⟩, fun hl => ?_⟩
      · simp only [region_element.nodes, List.mem_cons, List.mem_append]
        exact Or.inr (Or.inl (nodes_self l))
      · simp only [region_element.nodes, List.mem_cons, List.mem_append]
        exact Or.inr (Or.inr (nodes_self r))
      · have hl2 : is_leaf_type mode.toDWORD = true := hl
        rw [hm2] at hl2
        cases hl2
    · obtain ⟨h1, h2, h3⟩ := ihl n hn
      refine ⟨h1, fun hc => ?_, h3⟩
      obtain ⟨hlf, m, a, b, e1, e2, ha, hb⟩ := h2 hc
      refine ⟨hlf, m, a, b, e1, e2, ?_, ?_⟩ <;>
        simp only [region_element.nodes, List.mem_cons, List.mem_append]
      · exact Or.inr (Or.inl ha)
      · exact Or.inr (Or.inl hb)
    · obtain ⟨h1, h2, h3⟩ := ihr n hn
      refine ⟨h1, fun hc => ?_, h3⟩
      obtain ⟨hlf, m, a, b, e1, e2, ha, hb⟩ := h2 hc
      refine ⟨hlf, m, a, b, e1, e2, ?_, ?_⟩ <;>
        simp only [region_element.nodes, List.mem_cons, List.mem_append]
      · exact Or.inr (Or.inr ha)
      · exact Or.inr (Or.inr hb)

theorem paths_ok_iff (e : region_element) :
    paths_ok e ↔ ∀ x ∈ path_nodes e, path_header_ok x.1 x.2 := by
  induction e with
  | rect rc => simp [paths_ok, path_nodes]
  | path ph pa => simp [paths_ok, path_nodes]
  | empty => simp [paths_ok, path_nodes]
  | infinite => simp [paths_ok, path_nodes]
  | combine mode l r ihl ihr =>
    simp only [paths_ok, path_nodes, List.mem_append, ihl, ihr]
    constructor
    · rintro ⟨h1, h2⟩ x (hx | hx)
      · exact h1 x hx
      · exact h2 x hx
    · intro hx
      exact ⟨fun x h1 => hx x (Or.inl h1), fun x h2 => hx x (Or.inr h2)⟩

/-- The heaps that the public operations reach are closed under
GdipCombineRegionRectI, which is GdipCombineRegionRect on the converted
rectangle. -/
theorem reachable_combine_rectI {ops : RealOps} {distinct : Bool} {h h2 : Heap}
    {st : GpStatus} (region : Option Nat) (rect : Option GpRect) (mode : CombineMode)
    (hr : Reachable ops distinct h)
    (hc : GdipCombineRegionRectI ops h region rect mode = some (st, h2)) :
    Reachable ops distinct h2 := by
  cases rect with
  | none =>
    simp only [GdipCombineRegionRectI, Option.some.injEq, Prod.mk.injEq] at hc
    rw [← hc.2]
    exact hr
  | some rc => exact Reachable.combine_rect region _ mode hr hc

/-- In the tree model every region object holds a tree with a root node, and
for every node of that tree: its type is one of the six combine modes or one of the four leaf
kinds; if it is a combine mode the node has exactly two children, which are
nodes of the tree again; if it is Rect, Path, EmptyRect or InfiniteRect the
node has no child. clone_element gives either Ok with a complete copy of the
tree or OutOfMemory with a null pointer, so that a GdipCloneRegion that returns
Ok yields the same tree; each of the three combines leaves the tree as it was
or installs a combine node whose children are the old tree and the tree of the
operand; GdipSetEmpty and GdipSetInfinite return Ok and leave the single leaf
EmptyRect or InfiniteRect. -/
theorem tree_model_operations (ops : RealOps) (h : Heap) (p : Nat) (r : GpRegion)
    (hp : h.deref p = some r) :
    (r.node ∈ r.node.nodes ∧
      ∀ n ∈ r.node.nodes,
        (is_combine_type n.type = true ∨ is_leaf_type n.type = true) ∧
        (is_combine_type n.type = true →
          is_leaf_type n.type = false ∧
          ∃ mode left right, n = region_element.combine mode left right ∧
            n.children = [left, right] ∧ left ∈ r.node.nodes ∧ right ∈ r.node.nodes) ∧
        (is_leaf_type n.type = true → is_combine_type n.type = false ∧ n.children = [])) ∧
    (∀ (e : region_element) (allocs : List Bool) (element2 : Bool), ∃ rest,
      clone_element allocs e element2 = (GpStatus.Ok, some e, rest) ∨
      clone_element allocs e element2 = (GpStatus.OutOfMemory, none, rest)) ∧
    (∀ out h2, GdipCloneRegion h (some p) true = some (GpStatus.Ok, out, h2) →
      ∃ q, out = some q ∧ h2.deref q = some r ∧ h2.deref p = some r) ∧
    (∀ rect mode st h2, GdipCombineRegionRect h (some p) rect mode = some (st, h2) →
      h2.deref p = some r ∨
      ∃ rc, (h2.deref p).map GpRegion.node =
        some (region_element.combine mode r.node (region_element.rect rc))) ∧
    (∀ path mode st h2, GdipCombineRegionPath ops h (some p) path mode = some (st, h2) →
      h2.deref p = some r ∨
      ∃ pathheader pa, (h2.deref p).map GpRegion.node =
        some (region_element.combine mode r.node (region_element.path pathheader pa))) ∧
    (∀ p2 r2 mode st h2, h.deref p2 = some r2 →
      GdipCombineRegionRegion h (some p) (some p2) mode = some (st, h2) →
      h2.deref p = some r ∨
      (h2.deref p).map GpRegion.node = some (region_element.combine mode r.node r2.node)) ∧
    (∀ st h2, GdipSetEmpty h (some p) = some (st, h2) →
      st = GpStatus.Ok ∧ (h2.deref p).map GpRegion.node = some region_element.empty) ∧
    (∀ st h2, GdipSetInfinite h (some p) = some (st, h2) →
      st = GpStatus.Ok ∧ (h2.deref p).map GpRegion.node = some region_element.infinite) ∧
    region_element.empty.nodes = [region_element.empty] ∧
    region_element.infinite.nodes = [region_element.infinite] := by
  refine ⟨⟨nodes_self r.node, nodes_shape r.node⟩, fun e a b => clone_element_spec e a b,
    ?_, ?_, ?_, ?_, ?_, ?_, rfl, rfl⟩
  · intro out h2 hc
    rcases GdipCloneRegion_spec hc with ⟨hne, _⟩ | ⟨_, p0, q, r0, e1, e2, h1, hfresh, hu⟩
    · exact absurd rfl hne
    · simp only [Option.some.injEq] at e1
      subst e1
      rw [hp] at h1
      simp only [Option.some.injEq] at h1
      subst h1
      have hpq : p ≠ q := by
        intro e3
        rw [e3, hfresh] at hp
        cases hp
      exact ⟨q, e2, by rw [hu q, if_pos rfl], by rw [hu p, if_neg hpq, hp]⟩
  · intro rect mode st h2 hc
    rcases GdipCombineRegionRect_spec hc with hs | ⟨_, p0, r0, rc, e1, _, h1, hu⟩
    · exact Or.inl ((hs p).trans hp)
    · simp only [Option.some.injEq] at e1
      subst e1
      rw [hp] at h1
      simp only [Option.some.injEq] at h1
      subst h1
      refine Or.inr ⟨rc, ?_⟩
      rw [hu p, if_pos rfl]
      rfl
  · intro path mode st h2 hc
    rcases GdipCombineRegionPath_spec hc with hs | ⟨_, p0, r0, pa, flags, e1, _, h1, _, hu⟩
    · exact Or.inl ((hs p).trans hp)
    · simp only [Option.some.injEq] at e1
      subst e1
      rw [hp] at h1
      simp only [Option.some.injEq] at h1
      subst h1
      obtain ⟨ph, hph⟩ := path_region_node pa flags
      refine Or.inr ⟨ph, pa, ?_⟩
      rw [hu p, if_pos rfl, ← hph]
      rfl
  · intro p2 r2 mode st h2 hp2 hc
    rcases GdipCombineRegionRegion_spec hc with
      ⟨_, hs⟩ | ⟨_, q1, q2, s1, s2, e1, e2, h1, h2', hu⟩
    · exact Or.inl ((hs p).trans hp)
    · simp only [Option.some.injEq] at e1 e2
      subst e1 e2
      rw [hp] at h1
      rw [hp2] at h2'
      simp only [Option.some.injEq] at h1 h2'
      subst h1 h2'
      right
      rw [hu p, if_pos rfl]
      rfl
  · intro st h2 hc
    rcases GdipSetEmpty_spec hc with ⟨hne, _⟩ | ⟨hst, p0, r0, e1, _, hu⟩
    · exfalso
      unfold GdipSetEmpty at hc
      simp only [hp, init_region, delete_element, Option.some.injEq, Prod.mk.injEq] at hc
      exact hne hc.1.symm
    · simp only [Option.some.injEq] at e1
      subst e1
      refine ⟨hst, ?_⟩
      rw [hu p, if_pos rfl]
      rfl
  · intro st h2 hc
    rcases GdipSetInfinite_spec hc with ⟨hne, _⟩ | ⟨hst, p0, r0, e1, _, hu⟩
    · exfalso
      unfold GdipSetInfinite at hc
      simp only [hp, init_region, delete_element, Option.some.injEq, Prod.mk.injEq] at hc
      exact hne hc.1.symm
    · simp only [Option.some.injEq] at e1
      subst e1
      refine ⟨hst, ?_⟩
      rw [hu p, if_pos rfl]
      rfl

/-- C27: in every region object of a heap reached by the public operations,
every path node has a header whose count is the point count of the geometry of
the node, whose flags are 0 or 0x4000 and whose size is 12 + 8 * count (flags
0) or 12 + 4 * count (flags 0x4000) + get_pathtypes_size of that geometry. -/
theorem C27_path_header_invariant (ops : RealOps) (h : Heap) (hr : Reachable ops false h)
    (p : Nat) (r : GpRegion) (hp : h.deref p = some r) :
    ∀ pathheader path, (pathheader, path) ∈ path_nodes r.node →
      pathheader.count = path.Count ∧
      (pathheader.flags = 0 ∨ pathheader.flags = 0x4000) ∧
      (pathheader.flags = 0 →
        pathheader.size = 12 + 8 * pathheader.count + get_pathtypes_size path) ∧
      (pathheader.flags = 0x4000 →
        pathheader.size = 12 + 4 * pathheader.count + get_pathtypes_size path) := by
  intro ph pa hmem
  obtain ⟨_, hpaths⟩ := reachable_size_ok hr p r hp
  obtain ⟨hcount, hflags, hsize⟩ := (paths_ok_iff r.node).mp hpaths (ph, pa) hmem
  simp only at hcount hflags hsize
  refine ⟨hcount, hflags, ?_, ?_⟩
  · intro hf
    have hf2 : ph.flags = FLAGS_NOFLAGS := hf
    rw [hsize, if_pos hf2, hcount]
  · intro hf
    have hf2 : ¬ ph.flags = FLAGS_NOFLAGS := by
      rw [hf]
      decide
    rw [hsize, if_neg hf2, hcount]

theorem C27_path_header_invariant_witness :
    (⟨28, VERSION_MAGIC, 3, FLAGS_INTPATH⟩ : path_header).count = example_path.Count ∧
      ((⟨28, VERSION_MAGIC, 3, FLAGS_INTPATH⟩ : path_header).flags = 0 ∨
        (⟨28, VERSION_MAGIC, 3, FLAGS_INTPATH⟩ : path_header).flags = 0x4000) ∧
      ((⟨28, VERSION_MAGIC, 3, FLAGS_INTPATH⟩ : path_header).flags = 0 →
        (⟨28, VERSION_MAGIC, 3, FLAGS_INTPATH⟩ : path_header).size =
          12 + 8 * (⟨28, VERSION_MAGIC, 3, FLAGS_INTPATH⟩ : path_header).count +
            get_pathtypes_size example_path) ∧
      ((⟨28, VERSION_MAGIC, 3, FLAGS_INTPATH⟩ : path_header).flags = 0x4000 →
        (⟨28, VERSION_MAGIC, 3, FLAGS_INTPATH⟩ : path_header).size =
          12 + 4 * (⟨28, VERSION_MAGIC, 3, FLAGS_INTPATH⟩ : path_header).count +
            get_pathtypes_size example_path) :=
  C27_path_header_invariant ieee_ops example_heap4 (example_heap4_reachable false) 1
    (fuse_region (init_region RegionType.RegionDataInfiniteRect).2 region_element.infinite
      (path_region example_path FLAGS_INTPATH).node CombineMode.CombineModeXor) (by rfl)
    ⟨28, VERSION_MAGIC, 3, FLAGS_INTPATH⟩ example_path (by decide)

/-! ## Failure of a combine (C23, C24) -/

theorem nodes_length_pos (e : region_element) : 0 < e.nodes.length := by
  cases e <;> simp [region_element.nodes]

theorem root_not_installed (r : GpRegion) (mode : CombineMode) :
    root_installed r mode (some r) = false := by
  unfold root_installed
  simp only
  split
  · rename_i mode2 left right hn
    simp only [decide_eq_false_iff_not, not_and]
    intro _ hl
    have hlen := congrArg (fun e => e.nodes.length) hn
    simp only [region_element.nodes, List.length_cons, List.length_append, hl] at hlen
    have := nodes_length_pos right
    omega
  · rfl

theorem root_installed_fuse (r : GpRegion) (right : region_element) (mode : CombineMode) :
    root_installed r mode (some (fuse_region r r.node right mode)) = true := by
  simp [root_installed, fuse_region]

theorem root_installed_combined (r r2 : GpRegion) (same : Bool) (mode : CombineMode) :
    root_installed r mode (some (combined_region r r2 same mode)) = true := by
  simp [root_installed, combined_region, fuse_region]

/-- What the three outcomes of a combine have in common: the heap is as it
was, or the combine root is installed in region1; the root is not installed
when the status is not Ok. -/
theorem combine_atomic {h h2 : Heap} {p : Nat} {r : GpRegion} {mode : CombineMode}
    {st : GpStatus} (hp : h.deref p = some r)
    (hcases : Heap.Same h h2 ∨
      (st = GpStatus.Ok ∧ root_installed r mode (h2.deref p) = true)) :
    (root_installed r mode (h2.deref p) = false → h2.deref p = some r ∧ Heap.Same h h2) ∧
    (st ≠ GpStatus.Ok → root_installed r mode (h2.deref p) = false) := by
  constructor
  · intro hn
    rcases hcases with hs | ⟨_, hi⟩
    · exact ⟨(hs p).trans hp, hs⟩
    · rw [hi] at hn
      cases hn
  · intro hne
    rcases hcases with hs | ⟨hok, _⟩
    · rw [hs p, hp]
      exact root_not_installed r mode
    · exact absurd hok hne

/-- The common part of the rect and path combine returns when the region and
the temporary region are valid. -/
theorem combine_with_temp_total {h : Heap} {p q : Nat} {r temp : GpRegion}
    (hp : h.deref p = some r) (hq : h.deref q = some temp) (stat : GpStatus)
    (mode : CombineMode) :
    ∃ st h2, combine_with_temp h p (some q) stat mode = some (st, h2) := by
  unfold combine_with_temp
  rcases hg : GdipAlloc h.allocs with ⟨ok, rest⟩
  cases ok with
  | false =>
    simp only [combine_out, delete_element, GdipDeleteRegion, deref_allocs, hq]
    exact ⟨_, _, rfl⟩
  | true =>
    simp only [hp, Option.some_bind, hq]
    obtain ⟨a2, hcl | hcl⟩ := clone_element_spec temp.node rest false
    · rw [hcl]
      simp only [ne_eq, not_true_eq_false, ↓reduceIte]
      have hlt := deref_lt hp
      have hst := deref_store { h with allocs := a2 } hlt (fuse_region r r.node temp.node mode)
      simp only [deref_allocs] at hst
      unfold GdipDeleteRegion
      simp only [hst q]
      by_cases hqp : q = p
      · simp only [if_pos hqp]
        exact ⟨_, _, rfl⟩
      · simp only [if_neg hqp, hq]
        exact ⟨_, _, rfl⟩
    · rw [hcl]
      simp only [ne_eq, reduceCtorEq, not_false_eq_true, ↓reduceIte, combine_out, delete_element,
        GdipDeleteRegion, deref_allocs, hq]
      exact ⟨_, _, rfl⟩

/-- GdipCombineRegionPath returns for a valid region, whatever the path and
the outcomes of the allocations. -/
theorem GdipCombineRegionPath_total (ops : RealOps) {h : Heap} {p : Nat} {r : GpRegion}
    (hp : h.deref p = some r) (path : Option GpPath) (mode : CombineMode) :
    ∃ st h2, GdipCombineRegionPath ops h (some p) path mode = some (st, h2) := by
  cases path with
  | none => exact ⟨_, _, rfl⟩
  | some pa =>
    unfold GdipCombineRegionPath
    simp only
    obtain ⟨stat, out, h1, hc⟩ := GdipCreateRegionPath_total ops h pa
    rw [hc]
    simp only
    by_cases hs : stat = GpStatus.Ok
    · subst hs
      obtain ⟨q, hout, hfresh, hu⟩ := GdipCreateRegionPath_ok hc
      subst hout
      simp only [ne_eq, not_true_eq_false, ↓reduceIte]
      have hpq : p ≠ q := by
        intro e
        rw [e, hfresh] at hp
        cases hp
      exact combine_with_temp_total (by rw [hu p, if_neg hpq, hp]) (by rw [hu q, if_pos rfl])
        _ mode
    · rw [if_pos hs]
      exact ⟨_, _, rfl⟩

/-- GdipCombineRegionRect returns for a valid region when the allocation of
the temporary region does not fail. -/
theorem GdipCombineRegionRect_total {h : Heap} {p : Nat} {r : GpRegion}
    (hp : h.deref p = some r) (rect : Option GpRectF) (mode : CombineMode)
    (ha : (GdipAlloc h.allocs).1 = true) :
    ∃ st h2, GdipCombineRegionRect h (some p) rect mode = some (st, h2) := by
  cases rect with
  | none => exact ⟨_, _, rfl⟩
  | some rc =>
    have hcr : ∃ st out h1, GdipCreateRegionRect h (some rc) true = some (st, out, h1) := by
      unfold GdipCreateRegionRect Heap.alloc_region
      rcases hg : GdipAlloc h.allocs with ⟨ok, rest⟩
      rw [hg] at ha
      simp only at ha
      subst ha
      simp only [init_region_status, ne_eq, not_true_eq_false, ↓reduceIte]
      exact ⟨_, _, _, rfl⟩
    obtain ⟨stat, out, h1, hc⟩ := hcr
    obtain ⟨hst, q, hout, hfresh, hu⟩ := GdipCreateRegionRect_ok hc
    subst hst hout
    unfold GdipCombineRegionRect
    simp only [hc, ne_eq, not_true_eq_false, ↓reduceIte]
    have hpq : p ≠ q := by
      intro e
      rw [e, hfresh] at hp
      cases hp
    exact combine_with_temp_total (by rw [hu p, if_neg hpq, hp]) (by rw [hu q, if_pos rfl])
      _ mode

theorem GdipCombineRegionRectI_eq (ops : RealOps) (h : Heap) (region : Option Nat)
    (rect : GpRect) (mode : CombineMode) :
    GdipCombineRegionRectI ops h region (some rect) mode =
      GdipCombineRegionRect h region
        (some ⟨ops.of_int rect.X, ops.of_int rect.Y, ops.of_int rect.Width,
          ops.of_int rect.Height⟩) mode := rfl

theorem GdipCombineRegionRect_atomic {h h2 : Heap} {p : Nat} {r : GpRegion}
    {rect : Option GpRectF} {mode : CombineMode} {st : GpStatus} (hp : h.deref p = some r)
    (hc : GdipCombineRegionRect h (some p) rect mode = some (st, h2)) :
    (root_installed r mode (h2.deref p) = false → h2.deref p = some r ∧ Heap.Same h h2) ∧
    (st ≠ GpStatus.Ok → root_installed r mode (h2.deref p) = false) := by
  apply combine_atomic hp
  rcases GdipCombineRegionRect_spec hc with hs | ⟨hst, p0, r0, rc, e1, _, h1, hu⟩
  · exact Or.inl hs
  · simp only [Option.some.injEq] at e1
    subst e1
    rw [hp] at h1
    simp only [Option.some.injEq] at h1
    subst h1
    refine Or.inr ⟨hst, ?_⟩
    rw [hu p, if_pos rfl]
    exact root_installed_fuse _ _ _

/-- C24, where the code departs from it: in GdipCombineRegionRect and
GdipCombineRegionRectI, when the allocation of the temporary region fails,
GdipCreateRegionRect hands the null result of GdipAlloc to init_region, which
writes through it: the call has no result, instead of failing and leaving
region1 as it was. With a path the same failure gives OutOfMemory with region1
as it was, and with a region operand the failure of the first allocation does.
For the rest, with a valid region1 and each of the four combines, whatever the
operand and the outcomes of the allocations: when the call returns and the new
combine root is not installed in region1, the object of region1, header and
tree, is what it was before the call, as is every other region object; the root
is not installed when the status is not Ok. The call returns for every outcome
of the allocations with a path and with a valid region operand, and with a rect
when the allocation of the temporary region does not fail. -/
theorem C24_combine_failure_atomic (ops : RealOps) (h : Heap) (p : Nat) (r : GpRegion)
    (hp : h.deref p = some r) (mode : CombineMode) :
    (∀ rect st h2, GdipCombineRegionRect h (some p) rect mode = some (st, h2) →
      (root_installed r mode (h2.deref p) = false → h2.deref p = some r ∧ Heap.Same h h2) ∧
      (st ≠ GpStatus.Ok → root_installed r mode (h2.deref p) = false)) ∧
    (∀ rect st h2, GdipCombineRegionRectI ops h (some p) rect mode = some (st, h2) →
      (root_installed r mode (h2.deref p) = false → h2.deref p = some r ∧ Heap.Same h h2) ∧
      (st ≠ GpStatus.Ok → root_installed r mode (h2.deref p) = false)) ∧
    (∀ path st h2, GdipCombineRegionPath ops h (some p) path mode = some (st, h2) →
      (root_installed r mode (h2.deref p) = false → h2.deref p = some r ∧ Heap.Same h h2) ∧
      (st ≠ GpStatus.Ok → root_installed r mode (h2.deref p) = false)) ∧
    (∀ region2 st h2, GdipCombineRegionRegion h (some p) region2 mode = some (st, h2) →
      (root_installed r mode (h2.deref p) = false → h2.deref p = some r ∧ Heap.Same h h2) ∧
      (st ≠ GpStatus.Ok → root_installed r mode (h2.deref p) = false)) ∧
    (∀ path, ∃ st h2, GdipCombineRegionPath ops h (some p) path mode = some (st, h2)) ∧
    (∀ p2 r2, h.deref p2 = some r2 →
      ∃ st h2, GdipCombineRegionRegion h (some p) (some p2) mode = some (st, h2)) ∧
    (∀ rect, (GdipAlloc h.allocs).1 = true →
      ∃ st h2, GdipCombineRegionRect h (some p) rect mode = some (st, h2)) ∧
    (∀ rect, (GdipAlloc h.allocs).1 = true →
      ∃ st h2, GdipCombineRegionRectI ops h (some p) rect mode = some (st, h2)) ∧
    (∀ rect, (GdipAlloc h.allocs).1 = false →
      GdipCombineRegionRect h (some p) (some rect) mode = none) ∧
    (∀ rect, (GdipAlloc h.allocs).1 = false →
      GdipCombineRegionRectI ops h (some p) (some rect) mode = none) ∧
    (∀ path, (GdipAlloc h.allocs).1 = false →
      ∃ h2, GdipCombineRegionPath ops h (some p) (some path) mode =
          some (GpStatus.OutOfMemory, h2) ∧
        h2.deref p = some r ∧ Heap.Same h h2) ∧
    (∀ region2, (GdipAlloc h.allocs).1 = false →
      ∃ h2, GdipCombineRegionRegion h (some p) (some region2) mode =
          some (GpStatus.OutOfMemory, h2) ∧
        h2.deref p = some r ∧ Heap.Same h h2) := by
  have hrect : ∀ rect, (GdipAlloc h.allocs).1 = false →
      GdipCombineRegionRect h (some p) (some rect) mode = none := by
    intro rect ha
    unfold GdipCombineRegionRect GdipCreateRegionRect Heap.alloc_region
    rcases hg : GdipAlloc h.allocs with ⟨ok, rest⟩
    rw [hg] at ha
    simp only at ha
    subst ha
    rfl
  refine ⟨fun rect st h2 hc => GdipCombineRegionRect_atomic hp hc, ?_, ?_, ?_,
    fun path => GdipCombineRegionPath_total ops hp path mode,
    fun p2 r2 hp2 => GdipCombineRegionRegion_total mode hp hp2,
    fun rect ha => GdipCombineRegionRect_total hp rect mode ha, ?_, hrect,
    fun rect ha => hrect _ ha, ?_, ?_⟩
  · intro rect st h2 hc
    cases rect with
    | none =>
      simp only [GdipCombineRegionRectI, Option.some.injEq, Prod.mk.injEq] at hc
      obtain ⟨rfl, rfl⟩ := hc
      exact combine_atomic hp (Or.inl (same_refl _))
    | some rc =>
      rw [GdipCombineRegionRectI_eq] at hc
      exact GdipCombineRegionRect_atomic hp hc
  · intro path st h2 hc
    apply combine_atomic hp
    rcases GdipCombineRegionPath_spec hc with hs | ⟨hst, p0, r0, pa, flags, e1, _, h1, _, hu⟩
    · exact Or.inl hs
    · simp only [Option.some.injEq] at e1
      subst e1
      rw [hp] at h1
      simp only [Option.some.injEq] at h1
      subst h1
      refine Or.inr ⟨hst, ?_⟩
      rw [hu p, if_pos rfl]
      exact root_installed_fuse _ _ _
  · intro region2 st h2 hc
    apply combine_atomic hp
    rcases GdipCombineRegionRegion_spec hc with
      ⟨_, hs⟩ | ⟨hst, q1, q2, s1, s2, e1, _, h1, _, hu⟩
    · exact Or.inl hs
    · simp only [Option.some.injEq] at e1
      subst e1
      rw [hp] at h1
      simp only [Option.some.injEq] at h1
      subst h1
      refine Or.inr ⟨hst, ?_⟩
      rw [hu p, if_pos rfl]
      exact root_installed_combined _ _ _ _
  · intro rect ha
    cases rect with
    | none => exact ⟨_, _, rfl⟩
    | some rc =>
      rw [GdipCombineRegionRectI_eq]
      exact GdipCombineRegionRect_total hp _ mode ha
  · intro path ha
    refine ⟨{ h with allocs := (GdipAlloc h.allocs).2 }, ?_, hp, fun _ => rfl⟩
    unfold GdipCombineRegionPath GdipCreateRegionPath Heap.alloc_region
    rcases hg : GdipAlloc h.allocs with ⟨ok, rest⟩
    rw [hg] at ha
    simp only at ha
    subst ha
    rfl
  · intro region2 ha
    refine ⟨{ h with allocs := (GdipAlloc h.allocs).2 }, ?_, hp, fun _ => rfl⟩
    unfold GdipCombineRegionRegion
    rcases hg : GdipAlloc h.allocs with ⟨ok, rest⟩
    rw [hg] at ha
    simp only at ha
    subst ha
    rfl

theorem C24_combine_failure_atomic_witness :
    GdipCombineRegionRect ⟨[some (init_region RegionType.RegionDataInfiniteRect).2], [false]⟩
        (some 0) (some example_rect) CombineMode.CombineModeUnion = none ∧
      (Heap.deref ⟨[some (init_region RegionType.RegionDataInfiniteRect).2, none], []⟩ 0 =
          some (init_region RegionType.RegionDataInfiniteRect).2 ∧
        Heap.Same example_heap_low
          ⟨[some (init_region RegionType.RegionDataInfiniteRect).2, none], []⟩) :=
  ⟨(C24_combine_failure_atomic ieee_ops
      ⟨[some (init_region RegionType.RegionDataInfiniteRect).2], [false]⟩ 0
      (init_region RegionType.RegionDataInfiniteRect).2 (by rfl)
      CombineMode.CombineModeUnion).2.2.2.2.2.2.2.2.1 example_rect (by rfl),
    ((C24_combine_failure_atomic ieee_ops example_heap_low 0
      (init_region RegionType.RegionDataInfiniteRect).2 (by rfl)
      CombineMode.CombineModeUnion).1 (some example_rect) GpStatus.Ok
      ⟨[some (init_region RegionType.RegionDataInfiniteRect).2, none], []⟩ (by rfl)).1 (by rfl)⟩

/-- Failure of the deep clone of the operand in the rect and path combines:
the status is OutOfMemory. -/
theorem combine_with_temp_clone_failure {h h2 : Heap} {p q : Nat} {r temp : GpRegion}
    {stat st : GpStatus} {mode : CombineMode} {rest : List Bool}
    (hp : h.deref p = some r) (hq : h.deref q = some temp) (ha : h.allocs = true :: rest)
    (hfail : (clone_element rest temp.node false).1 ≠ GpStatus.Ok)
    (hc : combine_with_temp h p (some q) stat mode = some (st, h2)) :
    st = GpStatus.OutOfMemory := by
  unfold combine_with_temp at hc
  simp only [ha, GdipAlloc, hp, Option.some_bind, hq] at hc
  rcases hcl : clone_element rest temp.node false with ⟨stat2, right, rest2⟩
  rw [hcl] at hc hfail
  simp only at hfail
  simp only [if_pos hfail] at hc
  obtain ⟨e, _⟩ := combine_out_spec hc
  exact e.trans (clone_element_fail hcl hfail).1

/-- C23, where the code departs from it: in the combines with a rect and with
a path, when the temporary region of the operand has been created and the
allocation of the new left node then fails, the call returns Ok, not
OutOfMemory, and the combine root is not installed: the region is what it was.
GdipCombineRegionRegion returns OutOfMemory when the allocation of the left
node fails. -/
theorem C23_left_allocation_failure (ops : RealOps) (h h1 : Heap) (p q : Nat)
    (r : GpRegion) (e : LeafOperand) (mode : CombineMode) (rest : List Bool)
    (hp : h.deref p = some r)
    (hcreate : create_leaf ops h e = some (GpStatus.Ok, some q, h1))
    (hleft : h1.allocs = false :: rest) :
    (∃ h2, combine_leaf ops h p e mode = some (GpStatus.Ok, h2) ∧ h2.deref p = some r ∧
      root_installed r mode (h2.deref p) = false) ∧
    ∀ region2, GdipCombineRegionRegion h1 (some p) (some region2) mode =
      some (GpStatus.OutOfMemory, { h1 with allocs := rest }) := by
  obtain ⟨q2, t, ho, hfresh, hu, _, _⟩ := create_leaf_ok hcreate
  simp only [Option.some.injEq] at ho
  subst ho
  have hpq : p ≠ q := by
    intro e1
    rw [e1, hfresh] at hp
    cases hp
  have hq1 : h1.deref q = some t := by rw [hu q, if_pos rfl]
  constructor
  · rw [combine_leaf_eq, hcreate]
    simp only [ne_eq, not_true_eq_false, ↓reduceIte, combine_with_temp, hleft, GdipAlloc,
      combine_out, delete_element, GdipDeleteRegion, deref_allocs, hq1]
    refine ⟨_, rfl, ?_⟩
    have hd : (Heap.free { h1 with allocs := rest } q).deref p = some r := by
      rw [deref_free, if_neg hpq, deref_allocs, hu p, if_neg hpq, hp]
    exact ⟨hd, by rw [hd]; exact root_not_installed r mode⟩
  · intro region2
    unfold GdipCombineRegionRegion
    simp only [hleft, GdipAlloc]

theorem C23_left_allocation_failure_witness :
    (∃ h2, combine_leaf ieee_ops example_heap_low 0 (LeafOperand.rect example_rect)
        CombineMode.CombineModeUnion = some (GpStatus.Ok, h2) ∧
      h2.deref 0 = some (init_region RegionType.RegionDataInfiniteRect).2 ∧
      root_installed (init_region RegionType.RegionDataInfiniteRect).2
        CombineMode.CombineModeUnion (h2.deref 0) = false) ∧
    ∀ region2, GdipCombineRegionRegion
        ⟨[some (init_region RegionType.RegionDataInfiniteRect).2,
          some (rect_region example_rect)], [false]⟩ (some 0) (some region2)
        CombineMode.CombineModeUnion =
      some (GpStatus.OutOfMemory,
        { (⟨[some (init_region RegionType.RegionDataInfiniteRect).2,
            some (rect_region example_rect)], [false]⟩ : Heap) with allocs := [] }) :=
  C23_left_allocation_failure ieee_ops example_heap_low
    ⟨[some (init_region RegionType.RegionDataInfiniteRect).2,
      some (rect_region example_rect)], [false]⟩ 0 1
    (init_region RegionType.RegionDataInfiniteRect).2 (LeafOperand.rect example_rect)
    CombineMode.CombineModeUnion [] (by rfl) (by rfl) (by rfl)

/-! ## Failed clone, stubs and the combine of a region with itself (C25, C28, C29) -/

/-- C25, where the code departs from it: when the region object of the clone
has been allocated and an allocation then fails while clone_element copies the
tree, GdipCloneRegion returns OutOfMemory, but the address written to the
output handle is that of the allocated object, not NULL, and that object holds
no valid region. The regions that existed are as they were. When it is the
allocation of the region object that fails, the call returns OutOfMemory with
NULL in the output handle. -/
theorem C25_failed_clone_handle (h : Heap) (p : Nat) (r : GpRegion) (rest : List Bool)
    (hp : h.deref p = some r) (ha : h.allocs = true :: rest)
    (hfail : (clone_element rest r.node true).1 ≠ GpStatus.Ok) :
    (∃ h2, GdipCloneRegion h (some p) true =
        some (GpStatus.OutOfMemory, some h.regions.length, h2) ∧
      h2.regions = h.regions ++ [none] ∧
      h.deref h.regions.length = none ∧ h2.deref h.regions.length = none ∧
      Heap.Same h h2) ∧
    GdipCloneRegion { h with allocs := false :: rest } (some p) true =
      some (GpStatus.OutOfMemory, none, { h with allocs := rest }) := by
  refine ⟨?_, rfl⟩
  have hal : h.alloc_region =
      (some h.regions.length, { regions := h.regions ++ [none], allocs := rest }) := by
    unfold Heap.alloc_region
    simp only [ha, GdipAlloc]
  obtain ⟨hfresh, hsame, _⟩ := alloc_region_fresh hal
  rcases hcl : clone_element rest r.node true with ⟨stat, x, rest2⟩
  rw [hcl] at hfail
  simp only at hfail
  obtain ⟨hst, hx⟩ := clone_element_fail hcl hfail
  subst hst hx
  have hp1 : Heap.deref { regions := h.regions ++ [none], allocs := rest } p = some r := by
    rw [hsame p, hp]
  unfold GdipCloneRegion
  simp only [hal, hp1, hcl]
  refine ⟨_, rfl, rfl, hfresh, ?_, ?_⟩
  · exact (hsame h.regions.length).trans hfresh
  · intro x
    exact hsame x

theorem C25_failed_clone_handle_witness :
    (∃ h2, GdipCloneRegion example_heap_path_low (some 0) true =
        some (GpStatus.OutOfMemory, some example_heap_path_low.regions.length, h2) ∧
      h2.regions = example_heap_path_low.regions ++ [none] ∧
      example_heap_path_low.deref example_heap_path_low.regions.length = none ∧
      h2.deref example_heap_path_low.regions.length = none ∧
      Heap.Same example_heap_path_low h2) ∧
    GdipCloneRegion { example_heap_path_low with allocs := false :: [false] } (some 0) true =
      some (GpStatus.OutOfMemory, none, { example_heap_path_low with allocs := [false] }) :=
  C25_failed_clone_handle example_heap_path_low 0 (path_region example_path FLAGS_INTPATH)
    [false] (by rfl) (by rfl) (by decide)

/-- C29, where the code departs from it: when GdipCombineRegionRegion, called
with the same region object r as both operands, returns Ok, the new tree is a
combine node whose two subtrees are the old tree and a copy of it, but the new
header.num_children is 2 * c + 4 for the old count c, not c + 2 + c: the count
of the operand is read after fuse_region has added 2 to it. If num_children
was twice the number of combine nodes before, it is not any more. The call
returns Ok when no allocation fails. -/
theorem C29_self_combine_count (h : Heap) (p : Nat) (r : GpRegion) (mode : CombineMode)
    (hp : h.deref p = some r) :
    (∀ h2, GdipCombineRegionRegion h (some p) (some p) mode = some (GpStatus.Ok, h2) →
      ∃ r2, h2.deref p = some r2 ∧
        r2.node = region_element.combine mode r.node r.node ∧
        r2.header.num_children = 2 * r.header.num_children + 4 ∧
        r2.header.num_children ≠ r.header.num_children + 2 + r.header.num_children ∧
        count_combines r2.node = 2 * count_combines r.node + 1 ∧
        (r.header.num_children = 2 * count_combines r.node →
          r2.header.num_children ≠ 2 * count_combines r2.node)) ∧
    (h.allocs = [] →
      ∃ h2, GdipCombineRegionRegion h (some p) (some p) mode = some (GpStatus.Ok, h2)) := by
  constructor
  · intro h2 hc
    have hu := GdipCombineRegionRegion_ok hp hp hc
    simp only [decide_True] at hu
    refine ⟨_, by rw [hu p, if_pos rfl], rfl, ?_, ?_, ?_, ?_⟩
    · simp only [combined_region, fuse_region, ↓reduceIte]
      unfold DWORD at *
      omega
    · simp only [combined_region, fuse_region, ↓reduceIte]
      unfold DWORD at *
      omega
    · simp only [combined_region, fuse_region, count_combines]
      omega
    · intro hinv
      simp only [combined_region, fuse_region, ↓reduceIte, count_combines]
      unfold DWORD at *
      omega
  · intro ha
    exact GdipCombineRegionRegion_no_allocs mode ha hp hp

theorem C29_self_combine_count_witness :
    (∀ h2, GdipCombineRegionRegion example_heap2 (some 1) (some 1)
        CombineMode.CombineModeUnion = some (GpStatus.Ok, h2) →
      ∃ r2, h2.deref 1 = some r2 ∧
        r2.node = region_element.combine CombineMode.CombineModeUnion
          (init_region RegionType.RegionDataInfiniteRect).2.node
          (init_region RegionType.RegionDataInfiniteRect).2.node ∧
        r2.header.num_children =
          2 * (init_region RegionType.RegionDataInfiniteRect).2.header.num_children + 4 ∧
        r2.header.num_children ≠
          (init_region RegionType.RegionDataInfiniteRect).2.header.num_children + 2 +
            (init_region RegionType.RegionDataInfiniteRect).2.header.num_children ∧
        count_combines r2.node =
          2 * count_combines (init_region RegionType.RegionDataInfiniteRect).2.node + 1 ∧
        ((init_region RegionType.RegionDataInfiniteRect).2.header.num_children =
            2 * count_combines (init_region RegionType.RegionDataInfiniteRect).2.node →
          r2.header.num_children ≠ 2 * count_combines r2.node)) ∧
    (example_heap2.allocs = [] →
      ∃ h2, GdipCombineRegionRegion example_heap2 (some 1) (some 1)
        CombineMode.CombineModeUnion = some (GpStatus.Ok, h2)) :=
  C29_self_combine_count example_heap2 1 (init_region RegionType.RegionDataInfiniteRect).2
    CombineMode.CombineModeUnion (by rfl)

/-- C28, where the code departs from it: GdipCreateRegionRgnData,
GdipCreateRegionHrgn and GdipGetRegionHRgn assign NULL through their output
pointer without testing it, so with a null output pointer the call has no
result (a null pointer is written through) instead of a status. With a
non-null output pointer they return NotImplemented and set the output region,
or the output handle, to NULL, whatever the data, the size, the handle and the
previous content of the slot. GdipGetRegionBounds, GdipGetRegionBoundsI,
GdipIsEmptyRegion, GdipIsEqualRegion, GdipTransformRegion, GdipTranslateRegion
and GdipTranslateRegionI return NotImplemented for every input and write no
output. None of them changes the heap, hence any region. -/
theorem C28_stubs_not_implemented (h : Heap) :
    (∀ data size, GdipCreateRegionRgnData h data size none = none) ∧
    (∀ hrgn, GdipCreateRegionHrgn h hrgn none = none) ∧
    (∀ region graphics, GdipGetRegionHRgn h region graphics none = none) ∧
    (∀ data size slot, GdipCreateRegionRgnData h data size (some slot) =
      some (GpStatus.NotImplemented, none, h)) ∧
    (∀ hrgn slot, GdipCreateRegionHrgn h hrgn (some slot) =
      some (GpStatus.NotImplemented, none, h)) ∧
    (∀ region graphics slot, GdipGetRegionHRgn h region graphics (some slot) =
      some (GpStatus.NotImplemented, none, h)) ∧
    (∀ region graphics rect, GdipGetRegionBounds h region graphics rect =
      (GpStatus.NotImplemented, rect, h)) ∧
    (∀ region graphics rect, GdipGetRegionBoundsI h region graphics rect =
      (GpStatus.NotImplemented, rect, h)) ∧
    (∀ region graphics res, GdipIsEmptyRegion h region graphics res =
      (GpStatus.NotImplemented, res, h)) ∧
    (∀ region region2 graphics res, GdipIsEqualRegion h region region2 graphics res =
      (GpStatus.NotImplemented, res, h)) ∧
    (∀ region matrix, GdipTransformRegion h region matrix = (GpStatus.NotImplemented, h)) ∧
    (∀ region dx dy, GdipTranslateRegion h region dx dy = (GpStatus.NotImplemented, h)) ∧
    (∀ region dx dy, GdipTranslateRegionI h region dx dy = (GpStatus.NotImplemented, h)) :=
  ⟨fun _ _ => rfl, fun _ => rfl, fun _ _ => rfl,
    fun _ _ _ => rfl, fun _ _ => rfl, fun _ _ _ => rfl, fun _ _ _ => rfl, fun _ _ _ => rfl,
    fun _ _ _ => rfl, fun _ _ _ _ => rfl, fun _ _ => rfl, fun _ _ _ => rfl, fun _ _ _ => rfl⟩

theorem C28_stubs_null_output_slot :
    GdipCreateRegionRgnData example_heap1 (some [1, 2, 3, 4]) 4 none = none ∧
    GdipCreateRegionHrgn example_heap1 (some 0) none = none ∧
    GdipGetRegionHRgn example_heap1 (some 0) true none = none ∧
    GdipCreateRegionRgnData example_heap1 (some [1, 2, 3, 4]) 4 (some (some 0)) =
      some (GpStatus.NotImplemented, none, example_heap1) :=
  ⟨(C28_stubs_not_implemented example_heap1).1 (some [1, 2, 3, 4]) 4,
    (C28_stubs_not_implemented example_heap1).2.1 (some 0),
    (C28_stubs_not_implemented example_heap1).2.2.1 (some 0) true,
    (C28_stubs_not_implemented example_heap1).2.2.2.1 (some [1, 2, 3, 4]) 4 (some 0)⟩

/-! ## Bytes of a subtree, GdipCreateRegionRectI (C31, C32) -/

/-- C31: for every tree whose path nodes satisfy the path-header invariant
(the internal nodes carry one of the six combine modes), every buffer and every
offset, write_element stores get_element_size of the tree bytes at the offset,
a multiple of 4, advances the offset by that number of bytes and changes no
other byte; get_element_size is 4 for an EmptyRect or InfiniteRect leaf, 20 for
a rect, 8 + pathheader.size for a path and 4 + left + right for a combine
node. No region header takes part. -/
theorem C31_element_bytes (ops : RealOps) (e : region_element) (hp : paths_ok e)
    (buffer : Buffer) (filled : Nat) :
    (∃ bytes, write_element ops e buffer filled =
        (memcpy buffer (filled * 4) bytes, filled + get_element_size e / 4) ∧
      bytes.length = get_element_size e ∧
      (write_element ops e buffer filled).1.read (filled * 4) (get_element_size e) = bytes ∧
      ∀ a, a < filled * 4 ∨ filled * 4 + get_element_size e ≤ a →
        (write_element ops e buffer filled).1 a = buffer a) ∧
    get_element_size e % 4 = 0 ∧
    4 * (write_element ops e buffer filled).2 = 4 * filled + get_element_size e ∧
    get_element_size region_element.empty = 4 ∧
    get_element_size region_element.infinite = 4 ∧
    (∀ rect, get_element_size (region_element.rect rect) = 20) ∧
    (∀ pathheader path,
      get_element_size (region_element.path pathheader path) = 8 + pathheader.size) ∧
    (∀ mode left right, get_element_size (region_element.combine mode left right) =
      4 + get_element_size left + get_element_size right) := by
  obtain ⟨hmod, hw⟩ := write_element_eq ops e
  have hlen := node_stream_length ops e hp
  rw [hlen] at hmod
  refine ⟨⟨node_stream ops e, ?_, hlen, ?_, ?_⟩, hmod, ?_, rfl, rfl, fun _ => rfl, ?_, ?_⟩
  · rw [hw, hlen]
    rfl
  · rw [hw, ← hlen]
    exact read_memcpy buffer _ _
  · intro a ha
    rw [hw]
    apply memcpy_outside
    rw [hlen]
    exact ha
  · rw [write_element_filled, hlen]
  · intro ph pa
    simp only [get_element_size, sizeof_DWORD]
    unfold DWORD at *
    omega
  · intro mode l r
    simp only [get_element_size, sizeof_DWORD]

theorem C31_element_bytes_witness :
    (∃ bytes, write_element ieee_ops
        (region_element.combine CombineMode.CombineModeXor region_element.infinite
          (path_region example_path FLAGS_INTPATH).node) (fun _ => 0) 4 =
        (memcpy (fun _ => 0) (4 * 4) bytes,
          4 + get_element_size (region_element.combine CombineMode.CombineModeXor
            region_element.infinite (path_region example_path FLAGS_INTPATH).node) / 4) ∧
      bytes.length = get_element_size (region_element.combine CombineMode.CombineModeXor
        region_element.infinite (path_region example_path FLAGS_INTPATH).node) ∧
      (write_element ieee_ops
        (region_element.combine CombineMode.CombineModeXor region_element.infinite
          (path_region example_path FLAGS_INTPATH).node) (fun _ => 0) 4).1.read (4 * 4)
        (get_element_size (region_element.combine CombineMode.CombineModeXor
          region_element.infinite (path_region example_path FLAGS_INTPATH).node)) = bytes ∧
      ∀ a, a < 4 * 4 ∨ 4 * 4 + get_element_size (region_element.combine
          CombineMode.CombineModeXor region_element.infinite
          (path_region example_path FLAGS_INTPATH).node) ≤ a →
        (write_element ieee_ops
          (region_element.combine CombineMode.CombineModeXor region_element.infinite
            (path_region example_path FLAGS_INTPATH).node) (fun _ => 0) 4).1 a = 0) ∧
    get_element_size (region_element.combine CombineMode.CombineModeXor
      region_element.infinite (path_region example_path FLAGS_INTPATH).node) = 44 :=
  ⟨(C31_element_bytes ieee_ops
      (region_element.combine CombineMode.CombineModeXor region_element.infinite
        (path_region example_path FLAGS_INTPATH).node)
      ⟨trivial, path_region_header_ok example_path FLAGS_INTPATH (Or.inr rfl)⟩
      (fun _ => 0) 4).1, by rfl⟩

/-- C32, where the code departs from it: GdipCreateRegionRectI reads the
fields of `rect` before any test, so with a null rect the call has no result
(a null pointer is dereferenced) instead of returning InvalidParameter, whether
the output slot is null or not. With a rect and a null output slot it returns
InvalidParameter and creates no region, as GdipCreateRegionRect does for a
null rect or a null output slot. -/
theorem C32_create_rectI_null_rect (ops : RealOps) (h : Heap) :
    (∀ region, GdipCreateRegionRectI ops h none region = none) ∧
    (∀ rect, GdipCreateRegionRectI ops h (some rect) false =
      some (GpStatus.InvalidParameter, none, h)) ∧
    (∀ region, GdipCreateRegionRect h none region =
      some (GpStatus.InvalidParameter, none, h)) ∧
    (∀ rect, GdipCreateRegionRect h rect false = some (GpStatus.InvalidParameter, none, h)) :=
  ⟨fun _ => rfl, fun _ => rfl, fun region => by cases region <;> rfl,
    fun rect => by cases rect <;> rfl⟩

/-! ## Unique decodability on path-free trees (C33) -/

theorem dword_bytes_append_inj {a b : Nat} {s t : List BYTE} (ha : a < 2 ^ 32)
    (hb : b < 2 ^ 32) (h : dword_bytes a ++ s = dword_bytes b ++ t) : a = b ∧ s = t := by
  unfold dword_bytes at h
  simp only [List.cons_append, List.nil_append, List.cons.injEq] at h
  obtain ⟨h0, h1, h2, h3, hs⟩ := h
  refine ⟨?_, hs⟩
  unfold BYTE DWORD at *
  omega

theorem mode_toDWORD_lt32 (mode : CombineMode) : mode.toDWORD < 2 ^ 32 := by
  cases mode <;> decide

theorem leaf_tag_ne_mode (type : RegionType) (mode : CombineMode) :
    type.toDWORD ≠ mode.toDWORD := by
  cases type <;> cases mode <;> decide

theorem mode_toDWORD_inj {m1 m2 : CombineMode} (h : m1.toDWORD = m2.toDWORD) : m1 = m2 := by
  cases m1 <;> cases m2 <;> first | rfl | (exfalso; revert h; decide)

/-- No node stream of a path-free tree, followed by anything, is the node
stream of another path-free tree followed by something, unless the trees and
what follows are the same. -/
theorem node_stream_inj (ops : RealOps) (e1 : region_element) :
    ∀ (e2 : region_element) (s1 s2 : List BYTE), path_free e1 = true → path_free e2 = true →
      node_stream ops e1 ++ s1 = node_stream ops e2 ++ s2 → e1 = e2 ∧ s1 = s2 := by
  induction e1 with
  | rect rc1 =>
    intro e2 s1 s2 h1 h2 heq
    simp only [path_free, decide_eq_true_eq] at h1
    cases e2 with
    | rect rc2 =>
      simp only [path_free, decide_eq_true_eq] at h2
      simp only [node_stream, List.append_assoc] at heq
      obtain ⟨_, heq⟩ := dword_bytes_append_inj (by decide) (by decide) heq
      obtain ⟨ex, heq⟩ := dword_bytes_append_inj h1.1 h2.1 heq
      obtain ⟨ey, heq⟩ := dword_bytes_append_inj h1.2.1 h2.2.1 heq
      obtain ⟨ew, heq⟩ := dword_bytes_append_inj h1.2.2.1 h2.2.2.1 heq
      obtain ⟨eh, heq⟩ := dword_bytes_append_inj h1.2.2.2 h2.2.2.2 heq
      refine ⟨?_, heq⟩
      cases rc1
      cases rc2
      simp only at ex ey ew eh
      subst ex ey ew eh
      rfl
    | path ph pa => simp [path_free] at h2
    | empty =>
      simp only [node_stream, List.append_assoc] at heq
      exact absurd (dword_bytes_append_inj (by decide) (by decide) heq).1 (by decide)
    | infinite =>
      simp only [node_stream, List.append_assoc] at heq
      exact absurd (dword_bytes_append_inj (by decide) (by decide) heq).1 (by decide)
    | combine m l r =>
      simp only [node_stream, List.append_assoc] at heq
      exact absurd (dword_bytes_append_inj (by decide) (mode_toDWORD_lt32 m) heq).1
        (leaf_tag_ne_mode _ m)
  | path ph pa =>
    intro e2 s1 s2 h1
    simp [path_free] at h1
  | empty =>
    intro e2 s1 s2 h1 h2 heq
    cases e2 with
    | rect rc2 =>
      simp only [node_stream, List.append_assoc] at heq
      exact absurd (dword_bytes_append_inj (by decide) (by decide) heq).1 (by decide)
    | path ph pa => simp [path_free] at h2
    | empty =>
      simp only [node_stream] at heq
      exact ⟨rfl, (dword_bytes_append_inj (by decide) (by decide) heq).2⟩
    | infinite =>
      simp only [node_stream] at heq
      exact absurd (dword_bytes_append_inj (by decide) (by decide) heq).1 (by decide)
    | combine m l r =>
      simp only [node_stream, List.append_assoc] at heq
      exact absurd (dword_bytes_append_inj (by decide) (mode_toDWORD_lt32 m) heq).1
        (leaf_tag_ne_mode _ m)
  | infinite =>
    intro e2 s1 s2 h1 h2 heq
    cases e2 with
    | rect rc2 =>
      simp only [node_stream, List.append_assoc] at heq
      exact absurd (dword_bytes_append_inj (by decide) (by decide) heq).1 (by decide)
    | path ph pa => simp [path_free] at h2
    | empty =>
      simp only [node_stream] at heq
      exact absurd (dword_bytes_append_inj (by decide) (by decide) heq).1 (by decide)
    | infinite =>
      simp only [node_stream] at heq
      exact ⟨rfl, (dword_bytes_append_inj (by decide) (by decide) heq).2⟩
    | combine m l r =>
      simp only [node_stream, List.append_assoc] at heq
      exact absurd (dword_bytes_append_inj (by decide) (mode_toDWORD_lt32 m) heq).1
        (leaf_tag_ne_mode _ m)
  | combine m1 l1 r1 ihl ihr =>
    intro e2 s1 s2 h1 h2 heq
    simp only [path_free, Bool.and_eq_true] at h1
    cases e2 with
    | rect rc2 =>
      simp only [node_stream, List.append_assoc] at heq
      exact absurd (dword_bytes_append_inj (mode_toDWORD_lt32 m1) (by decide) heq).1.symm
        (leaf_tag_ne_mode _ m1)
    | path ph pa => simp [path_free] at h2
    | empty =>
      simp only [node_stream, List.append_assoc] at heq
      exact absurd (dword_bytes_append_inj (mode_toDWORD_lt32 m1) (by decide) heq).1.symm
        (leaf_tag_ne_mode _ m1)
    | infinite =>
      simp only [node_stream, List.append_assoc] at heq
      exact absurd (dword_bytes_append_inj (mode_toDWORD_lt32 m1) (by decide) heq).1.symm
        (leaf_tag_ne_mode _ m1)
    | combine m2 l2 r2 =>
      simp only [path_free, Bool.and_eq_true] at h2
      simp only [node_stream, List.append_assoc] at heq
      obtain ⟨em, heq⟩ := dword_bytes_append_inj (mode_toDWORD_lt32 m1) (mode_toDWORD_lt32 m2) heq
      obtain ⟨el, heq⟩ := ihl l2 _ _ h1.1 h2.1 heq
      obtain ⟨er, heq⟩ := ihr r2 _ _ h1.2 h2.2 heq
      rw [mode_toDWORD_inj em, el, er]
      exact ⟨rfl, heq⟩

theorem region_header_bytes_inj {hd1 hd2 : region_header} {s t : List BYTE}
    (h1 : hd1.is_32bit = true) (h2 : hd2.is_32bit = true)
    (heq : hd1.bytes ++ s = hd2.bytes ++ t) : hd1 = hd2 ∧ s = t := by
  simp only [region_header.is_32bit, decide_eq_true_eq] at h1 h2
  simp only [region_header.bytes, List.append_assoc] at heq
  obtain ⟨e1, heq⟩ := dword_bytes_append_inj h1.1 h2.1 heq
  obtain ⟨e2, heq⟩ := dword_bytes_append_inj h1.2.1 h2.2.1 heq
  obtain ⟨e3, heq⟩ := dword_bytes_append_inj h1.2.2.1 h2.2.2.1 heq
  obtain ⟨e4, heq⟩ := dword_bytes_append_inj h1.2.2.2 h2.2.2.2 heq
  refine ⟨?_, heq⟩
  cases hd1
  cases hd2
  simp only at e1 e2 e3 e4
  subst e1 e2 e3 e4
  rfl

theorem path_free_paths_ok (e : region_element) (h : path_free e = true) : paths_ok e := by
  induction e with
  | rect rc => trivial
  | path ph pa => simp [path_free] at h
  | empty => trivial
  | infinite => trivial
  | combine m l r ihl ihr =>
    simp only [path_free, Bool.and_eq_true] at h
    exact ⟨ihl h.1, ihr h.2⟩

theorem write_element_read (ops : RealOps) (e : region_element) (hp : paths_ok e)
    (buffer : Buffer) (filled : Nat) :
    (write_element ops e buffer filled).1.read (filled * 4) (get_element_size e) =
      node_stream ops e := by
  obtain ⟨_, hw⟩ := write_element_eq ops e
  rw [hw, ← node_stream_length ops e hp]
  exact read_memcpy buffer _ _

/-- C33: for two regions whose trees have no path node (rect coordinates and
header fields being 32-bit values), GdipGetRegionData succeeds on both, and if
the bytes it produced are the same then the headers are equal and the trees are
identical; and the bytes write_element stores for one path-free tree are a
prefix of those of another only if the trees are identical. -/
theorem C33_unique_decoding (ops : RealOps) (h1 h2 : Heap) (p1 p2 : Nat) (r1 r2 : GpRegion)
    (buffer1 buffer2 : Buffer) (size1 size2 : Nat)
    (hr1 : h1.deref p1 = some r1) (hr2 : h2.deref p2 = some r2)
    (hf1 : path_free r1.node = true) (hf2 : path_free r2.node = true)
    (hh1 : r1.header.is_32bit = true) (hh2 : r2.header.is_32bit = true)
    (hs1 : size1 ≠ 0) (hs2 : size2 ≠ 0) :
    (∃ out1 out2,
      GdipGetRegionData ops h1 (some p1) (some buffer1) size1 true =
        some (GpStatus.Ok, some out1, some (16 + get_element_size r1.node)) ∧
      GdipGetRegionData ops h2 (some p2) (some buffer2) size2 true =
        some (GpStatus.Ok, some out2, some (16 + get_element_size r2.node)) ∧
      (out1.read 0 (16 + get_element_size r1.node) =
          out2.read 0 (16 + get_element_size r2.node) →
        r1.header = r2.header ∧ r1.node = r2.node)) ∧
    (∀ (e1 e2 : region_element) (b1 b2 : Buffer) (f1 f2 : Nat),
      path_free e1 = true → path_free e2 = true →
      (write_element ops e1 b1 f1).1.read (f1 * 4) (get_element_size e1) <+:
        (write_element ops e2 b2 f2).1.read (f2 * 4) (get_element_size e2) → e1 = e2) := by
  have hl1 := node_stream_length ops r1.node (path_free_paths_ok _ hf1)
  have hl2 := node_stream_length ops r2.node (path_free_paths_ok _ hf2)
  refine ⟨⟨memcpy buffer1 0 (r1.header.bytes ++ node_stream ops r1.node),
    memcpy buffer2 0 (r2.header.bytes ++ node_stream ops r2.node), ?_, ?_, ?_⟩, ?_⟩
  · rw [GdipGetRegionData_eq ops hr1 buffer1 hs1 true, hl1]
    rfl
  · rw [GdipGetRegionData_eq ops hr2 buffer2 hs2 true, hl2]
    rfl
  · intro heq
    have e1 : 16 + get_element_size r1.node = (r1.header.bytes ++ node_stream ops r1.node).length := by
      rw [List.length_append, region_header_bytes_length, hl1]
    have e2 : 16 + get_element_size r2.node = (r2.header.bytes ++ node_stream ops r2.node).length := by
      rw [List.length_append, region_header_bytes_length, hl2]
    rw [e1, e2, read_memcpy, read_memcpy] at heq
    obtain ⟨ehd, heq⟩ := region_header_bytes_inj hh1 hh2 heq
    have := node_stream_inj ops r1.node r2.node [] [] hf1 hf2 (by simpa using heq)
    exact ⟨ehd, this.1⟩
  · intro e1 e2 b1 b2 f1 f2 hp1 hp2 hpre
    rw [write_element_read ops e1 (path_free_paths_ok _ hp1),
      write_element_read ops e2 (path_free_paths_ok _ hp2)] at hpre
    obtain ⟨t, ht⟩ := hpre
    exact (node_stream_inj ops e1 e2 t [] hp1 hp2 (by simpa using ht)).1

theorem C33_unique_decoding_witness :
    ∃ out1 out2,
      GdipGetRegionData ieee_ops example_heap1 (some 0) (some (fun _ => 0)) 36 true =
        some (GpStatus.Ok, some out1, some (16 + get_element_size (rect_region example_rect).node)) ∧
      GdipGetRegionData ieee_ops example_heap_two_rects (some 1) (some (fun _ => 7)) 64 true =
        some (GpStatus.Ok, some out2, some (16 + get_element_size (rect_region example_rect).node)) ∧
      (out1.read 0 (16 + get_element_size (rect_region example_rect).node) =
          out2.read 0 (16 + get_element_size (rect_region example_rect).node) →
        (rect_region example_rect).header = (rect_region example_rect).header ∧
          (rect_region example_rect).node = (rect_region example_rect).node) :=
  (C33_unique_decoding ieee_ops example_heap1 example_heap_two_rects 0 1
    (rect_region example_rect) (rect_region example_rect) (fun _ => 0) (fun _ => 7) 36 64
    rfl rfl (by decide) (by decide) (by decide) (by decide) (by decide) (by decide)).1

/-! ## Region objects in memory: the copy of a tree (C26) -/

theorem element_lt {m : Memory} {a : Nat} {x : raw_element}
    (h : m.element (.element a) = some x) : a < m.elements.length := by
  have h2 : (m.elements.get? a).join = some x := h
  by_contra hn
  rw [List.get?_eq_getElem?, List.getElem?_eq_none (Nat.le_of_not_lt hn)] at h2
  cases h2

theorem update_spec {m m2 : Memory} {ptr : element_ptr} {f : raw_element → raw_element}
    (h : m.update ptr f = some m2) :
    ∃ e, m.element ptr = some e ∧ m2.element ptr = some (f e) ∧
      (∀ ptr2, ptr2 ≠ ptr → m2.element ptr2 = m.element ptr2) ∧
      (∀ q, m2.header q = m.header q) ∧
      m2.elements.length = m.elements.length ∧ m2.allocs = m.allocs ∧
      (∀ a, ptr = .element a → m2.regions = m.regions) := by
  cases ptr with
  | node q =>
    unfold Memory.update at h
    simp only at h
    cases hq : (m.regions.get? q).join with
    | none =>
      rw [hq] at h
      cases h
    | some r =>
      rw [hq] at h
      simp only [Option.some.injEq] at h
      subst h
      have hlt : q < m.regions.length := by
        by_contra hn
        rw [List.get?_eq_getElem?, List.getElem?_eq_none (Nat.le_of_not_lt hn)] at hq
        cases hq
      refine ⟨r.node, ?_, ?_, ?_, ?_, rfl, rfl, ?_⟩
      · simp only [Memory.element, hq, Option.map_some']
      · simp [Memory.element, List.getElem?_set, hlt]
      · intro ptr2 hne
        cases ptr2 with
        | node q2 =>
          have hq2 : ¬ q = q2 := fun e => hne (by rw [e])
          simp only [Memory.element, List.get?_eq_getElem?, List.getElem?_set, hq2, ↓reduceIte]
        | element a => rfl
      · intro q2
        by_cases hq2 : q = q2
        · subst hq2
          simp only [Memory.header, hq]
          simp [List.getElem?_set, hlt]
        · simp only [Memory.header, List.get?_eq_getElem?, List.getElem?_set, hq2, ↓reduceIte]
      · intro a ha
        cases ha
  | element a =>
    unfold Memory.update at h
    simp only at h
    cases ha : (m.elements.get? a).join with
    | none =>
      rw [ha] at h
      cases h
    | some e =>
      rw [ha] at h
      simp only [Option.some.injEq] at h
      subst h
      have hlt : a < m.elements.length := element_lt ha
      refine ⟨e, ha, ?_, ?_, fun _ => rfl, ?_, rfl, fun _ _ => rfl⟩
      · simp [Memory.element, List.getElem?_set, hlt]
      · intro ptr2 hne
        cases ptr2 with
        | node q2 => rfl
        | element a2 =>
          have ha2 : ¬ a = a2 := fun e => hne (by rw [e])
          simp only [Memory.element, List.get?_eq_getElem?, List.getElem?_set, ha2, ↓reduceIte]
      · simp only [List.length_set]

theorem alloc_element_spec {m m1 : Memory} {p : Option element_ptr}
    (h : m.alloc_element = (p, m1)) :
    (p = none ∧ m1.elements = m.elements ∧ m1.regions = m.regions) ∨
    (p = some (.element m.elements.length) ∧
      m1.elements = m.elements ++ [some ⟨0, .unset⟩] ∧ m1.regions = m.regions) := by
  unfold Memory.alloc_element at h
  rcases hg : GdipAlloc m.allocs with ⟨ok, rest⟩
  rw [hg] at h
  cases ok with
  | false =>
    simp only [Prod.mk.injEq] at h
    obtain ⟨h1, h2⟩ := h
    subst h1 h2
    exact Or.inl ⟨rfl, rfl, rfl⟩
  | true =>
    simp only [Prod.mk.injEq] at h
    obtain ⟨h1, h2⟩ := h
    subst h1 h2
    exact Or.inr ⟨rfl, rfl, rfl⟩

theorem free_regions (m : Memory) (p : Option element_ptr) : (m.free p).regions = m.regions := by
  unfold Memory.free
  split <;> rfl

theorem delete_element_regions (fuel : Nat) :
    ∀ (m : Memory) (p : Option element_ptr), (Raw.delete_element fuel m p).regions = m.regions := by
  induction fuel with
  | zero =>
    intro m p
    rfl
  | succ n ih =>
    intro m p
    cases p with
    | none => rfl
    | some ptr =>
      unfold Raw.delete_element
      split
      · split
        · rw [free_regions, free_regions, ih, ih]
        · rfl
      · rfl

theorem delete_element_allocs (fuel : Nat) :
    ∀ (m : Memory) (p : Option element_ptr), (Raw.delete_element fuel m p).allocs = m.allocs := by
  induction fuel with
  | zero =>
    intro m p
    rfl
  | succ n ih =>
    intro m p
    cases p with
    | none => rfl
    | some ptr =>
      unfold Raw.delete_element
      split
      · split
        · have hf : ∀ (m : Memory) (p : Option element_ptr), (m.free p).allocs = m.allocs := by
            intro m p
            unfold Memory.free
            split <;> rfl
          rw [hf, hf, ih, ih]
        · rfl
      · rfl

theorem clone_out_spec (m : Memory) (ptr : element_ptr) (stat : GpStatus) :
    (Raw.clone_out m ptr stat).1 = stat ∧ (Raw.clone_out m ptr stat).2.1 = none ∧
      (Raw.clone_out m ptr stat).2.2.regions = m.regions :=
  ⟨rfl, rfl, delete_element_regions _ _ _⟩

theorem element_append (m : Memory) (x : raw_element)
    (al : List Bool) (ptr2 : element_ptr) (hne : ptr2 ≠ .element m.elements.length) :
    Memory.element ⟨m.regions, m.elements ++ [some x], al⟩ ptr2 = m.element ptr2 := by
  cases ptr2 with
  | node q => rfl
  | element a =>
    have ha : a ≠ m.elements.length := fun e => hne (by rw [e])
    simp only [Memory.element, List.get?_eq_getElem?]
    by_cases hlt : a < m.elements.length
    · rw [List.getElem?_append_left hlt]
    · rw [List.getElem?_eq_none (Nat.le_of_not_lt hlt), List.getElem?_eq_none]
      simp only [List.length_append, List.length_singleton]
      omega

theorem element_append_self (m : Memory) (x : raw_element) (al : List Bool) :
    Memory.element ⟨m.regions, m.elements ++ [some x], al⟩ (.element m.elements.length) =
      some x := by
  simp [Memory.element]

/-- The statements of clone_element before the switch. -/
theorem clone_begin_spec {m m2 : Memory} {type : DWORD} {t p : Option element_ptr}
    (h : Raw.clone_begin m type t = some (p, m2)) :
    (p = none ∧ t = none ∧ m2.regions = m.regions) ∨
    (∃ ptr e, p = some ptr ∧ m2.element ptr = some e ∧ e.type = type ∧
      (∀ ptr2, ptr2 ≠ ptr → m2.element ptr2 = m.element ptr2) ∧
      (∀ q, m2.header q = m.header q) ∧
      ((t = some ptr ∧ m2.elements.length = m.elements.length) ∨
        (t = none ∧ ptr = .element m.elements.length ∧
          m2.elements.length = m.elements.length + 1 ∧ m2.regions = m.regions))) := by
  unfold Raw.clone_begin at h
  cases t with
  | some ptr =>
    simp only at h
    cases hu : m.update ptr (fun e => { e with type := type }) with
    | none =>
      rw [hu] at h
      cases h
    | some m3 =>
      rw [hu] at h
      simp only [Option.some.injEq, Prod.mk.injEq] at h
      obtain ⟨rfl, rfl⟩ := h
      obtain ⟨e, _, he2, hothers, hhd, hlen, _, _⟩ := update_spec hu
      exact Or.inr ⟨ptr, _, rfl, he2, rfl, hothers, hhd, Or.inl ⟨rfl, hlen⟩⟩
  | none =>
    simp only at h
    unfold Memory.alloc_element at h
    rcases hg : GdipAlloc m.allocs with ⟨ok, rest⟩
    rw [hg] at h
    cases ok with
    | false =>
      simp only [Option.some.injEq, Prod.mk.injEq] at h
      obtain ⟨rfl, rfl⟩ := h
      exact Or.inl ⟨rfl, rfl, rfl⟩
    | true =>
      simp only at h
      cases hu : Memory.update ⟨m.regions, m.elements ++ [some ⟨0, .unset⟩], rest⟩
          (.element m.elements.length) (fun e => { e with type := type }) with
      | none =>
        rw [hu] at h
        cases h
      | some m3 =>
        rw [hu] at h
        simp only [Option.some.injEq, Prod.mk.injEq] at h
        obtain ⟨rfl, rfl⟩ := h
        obtain ⟨e, _, he2, hothers, hhd, hlen, _, hreg⟩ := update_spec hu
        refine Or.inr ⟨_, _, rfl, he2, rfl, ?_, ?_, Or.inr ⟨rfl, rfl, ?_, hreg _ rfl⟩⟩
        · intro ptr2 hne
          rw [hothers ptr2 hne]
          exact element_append m _ _ ptr2 hne
        · intro q
          rw [hhd q]
          rfl
        · rw [hlen]
          simp

/-- Whatever the status clone_element returns: after a failure `*element2` is
null, and when `*element2` was null on entry no region object is written. -/
theorem raw_clone_element_any (e : region_element) :
    ∀ (m m2 : Memory) (t p : Option element_ptr) (st : GpStatus),
      Raw.clone_element m e t = some (st, p, m2) →
      (st ≠ GpStatus.Ok → p = none) ∧ (t = none → m2.regions = m.regions) := by
  induction e with
  | rect rc =>
    intro m m2 t p st h
    rw [Raw.clone_element] at h
    rcases hb : Raw.clone_begin m (region_element.rect rc).type t with _ | ⟨_ | ptr, mb⟩
    · rw [hb] at h
      cases h
    · rw [hb] at h
      simp only [Option.some.injEq, Prod.mk.injEq] at h
      obtain ⟨rfl, rfl, rfl⟩ := h
      rcases clone_begin_spec hb with ⟨_, _, hr⟩ | ⟨_, _, hp, _⟩
      · exact ⟨fun _ => rfl, fun _ => hr⟩
      · cases hp
    · rw [hb] at h
      simp only at h
      cases hu : mb.update ptr (fun e => { e with elementdata := .rect rc }) with
      | none =>
        rw [hu] at h
        cases h
      | some m3 =>
        rw [hu] at h
        simp only [Option.some.injEq, Prod.mk.injEq] at h
        obtain ⟨rfl, rfl, rfl⟩ := h
        refine ⟨fun hne => absurd rfl hne, fun ht => ?_⟩
        rcases clone_begin_spec hb with ⟨hp, _⟩ | ⟨_, _, hp, _, _, _, _, ⟨ht2, _⟩ | ⟨_, hptr, _, hr⟩⟩
        · cases hp
        · rw [ht] at ht2
          cases ht2
        · simp only [Option.some.injEq] at hp
          subst hp
          obtain ⟨_, _, _, _, _, _, _, hr3⟩ := update_spec hu
          rw [hr3 _ hptr, hr]
  | empty =>
    intro m m2 t p st h
    rw [Raw.clone_element] at h
    rcases hb : Raw.clone_begin m region_element.empty.type t with _ | ⟨_ | ptr, mb⟩
    · rw [hb] at h
      cases h
    · rw [hb] at h
      simp only [Option.some.injEq, Prod.mk.injEq] at h
      obtain ⟨rfl, rfl, rfl⟩ := h
      rcases clone_begin_spec hb with ⟨_, _, hr⟩ | ⟨_, _, hp, _⟩
      · exact ⟨fun _ => rfl, fun _ => hr⟩
      · cases hp
    · rw [hb] at h
      simp only [Option.some.injEq, Prod.mk.injEq] at h
      obtain ⟨rfl, rfl, rfl⟩ := h
      refine ⟨fun hne => absurd rfl hne, fun ht => ?_⟩
      rcases clone_begin_spec hb with ⟨hp, _⟩ | ⟨_, _, hp, _, _, _, _, ⟨ht2, _⟩ | ⟨_, hptr, _, hr⟩⟩
      · cases hp
      · rw [ht] at ht2
        cases ht2
      · exact hr
  | infinite =>
    intro m m2 t p st h
    rw [Raw.clone_element] at h
    rcases hb : Raw.clone_begin m region_element.infinite.type t with _ | ⟨_ | ptr, mb⟩
    · rw [hb] at h
      cases h
    · rw [hb] at h
      simp only [Option.some.injEq, Prod.mk.injEq] at h
      obtain ⟨rfl, rfl, rfl⟩ := h
      rcases clone_begin_spec hb with ⟨_, _, hr⟩ | ⟨_, _, hp, _⟩
      · exact ⟨fun _ => rfl, fun _ => hr⟩
      · cases hp
    · rw [hb] at h
      simp only [Option.some.injEq, Prod.mk.injEq] at h
      obtain ⟨rfl, rfl, rfl⟩ := h
      refine ⟨fun hne => absurd rfl hne, fun ht => ?_⟩
      rcases clone_begin_spec hb with ⟨hp, _⟩ | ⟨_, _, hp, _, _, _, _, ⟨ht2, _⟩ | ⟨_, hptr, _, hr⟩⟩
      · cases hp
      · rw [ht] at ht2
        cases ht2
      · exact hr
  | path ph pa =>
    intro m m2 t p st h
    rw [Raw.clone_element] at h
    rcases hb : Raw.clone_begin m (region_element.path ph pa).type t with _ | ⟨_ | ptr, mb⟩
    · rw [hb] at h
      cases h
    · rw [hb] at h
      simp only [Option.some.injEq, Prod.mk.injEq] at h
      obtain ⟨rfl, rfl, rfl⟩ := h
      rcases clone_begin_spec hb with ⟨_, _, hr⟩ | ⟨_, _, hp, _⟩
      · exact ⟨fun _ => rfl, fun _ => hr⟩
      · cases hp
    · rw [hb] at h
      simp only at h
      rcases hcp : GdipClonePath mb.allocs pa with ⟨stat, path2, rest⟩
      rw [hcp] at h
      simp only at h
      cases hu : Memory.update { mb with allocs := rest } ptr
          (fun e => { e with elementdata := .pathdata ph path2 }) with
      | none =>
        rw [hu] at h
        cases h
      | some m3 =>
        rw [hu] at h
        simp only at h
        have hreg : t = none → m3.regions = m.regions := by
          intro ht
          rcases clone_begin_spec hb with
            ⟨hp, _⟩ | ⟨_, _, hp, _, _, _, _, ⟨ht2, _⟩ | ⟨_, hptr, _, hr⟩⟩
          · cases hp
          · rw [ht] at ht2
            cases ht2
          · simp only [Option.some.injEq] at hp
            subst hp
            obtain ⟨_, _, _, _, _, _, _, hr3⟩ := update_spec hu
            rw [hr3 _ hptr]
            exact hr
        by_cases hs : stat = GpStatus.Ok
        · rw [if_neg (not_not.mpr hs)] at h
          simp only [Option.some.injEq, Prod.mk.injEq] at h
          obtain ⟨rfl, rfl, rfl⟩ := h
          exact ⟨fun hne => absurd rfl hne, hreg⟩
        · rw [if_pos hs] at h
          simp only [Option.some.injEq] at h
          obtain ⟨h1, h2, h3⟩ := clone_out_spec m3 ptr stat
          rw [h] at h1 h2 h3
          simp only at h1 h2 h3
          exact ⟨fun _ => h2, fun ht => h3.trans (hreg ht)⟩
  | combine mode l r ihl ihr =>
    intro m m2 t p st h
    rw [Raw.clone_element] at h
    rcases hb : Raw.clone_begin m (region_element.combine mode l r).type t with
      _ | ⟨_ | ptr, mb⟩
    · rw [hb] at h
      cases h
    · rw [hb] at h
      simp only [Option.some.injEq, Prod.mk.injEq] at h
      obtain ⟨rfl, rfl, rfl⟩ := h
      rcases clone_begin_spec hb with ⟨_, _, hr⟩ | ⟨_, _, hp, _⟩
      · exact ⟨fun _ => rfl, fun _ => hr⟩
      · cases hp
    · rw [hb] at h
      simp only at h
      have hptr : t = none → mb.regions = m.regions ∧
          ∀ (x y : Memory) (f : raw_element → raw_element), x.update ptr f = some y →
            y.regions = x.regions := by
        intro ht
        rcases clone_begin_spec hb with
          ⟨hp, _⟩ | ⟨_, _, hp, _, _, _, _, ⟨ht2, _⟩ | ⟨_, hptr, _, hr⟩⟩
        · cases hp
        · rw [ht] at ht2
          cases ht2
        · simp only [Option.some.injEq] at hp
          subst hp
          refine ⟨hr, fun x y f hu => ?_⟩
          obtain ⟨_, _, _, _, _, _, _, hr3⟩ := update_spec hu
          exact hr3 _ hptr
      cases hu3 : mb.update ptr (fun e => { e with elementdata := .combine none none }) with
      | none =>
        rw [hu3] at h
        cases h
      | some m3 =>
        rw [hu3] at h
        simp only at h
        rcases hcl : Raw.clone_element m3 l none with _ | ⟨stat, left2, m4⟩
        · rw [hcl] at h
          cases h
        · rw [hcl] at h
          simp only at h
          obtain ⟨_, hl4⟩ := ihl m3 m4 none left2 stat hcl
          cases hu5 : m4.update ptr (fun e => { e with elementdata := .combine left2 none }) with
          | none =>
            rw [hu5] at h
            cases h
          | some m5 =>
            rw [hu5] at h
            simp only at h
            have hreg5 : t = none → m5.regions = m.regions := by
              intro ht
              obtain ⟨hr, hup⟩ := hptr ht
              rw [hup _ _ _ hu5, hl4 rfl, hup _ _ _ hu3, hr]
            by_cases hs : stat = GpStatus.Ok
            · rw [if_neg (not_not.mpr hs)] at h
              rcases hcr : Raw.clone_element m5 r none with _ | ⟨stat2, right2, m6⟩
              · rw [hcr] at h
                cases h
              · rw [hcr] at h
                simp only at h
                obtain ⟨_, hr6⟩ := ihr m5 m6 none right2 stat2 hcr
                cases hu7 : m6.update ptr
                    (fun e => { e with elementdata := .combine left2 right2 }) with
                | none =>
                  rw [hu7] at h
                  cases h
                | some m7 =>
                  rw [hu7] at h
                  simp only at h
                  have hreg7 : t = none → m7.regions = m.regions := by
                    intro ht
                    obtain ⟨hr, hup⟩ := hptr ht
                    rw [hup _ _ _ hu7, hr6 rfl]
                    exact hreg5 ht
                  by_cases hs2 : stat2 = GpStatus.Ok
                  · rw [if_neg (not_not.mpr hs2)] at h
                    simp only [Option.some.injEq, Prod.mk.injEq] at h
                    obtain ⟨rfl, rfl, rfl⟩ := h
                    exact ⟨fun hne => absurd rfl hne, hreg7⟩
                  · rw [if_pos hs2] at h
                    simp only [Option.some.injEq] at h
                    obtain ⟨h1, h2, h3⟩ := clone_out_spec m7 ptr stat2
                    rw [h] at h1 h2 h3
                    simp only at h1 h2 h3
                    exact ⟨fun _ => h2, fun ht => h3.trans (hreg7 ht)⟩
            · rw [if_pos hs] at h
              simp only [Option.some.injEq] at h
              obtain ⟨h1, h2, h3⟩ := clone_out_spec m5 ptr stat
              rw [h] at h1 h2 h3
              simp only at h1 h2 h3
              exact ⟨fun _ => h2, fun ht => h3.trans (hreg5 ht)⟩

theorem element_node_congr {m m2 : Memory} (h : m2.regions = m.regions) (q : Nat) :
    m2.element (.node q) = m.element (.node q) ∧ m2.header q = m.header q := by
  simp only [Memory.element, Memory.header, h, and_self]

theorem update_some {m : Memory} {ptr : element_ptr} {e : raw_element}
    (h : m.element ptr = some e) (f : raw_element → raw_element) :
    ∃ m2, m.update ptr f = some m2 := by
  cases ptr with
  | node q =>
    unfold Memory.update
    simp only
    cases hq : (m.regions.get? q).join with
    | none =>
      simp only [Memory.element, hq, Option.map_none', reduceCtorEq] at h
    | some r => exact ⟨_, rfl⟩
  | element a =>
    unfold Memory.update
    simp only
    have h2 : (m.elements.get? a).join = some e := h
    rw [h2]
    exact ⟨_, rfl⟩

theorem ofDWORD_toDWORD (mode : CombineMode) : CombineMode.ofDWORD mode.toDWORD = some mode := by
  cases mode <;> decide

theorem tree_null (m : Memory) (lo fuel : Nat) : m.tree lo fuel none = none := by
  cases fuel <;> rfl

/-- A node whose type is a combine mode and whose right child is null is the
root of no well-formed tree. -/
theorem read_node_null_right (m : Memory) (lo fuel : Nat) (mode : CombineMode)
    (left : Option element_ptr) :
    m.read_node lo fuel ⟨mode.toDWORD, .combine left none⟩ = none := by
  unfold Memory.read_node
  simp only [(leaf_tag_ne_mode RegionType.RegionDataRect mode).symm,
    (leaf_tag_ne_mode RegionType.RegionDataPath mode).symm,
    (leaf_tag_ne_mode RegionType.RegionDataEmptyRect mode).symm,
    (leaf_tag_ne_mode RegionType.RegionDataInfiniteRect mode).symm, ↓reduceIte,
    ofDWORD_toDWORD, tree_null]
  cases m.tree lo fuel left <;> rfl

/-- The failure of clone_element on a root that is a combine node: the root
keeps the combine mode as its type, and its right child is null. -/
theorem raw_clone_root_failure {m m2 : Memory} {q : Nat} {mode : CombineMode}
    {l r : region_element} {st : GpStatus} {p : Option element_ptr}
    (h : Raw.clone_element m (.combine mode l r) (some (.node q)) = some (st, p, m2))
    (hne : st ≠ GpStatus.Ok) :
    (∃ left2, m2.element (.node q) = some ⟨mode.toDWORD, .combine left2 none⟩) ∧
      m2.header q = m.header q := by
  rw [Raw.clone_element] at h
  rcases hb : Raw.clone_begin m (region_element.combine mode l r).type (some (.node q)) with
    _ | ⟨_ | ptr, mb⟩
  · rw [hb] at h
    cases h
  · rcases clone_begin_spec hb with ⟨_, ht, _⟩ | ⟨_, _, hp, _⟩
    · cases ht
    · cases hp
  · rw [hb] at h
    simp only at h
    rcases clone_begin_spec hb with
      ⟨hp, _⟩ | ⟨ptr2, eb, hp, heb, htype, _, hhdb, ⟨ht2, _⟩ | ⟨ht2, _⟩⟩
    · cases hp
    · simp only [Option.some.injEq] at hp ht2
      subst hp
      subst ht2
      cases hu3 : mb.update (.node q) (fun e => { e with elementdata := .combine none none }) with
      | none =>
        rw [hu3] at h
        cases h
      | some m3 =>
        rw [hu3] at h
        simp only at h
        obtain ⟨e3, he3, he3', _, hhd3, _, _, _⟩ := update_spec hu3
        rw [heb] at he3
        simp only [Option.some.injEq] at he3
        subst he3
        rcases hcl : Raw.clone_element m3 l none with _ | ⟨stat, left2, m4⟩
        · rw [hcl] at h
          cases h
        · rw [hcl] at h
          simp only at h
          obtain ⟨hl1, hl4⟩ := raw_clone_element_any l m3 m4 none left2 stat hcl
          obtain ⟨hel4, hhd4⟩ := element_node_congr (hl4 rfl) q
          cases hu5 : m4.update (.node q)
              (fun e => { e with elementdata := .combine left2 none }) with
          | none =>
            rw [hu5] at h
            cases h
          | some m5 =>
            rw [hu5] at h
            simp only at h
            obtain ⟨e5, he5, he5', _, hhd5, _, _, _⟩ := update_spec hu5
            rw [hel4, he3'] at he5
            simp only [Option.some.injEq] at he5
            subst he5
            by_cases hs : stat = GpStatus.Ok
            · rw [if_neg (not_not.mpr hs)] at h
              rcases hcr : Raw.clone_element m5 r none with _ | ⟨stat2, right2, m6⟩
              · rw [hcr] at h
                cases h
              · rw [hcr] at h
                simp only at h
                obtain ⟨hr1, hr6⟩ := raw_clone_element_any r m5 m6 none right2 stat2 hcr
                obtain ⟨hel6, hhd6⟩ := element_node_congr (hr6 rfl) q
                cases hu7 : m6.update (.node q)
                    (fun e => { e with elementdata := .combine left2 right2 }) with
                | none =>
                  rw [hu7] at h
                  cases h
                | some m7 =>
                  rw [hu7] at h
                  simp only at h
                  obtain ⟨e7, he7, he7', _, hhd7, _, _, _⟩ := update_spec hu7
                  rw [hel6, he5'] at he7
                  simp only [Option.some.injEq] at he7
                  subst he7
                  by_cases hs2 : stat2 = GpStatus.Ok
                  · rw [if_neg (not_not.mpr hs2)] at h
                    simp only [Option.some.injEq, Prod.mk.injEq] at h
                    exact absurd h.1.symm hne
                  · rw [if_pos hs2] at h
                    simp only [Option.some.injEq] at h
                    obtain ⟨_, _, h3⟩ := clone_out_spec m7 (.node q) stat2
                    rw [h] at h3
                    simp only at h3
                    obtain ⟨hel2, hhd2⟩ := element_node_congr h3 q
                    have hr2 : right2 = none := hr1 hs2
                    subst hr2
                    refine ⟨⟨left2, ?_⟩, ?_⟩
                    · rw [hel2, he7', htype]
                      rfl
                    · rw [hhd2, hhd7, hhd6, hhd5, hhd4, hhd3, hhdb]
            · rw [if_pos hs] at h
              simp only [Option.some.injEq] at h
              obtain ⟨_, _, h3⟩ := clone_out_spec m5 (.node q) stat
              rw [h] at h3
              simp only at h3
              obtain ⟨hel2, hhd2⟩ := element_node_congr h3 q
              refine ⟨⟨left2, ?_⟩, ?_⟩
              · rw [hel2, he5', htype]
                rfl
              · rw [hhd2, hhd5, hhd4, hhd3, hhdb]
    · cases ht2

theorem tree_element (m : Memory) (lo fuel a : Nat) :
    m.tree lo (fuel + 1) (some (.element a)) =
      if a < lo then none else (m.element (.element a)).bind (m.read_node lo fuel) := by
  rw [Memory.tree]
  by_cases hlt : a < lo
  · rw [if_pos hlt, if_pos hlt]
  · rw [if_neg hlt, if_neg hlt]
    show _ = ((m.elements.get? a).join).bind _
    cases (m.elements.get? a).join with
    | none => rfl
    | some e => rfl

theorem read_node_mono {m m2 : Memory} {lo lo2 fuel fuel2 : Nat} {e : raw_element}
    {t : region_element}
    (htree : ∀ p t, m.tree lo fuel p = some t → m2.tree lo2 fuel2 p = some t)
    (h : m.read_node lo fuel e = some t) : m2.read_node lo2 fuel2 e = some t := by
  unfold Memory.read_node at h ⊢
  split_ifs at h ⊢
  · exact h
  · exact h
  · exact h
  · exact h
  · split at h
    · rename_i mode left right hm hd
      cases hl : m.tree lo fuel left with
      | none =>
        rw [hl] at h
        cases h
      | some tl =>
        cases hr : m.tree lo fuel right with
        | none =>
          rw [hl, hr] at h
          cases h
        | some tr =>
          rw [hl, hr] at h
          rw [htree _ _ hl, htree _ _ hr]
          exact h
    · cases h

/-- A tree read from memory is read again with more fuel, a lower bound on the
addresses, and in any memory that holds the same live nodes from the old bound
on. -/
theorem tree_mono {m m2 : Memory} {lo lo2 : Nat} (hlo : lo2 ≤ lo)
    (hframe : ∀ a x, lo ≤ a → m.element (.element a) = some x →
      m2.element (.element a) = some x) :
    ∀ (fuel fuel2 : Nat) (p : Option element_ptr) (t : region_element), fuel ≤ fuel2 →
      m.tree lo fuel p = some t → m2.tree lo2 fuel2 p = some t := by
  intro fuel
  induction fuel with
  | zero =>
    intro fuel2 p t _ h
    rw [Memory.tree] at h
    cases h
  | succ n ih =>
    intro fuel2 p t hle h
    cases fuel2 with
    | zero => omega
    | succ k =>
      cases p with
      | none =>
        rw [tree_null] at h
        cases h
      | some ptr =>
        cases ptr with
        | node q =>
          rw [Memory.tree] at h
          cases h
        | element a =>
          rw [tree_element] at h ⊢
          by_cases hlt : a < lo
          · rw [if_pos hlt] at h
            cases h
          · rw [if_neg hlt] at h
            have hlt2 : ¬ a < lo2 := by omega
            rw [if_neg hlt2]
            cases he : m.element (.element a) with
            | none =>
              rw [he] at h
              cases h
            | some e =>
              rw [he] at h
              rw [hframe a e (by omega) he]
              simp only [Option.some_bind] at h ⊢
              exact read_node_mono (fun p t hp => ih k p t (by omega) hp) h

theorem leaf_tags_ne :
    RegionType.RegionDataPath.toDWORD ≠ RegionType.RegionDataRect.toDWORD ∧
    RegionType.RegionDataEmptyRect.toDWORD ≠ RegionType.RegionDataRect.toDWORD ∧
    RegionType.RegionDataEmptyRect.toDWORD ≠ RegionType.RegionDataPath.toDWORD ∧
    RegionType.RegionDataInfiniteRect.toDWORD ≠ RegionType.RegionDataRect.toDWORD ∧
    RegionType.RegionDataInfiniteRect.toDWORD ≠ RegionType.RegionDataPath.toDWORD ∧
    RegionType.RegionDataInfiniteRect.toDWORD ≠ RegionType.RegionDataEmptyRect.toDWORD := by
  decide

theorem read_node_leaf (m : Memory) (lo fuel : Nat) :
    (∀ rc, m.read_node lo fuel ⟨(region_element.rect rc).type, .rect rc⟩ =
      some (.rect rc)) ∧
    (∀ ph pa, m.read_node lo fuel ⟨(region_element.path ph pa).type, .pathdata ph (some pa)⟩ =
      some (.path ph pa)) ∧
    (∀ d, m.read_node lo fuel ⟨region_element.empty.type, d⟩ = some .empty) ∧
    (∀ d, m.read_node lo fuel ⟨region_element.infinite.type, d⟩ = some .infinite) := by
  obtain ⟨h1, h2, h3, h4, h5, h6⟩ := leaf_tags_ne
  refine ⟨fun rc => ?_, fun ph pa => ?_, fun d => ?_, fun d => ?_⟩
  · unfold Memory.read_node
    simp only [region_element.type, ↓reduceIte]
  · unfold Memory.read_node
    simp only [region_element.type, h1, ↓reduceIte]
  · unfold Memory.read_node
    simp only [region_element.type, h2, h3, ↓reduceIte]
  · unfold Memory.read_node
    simp only [region_element.type, h4, h5, h6, ↓reduceIte]

theorem read_node_combine (m : Memory) (lo fuel : Nat) (mode : CombineMode)
    (left right : Option element_ptr) (l r : region_element)
    (hl : m.tree lo fuel left = some l) (hr : m.tree lo fuel right = some r) :
    m.read_node lo fuel ⟨(region_element.combine mode l r).type, .combine left right⟩ =
      some (.combine mode l r) := by
  unfold Memory.read_node
  simp only [region_element.type, (leaf_tag_ne_mode RegionType.RegionDataRect mode).symm,
    (leaf_tag_ne_mode RegionType.RegionDataPath mode).symm,
    (leaf_tag_ne_mode RegionType.RegionDataEmptyRect mode).symm,
    (leaf_tag_ne_mode RegionType.RegionDataInfiniteRect mode).symm, ↓reduceIte,
    ofDWORD_toDWORD, hl, hr]

theorem tree_of_read_node {m : Memory} {lo fuel a : Nat} {e : raw_element}
    {t : region_element} (he : m.element (.element a) = some e) (hlo : lo ≤ a)
    (h : m.read_node (lo + 1) fuel e = some t) :
    m.tree lo (fuel + 1) (some (.element a)) = some t := by
  rw [tree_element, if_neg (by omega), he]
  simp only [Option.some_bind]
  exact read_node_mono
    (fun p t hp => tree_mono (Nat.le_succ lo) (fun _ _ _ hx => hx) fuel fuel p t (le_refl _) hp) h

/-- When clone_element returns Ok, `*element2` points to the root of a
well-formed copy of the source tree, made of the node it pointed to on entry
(or of a new one when it was null) and of new nodes, and the live objects that
existed keep their content. -/
theorem raw_clone_element_ok (e : region_element) :
    ∀ (m m2 : Memory) (t p : Option element_ptr),
      Raw.clone_element m e t = some (GpStatus.Ok, p, m2) →
      ∃ ptr e0 lo, p = some ptr ∧ m2.element ptr = some e0 ∧
        ((t = some ptr ∧ lo = m.elements.length) ∨
          (t = none ∧ ptr = .element m.elements.length ∧ lo = m.elements.length + 1)) ∧
        m2.read_node lo e.height e0 = some e ∧ lo ≤ m2.elements.length ∧
        Memory.Frame m m2 ptr := by
  induction e with
  | rect rc =>
    intro m m2 t p h
    rw [Raw.clone_element] at h
    rcases hb : Raw.clone_begin m (region_element.rect rc).type t with _ | ⟨_ | ptr, mb⟩
    · rw [hb] at h
      cases h
    · rw [hb] at h
      simp only [Option.some.injEq, Prod.mk.injEq, reduceCtorEq, false_and] at h
    · rw [hb] at h
      simp only at h
      cases hu : mb.update ptr (fun e => { e with elementdata := .rect rc }) with
      | none =>
        rw [hu] at h
        cases h
      | some m3 =>
        rw [hu] at h
        simp only [Option.some.injEq, Prod.mk.injEq, true_and] at h
        obtain ⟨rfl, rfl⟩ := h
        rcases clone_begin_spec hb with
          ⟨hp, _⟩ | ⟨ptr2, eb, hp, heb, htype, hob, hhdb, hcase⟩
        · cases hp
        · simp only [Option.some.injEq] at hp
          subst hp
          obtain ⟨e3, he3, he3', ho3, hhd3, hlen3, _, _⟩ := update_spec hu
          rw [heb] at he3
          simp only [Option.some.injEq] at he3
          subst he3
          refine ⟨ptr, _, mb.elements.length, rfl, he3', ?_, ?_, by omega, ?_, ?_, ?_⟩
          · rcases hcase with ⟨h1, h2⟩ | ⟨h1, h2, h3, _⟩
            · exact Or.inl ⟨h1, h2⟩
            · exact Or.inr ⟨h1, h2, h3⟩
          · rw [htype]
            exact (read_node_leaf m3 _ _).1 rc
          · intro ptr3 x hne hx
            rw [ho3 ptr3 hne, hob ptr3 hne]
            exact hx
          · intro q
            rw [hhd3, hhdb]
          · rw [hlen3]
            rcases hcase with ⟨_, h2⟩ | ⟨_, _, h3, _⟩ <;> omega
  | empty =>
    intro m m2 t p h
    rw [Raw.clone_element] at h
    rcases hb : Raw.clone_begin m region_element.empty.type t with _ | ⟨_ | ptr, mb⟩
    · rw [hb] at h
      cases h
    · rw [hb] at h
      simp only [Option.some.injEq, Prod.mk.injEq, reduceCtorEq, false_and] at h
    · rw [hb] at h
      simp only [Option.some.injEq, Prod.mk.injEq, true_and] at h
      obtain ⟨rfl, rfl⟩ := h
      rcases clone_begin_spec hb with
        ⟨hp, _⟩ | ⟨ptr2, eb, hp, heb, htype, hob, hhdb, hcase⟩
      · cases hp
      · simp only [Option.some.injEq] at hp
        subst hp
        refine ⟨ptr, eb, mb.elements.length, rfl, heb, ?_, ?_, le_refl _, ?_, hhdb, ?_⟩
        · rcases hcase with ⟨h1, h2⟩ | ⟨h1, h2, h3, _⟩
          · exact Or.inl ⟨h1, h2⟩
          · exact Or.inr ⟨h1, h2, h3⟩
        · have := (read_node_leaf mb mb.elements.length region_element.empty.height).2.2.1
            eb.elementdata
          rw [← htype] at this
          exact this
        · intro ptr3 x hne hx
          rw [hob ptr3 hne]
          exact hx
        · rcases hcase with ⟨_, h2⟩ | ⟨_, _, h3, _⟩ <;> omega
  | infinite =>
    intro m m2 t p h
    rw [Raw.clone_element] at h
    rcases hb : Raw.clone_begin m region_element.infinite.type t with _ | ⟨_ | ptr, mb⟩
    · rw [hb] at h
      cases h
    · rw [hb] at h
      simp only [Option.some.injEq, Prod.mk.injEq, reduceCtorEq, false_and] at h
    · rw [hb] at h
      simp only [Option.some.injEq, Prod.mk.injEq, true_and] at h
      obtain ⟨rfl, rfl⟩ := h
      rcases clone_begin_spec hb with
        ⟨hp, _⟩ | ⟨ptr2, eb, hp, heb, htype, hob, hhdb, hcase⟩
      · cases hp
      · simp only [Option.some.injEq] at hp
        subst hp
        refine ⟨ptr, eb, mb.elements.length, rfl, heb, ?_, ?_, le_refl _, ?_, hhdb, ?_⟩
        · rcases hcase with ⟨h1, h2⟩ | ⟨h1, h2, h3, _⟩
          · exact Or.inl ⟨h1, h2⟩
          · exact Or.inr ⟨h1, h2, h3⟩
        · have := (read_node_leaf mb mb.elements.length region_element.infinite.height).2.2.2
            eb.elementdata
          rw [← htype] at this
          exact this
        · intro ptr3 x hne hx
          rw [hob ptr3 hne]
          exact hx
        · rcases hcase with ⟨_, h2⟩ | ⟨_, _, h3, _⟩ <;> omega
  | path ph pa =>
    intro m m2 t p h
    rw [Raw.clone_element] at h
    rcases hb : Raw.clone_begin m (region_element.path ph pa).type t with _ | ⟨_ | ptr, mb⟩
    · rw [hb] at h
      cases h
    · rw [hb] at h
      simp only [Option.some.injEq, Prod.mk.injEq, reduceCtorEq, false_and] at h
    · rw [hb] at h
      simp only at h
      rcases hcp : GdipClonePath mb.allocs pa with ⟨stat, path2, rest⟩
      rw [hcp] at h
      simp only at h
      cases hu : Memory.update { mb with allocs := rest } ptr
          (fun e => { e with elementdata := .pathdata ph path2 }) with
      | none =>
        rw [hu] at h
        cases h
      | some m3 =>
        rw [hu] at h
        simp only at h
        by_cases hs : stat = GpStatus.Ok
        · rw [if_neg (not_not.mpr hs)] at h
          simp only [Option.some.injEq, Prod.mk.injEq, true_and] at h
          obtain ⟨rfl, rfl⟩ := h
          have hpath : path2 = some pa := by
            unfold GdipClonePath at hcp
            rcases hg : GdipAlloc mb.allocs with ⟨ok, rest2⟩
            rw [hg] at hcp
            cases ok with
            | false =>
              simp only [Prod.mk.injEq] at hcp
              rw [← hcp.1] at hs
              cases hs
            | true =>
              simp only [Prod.mk.injEq] at hcp
              exact hcp.2.1.symm
          subst hpath
          rcases clone_begin_spec hb with
            ⟨hp, _⟩ | ⟨ptr2, eb, hp, heb, htype, hob, hhdb, hcase⟩
          · cases hp
          · simp only [Option.some.injEq] at hp
            subst hp
            obtain ⟨e3, he3, he3', ho3, hhd3, hlen3, _, _⟩ := update_spec hu
            have heb2 : Memory.element { mb with allocs := rest } ptr = some eb := heb
            rw [heb2] at he3
            simp only [Option.some.injEq] at he3
            subst he3
            refine ⟨ptr, _, mb.elements.length, rfl, he3', ?_, ?_, ?_, ?_, ?_, ?_⟩
            · rcases hcase with ⟨h1, h2⟩ | ⟨h1, h2, h3, _⟩
              · exact Or.inl ⟨h1, h2⟩
              · exact Or.inr ⟨h1, h2, h3⟩
            · rw [htype]
              exact (read_node_leaf m3 _ _).2.1 ph pa
            · rw [hlen3]
            · intro ptr3 x hne hx
              rw [ho3 ptr3 hne]
              show mb.element ptr3 = some x
              rw [hob ptr3 hne]
              exact hx
            · intro q
              rw [hhd3]
              exact hhdb q
            · rw [hlen3]
              show m.elements.length ≤ mb.elements.length
              rcases hcase with ⟨_, h2⟩ | ⟨_, _, h3, _⟩ <;> omega
        · rw [if_pos hs] at h
          simp only [Option.some.injEq] at h
          obtain ⟨h1, _, _⟩ := clone_out_spec m3 ptr stat
          rw [h] at h1
          exact absurd h1.symm hs
  | combine mode l r ihl ihr =>
    intro m m2 t p h
    rw [Raw.clone_element] at h
    rcases hb : Raw.clone_begin m (region_element.combine mode l r).type t with
      _ | ⟨_ | ptr, mb⟩
    · rw [hb] at h
      cases h
    · rw [hb] at h
      simp only [Option.some.injEq, Prod.mk.injEq, reduceCtorEq, false_and] at h
    · rw [hb] at h
      simp only at h
      rcases clone_begin_spec hb with
        ⟨hp, _⟩ | ⟨ptr2, eb, hp, heb, htype, hob, hhdb, hcase⟩
      · cases hp
      simp only [Option.some.injEq] at hp
      subst hp
      have hptr_lo : ∀ a, ptr = .element a → a < mb.elements.length := by
        intro a ha
        subst ha
        exact element_lt heb
      cases hu3 : mb.update ptr (fun e => { e with elementdata := .combine none none }) with
      | none =>
        rw [hu3] at h
        cases h
      | some m3 =>
        rw [hu3] at h
        simp only at h
        obtain ⟨e3, he3, he3', ho3, hhd3, hlen3, _, _⟩ := update_spec hu3
        rw [heb] at he3
        simp only [Option.some.injEq] at he3
        subst he3
        rcases hcl : Raw.clone_element m3 l none with _ | ⟨stat, left2, m4⟩
        · rw [hcl] at h
          cases h
        rw [hcl] at h
        simp only at h
        cases hu5 : m4.update ptr (fun e => { e with elementdata := .combine left2 none }) with
        | none =>
          rw [hu5] at h
          cases h
        | some m5 =>
          rw [hu5] at h
          simp only at h
          by_cases hs : stat = GpStatus.Ok
          · subst hs
            rw [if_neg (not_not.mpr rfl)] at h
            obtain ⟨ptrl, el, lol, hpl, hel, hcl2, hreadl, _, hfl1, hfl2, hfl3⟩ :=
              ihl m3 m4 none left2 hcl
            rcases hcl2 with ⟨hx, _⟩ | ⟨_, hptrl, hlol⟩
            · cases hx
            subst hpl hptrl hlol
            rw [hlen3] at hel hreadl hfl1 hu5 h
            have hlt4 : mb.elements.length < m4.elements.length := element_lt hel
            have hne_l : ptr ≠ .element mb.elements.length := by
              intro e1
              have := hptr_lo _ e1
              omega
            obtain ⟨e5, he5, he5', ho5, hhd5, hlen5, _, _⟩ := update_spec hu5
            rw [hfl1 ptr _ hne_l he3'] at he5
            simp only [Option.some.injEq] at he5
            subst he5
            rcases hcr : Raw.clone_element m5 r none with _ | ⟨stat2, right2, m6⟩
            · rw [hcr] at h
              cases h
            rw [hcr] at h
            simp only at h
            cases hu7 : m6.update ptr
                (fun e => { e with
                  elementdata := .combine (some (.element mb.elements.length)) right2 }) with
            | none =>
              rw [hu7] at h
              cases h
            | some m7 =>
              rw [hu7] at h
              simp only at h
              by_cases hs2 : stat2 = GpStatus.Ok
              · subst hs2
                rw [if_neg (not_not.mpr rfl)] at h
                simp only [Option.some.injEq, Prod.mk.injEq, true_and] at h
                obtain ⟨rfl, rfl⟩ := h
                obtain ⟨ptrr, er, lor, hpr, her, hcr2, hreadr, _, hfr1, hfr2, hfr3⟩ :=
                  ihr m5 m6 none right2 hcr
                rcases hcr2 with ⟨hx, _⟩ | ⟨_, hptrr, hlor⟩
                · cases hx
                subst hpr hptrr hlor
                have hne_r : ptr ≠ .element m5.elements.length := by
                  intro e1
                  have := hptr_lo _ e1
                  omega
                obtain ⟨e7, he7, he7', ho7, hhd7, hlen7, _, _⟩ := update_spec hu7
                rw [hfr1 ptr _ hne_r he5'] at he7
                simp only [Option.some.injEq] at he7
                subst he7
                have hne_a : ∀ a, mb.elements.length ≤ a → element_ptr.element a ≠ ptr := by
                  intro a ha e1
                  have := hptr_lo a e1.symm
                  omega
                have htl : m7.tree mb.elements.length (max l.height r.height + 1)
                    (some (.element mb.elements.length)) = some l := by
                  apply tree_mono (le_refl _) _ (l.height + 1) _ _ _ (by omega)
                    (tree_of_read_node hel (le_refl _) hreadl)
                  intro a x ha hx
                  have hlt := element_lt hx
                  rw [ho7 _ (hne_a a ha)]
                  apply hfr1 _ _ _
                  · rw [ho5 _ (hne_a a ha)]
                    exact hx
                  · intro e1
                    simp only [element_ptr.element.injEq] at e1
                    omega
                have htr : m7.tree mb.elements.length (max l.height r.height + 1)
                    (some (.element m5.elements.length)) = some r := by
                  apply tree_mono (by omega) _ (r.height + 1) _ _ _ (by omega)
                    (tree_of_read_node her (le_refl _) hreadr)
                  intro a x ha hx
                  rw [ho7 _ (hne_a a (by omega))]
                  exact hx
                refine ⟨ptr, _, mb.elements.length, rfl, he7', ?_, ?_, by omega, ?_, ?_, ?_⟩
                · rcases hcase with ⟨h1, h2⟩ | ⟨h1, h2, h3, _⟩
                  · exact Or.inl ⟨h1, h2⟩
                  · exact Or.inr ⟨h1, h2, h3⟩
                · rw [htype]
                  exact read_node_combine m7 _ _ mode _ _ l r htl htr
                · intro ptr3 x hne hx
                  rw [ho7 _ hne]
                  have hx3 : m3.element ptr3 = some x := by
                    rw [ho3 _ hne, hob _ hne]
                    exact hx
                  have hx4 : m4.element ptr3 = some x := by
                    apply hfl1 _ _ _ hx3
                    intro e1
                    subst e1
                    have := element_lt hx3
                    omega
                  apply hfr1
                  · intro e1
                    subst e1
                    have := element_lt hx4
                    omega
                  · rw [ho5 _ hne]
                    exact hx4
                · intro q
                  rw [hhd7, hfr2, hhd5, hfl2, hhd3, hhdb]
                · rcases hcase with ⟨_, h2⟩ | ⟨_, _, h3, _⟩ <;> omega
              · rw [if_pos hs2] at h
                simp only [Option.some.injEq] at h
                obtain ⟨h1, _, _⟩ := clone_out_spec m7 ptr stat2
                rw [h] at h1
                exact absurd h1.symm hs2
          · rw [if_pos hs] at h
            simp only [Option.some.injEq] at h
            obtain ⟨h1, _, _⟩ := clone_out_spec m5 ptr stat
            rw [h] at h1
            exact absurd h1.symm hs

theorem raw_clone_alloc_failure (e : region_element) (m : Memory) (rest : List Bool)
    (hg : m.allocs = false :: rest) :
    Raw.clone_element m e none = some (GpStatus.OutOfMemory, none, { m with allocs := rest }) := by
  have hb : ∀ type, Raw.clone_begin m type none = some (none, { m with allocs := rest }) := by
    intro type
    unfold Raw.clone_begin Memory.alloc_element
    simp only [hg, GdipAlloc]
  cases e <;> rw [Raw.clone_element, hb]

/-- The steps of GdipCloneRegion before clone_element. -/
theorem raw_clone_region_spec {m m2 : Memory} {r : GpRegion} {st : GpStatus}
    {out : Option Nat} (h : Raw.GdipCloneRegion m (some r) true = some (st, out, m2)) :
    (st = GpStatus.OutOfMemory ∧ out = none ∧ (GdipAlloc m.allocs).1 = false) ∨
    (∃ mh p, (GdipAlloc m.allocs).1 = true ∧
      out = some m.regions.length ∧ mh.header m.regions.length = some r.header ∧
      mh.elements = m.elements ∧ mh.allocs = (GdipAlloc m.allocs).2 ∧
      (∀ ptr x, m.element ptr = some x → mh.element ptr = some x) ∧
      (∀ q, q ≠ m.regions.length → mh.header q = m.header q) ∧
      Raw.clone_element mh r.node (some (.node m.regions.length)) = some (st, p, m2)) := by
  unfold Raw.GdipCloneRegion Memory.alloc_region at h
  rcases hg : GdipAlloc m.allocs with ⟨ok, rest⟩
  rw [hg] at h
  cases ok with
  | false =>
    simp only [Option.some.injEq, Prod.mk.injEq] at h
    exact Or.inl ⟨h.1.symm, h.2.1.symm, rfl⟩
  | true =>
    simp only [List.get?_eq_getElem?, List.getElem?_concat_length, Option.join] at h
    simp only [Option.some_bind, id_eq] at h
    split at h
    · cases h
    · rename_i stat p m3 hcl
      simp only [Option.some.injEq, Prod.mk.injEq] at h
      obtain ⟨rfl, rfl, rfl⟩ := h
      refine Or.inr ⟨_, p, rfl, rfl, ?_, ?_, ?_, ?_, ?_, hcl⟩
      · simp [Memory.header]
      · rfl
      · rfl
      · intro ptr x hx
        cases ptr with
        | element a => exact hx
        | node q =>
          have hlt : q < m.regions.length := by
            by_contra hn
            simp only [Memory.element, List.get?_eq_getElem?,
              List.getElem?_eq_none (Nat.le_of_not_lt hn)] at hx
            cases hx
          have hne : ¬ m.regions.length = q := by omega
          simp only [Memory.element, List.get?_eq_getElem?, List.getElem?_set, hne, ↓reduceIte,
            List.getElem?_append_left hlt]
          simpa [Memory.element] using hx
      · intro q hq
        have hne : ¬ m.regions.length = q := fun e => hq e.symm
        simp only [Memory.header, List.get?_eq_getElem?, List.getElem?_set, hne, ↓reduceIte]
        by_cases hlt : q < m.regions.length
        · rw [List.getElem?_append_left hlt]
        · rw [List.getElem?_eq_none (Nat.le_of_not_lt hlt), List.getElem?_eq_none]
          simp only [List.length_append, List.length_singleton]
          omega

theorem clone_out_eq {m m2 : Memory} {ptr : element_ptr} {stat st : GpStatus}
    {p : Option element_ptr} (h : Raw.clone_out m ptr stat = (st, p, m2)) :
    st = stat ∧ p = none ∧ m2.allocs = m.allocs := by
  unfold Raw.clone_out at h
  simp only [Prod.mk.injEq] at h
  obtain ⟨rfl, rfl, rfl⟩ := h
  exact ⟨rfl, rfl, delete_element_allocs _ _ _⟩

theorem clone_begin_allocs {m m2 : Memory} {type : DWORD} {t p : Option element_ptr}
    (h : Raw.clone_begin m type t = some (p, m2)) :
    (if t.isSome then (true, m.allocs) else GdipAlloc m.allocs) = (p.isSome, m2.allocs) := by
  unfold Raw.clone_begin at h
  cases t with
  | some ptr =>
    simp only at h
    cases hu : m.update ptr (fun e => { e with type := type }) with
    | none =>
      rw [hu] at h
      cases h
    | some m3 =>
      rw [hu] at h
      simp only [Option.some.injEq, Prod.mk.injEq] at h
      obtain ⟨rfl, rfl⟩ := h
      obtain ⟨_, _, _, _, _, _, ha, _⟩ := update_spec hu
      simp only [Option.isSome_some, ↓reduceIte, ha]
  | none =>
    simp only at h
    unfold Memory.alloc_element at h
    rcases hg : GdipAlloc m.allocs with ⟨ok, rest⟩
    rw [hg] at h
    cases ok with
    | false =>
      simp only [Option.some.injEq, Prod.mk.injEq] at h
      obtain ⟨rfl, rfl⟩ := h
      simp
    | true =>
      simp only at h
      cases hu : Memory.update ⟨m.regions, m.elements ++ [some ⟨0, .unset⟩], rest⟩
          (.element m.elements.length) (fun e => { e with type := type }) with
      | none =>
        rw [hu] at h
        cases h
      | some m3 =>
        rw [hu] at h
        simp only [Option.some.injEq, Prod.mk.injEq] at h
        obtain ⟨rfl, rfl⟩ := h
        obtain ⟨_, _, _, _, _, _, ha, _⟩ := update_spec hu
        simp [ha]

/-- The copy on memory and clone_element of the tree model return the same
status and use up the same allocations. -/
theorem raw_clone_element_sim (e : region_element) :
    ∀ (m m2 : Memory) (t p : Option element_ptr) (st : GpStatus),
      Raw.clone_element m e t = some (st, p, m2) →
      ∃ x, clone_element m.allocs e t.isSome = (st, x, m2.allocs) := by
  induction e with
  | rect rc =>
    intro m m2 t p st h
    rw [Raw.clone_element] at h
    unfold clone_element
    rcases hb : Raw.clone_begin m (region_element.rect rc).type t with _ | ⟨_ | ptr, mb⟩
    · rw [hb] at h
      cases h
    · rw [hb] at h
      simp only [Option.some.injEq, Prod.mk.injEq] at h
      obtain ⟨rfl, rfl, rfl⟩ := h
      rw [clone_begin_allocs hb]
      exact ⟨_, rfl⟩
    · rw [hb] at h
      simp only at h
      cases hu : mb.update ptr (fun e => { e with elementdata := .rect rc }) with
      | none =>
        rw [hu] at h
        cases h
      | some m3 =>
        rw [hu] at h
        simp only [Option.some.injEq, Prod.mk.injEq] at h
        obtain ⟨rfl, rfl, rfl⟩ := h
        obtain ⟨_, _, _, _, _, _, ha, _⟩ := update_spec hu
        rw [clone_begin_allocs hb, ha]
        exact ⟨_, rfl⟩
  | empty =>
    intro m m2 t p st h
    rw [Raw.clone_element] at h
    unfold clone_element
    rcases hb : Raw.clone_begin m region_element.empty.type t with _ | ⟨_ | ptr, mb⟩
    · rw [hb] at h
      cases h
    · rw [hb] at h
      simp only [Option.some.injEq, Prod.mk.injEq] at h
      obtain ⟨rfl, rfl, rfl⟩ := h
      rw [clone_begin_allocs hb]
      exact ⟨_, rfl⟩
    · rw [hb] at h
      simp only [Option.some.injEq, Prod.mk.injEq] at h
      obtain ⟨rfl, rfl, rfl⟩ := h
      rw [clone_begin_allocs hb]
      exact ⟨_, rfl⟩
  | infinite =>
    intro m m2 t p st h
    rw [Raw.clone_element] at h
    unfold clone_element
    rcases hb : Raw.clone_begin m region_element.infinite.type t with _ | ⟨_ | ptr, mb⟩
    · rw [hb] at h
      cases h
    · rw [hb] at h
      simp only [Option.some.injEq, Prod.mk.injEq] at h
      obtain ⟨rfl, rfl, rfl⟩ := h
      rw [clone_begin_allocs hb]
      exact ⟨_, rfl⟩
    · rw [hb] at h
      simp only [Option.some.injEq, Prod.mk.injEq] at h
      obtain ⟨rfl, rfl, rfl⟩ := h
      rw [clone_begin_allocs hb]
      exact ⟨_, rfl⟩
  | path ph pa =>
    intro m m2 t p st h
    rw [Raw.clone_element] at h
    unfold clone_element
    rcases hb : Raw.clone_begin m (region_element.path ph pa).type t with _ | ⟨_ | ptr, mb⟩
    · rw [hb] at h
      cases h
    · rw [hb] at h
      simp only [Option.some.injEq, Prod.mk.injEq] at h
      obtain ⟨rfl, rfl, rfl⟩ := h
      rw [clone_begin_allocs hb]
      exact ⟨_, rfl⟩
    · rw [hb] at h
      simp only at h
      rw [clone_begin_allocs hb]
      simp only [Option.isSome_some]
      rcases hcp : GdipClonePath mb.allocs pa with ⟨stat, path2, rest⟩
      rw [hcp] at h
      simp only at h
      cases hu : Memory.update { mb with allocs := rest } ptr
          (fun e => { e with elementdata := .pathdata ph path2 }) with
      | none =>
        rw [hu] at h
        cases h
      | some m3 =>
        rw [hu] at h
        simp only at h
        obtain ⟨_, _, _, _, _, _, ha, _⟩ := update_spec hu
        by_cases hs : stat = GpStatus.Ok
        · rw [if_neg (not_not.mpr hs)] at h
          simp only [Option.some.injEq, Prod.mk.injEq] at h
          obtain ⟨rfl, rfl, rfl⟩ := h
          rw [if_neg (not_not.mpr hs), ha, ← hs]
          exact ⟨_, rfl⟩
        · rw [if_pos hs] at h
          simp only [Option.some.injEq] at h
          obtain ⟨h1, _, h3⟩ := clone_out_eq h
          rw [if_pos hs, h1, h3, ha]
          exact ⟨_, rfl⟩
  | combine mode l r ihl ihr =>
    intro m m2 t p st h
    rw [Raw.clone_element] at h
    unfold clone_element
    rcases hb : Raw.clone_begin m (region_element.combine mode l r).type t with
      _ | ⟨_ | ptr, mb⟩
    · rw [hb] at h
      cases h
    · rw [hb] at h
      simp only [Option.some.injEq, Prod.mk.injEq] at h
      obtain ⟨rfl, rfl, rfl⟩ := h
      rw [clone_begin_allocs hb]
      exact ⟨_, rfl⟩
    · rw [hb] at h
      simp only at h
      rw [clone_begin_allocs hb]
      simp only [Option.isSome_some]
      cases hu3 : mb.update ptr (fun e => { e with elementdata := .combine none none }) with
      | none =>
        rw [hu3] at h
        cases h
      | some m3 =>
        rw [hu3] at h
        simp only at h
        obtain ⟨_, _, _, _, _, _, ha3, _⟩ := update_spec hu3
        rcases hcl : Raw.clone_element m3 l none with _ | ⟨stat, left2, m4⟩
        · rw [hcl] at h
          cases h
        rw [hcl] at h
        simp only at h
        obtain ⟨xl, hxl⟩ := ihl m3 m4 none left2 stat hcl
        rw [ha3] at hxl
        simp only [Option.isSome_none] at hxl
        rw [hxl]
        simp only
        cases hu5 : m4.update ptr (fun e => { e with elementdata := .combine left2 none }) with
        | none =>
          rw [hu5] at h
          cases h
        | some m5 =>
          rw [hu5] at h
          simp only at h
          obtain ⟨_, _, _, _, _, _, ha5, _⟩ := update_spec hu5
          by_cases hs : stat = GpStatus.Ok
          · rw [if_neg (not_not.mpr hs)] at h ⊢
            rcases hcr : Raw.clone_element m5 r none with _ | ⟨stat2, right2, m6⟩
            · rw [hcr] at h
              cases h
            rw [hcr] at h
            simp only at h
            obtain ⟨xr, hxr⟩ := ihr m5 m6 none right2 stat2 hcr
            rw [ha5] at hxr
            simp only [Option.isSome_none] at hxr
            rw [hxr]
            simp only
            cases hu7 : m6.update ptr
                (fun e => { e with elementdata := .combine left2 right2 }) with
            | none =>
              rw [hu7] at h
              cases h
            | some m7 =>
              rw [hu7] at h
              simp only at h
              obtain ⟨_, _, _, _, _, _, ha7, _⟩ := update_spec hu7
              by_cases hs2 : stat2 = GpStatus.Ok
              · rw [if_neg (not_not.mpr hs2)] at h ⊢
                simp only [Option.some.injEq, Prod.mk.injEq] at h
                obtain ⟨rfl, rfl, rfl⟩ := h
                rw [ha7]
                exact ⟨_, rfl⟩
              · rw [if_pos hs2] at h ⊢
                simp only [Option.some.injEq] at h
                obtain ⟨h1, _, h3⟩ := clone_out_eq h
                rw [h1, h3, ha7]
                exact ⟨_, rfl⟩
          · rw [if_pos hs] at h ⊢
            simp only [Option.some.injEq] at h
            obtain ⟨h1, _, h3⟩ := clone_out_eq h
            rw [h1, h3, ha5]
            exact ⟨_, rfl⟩

/-- GdipCloneRegion on memory and GdipCloneRegion of the tree model, called on
the same region with the same allocation outcomes to come, return the same
status, and the same address or null in the output handle. -/
theorem raw_clone_region_sim {m m2 : Memory} {r : GpRegion} {st : GpStatus}
    {out : Option Nat} (hraw : Raw.GdipCloneRegion m (some r) true = some (st, out, m2))
    {h : Heap} {p : Nat} (hp : h.deref p = some r) (ha : h.allocs = m.allocs) :
    ∃ h2, GdipCloneRegion h (some p) true =
      some (st, out.map (fun _ => h.regions.length), h2) := by
  unfold GdipCloneRegion Heap.alloc_region
  simp only
  rw [ha]
  rcases hg : GdipAlloc m.allocs with ⟨ok, rest⟩
  rcases raw_clone_region_spec hraw with
    ⟨hst, ho, hf⟩ | ⟨mh, p2, ht, ho, _, _, hal, _, _, hcl⟩
  · rw [hg] at hf
    simp only at hf
    subst hf hst ho
    exact ⟨_, rfl⟩
  · rw [hg] at ht hal
    simp only at ht hal
    subst ht ho
    simp only [deref_append_none, hp, Option.map_some']
    obtain ⟨x, hx⟩ := raw_clone_element_sim r.node mh m2 _ p2 st hcl
    rw [hal] at hx
    simp only [Option.isSome_some] at hx
    rw [hx]
    cases x with
    | none => exact ⟨_, rfl⟩
    | some node => exact ⟨_, rfl⟩

/-- When the allocation of the left child fails, clone_element on a live root
for a combine node returns OutOfMemory. -/
theorem raw_clone_left_failure {m : Memory} {ptr : element_ptr} {e0 : raw_element}
    (mode : CombineMode) (l r : region_element) {rest : List Bool}
    (hlive : m.element ptr = some e0) (ha : m.allocs = false :: rest) :
    ∃ m2, Raw.clone_element m (.combine mode l r) (some ptr) =
      some (GpStatus.OutOfMemory, none, m2) := by
  rw [Raw.clone_element]
  unfold Raw.clone_begin
  simp only
  obtain ⟨mb, hmb⟩ := update_some hlive
    (fun e => { e with type := (region_element.combine mode l r).type })
  rw [hmb]
  simp only
  obtain ⟨_, _, heb, _, _, _, hab, _⟩ := update_spec hmb
  obtain ⟨m3, hm3⟩ := update_some heb (fun e => { e with elementdata := .combine none none })
  rw [hm3]
  simp only
  obtain ⟨_, _, he3, _, _, _, ha3, _⟩ := update_spec hm3
  rw [raw_clone_alloc_failure l m3 rest (by rw [ha3, hab, ha])]
  simp only
  have he4 : Memory.element { m3 with allocs := rest } ptr = some _ := he3
  obtain ⟨m5, hm5⟩ := update_some he4 (fun e => { e with elementdata := .combine none none })
  rw [hm5]
  simp only [ne_eq, reduceCtorEq, not_false_eq_true, ↓reduceIte]
  exact ⟨_, rfl⟩

theorem element_node_fresh (m : Memory) : m.element (.node m.regions.length) = none := by
  simp [Memory.element]

/-- C26, where the code departs from it: GdipCloneRegion writes the address of
the new region object to the output handle before clone_element runs, and when
clone_element then fails on a root that is a combine node, the object behind
the handle has a root whose type is the combine mode and whose right child is
null: its header is the one of the source, and its tree is not well formed. This
happens when the allocation of the region object succeeds and that of the left
child fails. When GdipCloneRegion returns Ok the object behind the handle has
the header of the source and is the root of a well-formed tree, equal to the
tree of the source, and the nodes and headers that existed are as they were. In
each case the status and the handle are those that GdipCloneRegion of the tree
model gives for a region object with the same content and the same allocation
outcomes to come. -/
theorem C26_failed_clone_ill_formed (m : Memory) (r : GpRegion) :
    (∀ mode left right st q m2, r.node = region_element.combine mode left right →
      Raw.GdipCloneRegion m (some r) true = some (st, some q, m2) → st ≠ GpStatus.Ok →
      (∃ left2, m2.element (.node q) = some ⟨mode.toDWORD, .combine left2 none⟩) ∧
        is_combine_type mode.toDWORD = true ∧
        m2.header q = some r.header ∧ ∀ fuel, m2.region_tree fuel q = none) ∧
    (∀ mode left right rest, r.node = region_element.combine mode left right →
      m.allocs = true :: false :: rest →
      ∃ m2, Raw.GdipCloneRegion m (some r) true =
        some (GpStatus.OutOfMemory, some m.regions.length, m2)) ∧
    (∀ out m2, Raw.GdipCloneRegion m (some r) true = some (GpStatus.Ok, out, m2) →
      ∃ q, out = some q ∧ m2.header q = some r.header ∧
        m2.region_tree r.node.height q = some r.node ∧
        (∀ ptr x, m.element ptr = some x → m2.element ptr = some x) ∧
        (∀ q2, q2 ≠ q → m2.header q2 = m.header q2)) ∧
    (∀ (h : Heap) (p : Nat) st out m2, h.deref p = some r → h.allocs = m.allocs →
      Raw.GdipCloneRegion m (some r) true = some (st, out, m2) →
      ∃ h2, GdipCloneRegion h (some p) true =
        some (st, out.map (fun _ => h.regions.length), h2)) := by
  refine ⟨?_, ?_, ?_, fun h p st out m2 hp ha hraw => raw_clone_region_sim hraw hp ha⟩
  · intro mode left right st q m2 hnode h hne
    rcases raw_clone_region_spec h with ⟨_, ho, _⟩ | ⟨mh, p, _, ho, hhd, _, _, _, _, hcl⟩
    · cases ho
    · simp only [Option.some.injEq] at ho
      subst ho
      rw [hnode] at hcl
      obtain ⟨⟨left2, hroot⟩, hhd2⟩ := raw_clone_root_failure hcl hne
      refine ⟨⟨left2, hroot⟩, (mode_is_combine_type mode).1, by rw [hhd2, hhd], fun fuel => ?_⟩
      unfold Memory.region_tree
      rw [hroot]
      exact read_node_null_right m2 0 fuel mode left2
  · intro mode left right rest hnode ha
    unfold Raw.GdipCloneRegion Memory.alloc_region
    simp only [ha, GdipAlloc, List.get?_eq_getElem?, List.getElem?_concat_length, Option.join,
      Option.some_bind, id_eq, hnode]
    obtain ⟨m2, hm2⟩ := @raw_clone_left_failure
      (Memory.mk
        ((m.regions ++ [some (raw_region.mk ⟨0, 0, 0, 0⟩ ⟨0, .unset⟩)]).set m.regions.length
          (some (raw_region.mk r.header ⟨0, .unset⟩))) m.elements (false :: rest))
      (.node m.regions.length) ⟨0, .unset⟩ mode left right rest
      (by simp [Memory.element]) rfl
    rw [hm2]
    exact ⟨_, rfl⟩
  · intro out m2 h
    rcases raw_clone_region_spec h with ⟨hst, _⟩ | ⟨mh, p, _, ho, hhd, hel, _, hold, holdh, hcl⟩
    · cases hst
    · obtain ⟨ptr, e0, lo, _, he0, hcase, hread, _, hf1, hf2, _⟩ :=
        raw_clone_element_ok r.node mh m2 _ p hcl
      rcases hcase with ⟨hptr, _⟩ | ⟨hx, _⟩
      · simp only [Option.some.injEq] at hptr
        subst hptr
        refine ⟨_, ho, by rw [hf2, hhd], ?_, ?_, ?_⟩
        · unfold Memory.region_tree
          rw [he0]
          simp only [Option.some_bind]
          exact read_node_mono
            (fun p t hp => tree_mono (Nat.zero_le lo) (fun _ _ _ hx => hx) _ _ p t (le_refl _) hp)
            hread
        · intro ptr x hx
          apply hf1 _ _ _ (hold ptr x hx)
          intro e1
          rw [e1, element_node_fresh] at hx
          cases hx
        · intro q2 hq2
          rw [hf2, holdh q2 hq2]
      · cases hx

theorem C26_failed_clone_ill_formed_witness :
    (∃ m2, Raw.GdipCloneRegion example_memory_low (some example_region_union) true =
      some (GpStatus.OutOfMemory, some 0, m2)) ∧
    Raw.GdipCloneRegion example_memory_low (some example_region_union) true =
      some (GpStatus.OutOfMemory, some 0,
        ⟨[some ⟨example_region_union.header, ⟨2, .combine none none⟩⟩], [], []⟩) ∧
    Memory.region_tree ⟨[some ⟨example_region_union.header, ⟨2, .combine none none⟩⟩], [], []⟩
      3 0 = none ∧
    (Raw.GdipCloneRegion example_memory (some example_region_union) true).map
        (fun x => (x.1, x.2.1, x.2.2.region_tree 2 0)) =
      some (GpStatus.Ok, some 0, some example_region_union.node) ∧
    (∃ h2, GdipCloneRegion example_heap4_low (some 0) true =
      some (GpStatus.OutOfMemory, some 3, h2)) :=
  ⟨(C26_failed_clone_ill_formed example_memory_low example_region_union).2.1
      CombineMode.CombineModeUnion
      (region_element.rect ⟨example_rect.X, example_rect.Y, example_rect.Width,
        example_rect.Height⟩)
      region_element.infinite [] rfl rfl,
    by decide, by decide, by decide,
    (C26_failed_clone_ill_formed example_memory_low example_region_union).2.2.2
      example_heap4_low 0 GpStatus.OutOfMemory (some 0)
      ⟨[some ⟨example_region_union.header, ⟨2, .combine none none⟩⟩], [], []⟩
      (by rfl) (by rfl) (by decide)⟩

end Gdiplus

namespace WaylandKeyboard

/-! ## Keyboard layouts and key repeat (C34, C35) -/

theorem MAKEINDEX_eq (c0 c1 : Char) :
    MAKEINDEX c0 c1 = ((c0.toNat % 256 + c1.toNat % 256 * 256 : Nat) : Int) - 24929 := rfl

theorem langids_length (env : winnt) : (langids env).length = 6421 := by
  unfold langids designated_array
  rw [List.length_map, List.length_range]
  simp [langids_init, MAKEINDEX_eq]

theorem langids_init_le (env : winnt) : ∀ e ∈ langids_init env, e.1 ≤ 6420 := by
  simp [langids_init, MAKEINDEX_eq]

theorem langid_none_iff (env : winnt) (c0 c1 : Char) :
    langid_from_xkb_layout env [c0, c1] = none ↔
      (MAKEINDEX c0 c1 < 0 ∨ 6421 ≤ MAKEINDEX c0 c1) := by
  unfold langid_from_xkb_layout
  simp only
  unfold array_read
  by_cases h0 : 0 ≤ MAKEINDEX c0 c1
  · rw [if_pos h0]
    cases hg : (langids env).get? (MAKEINDEX c0 c1).toNat with
    | none =>
      rw [List.get?_eq_none, langids_length] at hg
      simp only [true_iff]
      omega
    | some v =>
      have hlt : (MAKEINDEX c0 c1).toNat < (langids env).length := by
        by_contra hn
        rw [List.get?_eq_none.mpr (by omega)] at hg
        exact Option.noConfusion hg
      rw [langids_length] at hlt
      simp only
      constructor
      · intro h
        split at h <;> exact Option.noConfusion h
      · intro h
        omega
  · rw [if_neg h0]
    simp only [true_iff]
    omega

theorem langid_undesignated (env : winnt) (c0 c1 : Char) (h0 : 0 ≤ MAKEINDEX c0 c1)
    (h1 : MAKEINDEX c0 c1 < 6421) (hn : ∀ e ∈ langids_init env, e.1 ≠ MAKEINDEX c0 c1) :
    langid_from_xkb_layout env [c0, c1] =
      some (MAKELANGID env.LANG_NEUTRAL env.SUBLANG_CUSTOM_UNSPECIFIED) := by
  have hlt : (MAKEINDEX c0 c1).toNat < (langids env).length := by
    rw [langids_length]
    omega
  have hget : (langids env).get? (MAKEINDEX c0 c1).toNat = some 0 := by
    have hlt2 := hlt
    unfold langids designated_array at hlt2 ⊢
    rw [List.length_map, List.length_range] at hlt2
    rw [List.get?_eq_getElem?, List.getElem?_map, List.getElem?_range hlt2]
    have hfind : (langids_init env).reverse.find?
        (fun e => decide (e.1 = (((MAKEINDEX c0 c1).toNat : Nat) : Int))) = none := by
      rw [List.find?_eq_none]
      intro e he
      rw [List.mem_reverse] at he
      have := hn e he
      simp only [decide_eq_true_eq]
      omega
    simp only [Option.map_some', hfind]
  unfold langid_from_xkb_layout
  simp only
  unfold array_read
  rw [if_pos h0, hget]
  simp

theorem speed_eq (rate delay : Int) :
    (keyboard_handle_repeat_info rate delay).SPI_SETKEYBOARDSPEED =
      if rate ≥ 80 then 31 else if rate ≥ 5 then rate * 400 / 1000 - 1 else 0 := by
  unfold keyboard_handle_repeat_info
  simp only
  by_cases h80 : rate ≥ 80
  · rw [if_pos h80, if_pos h80]
  · rw [if_neg h80, if_neg h80]
    by_cases h5 : rate ≥ 5
    · rw [if_pos h5, if_pos h5, Int.tdiv_eq_ediv (by omega) (by omega)]
    · rw [if_neg h5, if_neg h5]

/-- C34, where the code departs from it: the array langids has 6421 elements,
its largest designated index being 6420, that of "uz", and for the name "zz"
the index is 6425, so the read lies outside the array and the call has no
defined result. For two lowercase letters the index is
(c0 - 'a') + 256 x (c1 - 'a'), and the read is outside the array exactly for
the names "vz", "wz", "xz", "yz" and "zz". A two-letter name read inside the
array at an index without initialiser (such as "xx"), and a name of another
length that is none of ara, epo, mao, brai and latam, yields
MAKELANGID(LANG_NEUTRAL, SUBLANG_CUSTOM_UNSPECIFIED). -/
theorem C34_langids_index_out_of_bounds (env : winnt) :
    (langids env).length = 6421 ∧
    MAKEINDEX 'u' 'z' = 6420 ∧
    (∀ e ∈ langids_init env, e.1 ≤ MAKEINDEX 'u' 'z') ∧
    MAKEINDEX 'z' 'z' = 6425 ∧
    langid_from_xkb_layout env ['z', 'z'] = none ∧
    (∀ c0 c1 : Char, 'a'.toNat ≤ c0.toNat → c0.toNat ≤ 'z'.toNat →
      'a'.toNat ≤ c1.toNat → c1.toNat ≤ 'z'.toNat →
      MAKEINDEX c0 c1 =
        ((c0.toNat : Int) - 'a'.toNat) + 256 * ((c1.toNat : Int) - 'a'.toNat) ∧
      (langid_from_xkb_layout env [c0, c1] = none ↔
        c1.toNat = 'z'.toNat ∧ 'v'.toNat ≤ c0.toNat) ∧
      ((∀ e ∈ langids_init env, e.1 ≠ MAKEINDEX c0 c1) →
        ¬ (c1.toNat = 'z'.toNat ∧ 'v'.toNat ≤ c0.toNat) →
        langid_from_xkb_layout env [c0, c1] =
          some (MAKELANGID env.LANG_NEUTRAL env.SUBLANG_CUSTOM_UNSPECIFIED))) ∧
    langid_from_xkb_layout env ['x', 'x'] =
      some (MAKELANGID env.LANG_NEUTRAL env.SUBLANG_CUSTOM_UNSPECIFIED) ∧
    (∀ layout : List Char, layout.length ≠ 2 →
      layout ∉ [['a', 'r', 'a'], ['e', 'p', 'o'], ['m', 'a', 'o'], ['b', 'r', 'a', 'i'],
        ['l', 'a', 't', 'a', 'm']] →
      langid_from_xkb_layout env layout =
        some (MAKELANGID env.LANG_NEUTRAL env.SUBLANG_CUSTOM_UNSPECIFIED)) := by
  have ha : 'a'.toNat = 97 := rfl
  have hv : 'v'.toNat = 118 := rfl
  have hz : 'z'.toNat = 122 := rfl
  have huz : MAKEINDEX 'u' 'z' = 6420 := by decide
  have hzz : MAKEINDEX 'z' 'z' = 6425 := by decide
  refine ⟨langids_length env, huz, ?_, hzz, ?_, ?_, ?_, ?_⟩
  · rw [huz]
    exact langids_init_le env
  · rw [langid_none_iff, hzz]
    omega
  · intro c0 c1 h1 h2 h3 h4
    rw [ha] at h1 h3
    rw [hz] at h2 h4
    have hidx : MAKEINDEX c0 c1 = ((c0.toNat : Int) - 97) + 256 * ((c1.toNat : Int) - 97) := by
      rw [MAKEINDEX_eq]
      omega
    rw [ha, hv, hz]
    refine ⟨hidx, ?_, ?_⟩
    · rw [langid_none_iff, hidx]
      omega
    · intro hn hb
      apply langid_undesignated env c0 c1 _ _ hn
      · rw [hidx]
        omega
      · rw [hidx]
        omega
  · apply langid_undesignated env 'x' 'x' (by decide) (by decide)
    simp [langids_init, MAKEINDEX_eq]
  · intro layout hlen hsp
    simp only [List.mem_cons, List.mem_singleton, List.not_mem_nil, or_false, not_or] at hsp
    unfold langid_from_xkb_layout
    simp only [if_neg hsp.1, if_neg hsp.2.1, if_neg hsp.2.2.1, if_neg hsp.2.2.2.1,
      if_neg hsp.2.2.2.2]
    split
    · exact absurd rfl hlen
    · rfl

/-- C35: the speed keyboard_handle_repeat_info sets is 31 for a rate of at
least 80, rate * 400 / 1000 - 1 for a rate from 5 to 79 and 0 for a smaller
rate, negative ones included; it lies between 0 and 31 and does not decrease
when the rate grows; auto-repeat is enabled exactly when the rate is
positive. -/
theorem C35_repeat_speed (rate delay : Int) :
    0 ≤ (keyboard_handle_repeat_info rate delay).SPI_SETKEYBOARDSPEED ∧
    (keyboard_handle_repeat_info rate delay).SPI_SETKEYBOARDSPEED ≤ 31 ∧
    (80 ≤ rate → (keyboard_handle_repeat_info rate delay).SPI_SETKEYBOARDSPEED = 31) ∧
    (5 ≤ rate → rate < 80 →
      (keyboard_handle_repeat_info rate delay).SPI_SETKEYBOARDSPEED =
        rate * 400 / 1000 - 1) ∧
    (rate < 5 → (keyboard_handle_repeat_info rate delay).SPI_SETKEYBOARDSPEED = 0) ∧
    (∀ rate2 delay2 : Int, rate ≤ rate2 →
      (keyboard_handle_repeat_info rate delay).SPI_SETKEYBOARDSPEED ≤
        (keyboard_handle_repeat_info rate2 delay2).SPI_SETKEYBOARDSPEED) ∧
    ((keyboard_handle_repeat_info rate delay).SetKeyboardAutoRepeat = true ↔ 0 < rate) := by
  refine ⟨?_, ?_, ?_, ?_, ?_, ?_, ?_⟩
  · rw [speed_eq]
    split_ifs <;> omega
  · rw [speed_eq]
    split_ifs <;> omega
  · intro h
    rw [speed_eq, if_pos h]
  · intro h1 h2
    rw [speed_eq, if_neg (by omega), if_pos h1]
  · intro h
    rw [speed_eq, if_neg (by omega), if_neg (by omega)]
  · intro rate2 delay2 hle
    rw [speed_eq, speed_eq]
    split_ifs <;> omega
  · unfold keyboard_handle_repeat_info
    simp

theorem C35_repeat_speed_witness :
    (keyboard_handle_repeat_info 25 600).SPI_SETKEYBOARDSPEED = 25 * 400 / 1000 - 1 ∧
    (keyboard_handle_repeat_info 25 600).SPI_SETKEYBOARDSPEED = 9 ∧
    (keyboard_handle_repeat_info 25 600).SPI_SETKEYBOARDSPEED ≤
      (keyboard_handle_repeat_info 33 0).SPI_SETKEYBOARDSPEED ∧
    keyboard_handle_repeat_info 25 600 = ⟨9, 1, true⟩ ∧
    keyboard_handle_repeat_info (-3) (-100) = ⟨0, 0, false⟩ :=
  ⟨(C35_repeat_speed 25 600).2.2.2.1 (by decide) (by decide), by decide,
    (C35_repeat_speed 25 600).2.2.2.2.2.1 33 0 (by decide), by decide, by decide⟩

end WaylandKeyboard
